import Mathlib

/-!
# libFreeDomeSound: the vinyl video playback engine

A shallow embedding of `src/src/video_player.cpp` / `video_player.hpp`
(class `AnantaSound::VinylVideoPlayer`, namespace `VinylUtils`) and of the WAV
and DAGA files of `format_handler.cpp`.

Conventions of the embedding

* A `float` or `double` value is the rational number it denotes (`ℚ`).  Every
  arithmetic operation of the source on such values is followed by the rounding
  of the type C++ gives the expression: `toFloat` (IEEE 754 binary32) or
  `toDouble` (binary64), to nearest, ties to even, with gradual underflow.  A
  conversion to the wider type is exact; no operation is fused with another or
  carried out in a wider format.  A decimal literal inside an expression is
  the rounding of its decimal value (`0.1f` is `toFloat (1 / 10)`).  The
  constants of the parameter record (its defaults, the recommended settings,
  the bounds of the setters) are kept at their decimal values.
* An infinity or a NaN occurs only as the argument of a setter (`CDouble`): a
  setter that stores one yields the fault `notFinite`, and the fields of an
  engine state always hold numbers.  A result too large for its type is not
  turned into an infinity, and a quotient by zero is the one of `ℚ`.
* `uint8_t` samples are natural numbers; a frame handed to the code holds
  samples `≤ 255`.  A conversion of a float to `uint8_t` truncates toward zero
  and is a fault when the truncated value is not representable.
* `std::sin`, `std::cos` and `M_PI` come from the C library and are taken as a
  parameter (`Libm`); the generator behind `std::normal_distribution` is a
  sequence of draws.
* An element access `data[i]` with `i ≥ data.size()` is a fault.
* The engine is a record of the fields of the class; a public method is a
  function on it that also returns the method's result, and `none` stands for
  a call that never returns.  The worker thread is the step function
  `workerStep`: the set-up of `playbackLoop`, then one pass of its `while` loop
  per step.  Calls of the caller's thread and steps of the worker interleave;
  a call may also fall inside a pass, between the test of the loop condition
  (`workerTest`) and the body, which then runs as the next step of the worker.
  The body of a pass is not divided further.  During `join()` only the worker
  runs.
* Callbacks are not modelled as code: the engine records what it hands to them
  (`events`, `video_frames`, `audio_chunks`).  The wall clock counts whole
  milliseconds; decoding takes no time and a sleep lasts exactly as asked.
-/

namespace AnantaSound

/-! ## Faults -/

/-- Ways in which a run leaves defined behaviour or the values of this
embedding. -/
inductive Fault where
  /-- An index at or past the end of the sample buffer was read or written. -/
  | outOfBounds
  /-- A float whose truncation is outside `0..255` was converted to `uint8_t`. -/
  | narrowing
  /-- A NaN or an infinity was stored into a `double` field of the engine: the
  field no longer holds a number. -/
  | notFinite
  deriving DecidableEq, Repr

/-! ## Numeric helpers -/

/-- The function `std::clamp(v, lo, hi)`: `(v < lo) ? lo : (hi < v) ? hi : v`. -/
def clamp (v lo hi : ℚ) : ℚ :=
  if v < lo then lo else if hi < v then hi else v

/-- Conversion of a float to `uint8_t` (explicit `static_cast` or implicit on
assignment).  The value is truncated toward zero; the conversion is defined
exactly when the truncated value is representable, that is when
`-1 < x < 256`, and the truncated value is then the natural floor of `x`. -/
def toUInt8 (x : ℚ) : Except Fault Nat :=
  if -1 < x ∧ x < 256 then .ok (Nat.floor x) else .error Fault.narrowing

/-! ## Floating point

The `float` and `double` arithmetic of the source is IEEE 754 binary32 and
binary64 arithmetic in the default rounding mode: the result of an operation
is the exact result rounded to the nearest value of the type the operation is
carried out in, a tie going to the value with the even significand.  A finite
value of either type is a rational number. -/

/-- Rounding of a rational to the nearest integer, a tie going to the even
integer. -/
def roundHalfEven (y : ℚ) : Int :=
  if y - (Int.floor y : ℚ) < 1 / 2 then Int.floor y
  else if 1 / 2 < y - (Int.floor y : ℚ) then Int.floor y + 1
  else if Int.floor y % 2 = 0 then Int.floor y
  else Int.floor y + 1

/-- The exponent of the unit in the last place of `x` in the binary format with
`prec` significant bits whose least normal exponent is `emin`: with
`2 ^ e ≤ |x| < 2 ^ (e + 1)` it is `e - (prec - 1)`, and that of the subnormal
numbers, `emin - (prec - 1)`, when `|x| < 2 ^ emin`. -/
def ulpExponent (prec : Nat) (emin : Int) (x : ℚ) : Int :=
  max (Int.log 2 |x|) emin - ((prec : Int) - 1)

/-- Rounding of `x` to the nearest value of the binary format with `prec`
significant bits and least normal exponent `emin`, ties to even: the nearest
multiple of the unit in the last place of `x`.  The format is taken without an
upper bound: a result beyond the largest finite value stands for itself. -/
def roundFloat (prec : Nat) (emin : Int) (x : ℚ) : ℚ :=
  (roundHalfEven (x / (2 : ℚ) ^ ulpExponent prec emin x) : ℚ) *
    (2 : ℚ) ^ ulpExponent prec emin x

/-- The `float` (binary32: 24 significant bits, least normal exponent -126)
nearest to `x`: the value of a float literal, of a conversion to `float`, and
of the exact result of an operation carried out in `float`. -/
def toFloat (x : ℚ) : ℚ := roundFloat 24 (-126) x

/-- The `double` (binary64: 53 significant bits, least normal exponent -1022)
nearest to `x`. -/
def toDouble (x : ℚ) : ℚ := roundFloat 53 (-1022) x

/-- The rational `r` is a value of the binary format with `prec` significant
bits and least normal exponent `emin`: an integer of fewer than `prec + 1` bits
times a power of two that is at least the least unit in the last place. -/
def Representable (prec : Nat) (emin : Int) (r : ℚ) : Prop :=
  ∃ m k : Int, |m| < 2 ^ prec ∧ emin - ((prec : Int) - 1) ≤ k ∧ r = (m : ℚ) * (2 : ℚ) ^ k

/-- A value of the type `double` as a caller passes it to a method: a finite
number, an infinity or a NaN. -/
inductive CDouble where
  | finite (value : ℚ)
  | posInf
  | negInf
  | nan
  deriving DecidableEq

/-- The function `std::clamp(v, lo, hi)` on a `double` argument, with finite
bounds: `(v < lo) ? lo : (hi < v) ? hi : v`.  Every comparison with a NaN is
false, so a NaN is returned as it came. -/
def clampDouble (v : CDouble) (lo hi : ℚ) : CDouble :=
  match v with
  | CDouble.finite q => CDouble.finite (clamp q lo hi)
  | CDouble.posInf => CDouble.finite hi
  | CDouble.negInf => CDouble.finite lo
  | CDouble.nan => CDouble.nan

/-- The assignment of a `double` to a numeric field of the engine.  The fields
of the engine record hold numbers; the assignment of an infinity or of a NaN is
the fault `notFinite`. -/
def storeDouble (v : CDouble) : Except Fault ℚ :=
  match v with
  | CDouble.finite q => .ok q
  | _ => .error Fault.notFinite

/-! ## Data model -/

/-- The record `VideoFrame` of `video_player.hpp`. -/
structure VideoFrame where
  data : List Nat
  width : Int
  height : Int
  timestamp : ℚ
  frame_number : Int
  deriving DecidableEq

/-- The record `VinylVideoPlayer::VinylParameters` of `video_player.hpp`. -/
structure VinylParameters where
  needle_pressure : ℚ
  turntable_speed : ℚ
  wow_flutter : ℚ
  surface_noise : ℚ
  groove_depth : ℚ
  mono_mode : Bool
  eq_curve : ℚ
  deriving DecidableEq

/-- The default constructor `VinylParameters()`. -/
def VinylParameters.default : VinylParameters :=
  { needle_pressure := 2
    turntable_speed := 3333 / 100
    wow_flutter := 1 / 10
    surface_noise := 5 / 100
    groove_depth := 1 / 10
    mono_mode := false
    eq_curve := 1 }

/-- The parts of the C library the flutter stage calls. -/
structure Libm where
  sin : ℚ → ℚ
  cos : ℚ → ℚ
  M_PI : ℚ

/-! ## The effect chain (`applyVinylEffects` and its five stages) -/

/-- The value `std::clamp(frame.data[i] + noise * 255.0f, 0.0f, 255.0f)` of
`applySurfaceNoise`, before it is stored into the `uint8_t` buffer: the product
and the sum are `float` operations (`noise` is a `float`, the sample is
converted to `float`). -/
def noiseValue (sample : Nat) (noise : ℚ) : ℚ :=
  clamp (toFloat ((sample : ℚ) + toFloat (noise * 255))) 0 255

/-- The loop of `applySurfaceNoise`: `i` runs over `0, 3, 6, ...`; one draw
`noise_dist(gen)` is taken per iteration (`k` counts the iterations) and the
samples `i`, `i + 1`, `i + 2` are rewritten. -/
def surfaceNoiseLoop (draws : Nat → ℚ) : Nat → List Nat → Except Fault (List Nat)
  | _, [] => .ok []
  | k, r :: g :: b :: rest => do
    let noise := draws k
    let r1 ← toUInt8 (noiseValue r noise)
    let g1 ← toUInt8 (noiseValue g noise)
    let b1 ← toUInt8 (noiseValue b noise)
    let tail ← surfaceNoiseLoop draws (k + 1) rest
    pure (r1 :: g1 :: b1 :: tail)
  | _, _ => .error Fault.outOfBounds

/-- The stage `applySurfaceNoise`: returns at once when the level is `≤ 0`. -/
def applySurfaceNoise (params : VinylParameters) (draws : Nat → ℚ)
    (data : List Nat) : Except Fault (List Nat) :=
  if params.surface_noise ≤ 0 then .ok data
  else surfaceNoiseLoop draws 0 data

/-- The local `flutter_freq` of `applyWowFlutter`: `0.1 + wow_flutter * 10.0`,
in `double`. -/
def flutterFreq (params : VinylParameters) : ℚ :=
  toDouble (toDouble (1 / 10) + toDouble (params.wow_flutter * 10))

/-- The local `flutter_amplitude` of `applyWowFlutter`: `wow_flutter * 5.0`, in
`double`. -/
def flutterAmplitude (params : VinylParameters) : ℚ :=
  toDouble (params.wow_flutter * 5)

/-- The local `phase` of `applyWowFlutter`:
`current_position_ * flutter_freq * 2.0 * M_PI`, three `double` products from
left to right. -/
def flutterPhase (libm : Libm) (params : VinylParameters) (position : ℚ) : ℚ :=
  toDouble (toDouble (toDouble (position * flutterFreq params) * 2) * libm.M_PI)

/-- The local `distortion` of `applyWowFlutter` at buffer index `i`:
`static_cast<float>(std::sin(phase + i * 0.01) * flutter_amplitude * 0.1)`.
The index is converted to `double`, the argument of `sin` and the two products
are `double` operations, and the result is converted to `float`. -/
def flutterDistortion (libm : Libm) (params : VinylParameters) (position : ℚ)
    (i : Nat) : ℚ :=
  toFloat (toDouble (toDouble (
    libm.sin (toDouble (flutterPhase libm params position +
      toDouble (toDouble (i : ℚ) * toDouble (1 / 100)))) *
    flutterAmplitude params) * toDouble (1 / 10)))

/-- The value `std::clamp(frame.data[i] + distortion, 0.0f, 255.0f)` of
`applyWowFlutter`, before it is stored into the `uint8_t` buffer: a `float`
sum. -/
def flutterValue (sample : Nat) (distortion : ℚ) : ℚ :=
  clamp (toFloat ((sample : ℚ) + distortion)) 0 255

/-- The loop of `applyWowFlutter`, `i` running over `0, 3, 6, ...`. -/
def wowFlutterLoop (distortion : Nat → ℚ) : Nat → List Nat → Except Fault (List Nat)
  | _, [] => .ok []
  | i, r :: g :: b :: rest => do
    let d := distortion i
    let r1 ← toUInt8 (flutterValue r d)
    let g1 ← toUInt8 (flutterValue g d)
    let b1 ← toUInt8 (flutterValue b d)
    let tail ← wowFlutterLoop distortion (i + 3) rest
    pure (r1 :: g1 :: b1 :: tail)
  | _, _ => .error Fault.outOfBounds

/-- The stage `applyWowFlutter`: returns at once when the parameter is `≤ 0`. -/
def applyWowFlutter (libm : Libm) (params : VinylParameters) (position : ℚ)
    (data : List Nat) : Except Fault (List Nat) :=
  if params.wow_flutter ≤ 0 then .ok data
  else wowFlutterLoop (flutterDistortion libm params position) 0 data

/-- The local `pressure_factor` of `applyNeedlePressure`:
`clamp(1.0f - (needle_pressure - 1.0f) * 0.1f, 0.5f, 1.0f)`.  The parameter is
a `double`, so the difference, the product with the float literal `0.1f` and
the difference from `1.0f` are `double` operations; their result is converted
to `float` when it initialises `pressure_factor`. -/
def pressureFactor (params : VinylParameters) : ℚ :=
  clamp (toFloat (toDouble (1 - toDouble (toDouble (params.needle_pressure - 1) *
    toFloat (1 / 10))))) (1 / 2) 1

/-- The value `frame.data[i] * pressure_factor` of `applyNeedlePressure`,
before the `static_cast<uint8_t>`: a `float` product. -/
def pressureValue (sample : Nat) (factor : ℚ) : ℚ :=
  toFloat ((sample : ℚ) * factor)

/-- The loop of `applyNeedlePressure`, over every index `i`. -/
def needlePressureLoop (factor : ℚ) : List Nat → Except Fault (List Nat)
  | [] => .ok []
  | s :: rest => do
    let s1 ← toUInt8 (pressureValue s factor)
    let tail ← needlePressureLoop factor rest
    pure (s1 :: tail)

/-- The stage `applyNeedlePressure`. -/
def applyNeedlePressure (params : VinylParameters) (data : List Nat) :
    Except Fault (List Nat) :=
  needlePressureLoop (pressureFactor params) data

/-- The local `depth_factor` of `applyGrooveDepth`: `0.8f + groove_depth * 0.4f`.
The parameter is a `double`, so the product with the float literal `0.4f` and
the sum with the float literal `0.8f` are `double` operations; their result is
converted to `float` when it initialises `depth_factor`. -/
def depthFactor (params : VinylParameters) : ℚ :=
  toFloat (toDouble (toFloat (8 / 10) + toDouble (params.groove_depth * toFloat (4 / 10))))

/-- The local `r` (`g`, `b`) of `applyGrooveDepth`:
`(frame.data[i] / 255.0f - 0.5f) * depth_factor + 0.5f`, four `float`
operations. -/
def depthScaled (sample : Nat) (factor : ℚ) : ℚ :=
  toFloat (toFloat (toFloat (toFloat ((sample : ℚ) / 255) - 1 / 2) * factor) + 1 / 2)

/-- The value `std::clamp(r * 255.0f, 0.0f, 255.0f)` of `applyGrooveDepth` with
`r = (frame.data[i] / 255.0f - 0.5f) * depth_factor + 0.5f`, before the
`static_cast<uint8_t>`. -/
def depthValue (sample : Nat) (factor : ℚ) : ℚ :=
  clamp (toFloat (depthScaled sample factor * 255)) 0 255

/-- The loop of `applyGrooveDepth`, `i` running over `0, 3, 6, ...`. -/
def grooveDepthLoop (factor : ℚ) : List Nat → Except Fault (List Nat)
  | [] => .ok []
  | r :: g :: b :: rest => do
    let r1 ← toUInt8 (depthValue r factor)
    let g1 ← toUInt8 (depthValue g factor)
    let b1 ← toUInt8 (depthValue b factor)
    let tail ← grooveDepthLoop factor rest
    pure (r1 :: g1 :: b1 :: tail)
  | _ => .error Fault.outOfBounds

/-- The stage `applyGrooveDepth`. -/
def applyGrooveDepth (params : VinylParameters) (data : List Nat) :
    Except Fault (List Nat) :=
  grooveDepthLoop (depthFactor params) data

/-- The local `eq_factor` of `applyEQCurve`: the `double` parameter converted
to `float`. -/
def eqFactor (params : VinylParameters) : ℚ := toFloat params.eq_curve

/-- The `float` product `frame.data[i] * eq_factor` of `applyEQCurve`. -/
def eqScaled (sample : Nat) (eq_factor : ℚ) : ℚ :=
  toFloat ((sample : ℚ) * eq_factor)

/-- The value `std::clamp(frame.data[i] * eq_factor, 0.0f, 255.0f)` of
`applyEQCurve` for the R channel, before the `static_cast<uint8_t>`. -/
def eqValueR (sample : Nat) (eq_factor : ℚ) : ℚ :=
  clamp (eqScaled sample eq_factor) 0 255

/-- The value `std::clamp(frame.data[i] * eq_factor * c, 0.0f, 255.0f)` of
`applyEQCurve` for the G and B channels, before the `static_cast<uint8_t>`: a
second `float` product, with the channel coefficient `c` (`0.9f` for G, `1.1f`
for B). -/
def eqValue (sample : Nat) (eq_factor c : ℚ) : ℚ :=
  clamp (toFloat (eqScaled sample eq_factor * c)) 0 255

/-- The loop of `applyEQCurve`, `i` running over `0, 3, 6, ...`. -/
def eqCurveLoop (eq_factor : ℚ) : List Nat → Except Fault (List Nat)
  | [] => .ok []
  | r :: g :: b :: rest => do
    let r1 ← toUInt8 (eqValueR r eq_factor)
    let g1 ← toUInt8 (eqValue g eq_factor (toFloat (9 / 10)))
    let b1 ← toUInt8 (eqValue b eq_factor (toFloat (11 / 10)))
    let tail ← eqCurveLoop eq_factor rest
    pure (r1 :: g1 :: b1 :: tail)
  | _ => .error Fault.outOfBounds

/-- The stage `applyEQCurve`. -/
def applyEQCurve (params : VinylParameters) (data : List Nat) :
    Except Fault (List Nat) :=
  eqCurveLoop (eqFactor params) data

/-- The sample buffer computed by `applyVinylEffects`: the five stages in the
order of the source, each reading the buffer the previous one left. -/
def applyVinylEffectsData (libm : Libm) (params : VinylParameters) (position : ℚ)
    (draws : Nat → ℚ) (data : List Nat) : Except Fault (List Nat) := do
  let d1 ← applySurfaceNoise params draws data
  let d2 ← applyWowFlutter libm params position d1
  let d3 ← applyNeedlePressure params d2
  let d4 ← applyGrooveDepth params d3
  applyEQCurve params d4

/-- The method `applyVinylEffects`: works on a copy of the frame, so the other
fields are returned as they came. -/
def applyVinylEffects (libm : Libm) (params : VinylParameters) (position : ℚ)
    (draws : Nat → ℚ) (frame : VideoFrame) : Except Fault VideoFrame := do
  let d ← applyVinylEffectsData libm params position draws frame.data
  pure { frame with data := d }

/-- Well-formed sample buffer: every element is a `uint8_t` value. -/
def SamplesOk (data : List Nat) : Prop := ∀ x ∈ data, x ≤ 255

/-- The ranges the five degradation setters clamp to. -/
def VinylParameters.InRange (params : VinylParameters) : Prop :=
  (1 / 2 ≤ params.needle_pressure ∧ params.needle_pressure ≤ 5) ∧
  (0 ≤ params.wow_flutter ∧ params.wow_flutter ≤ 2) ∧
  (0 ≤ params.surface_noise ∧ params.surface_noise ≤ 3 / 10) ∧
  (5 / 100 ≤ params.groove_depth ∧ params.groove_depth ≤ 2 / 10) ∧
  (1 / 2 ≤ params.eq_curve ∧ params.eq_curve ≤ 2)

/-! ## The media source, as the FFmpeg calls of the engine see it -/

/-- The values of `codec_type` the engine tests for. -/
inductive MediaType where
  | VIDEO
  | AUDIO
  | OTHER
  deriving DecidableEq, Repr

/-- One `AVStream` of an opened source: the `codecpar` fields and the
`r_frame_rate` the engine reads. -/
structure StreamInfo where
  codec_type : MediaType
  width : Int
  height : Int
  r_frame_rate_num : Int
  r_frame_rate_den : Int
  nb_channels : Int
  sample_rate : Int
  deriving DecidableEq

/-- One packet delivered by `av_read_frame`, with what the decoder makes of it:
`decodes` says that `avcodec_send_packet` and `avcodec_receive_frame` both
return `0`, `pts` is the presentation time stamp of the decoded frame and `rgb`
the `linesize[0] * height` bytes of its RGB24 picture. -/
structure Packet where
  stream_index : Int
  decodes : Bool
  pts : Int
  rgb : List Nat
  deriving DecidableEq

/-- A source that `avformat_open_input` can open. -/
structure MediaFile where
  /-- Whether `avformat_find_stream_info` succeeds. -/
  stream_info_ok : Bool
  streams : List StreamInfo
  /-- The field `format_ctx->duration`, in units of `1 / AV_TIME_BASE` seconds. -/
  duration : Int
  packets : List Packet

/-- The constant `AV_TIME_BASE` of libavutil. -/
def AV_TIME_BASE : ℚ := 1000000

/-- What lies outside the engine: the files behind the paths (`none` when
`avformat_open_input` fails), the C library, and the random draws of the
`n`-th call of `applySurfaceNoise`. -/
structure Env where
  files : String → Option MediaFile
  libm : Libm
  draws : Nat → Nat → ℚ

/-- The stream search of `loadVideo` and `playbackLoop`: starting from
`(video_stream, audio_stream)` at index `i`, the first video stream and the
first audio stream are recorded; `-1` stands for "none yet". -/
def findStreams : List StreamInfo → Int → Int × Int → Int × Int
  | [], _, found => found
  | st :: rest, i, (video_stream, audio_stream) =>
    if st.codec_type = MediaType.VIDEO ∧ video_stream = -1 then
      findStreams rest (i + 1) (i, audio_stream)
    else if st.codec_type = MediaType.AUDIO ∧ audio_stream = -1 then
      findStreams rest (i + 1) (video_stream, i)
    else findStreams rest (i + 1) (video_stream, audio_stream)

/-! ## The engine state -/

/-- The enum `VinylVideoPlayer::PlaybackState`. -/
inductive PlaybackState where
  | STOPPED
  | PLAYING
  | PAUSED
  | SEEKING
  | ERROR
  deriving DecidableEq, Repr

/-- The record `VideoInfo` of `video_player.hpp`. -/
structure VideoInfo where
  filename : String
  width : Int
  height : Int
  duration : ℚ
  frame_rate : ℚ
  codec : String
  audio_channels : Int
  audio_sample_rate : Int
  has_audio : Bool
  has_video : Bool
  deriving DecidableEq

/-- The default constructor `VideoInfo()`. -/
def VideoInfo.default : VideoInfo :=
  { filename := "", width := 0, height := 0, duration := 0, frame_rate := 0, codec := "",
    audio_channels := 0, audio_sample_rate := 0, has_audio := false, has_video := false }

/-- Where a run of `playbackLoop` stands. -/
inductive WorkerPhase where
  /-- The thread has been started; the set-up before the `while` loop is still to run. -/
  | entry
  /-- The set-up succeeded: the decode session is open and the worker is at the
  test of the `while` condition. -/
  | looping
  /-- The test of the `while` condition has succeeded: the worker is inside the
  pass and its body is still to run. -/
  | inBody
  /-- The function `playbackLoop` has returned. -/
  | finished
  deriving DecidableEq, Repr

/-- The locals of one run of `playbackLoop` (one worker thread). -/
structure Worker where
  phase : WorkerPhase
  /-- Number of the decode session this run opened (`0` before it opened one). -/
  session : Nat
  /-- Whether the decode resources (`format_ctx`, codec contexts, converters,
  `frame`, `packet`) are held. -/
  resources_open : Bool
  /-- The packets `av_read_frame` has not delivered yet. -/
  packets : List Packet
  /-- All packets of the source, where `av_seek_frame(.., 0, ..)` rewinds to. -/
  all_packets : List Packet
  video_stream : Int
  audio_stream : Int
  /-- The fields `video_codec_ctx->width` and `->height`. -/
  width : Int
  height : Int
  /-- The local `start_time`, in milliseconds of the wall clock. -/
  start_time : Int
  /-- The local `frame_duration`. -/
  frame_duration : ℚ
  /-- The sleep of the last pass through the time synchronisation, in milliseconds. -/
  last_sleep : Nat
  deriving DecidableEq

/-- The class `VinylVideoPlayer`.  The fields ending in `_` are the ones of the
source; `playback_thread_` is `none` when the thread object is not joinable.
The other fields record what the engine does to the outside: the calls of
`emitEvent`, the frames handed to the video callback (or the fault of
`applyVinylEffects`), the number of audio chunks handed to the audio callback,
and counters of the decode sessions opened and the threads started.  `clock`
is the wall clock in milliseconds: decoding takes no time and a sleep takes
exactly its duration. -/
structure VinylVideoPlayer where
  state_ : PlaybackState
  should_stop_ : Bool
  playback_thread_ : Option Worker
  video_info_ : VideoInfo
  video_filepath_ : String
  playback_speed_ : ℚ
  current_position_ : ℚ
  loop_enabled_ : Bool
  vinyl_params_ : VinylParameters
  events : List String
  video_frames : List (Except Fault VideoFrame)
  audio_chunks : Nat
  sessions_opened : Nat
  threads_started : Nat
  clock : Int

namespace VinylVideoPlayer

/-- The constructor `VinylVideoPlayer::VinylVideoPlayer()`. -/
def construct : VinylVideoPlayer :=
  { state_ := PlaybackState.STOPPED
    should_stop_ := false
    playback_thread_ := none
    video_info_ := VideoInfo.default
    video_filepath_ := ""
    playback_speed_ := 1
    current_position_ := 0
    loop_enabled_ := false
    vinyl_params_ := VinylParameters.default
    events := []
    video_frames := []
    audio_chunks := 0
    sessions_opened := 0
    threads_started := 0
    clock := 0 }

/-- The method `emitEvent`: the event is handed to the event callback. -/
def emitEvent (p : VinylVideoPlayer) (event : String) : VinylVideoPlayer :=
  { p with events := p.events ++ [event] }

/-! ### Setters

A setter takes a `double`, which may be an infinity or a NaN.  It returns the
engine with the field written; when the value it stores is not a number the
result is the fault `notFinite`. -/

/-- The setter `setNeedlePressure`: stores `std::clamp(pressure, 0.5, 5.0)`. -/
def setNeedlePressure (p : VinylVideoPlayer) (pressure : CDouble) :
    Except Fault VinylVideoPlayer :=
  (storeDouble (clampDouble pressure (1 / 2) 5)).map fun v =>
    { p with vinyl_params_ := { p.vinyl_params_ with needle_pressure := v } }

/-- The setter `setTurntableSpeed`: the value is stored as given. -/
def setTurntableSpeed (p : VinylVideoPlayer) (rpm : CDouble) :
    Except Fault VinylVideoPlayer :=
  (storeDouble rpm).map fun v =>
    { p with vinyl_params_ := { p.vinyl_params_ with turntable_speed := v } }

/-- The setter `setWowFlutter`: stores `std::clamp(percentage, 0.0, 2.0)`. -/
def setWowFlutter (p : VinylVideoPlayer) (percentage : CDouble) :
    Except Fault VinylVideoPlayer :=
  (storeDouble (clampDouble percentage 0 2)).map fun v =>
    { p with vinyl_params_ := { p.vinyl_params_ with wow_flutter := v } }

/-- The setter `setSurfaceNoise`: stores `std::clamp(level, 0.0, 0.3)`. -/
def setSurfaceNoise (p : VinylVideoPlayer) (level : CDouble) :
    Except Fault VinylVideoPlayer :=
  (storeDouble (clampDouble level 0 (3 / 10))).map fun v =>
    { p with vinyl_params_ := { p.vinyl_params_ with surface_noise := v } }

/-- The setter `setGrooveDepth`: stores `std::clamp(depth, 0.05, 0.2)`. -/
def setGrooveDepth (p : VinylVideoPlayer) (depth : CDouble) :
    Except Fault VinylVideoPlayer :=
  (storeDouble (clampDouble depth (5 / 100) (2 / 10))).map fun v =>
    { p with vinyl_params_ := { p.vinyl_params_ with groove_depth := v } }

/-- The setter `setMonoMode`. -/
def setMonoMode (p : VinylVideoPlayer) (enabled : Bool) : VinylVideoPlayer :=
  { p with vinyl_params_ := { p.vinyl_params_ with mono_mode := enabled } }

/-- The setter `setEQCurve`: stores `std::clamp(curve, 0.5, 2.0)`. -/
def setEQCurve (p : VinylVideoPlayer) (curve : CDouble) : Except Fault VinylVideoPlayer :=
  (storeDouble (clampDouble curve (1 / 2) 2)).map fun v =>
    { p with vinyl_params_ := { p.vinyl_params_ with eq_curve := v } }

/-- The setter `setPlaybackSpeed`: stores `std::clamp(speed, 0.25, 4.0)`. -/
def setPlaybackSpeed (p : VinylVideoPlayer) (speed : CDouble) :
    Except Fault VinylVideoPlayer :=
  (storeDouble (clampDouble speed (1 / 4) 4)).map fun v => { p with playback_speed_ := v }

/-- The setter `setLoopEnabled`. -/
def setLoopEnabled (p : VinylVideoPlayer) (enabled : Bool) : VinylVideoPlayer :=
  { p with loop_enabled_ := enabled }

/-- The getter `getCurrentPosition`. -/
def getCurrentPosition (p : VinylVideoPlayer) : ℚ := p.current_position_

/-- The getter `getDuration`. -/
def getDuration (p : VinylVideoPlayer) : ℚ := p.video_info_.duration

/-- The getter `getState`. -/
def getState (p : VinylVideoPlayer) : PlaybackState := p.state_

/-! ### The worker: one run of `playbackLoop` -/

/-- The thread object right after `std::thread(&VinylVideoPlayer::playbackLoop, this)`. -/
def newWorker : Worker :=
  { phase := WorkerPhase.entry, session := 0, resources_open := false, packets := [],
    all_packets := [], video_stream := -1, audio_stream := -1, width := 0, height := 0,
    start_time := 0, frame_duration := 0, last_sleep := 0 }

/-- The local `target_time` of the time synchronisation:
`current_position_ * 1000.0`, a `double` product. -/
def targetTime (current_position : ℚ) : ℚ := toDouble (current_position * 1000)

/-- The time synchronisation at the end of a pass of the loop: with
`elapsed` the whole milliseconds since `start_time` and
`target_time = current_position_ * 1000.0`, the worker sleeps
`static_cast<long>(target_time - elapsed)` milliseconds when
`elapsed < target_time`, and not at all otherwise.  The comparison and the
difference are carried out in `double`, to which `elapsed` is converted. -/
def syncSleep (current_position : ℚ) (elapsed : Int) : Nat :=
  if toDouble (elapsed : ℚ) < targetTime current_position then
    Nat.floor (toDouble (targetTime current_position - toDouble (elapsed : ℚ)))
  else 0

/-- The set-up of `playbackLoop` before the `while` loop.  The three early
`return`s (the source cannot be opened, its stream information cannot be read,
it has no video stream) end the run without touching the engine state.
Otherwise the decode session is open, `start_time` is taken from the clock and
`frame_duration` is `1.0 / video_info_.frame_rate`, a `double` quotient. -/
def workerSetup (env : Env) (p : VinylVideoPlayer) (w : Worker) : VinylVideoPlayer :=
  match env.files p.video_filepath_ with
  | none => { p with playback_thread_ := some { w with phase := WorkerPhase.finished } }
  | some file =>
    let opened := p.sessions_opened + 1
    if file.stream_info_ok = false then
      { p with sessions_opened := opened
               playback_thread_ := some { w with phase := WorkerPhase.finished, session := opened } }
    else
      let found := findStreams file.streams 0 (-1, -1)
      if found.1 = -1 then
        { p with sessions_opened := opened
                 playback_thread_ :=
                   some { w with phase := WorkerPhase.finished, session := opened } }
      else
        let st := file.streams[found.1.toNat]?
        { p with sessions_opened := opened
                 playback_thread_ := some
                   { w with phase := WorkerPhase.looping
                            session := opened
                            resources_open := true
                            packets := file.packets
                            all_packets := file.packets
                            video_stream := found.1
                            audio_stream := found.2
                            width := (st.map StreamInfo.width).getD 0
                            height := (st.map StreamInfo.height).getD 0
                            start_time := p.clock
                            frame_duration := toDouble (1 / p.video_info_.frame_rate) } }

/-- The end of `playbackLoop` after the `while` loop: the decode resources are
released and `"playback_ended"` is emitted.  The engine state is not written. -/
def workerExit (p : VinylVideoPlayer) (w : Worker) : VinylVideoPlayer :=
  let w1 : Worker := { w with phase := WorkerPhase.finished, resources_open := false }
  emitEvent { p with playback_thread_ := some w1 } "playback_ended"

/-- The new value of `current_position_` after a video frame:
`current_position_.load() + frame_duration * playback_speed_.load()`, a
`double` product and a `double` sum. -/
def advancePosition (current_position frame_duration playback_speed : ℚ) : ℚ :=
  toDouble (current_position + toDouble (frame_duration * playback_speed))

/-- The video branch of the loop body for one packet: a packet of the video
stream that decodes is turned into a `VideoFrame` stamped with the current
position, run through `applyVinylEffects`, handed to the video callback, and
the position advances by `frame_duration * playback_speed_`. -/
def processVideoPacket (env : Env) (p : VinylVideoPlayer) (w : Worker) (pkt : Packet) :
    VinylVideoPlayer :=
  if pkt.stream_index = w.video_stream ∧ pkt.decodes = true then
    let vframe : VideoFrame :=
      { data := pkt.rgb, width := w.width, height := w.height,
        timestamp := p.current_position_, frame_number := pkt.pts }
    let out := applyVinylEffects env.libm p.vinyl_params_ p.current_position_
      (env.draws p.video_frames.length) vframe
    { p with video_frames := p.video_frames ++ [out]
             current_position_ :=
               advancePosition p.current_position_ w.frame_duration p.playback_speed_ }
  else p

/-- The audio branch of the loop body for one packet: a packet of the audio
stream that decodes is converted and handed to the audio callback. -/
def processAudioPacket (p : VinylVideoPlayer) (w : Worker) (pkt : Packet) :
    VinylVideoPlayer :=
  if pkt.stream_index = w.audio_stream ∧ w.audio_stream ≠ -1 ∧ pkt.decodes = true then
    { p with audio_chunks := p.audio_chunks + 1 }
  else p

/-- The body of `while (!should_stop_ && state_ == PLAYING)`, which runs once
the condition has been tested and found true; the condition is not read
again inside it.  When the stream has ended the body either rewinds and resets
the position (`continue`, loop enabled) or leaves the loop (`break`).
Otherwise one packet is processed and the time synchronisation sleeps. -/
def workerBody (env : Env) (p : VinylVideoPlayer) (w : Worker) : VinylVideoPlayer :=
  match w.packets with
  | [] =>
    if p.loop_enabled_ = true then
      { p with current_position_ := 0
               playback_thread_ := some { w with packets := w.all_packets } }
    else workerExit p w
  | pkt :: rest =>
    let p1 := processAudioPacket (processVideoPacket env p w pkt) w pkt
    let sleep := syncSleep p1.current_position_ (p1.clock - w.start_time)
    { p1 with clock := p1.clock + (sleep : Int)
              playback_thread_ := some { w with packets := rest, last_sleep := sleep } }

/-- One pass of `while (!should_stop_ && state_ == PLAYING)` in which no call
of the caller's thread falls between the test and the body: the test of the
condition, then the body.  When the condition fails the loop is left. -/
def workerPass (env : Env) (p : VinylVideoPlayer) (w : Worker) : VinylVideoPlayer :=
  if p.should_stop_ = false ∧ p.state_ = PlaybackState.PLAYING then workerBody env p w
  else workerExit p w

/-- The test of the `while` condition alone, for a worker at that test: when
the condition holds the worker enters the pass, and what the caller's thread
does next falls between the test and the body.  (A test that fails is the
step `workerStep`, which leaves the loop.) -/
def workerTest (p : VinylVideoPlayer) : VinylVideoPlayer :=
  match p.playback_thread_ with
  | none => p
  | some w =>
    if w.phase = WorkerPhase.looping ∧ p.should_stop_ = false ∧
        p.state_ = PlaybackState.PLAYING then
      { p with playback_thread_ := some { w with phase := WorkerPhase.inBody } }
    else p

/-- One step of the worker thread: the set-up, one whole pass of the loop, or,
for a worker inside a pass, the body of that pass (after which it is at the
test of the condition again).  Nothing happens when there is no worker or when
it has returned. -/
def workerStep (env : Env) (p : VinylVideoPlayer) : VinylVideoPlayer :=
  match p.playback_thread_ with
  | none => p
  | some w =>
    match w.phase with
    | WorkerPhase.entry => workerSetup env p w
    | WorkerPhase.looping => workerPass env p w
    | WorkerPhase.inBody => workerBody env p { w with phase := WorkerPhase.looping }
    | WorkerPhase.finished => p

/-- The worker runs `n` steps while the caller does nothing. -/
def workerSteps (env : Env) : Nat → VinylVideoPlayer → VinylVideoPlayer
  | 0, p => p
  | n + 1, p => workerSteps env n (workerStep env p)

/-- Whether a worker thread is running (started and not yet returned). -/
def workerLive (p : VinylVideoPlayer) : Bool :=
  match p.playback_thread_ with
  | none => false
  | some w => decide (w.phase ≠ WorkerPhase.finished)

/-- The packets the worker still has to read before it meets the end of the
stream: those of the source while the set-up is still to run, those not yet
delivered while the loop runs (at the test of its condition or inside a
pass). -/
def pendingPackets (env : Env) (p : VinylVideoPlayer) : Nat :=
  match p.playback_thread_ with
  | none => 0
  | some w =>
    match w.phase with
    | WorkerPhase.entry =>
      match env.files p.video_filepath_ with
      | none => 0
      | some file => file.packets.length
    | WorkerPhase.looping => w.packets.length
    | WorkerPhase.inBody => w.packets.length
    | WorkerPhase.finished => 0

/-- A number of steps within which the worker returns if it ever does while
the caller waits: the set-up (or, for a worker inside a pass at the end of
the stream, the body that rewinds), one pass per packet still to come, and
the pass that leaves the loop. -/
def joinBound (env : Env) (p : VinylVideoPlayer) : Nat :=
  pendingPackets env p + 2

/-- The statement `if (playback_thread_.joinable()) playback_thread_.join();`.
The caller waits while the worker runs; afterwards the thread object is not
joinable.  `none`: the worker does not return, so neither does `join`. -/
def joinWorker (env : Env) (p : VinylVideoPlayer) : Option VinylVideoPlayer :=
  let q := workerSteps env (joinBound env p) p
  if workerLive q = false then some { q with playback_thread_ := none } else none

/-! ### The public operations

An operation returns `none` when the call never returns. -/

/-- The method `initialize`. -/
def initializeEngine (p : VinylVideoPlayer) : Bool × VinylVideoPlayer :=
  (true, { p with state_ := PlaybackState.STOPPED, should_stop_ := false })

/-- The method `play`. -/
def play (env : Env) (p : VinylVideoPlayer) : Option (Bool × VinylVideoPlayer) :=
  if p.state_ = PlaybackState.PLAYING then some (true, p)
  else if p.video_filepath_ = "" then some (false, p)
  else
    match joinWorker env { p with state_ := PlaybackState.PLAYING, should_stop_ := false } with
    | none => none
    | some p2 =>
      some (true, emitEvent
        { p2 with playback_thread_ := some newWorker
                  threads_started := p2.threads_started + 1 }
        "playback_started")

/-- The method `pause`. -/
def pause (p : VinylVideoPlayer) : Bool × VinylVideoPlayer :=
  if p.state_ = PlaybackState.PLAYING then
    (true, emitEvent { p with state_ := PlaybackState.PAUSED } "playback_paused")
  else (false, p)

/-- The method `stop`. -/
def stop (env : Env) (p : VinylVideoPlayer) : Option (Bool × VinylVideoPlayer) :=
  if p.state_ = PlaybackState.STOPPED then some (true, p)
  else
    match joinWorker env
        { p with should_stop_ := true, state_ := PlaybackState.STOPPED,
                 current_position_ := 0 } with
    | none => none
    | some p2 => some (true, emitEvent p2 "playback_stopped")

/-- The method `seek`. -/
def seek (p : VinylVideoPlayer) (position_seconds : ℚ) : Bool × VinylVideoPlayer :=
  if position_seconds < 0 ∨ position_seconds > p.video_info_.duration then (false, p)
  else (true, emitEvent { p with current_position_ := position_seconds } "seek")

/-- The method `loadVideo`.  It takes `player_mutex_` and, when the state is
`PLAYING`, calls `stop()`, which takes the same non-recursive mutex again: that
call does not return.  Otherwise the path is stored first, and the metadata is
filled in when the source opens, its stream information can be read and it has
a video stream; the duration and the frame rate are `double` quotients (the
64-bit `duration` is converted to `double` first). -/
def loadVideo (env : Env) (p : VinylVideoPlayer) (filepath : String) :
    Option (Bool × VinylVideoPlayer) :=
  if p.state_ = PlaybackState.PLAYING then none
  else
    let p1 : VinylVideoPlayer :=
      { p with video_filepath_ := filepath
               video_info_ := { p.video_info_ with filename := filepath } }
    match env.files filepath with
    | none => some (false, p1)
    | some file =>
      if file.stream_info_ok = false then some (false, p1)
      else
        let found := findStreams file.streams 0 (-1, -1)
        if found.1 = -1 then some (false, p1)
        else
          let vst := file.streams[found.1.toNat]?
          let ast := file.streams[found.2.toNat]?
          let info1 : VideoInfo :=
            { p1.video_info_ with
                width := (vst.map StreamInfo.width).getD 0
                height := (vst.map StreamInfo.height).getD 0
                duration := toDouble (toDouble (file.duration : ℚ) / AV_TIME_BASE)
                frame_rate := toDouble (((vst.map StreamInfo.r_frame_rate_num).getD 0 : ℚ) /
                  ((vst.map StreamInfo.r_frame_rate_den).getD 0 : ℚ))
                has_video := true }
          let info2 : VideoInfo :=
            if found.2 ≠ -1 then
              { info1 with
                  audio_channels := (ast.map StreamInfo.nb_channels).getD 0
                  audio_sample_rate := (ast.map StreamInfo.sample_rate).getD 0
                  has_audio := true }
            else { info1 with has_audio := false }
          some (true, { p1 with video_info_ := info2 })

end VinylVideoPlayer

/-! ## `VinylUtils` -/

namespace VinylUtils

/-- The enum `VinylUtils::VinylType`. -/
inductive VinylType where
  | SHELLAC_78
  | VINYL_33
  | VINYL_45
  | VINYL_16
  | UNKNOWN
  deriving DecidableEq, Repr

/-- The part of a path after its last `/` (the whole path when it has none):
`filepath.substr(filepath.find_last_of('/') + 1)`. -/
def fileNameOf (path : List Char) : List Char :=
  (path.reverse.takeWhile (fun c => c != '/')).reverse

/-- Whether `needle` occurs in `hay`: `hay.find(needle) != std::string::npos`. -/
def containsSub (needle : List Char) : List Char → Bool
  | [] => needle.isEmpty
  | c :: cs => needle.isPrefixOf (c :: cs) || containsSub needle cs

/-- The function `detectVinylType`. -/
def detectVinylType (filepath : String) : VinylType :=
  let filename := (fileNameOf filepath.toList).map Char.toLower
  if containsSub "78".toList filename || containsSub "shellac".toList filename then
    VinylType.SHELLAC_78
  else if containsSub "45".toList filename || containsSub "single".toList filename then
    VinylType.VINYL_45
  else if containsSub "16".toList filename then VinylType.VINYL_16
  else if containsSub "33".toList filename || containsSub "lp".toList filename then
    VinylType.VINYL_33
  else VinylType.UNKNOWN

/-- The function `getRecommendedSettings`. -/
def getRecommendedSettings (type : VinylType) : VinylParameters :=
  let params := VinylParameters.default
  match type with
  | VinylType.SHELLAC_78 =>
    { params with turntable_speed := 7826 / 100, needle_pressure := 3, wow_flutter := 5 / 10,
                  surface_noise := 15 / 100, mono_mode := true, eq_curve := 8 / 10 }
  | VinylType.VINYL_45 =>
    { params with turntable_speed := 45, needle_pressure := 2, wow_flutter := 2 / 10,
                  surface_noise := 8 / 100, mono_mode := false, eq_curve := 1 }
  | VinylType.VINYL_33 =>
    { params with turntable_speed := 3333 / 100, needle_pressure := 15 / 10,
                  wow_flutter := 1 / 10, surface_noise := 5 / 100, mono_mode := false,
                  eq_curve := 1 }
  | VinylType.VINYL_16 =>
    { params with turntable_speed := 1667 / 100, needle_pressure := 25 / 10,
                  wow_flutter := 3 / 10, surface_noise := 12 / 100, mono_mode := true,
                  eq_curve := 9 / 10 }
  | VinylType.UNKNOWN => params

end VinylUtils

namespace VinylVideoPlayer

/-- The method `loadVinylRecording`. -/
def loadVinylRecording (env : Env) (p : VinylVideoPlayer) (filepath : String) :
    Option (Bool × VinylVideoPlayer) :=
  match loadVideo env p filepath with
  | none => none
  | some (false, p1) => some (false, p1)
  | some (true, p1) =>
    some (true, { p1 with vinyl_params_ :=
      VinylUtils.getRecommendedSettings (VinylUtils.detectVinylType filepath) })

/-- The method `shutdown`. -/
def shutdown (env : Env) (p : VinylVideoPlayer) : Option VinylVideoPlayer :=
  match stop env p with
  | none => none
  | some (_, p1) =>
    let joined :=
      if p1.playback_thread_.isSome then joinWorker env { p1 with should_stop_ := true }
      else some p1
    joined.map fun p2 => { p2 with state_ := PlaybackState.STOPPED }

/-- Wall-clock time passes: `ms` milliseconds in which neither the caller nor
the worker does anything. -/
def tick (p : VinylVideoPlayer) (ms : Nat) : VinylVideoPlayer :=
  { p with clock := p.clock + (ms : Int) }

/-- The engine states that arise from the constructor by calls of the public
methods, writes to the public data member `vinyl_params_`, steps of the worker
thread (whole passes, or the test and the body of a pass with calls of the
caller in between) and the passing of time, no field being given a value that
is not a number. -/
inductive Reachable (env : Env) : VinylVideoPlayer → Prop where
  | construct : Reachable env construct
  | initializeEngine {p} : Reachable env p → Reachable env (initializeEngine p).2
  | shutdown {p q} : Reachable env p → shutdown env p = some q → Reachable env q
  | loadVideo {p q} (path : String) (ok : Bool) :
      Reachable env p → loadVideo env p path = some (ok, q) → Reachable env q
  | loadVinylRecording {p q} (path : String) (ok : Bool) :
      Reachable env p → loadVinylRecording env p path = some (ok, q) → Reachable env q
  | play {p q} (ok : Bool) : Reachable env p → play env p = some (ok, q) → Reachable env q
  | pause {p} : Reachable env p → Reachable env (pause p).2
  | stop {p q} (ok : Bool) : Reachable env p → stop env p = some (ok, q) → Reachable env q
  | seek {p} (position_seconds : ℚ) : Reachable env p → Reachable env (seek p position_seconds).2
  | setPlaybackSpeed {p q} (v : CDouble) :
      Reachable env p → setPlaybackSpeed p v = .ok q → Reachable env q
  | setLoopEnabled {p} (b : Bool) : Reachable env p → Reachable env (setLoopEnabled p b)
  | setNeedlePressure {p q} (v : CDouble) :
      Reachable env p → setNeedlePressure p v = .ok q → Reachable env q
  | setTurntableSpeed {p q} (v : CDouble) :
      Reachable env p → setTurntableSpeed p v = .ok q → Reachable env q
  | setWowFlutter {p q} (v : CDouble) :
      Reachable env p → setWowFlutter p v = .ok q → Reachable env q
  | setSurfaceNoise {p q} (v : CDouble) :
      Reachable env p → setSurfaceNoise p v = .ok q → Reachable env q
  | setGrooveDepth {p q} (v : CDouble) :
      Reachable env p → setGrooveDepth p v = .ok q → Reachable env q
  | setMonoMode {p} (b : Bool) : Reachable env p → Reachable env (setMonoMode p b)
  | setEQCurve {p q} (v : CDouble) :
      Reachable env p → setEQCurve p v = .ok q → Reachable env q
  | writeVinylParams {p} (params : VinylParameters) :
      Reachable env p → Reachable env { p with vinyl_params_ := params }
  | workerStep {p} : Reachable env p → Reachable env (workerStep env p)
  | workerTest {p} : Reachable env p → Reachable env (workerTest p)
  | tick {p} (ms : Nat) : Reachable env p → Reachable env (tick p ms)

/-- The loop condition `!should_stop_ && state_ == PLAYING` of `playbackLoop`. -/
def loopCondition (p : VinylVideoPlayer) : Prop :=
  p.should_stop_ = false ∧ p.state_ = PlaybackState.PLAYING

/-- The two engines agree on the fields that only the caller writes. -/
structure SameControl (p q : VinylVideoPlayer) : Prop where
  state_ : q.state_ = p.state_
  should_stop_ : q.should_stop_ = p.should_stop_
  playback_speed_ : q.playback_speed_ = p.playback_speed_
  loop_enabled_ : q.loop_enabled_ = p.loop_enabled_
  video_filepath_ : q.video_filepath_ = p.video_filepath_
  video_info_ : q.video_info_ = p.video_info_
  vinyl_params_ : q.vinyl_params_ = p.vinyl_params_
  threads_started : q.threads_started = p.threads_started

end VinylVideoPlayer

/-! ## Concrete inputs -/

/-- A C library standing in for the real one where its values do not matter. -/
def flatLibm : Libm := { sin := fun _ => 0, cos := fun _ => 1, M_PI := 355 / 113 }

/-- The degradation parameters at the bottom of their setter ranges, with the
needle pressure at the `1.0` baseline and the EQ curve at `1.0`. -/
def neutralParameters : VinylParameters :=
  { needle_pressure := 1, turntable_speed := 3333 / 100, wow_flutter := 0, surface_noise := 0,
    groove_depth := 5 / 100, mono_mode := false, eq_curve := 1 }

/-- A frame of one black pixel. -/
def blackPixel : VideoFrame :=
  { data := [0, 0, 0], width := 1, height := 1, timestamp := 0, frame_number := 0 }

/-- A video packet that decodes to one black pixel. -/
def samplePacket (pts : Int) : Packet :=
  { stream_index := 0, decodes := true, pts := pts, rgb := [0, 0, 0] }

/-- A source of 10 seconds with one 1x1 video stream at 25 frames per second,
of which three packets are present. -/
def sampleFile : MediaFile :=
  { stream_info_ok := true
    streams := [{ codec_type := MediaType.VIDEO, width := 1, height := 1,
                  r_frame_rate_num := 25, r_frame_rate_den := 1, nb_channels := 0,
                  sample_rate := 0 }]
    duration := 10000000
    packets := [samplePacket 0, samplePacket 1, samplePacket 2] }

/-- A world in which `"a.mp4"` is `sampleFile` and no other path opens. -/
def sampleEnv : Env :=
  { files := fun path => if path = "a.mp4" then some sampleFile else none
    libm := flatLibm
    draws := fun _ _ => 0 }

/-- The worker of `sampleLooping`. -/
def sampleWorker : Worker :=
  { phase := WorkerPhase.looping, session := 1, resources_open := true,
    packets := sampleFile.packets, all_packets := sampleFile.packets, video_stream := 0,
    audio_stream := -1, width := 1, height := 1, start_time := 0,
    frame_duration := toDouble (1 / 25), last_sleep := 0 }

/-- The engine after `loadVideo("a.mp4")` on a fresh engine. -/
def sampleLoaded : VinylVideoPlayer :=
  { VinylVideoPlayer.construct with
      video_filepath_ := "a.mp4"
      video_info_ :=
        { VideoInfo.default with
            filename := "a.mp4", width := 1, height := 1, duration := 10, frame_rate := 25,
            has_video := true } }

/-- The engine `sampleLoaded` after `play()`. -/
def samplePlaying : VinylVideoPlayer :=
  { sampleLoaded with
      state_ := PlaybackState.PLAYING
      playback_thread_ := some VinylVideoPlayer.newWorker
      threads_started := 1
      events := ["playback_started"] }

/-- The engine `samplePlaying` after the worker has run its set-up. -/
def sampleLooping : VinylVideoPlayer :=
  { samplePlaying with playback_thread_ := some sampleWorker, sessions_opened := 1 }

/-- The engine `sampleLooping` after the worker has processed the three packets:
the worker is at the end of the stream. -/
def sampleAtEnd : VinylVideoPlayer :=
  VinylVideoPlayer.workerSteps sampleEnv 3 sampleLooping

/-- The engine `sampleLooping` with the worker inside its first pass: it has
tested the loop condition, the body is still to run. -/
def sampleInPass : VinylVideoPlayer :=
  VinylVideoPlayer.workerTest sampleLooping

/-- The engine `sampleLooping` after `setPlaybackSpeed(2.0)`. -/
def sampleFast : VinylVideoPlayer :=
  { sampleLooping with playback_speed_ := 2 }

/-- The engine `sampleLooping` with looping enabled, right after `pause()`: the
worker is still inside its loop. -/
def sampleRacing : VinylVideoPlayer :=
  (VinylVideoPlayer.pause (VinylVideoPlayer.setLoopEnabled sampleLooping true)).2

/-! ## Counting the frames of a run -/

/-- Whether a packet takes the video branch of the loop body down to the
position update: it belongs to the video stream and it decodes. -/
def isVideoFrame (video_stream : Int) (pkt : Packet) : Bool :=
  decide (pkt.stream_index = video_stream) && pkt.decodes

/-- The number of packets of a list that yield a video frame. -/
def videoFrameCount (video_stream : Int) (pkts : List Packet) : Nat :=
  pkts.countP (isVideoFrame video_stream)

/-- The position after `n` video frames delivered at one speed, with no seek,
stop or loop restart in between: `n` updates by `advancePosition`. -/
def positionAfter (frame_duration playback_speed : ℚ) : Nat → ℚ → ℚ
  | 0, position => position
  | n + 1, position =>
    positionAfter frame_duration playback_speed n
      (VinylVideoPlayer.advancePosition position frame_duration playback_speed)

/-- A worker inside its loop on a 30 frames per second source with 30 video
packets to come. -/
def thirtyFpsWorker : Worker :=
  { sampleWorker with
      packets := List.replicate 30 (samplePacket 0)
      all_packets := List.replicate 30 (samplePacket 0)
      frame_duration := toDouble (1 / 30) }

/-- An engine playing a 30 frames per second source at speed 1.0 from position 0. -/
def thirtyFpsLooping : VinylVideoPlayer :=
  { sampleLooping with
      playback_thread_ := some thirtyFpsWorker
      video_info_ := { sampleLooping.video_info_ with frame_rate := 30 } }

/-! ## Sample engines for seeking, resuming and failed loads -/

/-- The engine `sampleLooping` after `seek(5.0)` during playback. -/
def sampleSought : VinylVideoPlayer :=
  (VinylVideoPlayer.seek sampleLooping 5).2

/-- The engine `sampleSought` after the worker has delivered one frame and
`pause()` has been called and observed by the worker: paused at 5.04 s, the
worker has returned. -/
def samplePausedAt : VinylVideoPlayer :=
  VinylVideoPlayer.workerStep sampleEnv
    (VinylVideoPlayer.pause (VinylVideoPlayer.workerStep sampleEnv sampleSought)).2

/-- The engine `samplePausedAt` after `play()`: resumed at 5.04 s. -/
def sampleResumed : VinylVideoPlayer :=
  ((VinylVideoPlayer.play sampleEnv samplePausedAt).map Prod.snd).getD samplePausedAt

/-- The fresh engine after `loadVideo("missing.mp4")` has failed: the path has
been stored. -/
def sampleFailedLoad : VinylVideoPlayer :=
  { VinylVideoPlayer.construct with
      video_filepath_ := "missing.mp4"
      video_info_ := { VideoInfo.default with filename := "missing.mp4" } }

/-! ## Stream discovery, stated on the list of streams -/

/-- The index of the first stream of a kind, in index order. -/
def firstIndexOfKind (kind : MediaType) : List StreamInfo → Option Nat
  | [] => none
  | st :: rest =>
    if st.codec_type = kind then some 0 else (firstIndexOfKind kind rest).map (· + 1)

/-- The first stream of a kind, in index order. -/
def firstStreamOfKind (kind : MediaType) (streams : List StreamInfo) : Option StreamInfo :=
  streams.find? (fun st => decide (st.codec_type = kind))

/-- A source with one audio stream and no video stream. -/
def audioOnlyFile : MediaFile :=
  { stream_info_ok := true
    streams := [{ codec_type := MediaType.AUDIO, width := 0, height := 0,
                  r_frame_rate_num := 0, r_frame_rate_den := 1, nb_channels := 2,
                  sample_rate := 44100 }]
    duration := 10000000
    packets := [] }

/-- A stereo audio stream at 44.1 kHz. -/
def stereoStream : StreamInfo :=
  { codec_type := MediaType.AUDIO, width := 0, height := 0, r_frame_rate_num := 0,
    r_frame_rate_den := 1, nb_channels := 2, sample_rate := 44100 }

/-- A 640x480 video stream at 30 fps. -/
def vgaStream : StreamInfo :=
  { codec_type := MediaType.VIDEO, width := 640, height := 480, r_frame_rate_num := 30,
    r_frame_rate_den := 1, nb_channels := 0, sample_rate := 0 }

/-- A source whose streams are, in index order, `stereoStream`, `vgaStream`, a
second video stream and a second audio stream. -/
def avFile : MediaFile :=
  { stream_info_ok := true
    streams := [stereoStream, vgaStream,
                { codec_type := MediaType.VIDEO, width := 1920, height := 1080,
                  r_frame_rate_num := 60, r_frame_rate_den := 1, nb_channels := 0,
                  sample_rate := 0 },
                { codec_type := MediaType.AUDIO, width := 0, height := 0,
                  r_frame_rate_num := 0, r_frame_rate_den := 1, nb_channels := 6,
                  sample_rate := 48000 }]
    duration := 10000000
    packets := [] }

/-- A source that opens and whose stream information cannot be read. -/
def unreadableFile : MediaFile :=
  { stream_info_ok := false, streams := [], duration := 0, packets := [] }

/-- A world in which `"av.mkv"` is `avFile`, `"audio.mp3"` is `audioOnlyFile`,
`"broken.avi"` is `unreadableFile` and no other path opens. -/
def streamEnv : Env :=
  { files := fun path =>
      if path = "av.mkv" then some avFile
      else if path = "audio.mp3" then some audioOnlyFile
      else if path = "broken.avi" then some unreadableFile else none
    libm := flatLibm
    draws := fun _ _ => 0 }

/-- The engine after `loadVideo(path)` and then `play()` on a freshly
constructed engine (the fresh engine itself should one of the calls not
return). -/
def startAfterLoad (env : Env) (path : String) : VinylVideoPlayer :=
  (((VinylVideoPlayer.loadVideo env VinylVideoPlayer.construct path).bind
    fun r => VinylVideoPlayer.play env r.2).map Prod.snd).getD VinylVideoPlayer.construct

/-! ## The operations of one thread on `player_mutex_` -/

/-- An operation of a thread on the non-recursive `std::mutex player_mutex_`:
the constructor and the destructor of a `std::lock_guard`. -/
inductive MutexOp where
  | lock
  | unlock
  deriving DecidableEq, Repr

/-- Runs the mutex operations of one thread, no other thread holding the
mutex; `held` says whether the thread holds it.  A `lock` by the thread that
holds the mutex does not return (`none`); otherwise the result says whether
the mutex is held at the end. -/
def runMutexOps : List MutexOp → Bool → Option Bool
  | [], held => some held
  | MutexOp.lock :: rest, held => if held then none else runMutexOps rest true
  | MutexOp.unlock :: rest, _ => runMutexOps rest false

/-- The operations of `stop()` on `player_mutex_`: the `lock_guard` at the top
of the body, released at the return. -/
def stopMutexOps : List MutexOp := [MutexOp.lock, MutexOp.unlock]

/-- The operations of `loadVideo` on `player_mutex_`: the `lock_guard` at the
top of the body, then those of the call `stop()` when the state is `PLAYING`,
then the release at the return. -/
def loadVideoMutexOps (state : PlaybackState) : List MutexOp :=
  [MutexOp.lock] ++ (if state = PlaybackState.PLAYING then stopMutexOps else []) ++
    [MutexOp.unlock]

/-- A frame of two pixels. -/
def twoPixels : VideoFrame :=
  { data := [0, 100, 255, 10, 20, 30], width := 2, height := 1, timestamp := 3 / 2,
    frame_number := 7 }

/-- The default parameters with the needle pressure, the surface noise, the
groove depth and the EQ curve changed, and the wow/flutter parameter kept. -/
def otherParameters : VinylParameters :=
  { VinylParameters.default with needle_pressure := 5, turntable_speed := 45,
                                 surface_noise := 3 / 10, groove_depth := 2 / 10,
                                 mono_mode := true, eq_curve := 2 }

/-! ## The stages as the specification words them -/

/-- Truncation toward zero of a rational to an integer. -/
def truncate (x : ℚ) : Int := if 0 ≤ x then Int.floor x else Int.ceil x

/-- The surface-noise stage in the words of the specification: a separate draw
for every colour sample, the sample with index `k + j` taking the draw
`draws (k + j)`. -/
def perSampleNoiseSpec (draws : Nat → ℚ) : Nat → List Nat → List Nat
  | _, [] => []
  | k, s :: rest => Nat.floor (noiseValue s (draws k)) :: perSampleNoiseSpec draws (k + 1) rest

/-- The surface-noise stage with one draw per pixel: the three samples of the
pixel with number `k` all take the draw `draws k`. -/
def perPixelNoise (draws : Nat → ℚ) : Nat → List Nat → List Nat
  | k, r :: g :: b :: rest =>
    Nat.floor (noiseValue r (draws k)) :: Nat.floor (noiseValue g (draws k)) ::
      Nat.floor (noiseValue b (draws k)) :: perPixelNoise draws (k + 1) rest
  | _, _ => []

/-- A sequence of draws: the floats `0.1f, 0.2f, 0.3f, ...`. -/
def rampDraws (k : Nat) : ℚ := toFloat (((k : ℚ) + 1) / 10)

namespace VinylUtils

/-- The number of values of `size_t` (64 bits wide). -/
def sizeModulus : Nat := 2 ^ 64

/-- The difference `a - b` of two `size_t` values: it wraps around when
`a < b`. -/
def sizeSub (a b : Nat) : Nat := (a + sizeModulus - b % sizeModulus) % sizeModulus

/-- The brightness `(data[i] + data[i + 1] + data[i + 2]) / 3.0f` of the pixel
at index `i`: the `int` sum is converted to `float` and divided by `3.0f`. -/
def brightness (data : List Nat) (i : Nat) : ℚ :=
  toFloat (toFloat ((data.getD i 0 + data.getD (i + 1) 0 + data.getD (i + 2) 0 : Nat) : ℚ) / 3)

/-- A loop `sum += x` over the given values, from `0.0f`: every addition is
rounded to `float`. -/
def floatSum (values : List ℚ) : ℚ :=
  values.foldl (fun acc x => toFloat (acc + x)) 0

/-- The chained assignment
`data[i] = data[i + 1] = data[i + 2] = value`. -/
def setPixel (data : List Nat) (i value : Nat) : List Nat :=
  ((data.set (i + 2) value).set (i + 1) value).set i value

/-- A loop `for (size_t i = start; i < bound; i += 3) body` over the pixels of
a buffer.  One pass reads samples up to index `i + reach` (and down to
`i - (reach - 2)`, which is not below 0); when `i + reach` is not inside the
buffer the pass reads past its end.  Otherwise `body` gives the value to store
into the three samples of the pixel at `i` (`none`: the pixel is left as it
is), still a float, which is then converted to `uint8_t`. -/
def pixelLoop (reach : Nat) (body : List Nat → Nat → Option ℚ) (bound : Nat) (i : Nat)
    (data : List Nat) : Except Fault (List Nat) :=
  if i < bound then
    if _h : i + reach < data.length then
      match body data i with
      | none => pixelLoop reach body bound (i + 3) data
      | some v =>
        match toUInt8 v with
        | .error e => .error e
        | .ok u => pixelLoop reach body bound (i + 3) (setPixel data i u)
    else .error Fault.outOfBounds
  else .ok data
termination_by data.length - i
decreasing_by
  all_goals simp_wf
  all_goals (try simp only [setPixel, List.length_set])
  all_goals omega

/-- The body of the loop of `removeClick`: a pixel whose brightness differs by
more than 50 from both neighbours is replaced by their mean.  The differences,
the sum and the quotient are `float` operations. -/
def removeClickBody (data : List Nat) (i : Nat) : Option ℚ :=
  let current := brightness data i
  let prev := brightness data (i - 3)
  let next := brightness data (i + 3)
  if |toFloat (current - prev)| > 50 ∧ |toFloat (current - next)| > 50 then
    some (toFloat (toFloat (prev + next) / 2))
  else none

/-- The function `removeClick`: `for (size_t i = 3; i < data.size() - 3; i += 3)`. -/
def removeClick (data : List Nat) : Except Fault (List Nat) :=
  pixelLoop 5 removeClickBody (sizeSub data.length 3) 3 data

/-- The body of the loop of `removePop`: the means of the three pixels before
and of the three pixels after are compared with the pixel. -/
def removePopBody (data : List Nat) (i : Nat) : Option ℚ :=
  let current := brightness data i
  let avg_before := toFloat
    (floatSum [brightness data (i - 9), brightness data (i - 6), brightness data (i - 3)] / 3)
  let avg_after := toFloat
    (floatSum [brightness data (i + 3), brightness data (i + 6), brightness data (i + 9)] / 3)
  if |toFloat (current - avg_before)| > 30 ∧ |toFloat (current - avg_after)| > 30 then
    some (toFloat (toFloat (avg_before + avg_after) / 2))
  else none

/-- The function `removePop`: `for (size_t i = 9; i < data.size() - 9; i += 3)`. -/
def removePop (data : List Nat) : Except Fault (List Nat) :=
  pixelLoop 11 removePopBody (sizeSub data.length 9) 9 data

/-- The body of the loop of `removeCrackle`: the local mean over the five
pixels `i - 6, ..., i + 6`. -/
def removeCrackleBody (data : List Nat) (i : Nat) : Option ℚ :=
  let local_avg := toFloat
    (floatSum [brightness data (i - 6), brightness data (i - 3), brightness data i,
      brightness data (i + 3), brightness data (i + 6)] / 5)
  let current := brightness data i
  if |toFloat (current - local_avg)| > 20 then
    some (toFloat (toFloat (current * toFloat (7 / 10)) + toFloat (local_avg * toFloat (3 / 10))))
  else none

/-- The function `removeCrackle`: `for (size_t i = 6; i < data.size() - 6; i += 3)`. -/
def removeCrackle (data : List Nat) : Except Fault (List Nat) :=
  pixelLoop 8 removeCrackleBody (sizeSub data.length 6) 6 data

/-- The body of the loop of `removeHiss`: the mean over the nine pixels
`i - 12, ..., i + 12`, blended into every pixel. -/
def removeHissBody (data : List Nat) (i : Nat) : Option ℚ :=
  let smoothed := toFloat
    (floatSum [brightness data (i - 12), brightness data (i - 9), brightness data (i - 6),
      brightness data (i - 3), brightness data i, brightness data (i + 3),
      brightness data (i + 6), brightness data (i + 9), brightness data (i + 12)] / 9)
  let current := brightness data i
  some (toFloat (toFloat (current * toFloat (8 / 10)) + toFloat (smoothed * toFloat (2 / 10))))

/-- The function `removeHiss`: `for (size_t i = 12; i < data.size() - 12; i += 3)`. -/
def removeHiss (data : List Nat) : Except Fault (List Nat) :=
  pixelLoop 14 removeHissBody (sizeSub data.length 12) 12 data

/-- The function `enhanceVinylRecording`: works on a copy of the frame. -/
def enhanceVinylRecording (frame : VideoFrame) (type : VinylType) : Except Fault VideoFrame :=
  match type with
  | VinylType.SHELLAC_78 => do
    let d1 ← removeCrackle frame.data
    let d2 ← removeHiss d1
    pure { frame with data := d2 }
  | VinylType.VINYL_45 => do
    let d1 ← removeClick frame.data
    let d2 ← removePop d1
    pure { frame with data := d2 }
  | VinylType.VINYL_33 => do
    let d1 ← removeClick frame.data
    let d2 ← removePop d1
    pure { frame with data := d2 }
  | VinylType.VINYL_16 => do
    let d1 ← removeClick frame.data
    let d2 ← removeCrackle d1
    pure { frame with data := d2 }
  | VinylType.UNKNOWN => pure frame

end VinylUtils

/-- The empty frame. -/
def emptyFrame : VideoFrame :=
  { data := [], width := 0, height := 0, timestamp := 0, frame_number := 0 }

/-- A frame of `n` grey pixels of brightness 100. -/
def greyFrame (n : Nat) : VideoFrame :=
  { data := List.replicate (3 * n) 100, width := n, height := 1, timestamp := 0,
    frame_number := 0 }

/-- The lower-cased part of a path after its last `/`: the local `filename` of
`detectVinylType` after the `std::transform` with `::tolower`. -/
def loweredName (filepath : String) : List Char :=
  (VinylUtils.fileNameOf filepath.toList).map Char.toLower

/-! ## `FormatHandler`: the WAV and DAGA files -/

namespace FormatHandler

/-- An array `float[3]`; each `float` is the 32 bits of its object
representation. -/
structure Float3 where
  x : Nat
  y : Nat
  z : Nat
  deriving DecidableEq

/-- The record `AudioData::SpatialData`. -/
structure SpatialData where
  position : Float3
  orientation : Float3
  quantumResonance : Nat
  deriving DecidableEq

/-- The record `AudioData` of `format_handler.hpp`.  The bytes of `data` and
the integer fields are numbers; a `float` field is the 32 bits of its object
representation, which is what the header is written from and read into. -/
structure AudioData where
  data : List Nat
  sampleRate : Nat
  channels : Nat
  bitsPerSample : Nat
  duration : Nat
  spatialData : SpatialData
  deriving DecidableEq

/-- The default-constructed `AudioData` (44100 Hz, 2 channels, 16 bits,
duration `0.0f`, zero position and orientation, resonance `440.0f`, whose bits
are `0x43DC0000`). -/
def AudioData.default : AudioData :=
  { data := [], sampleRate := 44100, channels := 2, bitsPerSample := 16, duration := 0,
    spatialData :=
      { position := { x := 0, y := 0, z := 0 }, orientation := { x := 0, y := 0, z := 0 },
        quantumResonance := 1138491392 } }

end FormatHandler

end AnantaSound

/-! # Theorems -/

namespace AnantaSound

/-! ## Numeric helpers -/

theorem clamp_ge {v lo hi : ℚ} (h : lo ≤ hi) : lo ≤ clamp v lo hi := by
  unfold clamp
  split_ifs with h1 h2
  · exact le_refl _
  · exact h
  · exact not_lt.mp h1

theorem clamp_le {v lo hi : ℚ} (h : lo ≤ hi) : clamp v lo hi ≤ hi := by
  unfold clamp
  split_ifs with h1 h2
  · exact h
  · exact le_refl _
  · exact not_lt.mp h2

theorem clamp_eq_min_max {v lo hi : ℚ} (h : lo ≤ hi) : clamp v lo hi = min (max v lo) hi := by
  unfold clamp
  split_ifs with h1 h2
  · rw [max_eq_right (le_of_lt h1), min_eq_left h]
  · rw [max_eq_left (not_lt.mp h1), min_eq_right (le_of_lt h2)]
  · rw [max_eq_left (not_lt.mp h1), min_eq_left (not_lt.mp h2)]

theorem toUInt8_eval (x : ℚ) (n : Nat) (h1 : (n : ℚ) ≤ x) (h2 : x < (n : ℚ) + 1)
    (h3 : n ≤ 255) : toUInt8 x = .ok n := by
  have hn : (0 : ℚ) ≤ (n : ℚ) := Nat.cast_nonneg n
  have hx : 0 ≤ x := le_trans hn h1
  have h255 : (n : ℚ) ≤ 255 := by exact_mod_cast h3
  have hfl : Nat.floor x = n := (Nat.floor_eq_iff hx).mpr ⟨h1, h2⟩
  unfold toUInt8
  rw [if_pos ⟨by linarith, by linarith⟩, hfl]

theorem toUInt8_natCast (n : Nat) (h : n ≤ 255) : toUInt8 (n : ℚ) = .ok n :=
  toUInt8_eval _ n (le_refl _) (by linarith) h

theorem toUInt8_of_mem_Icc (x : ℚ) (h0 : 0 ≤ x) (h1 : x ≤ 255) :
    ∃ n : Nat, toUInt8 x = .ok n ∧ n ≤ 255 := by
  have hfl : Nat.floor x ≤ 255 := Nat.floor_le_of_le (by exact_mod_cast h1)
  exact ⟨Nat.floor x, toUInt8_eval _ _ (Nat.floor_le h0) (Nat.lt_floor_add_one x) hfl, hfl⟩

/-! ## Floating point: rounding to nearest -/

theorem floor_le_roundHalfEven (y : ℚ) : Int.floor y ≤ roundHalfEven y := by
  unfold roundHalfEven
  split_ifs <;> omega

theorem roundHalfEven_le_floor_add_one (y : ℚ) : roundHalfEven y ≤ Int.floor y + 1 := by
  unfold roundHalfEven
  split_ifs <;> omega

theorem roundHalfEven_intCast (n : Int) : roundHalfEven (n : ℚ) = n := by
  unfold roundHalfEven
  simp

theorem roundHalfEven_le {y : ℚ} {n : Int} (h : y ≤ n) : roundHalfEven y ≤ n := by
  have hf : Int.floor y ≤ n := Int.floor_le_iff.mpr (by linarith [Int.floor_le y] : y < n + 1) 
  unfold roundHalfEven
  have key : ¬ (y - (Int.floor y : ℚ) < 1 / 2) → Int.floor y + 1 ≤ n := by
    intro h1
    have : (Int.floor y : ℚ) < n := by linarith
    have : Int.floor y < n := by exact_mod_cast this
    omega
  split_ifs with h1 h2 h3
  · exact hf
  · exact key h1
  · exact hf
  · exact key h1

theorem le_roundHalfEven {y : ℚ} {n : Int} (h : (n : ℚ) ≤ y) : n ≤ roundHalfEven y :=
  le_trans (Int.le_floor.mpr h) (floor_le_roundHalfEven y)

theorem roundHalfEven_eq {y : ℚ} {m : Int} (h : |y - m| < 1 / 2) : roundHalfEven y = m := by
  rw [abs_lt] at h
  obtain ⟨h1, h2⟩ := h
  by_cases hy : (m : ℚ) ≤ y
  · have hf : Int.floor y = m := Int.floor_eq_iff.mpr ⟨hy, by linarith⟩
    unfold roundHalfEven
    rw [hf, if_pos (by linarith)]
  · push_neg at hy
    have hf : Int.floor y = m - 1 := Int.floor_eq_iff.mpr ⟨by push_cast; linarith, by push_cast; linarith⟩
    unfold roundHalfEven
    rw [hf, if_neg (by push_cast; linarith), if_pos (by push_cast; linarith)]
    omega

theorem roundHalfEven_mono {y z : ℚ} (h : y ≤ z) : roundHalfEven y ≤ roundHalfEven z := by
  have hfl : Int.floor y ≤ Int.floor z := Int.floor_mono h
  rcases lt_or_eq_of_le hfl with hlt | heq
  · calc roundHalfEven y ≤ Int.floor y + 1 := roundHalfEven_le_floor_add_one y
      _ ≤ Int.floor z := hlt
      _ ≤ roundHalfEven z := floor_le_roundHalfEven z
  · unfold roundHalfEven
    rw [← heq]
    split_ifs <;> first | omega | linarith


theorem two_zpow_pos (u : Int) : (0 : ℚ) < (2 : ℚ) ^ u := zpow_pos (by norm_num) u

theorem roundFloat_zero (prec : Nat) (emin : Int) : roundFloat prec emin 0 = 0 := by
  have h := roundHalfEven_intCast 0
  simp only [Int.cast_zero] at h
  unfold roundFloat
  rw [zero_div, h]
  simp

theorem zpow_log_le_abs {x : ℚ} (hx : x ≠ 0) : (2 : ℚ) ^ Int.log 2 |x| ≤ |x| := by
  have h := Int.zpow_log_le_self (b := 2) (r := |x|) (by norm_num) (abs_pos.mpr hx)
  simpa using h

theorem abs_lt_zpow_log_succ (x : ℚ) : |x| < (2 : ℚ) ^ (Int.log 2 |x| + 1) := by
  have h := Int.lt_zpow_succ_log_self (b := 2) (by norm_num) |x|
  simpa using h

theorem log_eq_of_bounds {x : ℚ} {e : Int} (h1 : (2 : ℚ) ^ e ≤ |x|)
    (h2 : |x| < (2 : ℚ) ^ (e + 1)) : Int.log 2 |x| = e := by
  have hpos : 0 < |x| := lt_of_lt_of_le (two_zpow_pos e) h1
  have a1 : e ≤ Int.log 2 |x| :=
    (Int.zpow_le_iff_le_log (b := 2) (by norm_num) hpos).mp (by simpa using h1)
  have a2 : Int.log 2 |x| < e + 1 :=
    (Int.lt_zpow_iff_log_lt (b := 2) (by norm_num) hpos).mp (by simpa using h2)
  omega

theorem roundFloat_eval (prec : Nat) (emin : Int) (x : ℚ) (e m : Int) (he : emin ≤ e)
    (h1 : (2 : ℚ) ^ e ≤ |x|) (h2 : |x| < (2 : ℚ) ^ (e + 1))
    (h3 : |x / (2 : ℚ) ^ (e - ((prec : Int) - 1)) - m| < 1 / 2) :
    roundFloat prec emin x = (m : ℚ) * (2 : ℚ) ^ (e - ((prec : Int) - 1)) := by
  have hlog := log_eq_of_bounds h1 h2
  have hu : ulpExponent prec emin x = e - ((prec : Int) - 1) := by
    unfold ulpExponent
    rw [hlog, max_eq_left he]
  unfold roundFloat
  rw [hu, roundHalfEven_eq h3]

theorem ulpExponent_ge (prec : Nat) (emin : Int) (x : ℚ) :
    emin - ((prec : Int) - 1) ≤ ulpExponent prec emin x := by
  unfold ulpExponent
  have := le_max_right (Int.log 2 |x|) emin
  omega

theorem roundFloat_le_of_le {prec : Nat} {emin : Int} {x r : ℚ} (hp : 1 ≤ prec)
    (hr : Representable prec emin r) (h : x ≤ r) : roundFloat prec emin x ≤ r := by
  obtain ⟨m, k, hm, hk, rfl⟩ := hr
  obtain ⟨q, rfl⟩ : ∃ q, prec = q + 1 := ⟨prec - 1, by omega⟩
  by_cases hx0 : x = 0
  · rw [hx0, roundFloat_zero]
    rw [hx0] at h
    exact h
  have hU : (0 : ℚ) < (2 : ℚ) ^ ulpExponent (q + 1) emin x := two_zpow_pos _
  by_cases hku : ulpExponent (q + 1) emin x ≤ k
  · obtain ⟨d, hd⟩ : ∃ d : Nat, k = ulpExponent (q + 1) emin x + d :=
      ⟨(k - ulpExponent (q + 1) emin x).toNat, by omega⟩
    have hr' : (m : ℚ) * (2 : ℚ) ^ k =
        ((m * 2 ^ d : Int) : ℚ) * (2 : ℚ) ^ ulpExponent (q + 1) emin x := by
      rw [hd, zpow_add₀ (by norm_num), zpow_natCast]
      push_cast
      ring
    rw [hr'] at h ⊢
    have h1 : x / (2 : ℚ) ^ ulpExponent (q + 1) emin x ≤ ((m * 2 ^ d : Int) : ℚ) := by
      rw [div_le_iff₀ hU]
      exact h
    have h2 := roundHalfEven_le h1
    unfold roundFloat
    exact mul_le_mul_of_nonneg_right (by exact_mod_cast h2) hU.le
  · push_neg at hku
    have hlog : ulpExponent (q + 1) emin x = Int.log 2 |x| - (q : Int) := by
      unfold ulpExponent at hku ⊢
      push_cast at hku hk ⊢
      rcases max_cases (Int.log 2 |x|) emin with ⟨h1, _⟩ | ⟨h1, _⟩
      · rw [h1]
        ring
      · rw [h1] at hku
        omega
    have hE := zpow_log_le_abs hx0
    have hm' : |(m : ℚ)| < (2 : ℚ) ^ ((q : Int) + 1) := by
      have h0 : (2 : ℚ) ^ ((q : Int) + 1) = (2 : ℚ) ^ (q + 1) := by
        rw [← zpow_natCast]
        push_cast
        rfl
      rw [h0]
      exact_mod_cast hm
    have hr1 : |(m : ℚ) * (2 : ℚ) ^ k| < (2 : ℚ) ^ Int.log 2 |x| := by
      rw [abs_mul, abs_of_pos (two_zpow_pos k)]
      calc |(m : ℚ)| * (2 : ℚ) ^ k < (2 : ℚ) ^ ((q : Int) + 1) * (2 : ℚ) ^ k :=
            mul_lt_mul_of_pos_right hm' (two_zpow_pos k)
        _ = (2 : ℚ) ^ ((q : Int) + 1 + k) := (zpow_add₀ (by norm_num) _ _).symm
        _ ≤ (2 : ℚ) ^ Int.log 2 |x| := zpow_le_zpow_right₀ (by norm_num) (by omega)
    have hxneg : x < 0 := by
      by_contra hcon
      push_neg at hcon
      have hax : |x| = x := abs_of_nonneg hcon
      have := le_abs_self ((m : ℚ) * (2 : ℚ) ^ k)
      linarith
    have hax : |x| = -x := abs_of_neg hxneg
    have hsplit : (2 : ℚ) ^ Int.log 2 |x| =
        (((2 : Int) ^ q : Int) : ℚ) * (2 : ℚ) ^ ulpExponent (q + 1) emin x := by
      rw [hlog]
      push_cast
      rw [← zpow_natCast, ← zpow_add₀ (by norm_num)]
      congr 1
      ring
    have h1 : x / (2 : ℚ) ^ ulpExponent (q + 1) emin x ≤ ((-(2 : Int) ^ q : Int) : ℚ) := by
      rw [div_le_iff₀ hU]
      have h5 : x ≤ -(2 : ℚ) ^ Int.log 2 |x| := by linarith
      rw [hsplit] at h5
      push_cast at h5 ⊢
      linarith
    have h2 := roundHalfEven_le h1
    unfold roundFloat
    have h3 : (roundHalfEven (x / (2 : ℚ) ^ ulpExponent (q + 1) emin x) : ℚ) *
        (2 : ℚ) ^ ulpExponent (q + 1) emin x ≤
        ((-(2 : Int) ^ q : Int) : ℚ) * (2 : ℚ) ^ ulpExponent (q + 1) emin x :=
      mul_le_mul_of_nonneg_right (by exact_mod_cast h2) hU.le
    have h4 : ((-(2 : Int) ^ q : Int) : ℚ) * (2 : ℚ) ^ ulpExponent (q + 1) emin x =
        -(2 : ℚ) ^ Int.log 2 |x| := by
      rw [hsplit]
      push_cast
      ring
    have := neg_abs_le ((m : ℚ) * (2 : ℚ) ^ k)
    linarith


theorem roundHalfEven_neg (y : ℚ) : roundHalfEven (-y) = -roundHalfEven y := by
  by_cases hint : (Int.floor y : ℚ) = y
  · rw [← hint, ← Int.cast_neg, roundHalfEven_intCast, roundHalfEven_intCast]
  · have h1 : (Int.floor y : ℚ) < y := lt_of_le_of_ne (Int.floor_le y) hint
    have h2 : y < (Int.floor y : ℚ) + 1 := Int.lt_floor_add_one y
    have hf : Int.floor (-y) = -Int.floor y - 1 :=
      Int.floor_eq_iff.mpr ⟨by push_cast; linarith, by push_cast; linarith⟩
    unfold roundHalfEven
    rw [hf]
    push_cast
    split_ifs <;> first | omega | linarith

theorem ulpExponent_neg (prec : Nat) (emin : Int) (x : ℚ) :
    ulpExponent prec emin (-x) = ulpExponent prec emin x := by
  unfold ulpExponent
  rw [abs_neg]

theorem roundFloat_neg (prec : Nat) (emin : Int) (x : ℚ) :
    roundFloat prec emin (-x) = -roundFloat prec emin x := by
  unfold roundFloat
  rw [ulpExponent_neg, neg_div, roundHalfEven_neg]
  push_cast
  ring

theorem Representable.neg {prec : Nat} {emin : Int} {r : ℚ} (hr : Representable prec emin r) :
    Representable prec emin (-r) := by
  obtain ⟨m, k, hm, hk, rfl⟩ := hr
  exact ⟨-m, k, by rwa [abs_neg], hk, by push_cast; ring⟩

theorem le_roundFloat_of_le {prec : Nat} {emin : Int} {x r : ℚ} (hp : 1 ≤ prec)
    (hr : Representable prec emin r) (h : r ≤ x) : r ≤ roundFloat prec emin x := by
  have h1 := roundFloat_le_of_le hp hr.neg (neg_le_neg h)
  rw [roundFloat_neg] at h1
  linarith

theorem roundFloat_of_representable {prec : Nat} {emin : Int} {r : ℚ} (hp : 1 ≤ prec)
    (hr : Representable prec emin r) : roundFloat prec emin r = r :=
  le_antisymm (roundFloat_le_of_le hp hr (le_refl r)) (le_roundFloat_of_le hp hr (le_refl r))

theorem representable_zero (prec : Nat) (emin : Int) : Representable prec emin 0 :=
  ⟨0, emin - ((prec : Int) - 1), by simp, le_refl _, by simp⟩

theorem representable_two_zpow {prec : Nat} {emin : Int} (hp : 1 ≤ prec) {e : Int}
    (he : emin - ((prec : Int) - 1) ≤ e) : Representable prec emin ((2 : ℚ) ^ e) :=
  ⟨1, e, by
    rw [abs_one]
    exact one_lt_pow₀ (by norm_num) (by omega), he, by simp⟩

theorem roundFloat_mono_of_pos {prec : Nat} {emin : Int} {x y : ℚ} (hp : 1 ≤ prec)
    (hx : 0 < x) (h : x ≤ y) : roundFloat prec emin x ≤ roundFloat prec emin y := by
  have hy : 0 < y := lt_of_lt_of_le hx h
  have hlog : Int.log 2 |x| ≤ Int.log 2 |y| := by
    rw [abs_of_pos hx, abs_of_pos hy]
    exact Int.log_mono_right hx h
  by_cases hu : ulpExponent prec emin x = ulpExponent prec emin y
  · unfold roundFloat
    rw [hu]
    have hU := two_zpow_pos (ulpExponent prec emin y)
    have h1 : x / (2 : ℚ) ^ ulpExponent prec emin y ≤ y / (2 : ℚ) ^ ulpExponent prec emin y :=
      div_le_div_of_nonneg_right h hU.le
    exact mul_le_mul_of_nonneg_right (by exact_mod_cast roundHalfEven_mono h1) hU.le
  · have hlt : Int.log 2 |x| < Int.log 2 |y| ∧ emin < Int.log 2 |y| := by
      unfold ulpExponent at hu
      rcases max_cases (Int.log 2 |x|) emin with ⟨h1, h1'⟩ | ⟨h1, h1'⟩ <;>
        rcases max_cases (Int.log 2 |y|) emin with ⟨h2, h2'⟩ | ⟨h2, h2'⟩ <;>
        rw [h1, h2] at hu <;> constructor <;> omega
    have hrep : Representable prec emin ((2 : ℚ) ^ Int.log 2 |y|) :=
      representable_two_zpow hp (by omega)
    have hxle : x ≤ (2 : ℚ) ^ Int.log 2 |y| := by
      have h1 := abs_lt_zpow_log_succ x
      rw [abs_of_pos hx] at h1
      have h2 : (2 : ℚ) ^ (Int.log 2 x + 1) ≤ (2 : ℚ) ^ Int.log 2 |y| := by
        rw [abs_of_pos hx] at hlt
        exact zpow_le_zpow_right₀ (by norm_num) (by omega)
      linarith
    have hley : (2 : ℚ) ^ Int.log 2 |y| ≤ y := by
      have h1 := zpow_log_le_abs (ne_of_gt hy)
      have h2 : |y| = y := abs_of_pos hy
      linarith
    exact le_trans (roundFloat_le_of_le hp hrep hxle) (le_roundFloat_of_le hp hrep hley)

theorem roundFloat_mono {prec : Nat} {emin : Int} {x y : ℚ} (hp : 1 ≤ prec) (h : x ≤ y) :
    roundFloat prec emin x ≤ roundFloat prec emin y := by
  rcases lt_trichotomy 0 x with hx | hx | hx
  · exact roundFloat_mono_of_pos hp hx h
  · rw [← hx] at h ⊢
    rw [roundFloat_zero]
    exact le_roundFloat_of_le hp (representable_zero prec emin) h
  · rcases le_or_lt 0 y with hy | hy
    · exact le_trans (roundFloat_le_of_le hp (representable_zero prec emin) hx.le)
        (le_roundFloat_of_le hp (representable_zero prec emin) hy)
    · have h1 := @roundFloat_mono_of_pos prec emin (-y) (-x) hp (neg_pos.mpr hy) (neg_le_neg h)
      rw [roundFloat_neg, roundFloat_neg] at h1
      linarith


theorem roundFloat_representable {prec : Nat} {emin : Int} (hp : 1 ≤ prec) (x : ℚ) :
    Representable prec emin (roundFloat prec emin x) := by
  obtain ⟨q, rfl⟩ : ∃ q, prec = q + 1 := ⟨prec - 1, by omega⟩
  have hU := two_zpow_pos (ulpExponent (q + 1) emin x)
  have hbound : |x| < (((2 : Int) ^ (q + 1) : Int) : ℚ) * (2 : ℚ) ^ ulpExponent (q + 1) emin x := by
    have h1 := abs_lt_zpow_log_succ x
    have h2 : (2 : ℚ) ^ (Int.log 2 |x| + 1) ≤
        (2 : ℚ) ^ (((q + 1 : Nat) : Int) + ulpExponent (q + 1) emin x) := by
      apply zpow_le_zpow_right₀ (by norm_num)
      unfold ulpExponent
      have := le_max_left (Int.log 2 |x|) emin
      push_cast
      omega
    have h3 : (2 : ℚ) ^ (((q + 1 : Nat) : Int) + ulpExponent (q + 1) emin x) =
        (2 : ℚ) ^ (q + 1) * (2 : ℚ) ^ ulpExponent (q + 1) emin x := by
      rw [zpow_add₀ (by norm_num), zpow_natCast]
    rw [h3] at h2
    push_cast
    linarith
  have hle : x / (2 : ℚ) ^ ulpExponent (q + 1) emin x ≤ (((2 : Int) ^ (q + 1) : Int) : ℚ) := by
    rw [div_le_iff₀ hU]
    exact le_trans (le_abs_self x) hbound.le
  have hge : ((-(2 : Int) ^ (q + 1) : Int) : ℚ) ≤ x / (2 : ℚ) ^ ulpExponent (q + 1) emin x := by
    rw [le_div_iff₀ hU]
    have := neg_abs_le x
    push_cast at hbound ⊢
    linarith
  have h1 := roundHalfEven_le hle
  have h2 := le_roundHalfEven hge
  unfold roundFloat
  set n := roundHalfEven (x / (2 : ℚ) ^ ulpExponent (q + 1) emin x) with hn
  have hpow : (2 : Int) ^ (q + 1) = 2 * 2 ^ q := by ring
  have hpos : (0 : Int) < 2 ^ q := by positivity
  by_cases hlt : |n| < 2 ^ (q + 1)
  · exact ⟨n, _, hlt, ulpExponent_ge _ _ _, rfl⟩
  · have habs : |n| = 2 ^ (q + 1) := by
      have : |n| ≤ 2 ^ (q + 1) := abs_le.mpr ⟨by linarith, h1⟩
      omega
    rcases abs_eq (by positivity : (0 : Int) ≤ 2 ^ (q + 1)) |>.mp habs with hh | hh
    · refine ⟨2 ^ q, ulpExponent (q + 1) emin x + 1, ?_, ?_, ?_⟩
      · rw [abs_of_pos hpos]
        omega
      · have := ulpExponent_ge (q + 1) emin x
        omega
      · rw [hh, zpow_add₀ (by norm_num)]
        push_cast
        ring
    · refine ⟨-2 ^ q, ulpExponent (q + 1) emin x + 1, ?_, ?_, ?_⟩
      · rw [abs_neg, abs_of_pos hpos]
        omega
      · have := ulpExponent_ge (q + 1) emin x
        omega
      · rw [hh, zpow_add₀ (by norm_num)]
        push_cast
        ring

theorem roundFloat_idem {prec : Nat} {emin : Int} (hp : 1 ≤ prec) (x : ℚ) :
    roundFloat prec emin (roundFloat prec emin x) = roundFloat prec emin x :=
  roundFloat_of_representable hp (roundFloat_representable hp x)

/-! ### The two formats of the source: binary32 and binary64 -/

theorem toFloat_le_of_le {x r : ℚ} (hr : Representable 24 (-126) r) (h : x ≤ r) :
    toFloat x ≤ r := roundFloat_le_of_le (by norm_num) hr h

theorem le_toFloat_of_le {x r : ℚ} (hr : Representable 24 (-126) r) (h : r ≤ x) :
    r ≤ toFloat x := le_roundFloat_of_le (by norm_num) hr h

theorem toFloat_of_representable {r : ℚ} (hr : Representable 24 (-126) r) : toFloat r = r :=
  roundFloat_of_representable (by norm_num) hr

theorem toFloat_mono {x y : ℚ} (h : x ≤ y) : toFloat x ≤ toFloat y :=
  roundFloat_mono (by norm_num) h

theorem toFloat_representable (x : ℚ) : Representable 24 (-126) (toFloat x) :=
  roundFloat_representable (by norm_num) x

theorem toDouble_le_of_le {x r : ℚ} (hr : Representable 53 (-1022) r) (h : x ≤ r) :
    toDouble x ≤ r := roundFloat_le_of_le (by norm_num) hr h

theorem le_toDouble_of_le {x r : ℚ} (hr : Representable 53 (-1022) r) (h : r ≤ x) :
    r ≤ toDouble x := le_roundFloat_of_le (by norm_num) hr h

theorem toDouble_of_representable {r : ℚ} (hr : Representable 53 (-1022) r) : toDouble r = r :=
  roundFloat_of_representable (by norm_num) hr

theorem toDouble_mono {x y : ℚ} (h : x ≤ y) : toDouble x ≤ toDouble y :=
  roundFloat_mono (by norm_num) h

theorem toDouble_representable (x : ℚ) : Representable 53 (-1022) (toDouble x) :=
  roundFloat_representable (by norm_num) x

theorem representable_float (m k : Int) (hm : |m| < 2 ^ 24) (hk : -149 ≤ k) :
    Representable 24 (-126) ((m : ℚ) * (2 : ℚ) ^ k) :=
  ⟨m, k, hm, by norm_num; exact hk, rfl⟩

theorem representable_double (m k : Int) (hm : |m| < 2 ^ 53) (hk : -1074 ≤ k) :
    Representable 53 (-1022) ((m : ℚ) * (2 : ℚ) ^ k) :=
  ⟨m, k, hm, by norm_num; exact hk, rfl⟩

theorem representable_float_natCast (n : Nat) (h : n < 2 ^ 24) :
    Representable 24 (-126) (n : ℚ) :=
  ⟨n, 0, by rw [abs_of_nonneg (by positivity)]; exact_mod_cast h, by norm_num, by simp⟩

theorem representable_double_intCast (n : Int) (h : |n| < 2 ^ 53) :
    Representable 53 (-1022) (n : ℚ) :=
  ⟨n, 0, h, by norm_num, by simp⟩

theorem toFloat_natCast (n : Nat) (h : n < 2 ^ 24) : toFloat (n : ℚ) = n :=
  toFloat_of_representable (representable_float_natCast n h)

theorem toFloat_eval (x : ℚ) (e m : Int) (r : ℚ) (he : -126 ≤ e)
    (h1 : (2 : ℚ) ^ e ≤ |x|) (h2 : |x| < (2 : ℚ) ^ (e + 1))
    (h3 : |x / (2 : ℚ) ^ (e - 23) - m| < 1 / 2) (hr : r = (m : ℚ) * (2 : ℚ) ^ (e - 23)) :
    toFloat x = r := by
  have h := roundFloat_eval 24 (-126) x e m he h1 h2 (by norm_num; exact h3)
  rw [hr, toFloat, h]
  norm_num

theorem toDouble_eval (x : ℚ) (e m : Int) (r : ℚ) (he : -1022 ≤ e)
    (h1 : (2 : ℚ) ^ e ≤ |x|) (h2 : |x| < (2 : ℚ) ^ (e + 1))
    (h3 : |x / (2 : ℚ) ^ (e - 52) - m| < 1 / 2) (hr : r = (m : ℚ) * (2 : ℚ) ^ (e - 52)) :
    toDouble x = r := by
  have h := roundFloat_eval 53 (-1022) x e m he h1 h2 (by norm_num; exact h3)
  rw [hr, toDouble, h]
  norm_num

theorem roundHalfEven_eq_of_even {y : ℚ} {m : Int} (h : |y - m| ≤ 1 / 2) (hm : m % 2 = 0) :
    roundHalfEven y = m := by
  rcases lt_or_eq_of_le h with hlt | heq
  · exact roundHalfEven_eq hlt
  · rcases abs_eq (by norm_num : (0 : ℚ) ≤ 1 / 2) |>.mp heq with h1 | h1
    · have hf : Int.floor y = m := Int.floor_eq_iff.mpr ⟨by linarith, by linarith⟩
      unfold roundHalfEven
      rw [hf, if_neg (by linarith), if_neg (by linarith), if_pos hm]
    · have hf : Int.floor y = m - 1 :=
        Int.floor_eq_iff.mpr ⟨by push_cast; linarith, by push_cast; linarith⟩
      unfold roundHalfEven
      rw [hf, if_neg (by push_cast; linarith), if_neg (by push_cast; linarith),
        if_neg (by omega)]
      omega

theorem roundFloat_eval_even (prec : Nat) (emin : Int) (x : ℚ) (e m : Int) (he : emin ≤ e)
    (h1 : (2 : ℚ) ^ e ≤ |x|) (h2 : |x| < (2 : ℚ) ^ (e + 1))
    (h3 : |x / (2 : ℚ) ^ (e - ((prec : Int) - 1)) - m| ≤ 1 / 2) (hm : m % 2 = 0) :
    roundFloat prec emin x = (m : ℚ) * (2 : ℚ) ^ (e - ((prec : Int) - 1)) := by
  have hlog := log_eq_of_bounds h1 h2
  have hu : ulpExponent prec emin x = e - ((prec : Int) - 1) := by
    unfold ulpExponent
    rw [hlog, max_eq_left he]
  unfold roundFloat
  rw [hu, roundHalfEven_eq_of_even h3 hm]

theorem toFloat_eval_even (x : ℚ) (e m : Int) (r : ℚ) (he : -126 ≤ e)
    (h1 : (2 : ℚ) ^ e ≤ |x|) (h2 : |x| < (2 : ℚ) ^ (e + 1))
    (h3 : |x / (2 : ℚ) ^ (e - 23) - m| ≤ 1 / 2) (hm : m % 2 = 0)
    (hr : r = (m : ℚ) * (2 : ℚ) ^ (e - 23)) : toFloat x = r := by
  have h := roundFloat_eval_even 24 (-126) x e m he h1 h2 (by norm_num; exact h3) hm
  rw [hr, toFloat, h]
  norm_num

theorem toDouble_eval_even (x : ℚ) (e m : Int) (r : ℚ) (he : -1022 ≤ e)
    (h1 : (2 : ℚ) ^ e ≤ |x|) (h2 : |x| < (2 : ℚ) ^ (e + 1))
    (h3 : |x / (2 : ℚ) ^ (e - 52) - m| ≤ 1 / 2) (hm : m % 2 = 0)
    (hr : r = (m : ℚ) * (2 : ℚ) ^ (e - 52)) : toDouble x = r := by
  have h := roundFloat_eval_even 53 (-1022) x e m he h1 h2 (by norm_num; exact h3) hm
  rw [hr, toDouble, h]
  norm_num

/-- A float computed from a value that is not negative is not negative. -/
theorem toFloat_nonneg {x : ℚ} (h : 0 ≤ x) : 0 ≤ toFloat x :=
  le_toFloat_of_le (representable_zero _ _) h

theorem toDouble_nonpos {x : ℚ} (h : x ≤ 0) : toDouble x ≤ 0 :=
  toDouble_le_of_le (representable_zero _ _) h

theorem toDouble_nonneg {x : ℚ} (h : 0 ≤ x) : 0 ≤ toDouble x :=
  le_toDouble_of_le (representable_zero _ _) h

theorem toFloat_zero : toFloat 0 = 0 := roundFloat_zero 24 (-126)

theorem toDouble_zero : toDouble 0 = 0 := roundFloat_zero 53 (-1022)

theorem toFloat_neg (x : ℚ) : toFloat (-x) = -toFloat x := roundFloat_neg 24 (-126) x

theorem toDouble_intCast (n : Int) (h : |n| < 2 ^ 53) : toDouble (n : ℚ) = n :=
  toDouble_of_representable (representable_double_intCast n h)

theorem toDouble_natCast (n : Nat) (h : n < 2 ^ 53) : toDouble (n : ℚ) = n := by
  have h1 := toDouble_intCast (n : Int)
    (by rw [abs_of_nonneg (by positivity)]; exact_mod_cast h)
  simpa using h1

theorem representable_float_intCast (n : Int) (h : |n| < 2 ^ 24) :
    Representable 24 (-126) (n : ℚ) :=
  ⟨n, 0, h, by norm_num, by simp⟩

theorem toFloat_intCast (n : Int) (h : |n| < 2 ^ 24) : toFloat (n : ℚ) = n :=
  toFloat_of_representable (representable_float_intCast n h)

/-- A rational that is an integer of fewer than 54 bits over a power of two not
above `2 ^ 1074` is a `double`. -/
theorem representable_double_div (m : Int) (k : Nat) (hm : |m| < 2 ^ 53) (hk : k ≤ 1074) :
    Representable 53 (-1022) ((m : ℚ) / 2 ^ k) :=
  ⟨m, -(k : Int), hm, by norm_num; omega, by rw [zpow_neg, zpow_natCast]; rfl⟩

/-! ### The error of a rounding -/

theorem abs_roundHalfEven_sub_le (y : ℚ) : |(roundHalfEven y : ℚ) - y| ≤ 1 / 2 := by
  have h1 := Int.floor_le y
  have h2 := Int.lt_floor_add_one y
  unfold roundHalfEven
  rw [abs_le]
  split_ifs with a b c <;> push_cast <;> constructor <;> linarith

/-- The error of a rounding is at most half a unit in the last place. -/
theorem abs_roundFloat_sub_le (prec : Nat) (emin : Int) (x : ℚ) :
    |roundFloat prec emin x - x| ≤ (2 : ℚ) ^ ulpExponent prec emin x / 2 := by
  have hU := two_zpow_pos (ulpExponent prec emin x)
  have h := abs_roundHalfEven_sub_le (x / (2 : ℚ) ^ ulpExponent prec emin x)
  have hx : roundFloat prec emin x - x =
      ((roundHalfEven (x / (2 : ℚ) ^ ulpExponent prec emin x) : ℚ) -
        x / (2 : ℚ) ^ ulpExponent prec emin x) * (2 : ℚ) ^ ulpExponent prec emin x := by
    unfold roundFloat
    field_simp
  rw [hx, abs_mul, abs_of_pos hU]
  calc _ ≤ 1 / 2 * (2 : ℚ) ^ ulpExponent prec emin x := mul_le_mul_of_nonneg_right h hU.le
    _ = (2 : ℚ) ^ ulpExponent prec emin x / 2 := by ring

/-- The error of a rounding to `double` is at most `2 ^ -53` times the value,
plus `2 ^ -1075` for a value in the subnormal range. -/
theorem abs_toDouble_sub_le (x : ℚ) :
    |toDouble x - x| ≤ |x| / 2 ^ 53 + 1 / 2 ^ 1075 := by
  by_cases hx : x = 0
  · rw [hx, toDouble_zero]
    norm_num
  have h := abs_roundFloat_sub_le 53 (-1022) x
  have hlog := zpow_log_le_abs hx
  have hU : (2 : ℚ) ^ ulpExponent 53 (-1022) x ≤ (|x| + (2 : ℚ) ^ (-1022 : Int)) / 2 ^ 52 := by
    unfold ulpExponent
    have hsplit : (2 : ℚ) ^ (max (Int.log 2 |x|) (-1022) - ((53 : Nat) - 1 : Int)) =
        (2 : ℚ) ^ max (Int.log 2 |x|) (-1022) / 2 ^ 52 := by
      rw [zpow_sub₀ (by norm_num)]
      norm_num
    rw [hsplit]
    apply div_le_div_of_nonneg_right _ (by positivity)
    rcases le_total (Int.log 2 |x|) (-1022) with hle | hle
    · rw [max_eq_right hle]
      linarith [abs_nonneg x]
    · rw [max_eq_left hle]
      linarith [two_zpow_pos (-1022)]
  have h2 : ((2 : ℚ) ^ (-1022 : Int)) / 2 ^ 52 / 2 = 1 / 2 ^ 1075 := by
    rw [zpow_neg]
    norm_num
  unfold toDouble
  calc |roundFloat 53 (-1022) x - x| ≤ (2 : ℚ) ^ ulpExponent 53 (-1022) x / 2 := h
    _ ≤ (|x| + (2 : ℚ) ^ (-1022 : Int)) / 2 ^ 52 / 2 :=
      div_le_div_of_nonneg_right hU (by norm_num)
    _ = |x| / 2 ^ 53 + ((2 : ℚ) ^ (-1022 : Int)) / 2 ^ 52 / 2 := by ring
    _ = |x| / 2 ^ 53 + 1 / 2 ^ 1075 := by rw [h2]

/-- The error of a rounding to `float` is at most `2 ^ -24` times the value,
plus `2 ^ -150` for a value in the subnormal range. -/
theorem abs_toFloat_sub_le (x : ℚ) :
    |toFloat x - x| ≤ |x| / 2 ^ 24 + 1 / 2 ^ 150 := by
  by_cases hx : x = 0
  · rw [hx, toFloat_zero]
    norm_num
  have h := abs_roundFloat_sub_le 24 (-126) x
  have hlog := zpow_log_le_abs hx
  have hU : (2 : ℚ) ^ ulpExponent 24 (-126) x ≤ (|x| + (2 : ℚ) ^ (-126 : Int)) / 2 ^ 23 := by
    unfold ulpExponent
    have hsplit : (2 : ℚ) ^ (max (Int.log 2 |x|) (-126) - ((24 : Nat) - 1 : Int)) =
        (2 : ℚ) ^ max (Int.log 2 |x|) (-126) / 2 ^ 23 := by
      rw [zpow_sub₀ (by norm_num)]
      norm_num
    rw [hsplit]
    apply div_le_div_of_nonneg_right _ (by positivity)
    rcases le_total (Int.log 2 |x|) (-126) with hle | hle
    · rw [max_eq_right hle]
      linarith [abs_nonneg x]
    · rw [max_eq_left hle]
      linarith [two_zpow_pos (-126)]
  have h2 : ((2 : ℚ) ^ (-126 : Int)) / 2 ^ 23 / 2 = 1 / 2 ^ 150 := by
    rw [zpow_neg]
    norm_num
  unfold toFloat
  calc |roundFloat 24 (-126) x - x| ≤ (2 : ℚ) ^ ulpExponent 24 (-126) x / 2 := h
    _ ≤ (|x| + (2 : ℚ) ^ (-126 : Int)) / 2 ^ 23 / 2 :=
      div_le_div_of_nonneg_right hU (by norm_num)
    _ = |x| / 2 ^ 24 + ((2 : ℚ) ^ (-126 : Int)) / 2 ^ 23 / 2 := by ring
    _ = |x| / 2 ^ 24 + 1 / 2 ^ 150 := by rw [h2]

/-- Rounding to `float` a value that is within `ε` of `z` and of size at most
`M` gives a value within `ε + M * 2 ^ -24 + 2 ^ -150` of `z`. -/
theorem toFloat_near {x z ε M : ℚ} (h : |x - z| ≤ ε) (hM : |x| ≤ M) :
    |toFloat x - z| ≤ ε + M / 2 ^ 24 + 1 / 2 ^ 150 := by
  have h1 := abs_toFloat_sub_le x
  have h2 : |x| / 2 ^ 24 ≤ M / (2 : ℚ) ^ 24 := div_le_div_of_nonneg_right hM (by positivity)
  have h3 : |toFloat x - z| ≤ |toFloat x - x| + |x - z| := abs_sub_le _ _ _
  linarith

/-- Rounding to `double` a value that is within `ε` of `z` and of size at most
`M` gives a value within `ε + M * 2 ^ -53 + 2 ^ -1075` of `z`. -/
theorem toDouble_near {x z ε M : ℚ} (h : |x - z| ≤ ε) (hM : |x| ≤ M) :
    |toDouble x - z| ≤ ε + M / 2 ^ 53 + 1 / 2 ^ 1075 := by
  have h1 := abs_toDouble_sub_le x
  have h2 : |x| / 2 ^ 53 ≤ M / (2 : ℚ) ^ 53 := div_le_div_of_nonneg_right hM (by positivity)
  have h3 : |toDouble x - z| ≤ |toDouble x - x| + |x - z| := abs_sub_le _ _ _
  linarith

/-- The function `std::clamp` does not increase distances. -/
theorem clamp_near (a b lo hi : ℚ) (h : lo ≤ hi) :
    |clamp a lo hi - clamp b lo hi| ≤ |a - b| := by
  unfold clamp
  split_ifs <;> rw [abs_le] <;> constructor <;>
    first
    | linarith [le_abs_self (a - b), neg_abs_le (a - b), abs_nonneg (a - b)]

/-! ## The float literals of the effect chain -/

theorem toFloat_one_tenth : toFloat (1 / 10) = 13421773 / 134217728 :=
  toFloat_eval _ (-4) (13421773) _ (by norm_num) (by norm_num [abs_of_neg, abs_of_pos])
    (by norm_num [abs_of_neg, abs_of_pos]) (by norm_num [abs_lt]) (by norm_num)
theorem toFloat_four_tenths : toFloat (4 / 10) = 13421773 / 33554432 :=
  toFloat_eval _ (-2) (13421773) _ (by norm_num) (by norm_num [abs_of_neg, abs_of_pos])
    (by norm_num [abs_of_neg, abs_of_pos]) (by norm_num [abs_lt]) (by norm_num)
theorem toFloat_eight_tenths : toFloat (8 / 10) = 13421773 / 16777216 :=
  toFloat_eval _ (-1) (13421773) _ (by norm_num) (by norm_num [abs_of_neg, abs_of_pos])
    (by norm_num [abs_of_neg, abs_of_pos]) (by norm_num [abs_lt]) (by norm_num)
theorem toFloat_nine_tenths : toFloat (9 / 10) = 7549747 / 8388608 :=
  toFloat_eval _ (-1) (15099494) _ (by norm_num) (by norm_num [abs_of_neg, abs_of_pos])
    (by norm_num [abs_of_neg, abs_of_pos]) (by norm_num [abs_lt]) (by norm_num)
theorem toFloat_eleven_tenths : toFloat (11 / 10) = 9227469 / 8388608 :=
  toFloat_eval _ (0) (9227469) _ (by norm_num) (by norm_num [abs_of_neg, abs_of_pos])
    (by norm_num [abs_of_neg, abs_of_pos]) (by norm_num [abs_lt]) (by norm_num)

theorem toFloat_one : toFloat 1 = 1 := by
  simpa using toFloat_intCast 1 (by norm_num)

theorem representable_float_of_nat_le (n : Nat) (h : n ≤ 255) :
    Representable 24 (-126) (n : ℚ) :=
  representable_float_natCast n (lt_of_le_of_lt h (by norm_num))

theorem toFloat_sample (n : Nat) (h : n ≤ 255) : toFloat (n : ℚ) = n :=
  toFloat_natCast n (lt_of_le_of_lt h (by norm_num))

/-- A float computed from a value between two samples lies between them. -/
theorem toFloat_mem_samples {x : ℚ} {a b : Nat} (ha : a ≤ 255) (hb : b ≤ 255)
    (h1 : (a : ℚ) ≤ x) (h2 : x ≤ (b : ℚ)) : (a : ℚ) ≤ toFloat x ∧ toFloat x ≤ (b : ℚ) :=
  ⟨le_toFloat_of_le (representable_float_of_nat_le a ha) h1,
    toFloat_le_of_le (representable_float_of_nat_le b hb) h2⟩

/-! ## The distance of the float results from the exact values -/

/-- A value within `ε` of a value of size at most `M` has size at most
`M + ε`. -/
theorem abs_le_of_near {x z ε M : ℚ} (h : |x - z| ≤ ε) (hM : |z| ≤ M) : |x| ≤ M + ε := by
  have h1 := abs_sub_abs_le_abs_sub x z
  linarith

/-- The product of two approximations approximates the product. -/
theorem mul_near {a a' c c' εa εc A C : ℚ} (ha : |a - a'| ≤ εa) (hc : |c - c'| ≤ εc)
    (hA : |a| ≤ A) (hC : |c'| ≤ C) : |a * c - a' * c'| ≤ A * εc + C * εa := by
  have h : a * c - a' * c' = a * (c - c') + (a - a') * c' := by ring
  rw [h]
  calc |a * (c - c') + (a - a') * c'| ≤ |a * (c - c')| + |(a - a') * c'| := abs_add _ _
    _ = |a| * |c - c'| + |a - a'| * |c'| := by rw [abs_mul, abs_mul]
    _ ≤ A * εc + εa * C := by
        apply add_le_add
        · exact mul_le_mul hA hc (abs_nonneg _) (le_trans (abs_nonneg _) hA)
        · exact mul_le_mul ha hC (abs_nonneg _) (le_trans (abs_nonneg _) ha)
    _ = A * εc + C * εa := by ring

/-- The truncation of a value that is not negative and the truncation of a
value within `10 ^ -3` of it differ by at most 1. -/
theorem natFloor_sub_truncate_le {x y : ℚ} (hx : 0 ≤ x) (hy : 0 ≤ y)
    (h : |x - y| ≤ 1 / 1000) : |((Nat.floor x : Nat) : Int) - truncate y| ≤ 1 := by
  rw [abs_le] at h
  have hx1 := Int.floor_le x
  have hx2 := Int.lt_floor_add_one x
  have hy1 := Int.floor_le y
  have hy2 := Int.lt_floor_add_one y
  unfold truncate
  rw [if_pos hy, Int.natCast_floor_eq_floor hx, abs_le]
  constructor
  · have h1 : ((Int.floor y : Int) : ℚ) < (Int.floor x : ℚ) + 2 := by linarith
    have h2 : Int.floor y < Int.floor x + 2 := by exact_mod_cast h1
    omega
  · have h1 : ((Int.floor x : Int) : ℚ) < (Int.floor y : ℚ) + 2 := by linarith
    have h2 : Int.floor x < Int.floor y + 2 := by exact_mod_cast h1
    omega

/-- The float sum of the surface-noise stage for a draw in `[-1, 1]` is within
`10 ^ -3` of the exact sum. -/
theorem noise_sum_near (s : Nat) (hs : s ≤ 255) (d : ℚ) (hd : |d| ≤ 1) :
    |toFloat ((s : ℚ) + toFloat (d * 255)) - ((s : ℚ) + d * 255)| ≤ 1 / 1000 := by
  have hs0 : (0 : ℚ) ≤ (s : ℚ) := Nat.cast_nonneg s
  have hs1 : (s : ℚ) ≤ 255 := by exact_mod_cast hs
  obtain ⟨hd0, hd1⟩ := abs_le.mp hd
  have e0 : |d * 255 - d * 255| ≤ 0 := by simp
  have hMp : |d * 255| ≤ 255 := abs_le.mpr ⟨by linarith, by linarith⟩
  have ep : |toFloat (d * 255) - d * 255| ≤ 2 / 10 ^ 5 :=
    le_trans (toFloat_near e0 hMp) (by norm_num)
  have es0 : |((s : ℚ) + toFloat (d * 255)) - ((s : ℚ) + d * 255)| ≤ 2 / 10 ^ 5 := by
    have h : ((s : ℚ) + toFloat (d * 255)) - ((s : ℚ) + d * 255) =
        toFloat (d * 255) - d * 255 := by ring
    rw [h]
    exact ep
  have hMs : |(s : ℚ) + d * 255| ≤ 510 := abs_le.mpr ⟨by linarith, by linarith⟩
  have ms : |(s : ℚ) + toFloat (d * 255)| ≤ 511 :=
    le_trans (abs_le_of_near es0 hMs) (by norm_num)
  exact le_trans (toFloat_near es0 ms) (by norm_num)

/-- The expression `0.8f + g * 0.4f` of `applyGrooveDepth`, as the code
evaluates it for a groove depth in `[0, 0.21]`, is within `10 ^ -7` of
`0.8 + 0.4 * g`. -/
theorem depth_expression_near (g : ℚ) (h0 : 0 ≤ g) (h1 : g ≤ 21 / 100) :
    |toFloat (toDouble (toFloat (8 / 10) + toDouble (g * toFloat (4 / 10)))) -
      (8 / 10 + 4 / 10 * g)| ≤ 1 / 10 ^ 7 := by
  have c4 : |toFloat (4 / 10) - 4 / 10| ≤ 6 / 10 ^ 9 := by
    rw [toFloat_four_tenths, abs_le]
    constructor <;> norm_num
  have c8 : |toFloat (8 / 10) - 8 / 10| ≤ 12 / 10 ^ 9 := by
    rw [toFloat_eight_tenths, abs_le]
    constructor <;> norm_num
  have hg : |g - g| ≤ 0 := by simp
  have hMg : |g| ≤ 21 / 100 := abs_le.mpr ⟨by linarith, by linarith⟩
  have a4 : |(4 / 10 : ℚ)| ≤ 4 / 10 := by rw [abs_of_pos (by norm_num)]
  have em0 := mul_near hg c4 hMg a4
  have hMm : |g * (4 / 10)| ≤ 1 / 10 := abs_le.mpr ⟨by linarith, by linarith⟩
  have mm0 : |g * toFloat (4 / 10)| ≤ 1 := le_trans (abs_le_of_near em0 hMm) (by norm_num)
  have em : |toDouble (g * toFloat (4 / 10)) - g * (4 / 10)| ≤ 2 / 10 ^ 9 :=
    le_trans (toDouble_near em0 mm0) (by norm_num)
  have es0 : |(toFloat (8 / 10) + toDouble (g * toFloat (4 / 10))) -
      (8 / 10 + g * (4 / 10))| ≤ 12 / 10 ^ 9 + 2 / 10 ^ 9 := by
    have h : (toFloat (8 / 10) + toDouble (g * toFloat (4 / 10))) - (8 / 10 + g * (4 / 10)) =
        (toFloat (8 / 10) - 8 / 10) + (toDouble (g * toFloat (4 / 10)) - g * (4 / 10)) := by
      ring
    rw [h]
    exact le_trans (abs_add _ _) (add_le_add c8 em)
  have hMs : |(8 / 10 : ℚ) + g * (4 / 10)| ≤ 9 / 10 := abs_le.mpr ⟨by linarith, by linarith⟩
  have ms0 : |toFloat (8 / 10) + toDouble (g * toFloat (4 / 10))| ≤ 1 :=
    le_trans (abs_le_of_near es0 hMs) (by norm_num)
  have es : |toDouble (toFloat (8 / 10) + toDouble (g * toFloat (4 / 10))) -
      (8 / 10 + g * (4 / 10))| ≤ 15 / 10 ^ 9 :=
    le_trans (toDouble_near es0 ms0) (by norm_num)
  have ms : |toDouble (toFloat (8 / 10) + toDouble (g * toFloat (4 / 10)))| ≤ 1 :=
    le_trans (abs_le_of_near es hMs) (by norm_num)
  have ek := le_trans (toFloat_near es ms) (by norm_num : _ ≤ (1 : ℚ) / 10 ^ 7)
  have hr : (8 / 10 + 4 / 10 * g : ℚ) = 8 / 10 + g * (4 / 10) := by ring
  rw [hr]
  exact ek

/-! ## The values the stages narrow -/

theorem noiseValue_mem (s : Nat) (noise : ℚ) :
    0 ≤ noiseValue s noise ∧ noiseValue s noise ≤ 255 :=
  ⟨clamp_ge (by norm_num), clamp_le (by norm_num)⟩

theorem flutterValue_mem (s : Nat) (d : ℚ) :
    0 ≤ flutterValue s d ∧ flutterValue s d ≤ 255 :=
  ⟨clamp_ge (by norm_num), clamp_le (by norm_num)⟩

theorem depthValue_mem (s : Nat) (factor : ℚ) :
    0 ≤ depthValue s factor ∧ depthValue s factor ≤ 255 :=
  ⟨clamp_ge (by norm_num), clamp_le (by norm_num)⟩

theorem eqValue_mem (s : Nat) (eq_factor c : ℚ) :
    0 ≤ eqValue s eq_factor c ∧ eqValue s eq_factor c ≤ 255 :=
  ⟨clamp_ge (by norm_num), clamp_le (by norm_num)⟩

theorem eqValueR_mem (s : Nat) (eq_factor : ℚ) :
    0 ≤ eqValueR s eq_factor ∧ eqValueR s eq_factor ≤ 255 :=
  ⟨clamp_ge (by norm_num), clamp_le (by norm_num)⟩

theorem pressureFactor_mem (params : VinylParameters) :
    1 / 2 ≤ pressureFactor params ∧ pressureFactor params ≤ 1 :=
  ⟨clamp_ge (by norm_num), clamp_le (by norm_num)⟩

theorem pressureValue_mem (s : Nat) (hs : s ≤ 255) (params : VinylParameters) :
    0 ≤ pressureValue s (pressureFactor params) ∧
      pressureValue s (pressureFactor params) ≤ 255 := by
  have hk := pressureFactor_mem params
  have h0 : (0 : ℚ) ≤ (s : ℚ) := Nat.cast_nonneg s
  have h1 : (s : ℚ) ≤ 255 := by exact_mod_cast hs
  have hx0 : (0 : ℚ) ≤ (s : ℚ) * pressureFactor params := mul_nonneg h0 (by linarith)
  have hx1 : (s : ℚ) * pressureFactor params ≤ 255 := by
    calc (s : ℚ) * pressureFactor params ≤ (s : ℚ) * 1 :=
        mul_le_mul_of_nonneg_left hk.2 h0
      _ ≤ 255 := by linarith
  have h := toFloat_mem_samples (a := 0) (b := 255) (by norm_num) (by norm_num)
    (by simpa using hx0) (by simpa using hx1)
  unfold pressureValue
  simpa using h

theorem pressureFactor_of_le_one (params : VinylParameters)
    (hp : params.needle_pressure ≤ 1) : pressureFactor params = 1 := by
  have rep1 : Representable 53 (-1022) 1 := by
    simpa using representable_double_intCast 1 (by norm_num)
  have rep1f : Representable 24 (-126) 1 := by
    simpa using representable_float_intCast 1 (by norm_num)
  have h1 : toDouble (params.needle_pressure - 1) ≤ 0 :=
    toDouble_le_of_le (representable_zero _ _) (by linarith)
  have hc : 0 ≤ toFloat (1 / 10) :=
    le_toFloat_of_le (representable_zero _ _) (by norm_num)
  have h2 : toDouble (toDouble (params.needle_pressure - 1) * toFloat (1 / 10)) ≤ 0 :=
    toDouble_le_of_le (representable_zero _ _) (mul_nonpos_of_nonpos_of_nonneg h1 hc)
  have h3 : 1 ≤ toDouble (1 - toDouble (toDouble (params.needle_pressure - 1) *
      toFloat (1 / 10))) := le_toDouble_of_le rep1 (by linarith)
  have h4 : 1 ≤ toFloat (toDouble (1 - toDouble (toDouble (params.needle_pressure - 1) *
      toFloat (1 / 10)))) := le_toFloat_of_le rep1f h3
  unfold pressureFactor clamp
  split_ifs with a b
  · linarith
  · rfl
  · linarith

/-! ## The stages on well-formed buffers -/

theorem samplesOk_cons3 {r g b : Nat} {tl : List Nat} (hr : r ≤ 255) (hg : g ≤ 255)
    (hb : b ≤ 255) (htl : SamplesOk tl) : SamplesOk (r :: g :: b :: tl) := by
  intro x hx
  simp only [List.mem_cons] at hx
  rcases hx with rfl | rfl | rfl | hx
  · exact hr
  · exact hg
  · exact hb
  · exact htl x hx

theorem length_tail3 {r g b : Nat} {rest : List Nat}
    (h : (r :: g :: b :: rest).length % 3 = 0) : rest.length % 3 = 0 := by
  simp only [List.length_cons] at h
  omega

theorem surfaceNoiseLoop_ok (draws : Nat → ℚ) :
    ∀ (k : Nat) (data : List Nat), data.length % 3 = 0 →
      ∃ out, surfaceNoiseLoop draws k data = .ok out ∧ out.length = data.length ∧
        SamplesOk out
  | _, [], _ => ⟨[], rfl, rfl, by simp [SamplesOk]⟩
  | _, [_], h => by simp at h
  | _, [_, _], h => by simp at h
  | k, r :: g :: b :: rest, h => by
    obtain ⟨tl, htl, hlen, hok⟩ := surfaceNoiseLoop_ok draws (k + 1) rest (length_tail3 h)
    obtain ⟨r1, hr, hr1⟩ := toUInt8_of_mem_Icc _ (noiseValue_mem r (draws k)).1
      (noiseValue_mem r (draws k)).2
    obtain ⟨g1, hg, hg1⟩ := toUInt8_of_mem_Icc _ (noiseValue_mem g (draws k)).1
      (noiseValue_mem g (draws k)).2
    obtain ⟨b1, hb, hb1⟩ := toUInt8_of_mem_Icc _ (noiseValue_mem b (draws k)).1
      (noiseValue_mem b (draws k)).2
    refine ⟨r1 :: g1 :: b1 :: tl, ?_, by simp [hlen], samplesOk_cons3 hr1 hg1 hb1 hok⟩
    simp [surfaceNoiseLoop, hr, hg, hb, htl, bind, Except.bind, pure, Except.pure]

theorem wowFlutterLoop_ok (distortion : Nat → ℚ) :
    ∀ (i : Nat) (data : List Nat), data.length % 3 = 0 →
      ∃ out, wowFlutterLoop distortion i data = .ok out ∧ out.length = data.length ∧
        SamplesOk out
  | _, [], _ => ⟨[], rfl, rfl, by simp [SamplesOk]⟩
  | _, [_], h => by simp at h
  | _, [_, _], h => by simp at h
  | i, r :: g :: b :: rest, h => by
    obtain ⟨tl, htl, hlen, hok⟩ := wowFlutterLoop_ok distortion (i + 3) rest (length_tail3 h)
    obtain ⟨r1, hr, hr1⟩ := toUInt8_of_mem_Icc _ (flutterValue_mem r (distortion i)).1
      (flutterValue_mem r (distortion i)).2
    obtain ⟨g1, hg, hg1⟩ := toUInt8_of_mem_Icc _ (flutterValue_mem g (distortion i)).1
      (flutterValue_mem g (distortion i)).2
    obtain ⟨b1, hb, hb1⟩ := toUInt8_of_mem_Icc _ (flutterValue_mem b (distortion i)).1
      (flutterValue_mem b (distortion i)).2
    refine ⟨r1 :: g1 :: b1 :: tl, ?_, by simp [hlen], samplesOk_cons3 hr1 hg1 hb1 hok⟩
    simp [wowFlutterLoop, hr, hg, hb, htl, bind, Except.bind, pure, Except.pure]

theorem grooveDepthLoop_ok (factor : ℚ) :
    ∀ (data : List Nat), data.length % 3 = 0 →
      ∃ out, grooveDepthLoop factor data = .ok out ∧ out.length = data.length ∧
        SamplesOk out
  | [], _ => ⟨[], rfl, rfl, by simp [SamplesOk]⟩
  | [_], h => by simp at h
  | [_, _], h => by simp at h
  | r :: g :: b :: rest, h => by
    obtain ⟨tl, htl, hlen, hok⟩ := grooveDepthLoop_ok factor rest (length_tail3 h)
    obtain ⟨r1, hr, hr1⟩ := toUInt8_of_mem_Icc _ (depthValue_mem r factor).1
      (depthValue_mem r factor).2
    obtain ⟨g1, hg, hg1⟩ := toUInt8_of_mem_Icc _ (depthValue_mem g factor).1
      (depthValue_mem g factor).2
    obtain ⟨b1, hb, hb1⟩ := toUInt8_of_mem_Icc _ (depthValue_mem b factor).1
      (depthValue_mem b factor).2
    refine ⟨r1 :: g1 :: b1 :: tl, ?_, by simp [hlen], samplesOk_cons3 hr1 hg1 hb1 hok⟩
    simp [grooveDepthLoop, hr, hg, hb, htl, bind, Except.bind, pure, Except.pure]

theorem eqCurveLoop_ok (eq_factor : ℚ) :
    ∀ (data : List Nat), data.length % 3 = 0 →
      ∃ out, eqCurveLoop eq_factor data = .ok out ∧ out.length = data.length ∧
        SamplesOk out
  | [], _ => ⟨[], rfl, rfl, by simp [SamplesOk]⟩
  | [_], h => by simp at h
  | [_, _], h => by simp at h
  | r :: g :: b :: rest, h => by
    obtain ⟨tl, htl, hlen, hok⟩ := eqCurveLoop_ok eq_factor rest (length_tail3 h)
    obtain ⟨r1, hr, hr1⟩ := toUInt8_of_mem_Icc _ (eqValueR_mem r eq_factor).1
      (eqValueR_mem r eq_factor).2
    obtain ⟨g1, hg, hg1⟩ := toUInt8_of_mem_Icc _ (eqValue_mem g eq_factor (toFloat (9 / 10))).1
      (eqValue_mem g eq_factor (toFloat (9 / 10))).2
    obtain ⟨b1, hb, hb1⟩ := toUInt8_of_mem_Icc _ (eqValue_mem b eq_factor (toFloat (11 / 10))).1
      (eqValue_mem b eq_factor (toFloat (11 / 10))).2
    refine ⟨r1 :: g1 :: b1 :: tl, ?_, by simp [hlen], samplesOk_cons3 hr1 hg1 hb1 hok⟩
    simp [eqCurveLoop, hr, hg, hb, htl, bind, Except.bind, pure, Except.pure]

theorem needlePressureLoop_ok (params : VinylParameters) :
    ∀ (data : List Nat), SamplesOk data →
      ∃ out, needlePressureLoop (pressureFactor params) data = .ok out ∧
        out.length = data.length ∧ SamplesOk out
  | [], _ => ⟨[], rfl, rfl, by simp [SamplesOk]⟩
  | s :: rest, h => by
    have hs : s ≤ 255 := h s (List.mem_cons_self s rest)
    have hrest : SamplesOk rest := fun x hx => h x (List.mem_cons_of_mem s hx)
    obtain ⟨tl, htl, hlen, hok⟩ := needlePressureLoop_ok params rest hrest
    obtain ⟨s1, hs1, hs2⟩ := toUInt8_of_mem_Icc _ (pressureValue_mem s hs params).1
      (pressureValue_mem s hs params).2
    refine ⟨s1 :: tl, ?_, by simp [hlen], ?_⟩
    · simp [needlePressureLoop, hs1, htl, bind, Except.bind, pure, Except.pure]
    · intro x hx
      simp only [List.mem_cons] at hx
      rcases hx with rfl | hx
      · exact hs2
      · exact hok x hx

theorem needlePressureLoop_one :
    ∀ (data : List Nat), SamplesOk data → needlePressureLoop 1 data = .ok data
  | [], _ => rfl
  | s :: rest, h => by
    have hs : s ≤ 255 := h s (List.mem_cons_self s rest)
    have hrest : SamplesOk rest := fun x hx => h x (List.mem_cons_of_mem s hx)
    have h1 : toUInt8 (pressureValue s 1) = .ok s := by
      unfold pressureValue
      rw [mul_one, toFloat_sample s hs]
      exact toUInt8_natCast s hs
    simp [needlePressureLoop, h1, needlePressureLoop_one rest hrest, bind, Except.bind, pure,
      Except.pure]

/-! ## C1: the chain at the neutral setting -/

/-- C1 (counterexample).  At the neutral setting of C1 (noise 0, flutter 0,
needle pressure 1.0, groove depth 0.05, EQ curve 1.0) `applyVinylEffects` turns
the black pixel `(0, 0, 0)` into `(22, 19, 24)`: the returned data differ from
the input data. -/
theorem applyVinylEffects_neutral_black_pixel :
    neutralParameters.surface_noise = 0 ∧ neutralParameters.wow_flutter = 0 ∧
    neutralParameters.needle_pressure ≤ 1 ∧ neutralParameters.groove_depth = 5 / 100 ∧
    neutralParameters.eq_curve = 1 ∧ blackPixel.data.length % 3 = 0 ∧
    applyVinylEffects flatLibm neutralParameters 0 (fun _ => 0) blackPixel =
      .ok { blackPixel with data := [22, 19, 24] } ∧
    applyVinylEffects flatLibm neutralParameters 0 (fun _ => 0) blackPixel ≠ .ok blackPixel := by
  have f1 : toDouble (5 / 100 * (13421773 / 33554432)) = 5764607608933581 / 288230376151711744 :=
    toDouble_eval _ (-6) (5764607608933581) _ (by norm_num) (by norm_num [abs_of_neg, abs_of_pos])
      (by norm_num [abs_of_neg, abs_of_pos]) (by norm_num [abs_lt]) (by norm_num)
  have f2 : toDouble (13421773 / 16777216 + (5764607608933581 / 288230376151711744)) = 3692951749473075 / 4503599627370496 :=
    toDouble_eval _ (-1) (7385903498946150) _ (by norm_num) (by norm_num [abs_of_neg, abs_of_pos])
      (by norm_num [abs_of_neg, abs_of_pos]) (by norm_num [abs_lt]) (by norm_num)
  have f3 : toFloat (3692951749473075 / 4503599627370496) = 13757317 / 16777216 :=
    toFloat_eval _ (-1) (13757317) _ (by norm_num) (by norm_num [abs_of_neg, abs_of_pos])
      (by norm_num [abs_of_neg, abs_of_pos]) (by norm_num [abs_lt]) (by norm_num)
  have d1 : toFloat (0 / 255) = 0 := by
    rw [show (0 / 255 : ℚ) = 0 by norm_num]
    exact toFloat_zero
  have d2 : toFloat (0 - 1 / 2) = -1 / 2 :=
    toFloat_eval _ (-1) (-8388608) _ (by norm_num) (by norm_num [abs_of_neg, abs_of_pos])
      (by norm_num [abs_of_neg, abs_of_pos]) (by norm_num [abs_lt]) (by norm_num)
  have d3 : toFloat (-1 / 2 * (13757317 / 16777216)) = -13757317 / 33554432 :=
    toFloat_eval _ (-2) (-13757317) _ (by norm_num) (by norm_num [abs_of_neg, abs_of_pos])
      (by norm_num [abs_of_neg, abs_of_pos]) (by norm_num [abs_lt]) (by norm_num)
  have d4 : toFloat (-13757317 / 33554432 + 1 / 2) = 3019899 / 33554432 :=
    toFloat_eval _ (-4) (12079596) _ (by norm_num) (by norm_num [abs_of_neg, abs_of_pos])
      (by norm_num [abs_of_neg, abs_of_pos]) (by norm_num [abs_lt]) (by norm_num)
  have d5 : toFloat (3019899 / 33554432 * 255) = 6016205 / 262144 :=
    toFloat_eval _ (4) (12032410) _ (by norm_num) (by norm_num [abs_of_neg, abs_of_pos])
      (by norm_num [abs_of_neg, abs_of_pos]) (by norm_num [abs_lt]) (by norm_num)
  have t1 : toFloat (1) = 1 :=
    toFloat_eval _ (0) (8388608) _ (by norm_num) (by norm_num [abs_of_neg, abs_of_pos])
      (by norm_num [abs_of_neg, abs_of_pos]) (by norm_num [abs_lt]) (by norm_num)
  have q1 : toFloat (22 * 1) = 22 :=
    toFloat_eval _ (4) (11534336) _ (by norm_num) (by norm_num [abs_of_neg, abs_of_pos])
      (by norm_num [abs_of_neg, abs_of_pos]) (by norm_num [abs_lt]) (by norm_num)
  have q2 : toFloat (22 * (7549747 / 8388608)) = 5190451 / 262144 :=
    toFloat_eval _ (4) (10380902) _ (by norm_num) (by norm_num [abs_of_neg, abs_of_pos])
      (by norm_num [abs_of_neg, abs_of_pos]) (by norm_num [abs_lt]) (by norm_num)
  have q3 : toFloat (22 * (9227469 / 8388608)) = 6343885 / 262144 :=
    toFloat_eval _ (4) (12687770) _ (by norm_num) (by norm_num [abs_of_neg, abs_of_pos])
      (by norm_num [abs_of_neg, abs_of_pos]) (by norm_num [abs_lt]) (by norm_num)
  have hf : depthFactor neutralParameters = 13757317 / 16777216 := by
    simp only [depthFactor, neutralParameters]
    rw [toFloat_four_tenths, toFloat_eight_tenths, f1, f2, f3]
  have hd : toUInt8 (depthValue 0 (depthFactor neutralParameters)) = .ok 22 := by
    rw [hf]
    simp only [depthValue, depthScaled, Nat.cast_zero]
    rw [d1, d2, d3, d4, d5]
    exact toUInt8_eval _ 22 (by norm_num [clamp]) (by norm_num [clamp]) (by norm_num)
  have he1 : eqFactor neutralParameters = 1 := by
    simp only [eqFactor, neutralParameters]
    exact toFloat_one
  have hr : toUInt8 (eqValueR 22 1) = .ok 22 := by
    simp only [eqValueR, eqScaled, Nat.cast_ofNat]
    rw [q1]
    exact toUInt8_eval _ 22 (by norm_num [clamp]) (by norm_num [clamp]) (by norm_num)
  have hg : toUInt8 (eqValue 22 1 (toFloat (9 / 10))) = .ok 19 := by
    simp only [eqValue, eqScaled, Nat.cast_ofNat]
    rw [q1, toFloat_nine_tenths, q2]
    exact toUInt8_eval _ 19 (by norm_num [clamp]) (by norm_num [clamp]) (by norm_num)
  have hb : toUInt8 (eqValue 22 1 (toFloat (11 / 10))) = .ok 24 := by
    simp only [eqValue, eqScaled, Nat.cast_ofNat]
    rw [q1, toFloat_eleven_tenths, q3]
    exact toUInt8_eval _ 24 (by norm_num [clamp]) (by norm_num [clamp]) (by norm_num)
  have hp : toUInt8 (pressureValue 0 (pressureFactor neutralParameters)) = .ok 0 := by
    simp only [pressureValue, Nat.cast_zero, zero_mul, toFloat_zero]
    exact toUInt8_eval _ 0 (by norm_num) (by norm_num) (by norm_num)
  have hrun : applyVinylEffects flatLibm neutralParameters 0 (fun _ => 0) blackPixel =
      .ok { blackPixel with data := [22, 19, 24] } := by
    have hn : neutralParameters.surface_noise ≤ 0 := by norm_num [neutralParameters]
    have hw : neutralParameters.wow_flutter ≤ 0 := by norm_num [neutralParameters]
    simp [applyVinylEffects, applyVinylEffectsData, applySurfaceNoise, applyWowFlutter,
      applyNeedlePressure, applyGrooveDepth, applyEQCurve, hn, hw, he1, blackPixel,
      needlePressureLoop, grooveDepthLoop, eqCurveLoop, hd, hr, hg, hb, hp, bind, Except.bind,
      pure, Except.pure]
  refine ⟨rfl, rfl, by norm_num [neutralParameters], rfl, rfl, rfl, hrun, ?_⟩
  rw [hrun]
  simp [blackPixel]

/-- C1 (amended).  With surface noise 0, wow/flutter 0 and needle pressure at
or below the 1.0 baseline, the surface-noise, flutter and needle-pressure
stages each return the samples they were given, for every frame; so
`applyVinylEffects` returns the frame whose data are the groove-depth stage
followed by the EQ stage applied to the input data. -/
theorem applyVinylEffects_neutral_stages (libm : Libm) (params : VinylParameters)
    (position : ℚ) (draws : Nat → ℚ) (frame : VideoFrame)
    (hn : params.surface_noise = 0) (hw : params.wow_flutter = 0)
    (hp : params.needle_pressure ≤ 1) (hs : SamplesOk frame.data) :
    applySurfaceNoise params draws frame.data = .ok frame.data ∧
    applyWowFlutter libm params position frame.data = .ok frame.data ∧
    applyNeedlePressure params frame.data = .ok frame.data ∧
    applyVinylEffects libm params position draws frame =
      (applyGrooveDepth params frame.data >>= applyEQCurve params).map
        (fun d => { frame with data := d }) := by
  have h1 : applySurfaceNoise params draws frame.data = .ok frame.data := by
    simp [applySurfaceNoise, hn]
  have h2 : applyWowFlutter libm params position frame.data = .ok frame.data := by
    simp [applyWowFlutter, hw]
  have h3 : applyNeedlePressure params frame.data = .ok frame.data := by
    unfold applyNeedlePressure
    rw [pressureFactor_of_le_one params hp]
    exact needlePressureLoop_one frame.data hs
  refine ⟨h1, h2, h3, ?_⟩
  simp only [applyVinylEffects, applyVinylEffectsData, h1, h2, h3, bind, Except.bind]
  cases applyGrooveDepth params frame.data with
  | error e => rfl
  | ok d =>
    simp only [Except.map]
    cases applyEQCurve params d <;> rfl

/-- C1 (witness): the amended statement at the black pixel and the neutral setting. -/
theorem applyVinylEffects_neutral_stages_witness :
    applySurfaceNoise neutralParameters (fun _ => 0) blackPixel.data = .ok blackPixel.data ∧
    applyWowFlutter flatLibm neutralParameters 0 blackPixel.data = .ok blackPixel.data ∧
    applyNeedlePressure neutralParameters blackPixel.data = .ok blackPixel.data ∧
    applyVinylEffects flatLibm neutralParameters 0 (fun _ => 0) blackPixel =
      (applyGrooveDepth neutralParameters blackPixel.data >>=
        applyEQCurve neutralParameters).map (fun d => { blackPixel with data := d }) :=
  applyVinylEffects_neutral_stages flatLibm neutralParameters 0 (fun _ => 0) blackPixel rfl rfl
    (by norm_num [neutralParameters]) (by simp [SamplesOk, blackPixel])

/-! ## C2: every stage stays inside the sample range -/

namespace VinylVideoPlayer

/-! ## The worker leaves the control fields alone -/

theorem SameControl.refl (p : VinylVideoPlayer) : SameControl p p :=
  ⟨rfl, rfl, rfl, rfl, rfl, rfl, rfl, rfl⟩

theorem SameControl.trans {p q r : VinylVideoPlayer} (h1 : SameControl p q)
    (h2 : SameControl q r) : SameControl p r :=
  ⟨h2.state_.trans h1.state_, h2.should_stop_.trans h1.should_stop_,
    h2.playback_speed_.trans h1.playback_speed_, h2.loop_enabled_.trans h1.loop_enabled_,
    h2.video_filepath_.trans h1.video_filepath_, h2.video_info_.trans h1.video_info_,
    h2.vinyl_params_.trans h1.vinyl_params_, h2.threads_started.trans h1.threads_started⟩

theorem processVideoPacket_control (env : Env) (p : VinylVideoPlayer) (w : Worker)
    (pkt : Packet) : SameControl p (processVideoPacket env p w pkt) := by
  unfold processVideoPacket
  split_ifs
  · exact ⟨rfl, rfl, rfl, rfl, rfl, rfl, rfl, rfl⟩
  · exact SameControl.refl p

theorem processAudioPacket_control (p : VinylVideoPlayer) (w : Worker) (pkt : Packet) :
    SameControl p (processAudioPacket p w pkt) := by
  unfold processAudioPacket
  split_ifs
  · exact ⟨rfl, rfl, rfl, rfl, rfl, rfl, rfl, rfl⟩
  · exact SameControl.refl p

theorem workerExit_control (p : VinylVideoPlayer) (w : Worker) :
    SameControl p (workerExit p w) :=
  ⟨rfl, rfl, rfl, rfl, rfl, rfl, rfl, rfl⟩

theorem workerSetup_control (env : Env) (p : VinylVideoPlayer) (w : Worker) :
    SameControl p (workerSetup env p w) := by
  unfold workerSetup
  split
  · exact ⟨rfl, rfl, rfl, rfl, rfl, rfl, rfl, rfl⟩
  · dsimp only
    split_ifs <;> exact ⟨rfl, rfl, rfl, rfl, rfl, rfl, rfl, rfl⟩

theorem workerBody_control (env : Env) (p : VinylVideoPlayer) (w : Worker) :
    SameControl p (workerBody env p w) := by
  unfold workerBody
  split
  · by_cases hl : p.loop_enabled_ = true
    · rw [if_pos hl]
      exact ⟨rfl, rfl, rfl, rfl, rfl, rfl, rfl, rfl⟩
    · rw [if_neg hl]
      exact workerExit_control p w
  · next pkt rest _ =>
    have h := (processVideoPacket_control env p w pkt).trans
      (processAudioPacket_control (processVideoPacket env p w pkt) w pkt)
    exact ⟨h.state_, h.should_stop_, h.playback_speed_, h.loop_enabled_, h.video_filepath_,
      h.video_info_, h.vinyl_params_, h.threads_started⟩

theorem workerPass_control (env : Env) (p : VinylVideoPlayer) (w : Worker) :
    SameControl p (workerPass env p w) := by
  unfold workerPass
  by_cases hc : p.should_stop_ = false ∧ p.state_ = PlaybackState.PLAYING
  · rw [if_pos hc]
    exact workerBody_control env p w
  · rw [if_neg hc]
    exact workerExit_control p w

theorem workerStep_control (env : Env) (p : VinylVideoPlayer) :
    SameControl p (workerStep env p) := by
  unfold workerStep
  split
  · exact SameControl.refl p
  · split
    · exact workerSetup_control env p _
    · exact workerPass_control env p _
    · exact workerBody_control env p _
    · exact SameControl.refl p

theorem workerTest_control (p : VinylVideoPlayer) : SameControl p (workerTest p) := by
  unfold workerTest
  split
  · exact SameControl.refl p
  · split_ifs
    · exact ⟨rfl, rfl, rfl, rfl, rfl, rfl, rfl, rfl⟩
    · exact SameControl.refl p

/-- A whole pass is the test of the condition followed by the body: when no
call of the caller falls in between, the two steps of the worker have the
effect of the one. -/
theorem workerStep_workerTest (env : Env) (p : VinylVideoPlayer) :
    workerStep env (workerTest p) = workerStep env p := by
  cases ht : p.playback_thread_ with
  | none => simp [workerTest, ht]
  | some w =>
    by_cases hc : w.phase = WorkerPhase.looping ∧ p.should_stop_ = false ∧
        p.state_ = PlaybackState.PLAYING
    · obtain ⟨hph, hs, hst⟩ := hc
      have hw : { w with phase := WorkerPhase.looping } = w := by
        cases w
        simp only [Worker.mk.injEq, and_true, true_and] at hph ⊢
        exact hph.symm
      simp only [workerTest, ht, hph, hs, hst, and_self, if_true, workerStep, workerPass]
      rw [hw]
      cases hp : w.packets with
      | nil =>
        simp only [workerBody, hp, workerExit, emitEvent]
        split_ifs <;> simp only [hs, hst]
      | cons pkt rest =>
        simp only [workerBody, hp, processVideoPacket, processAudioPacket]
        split_ifs <;> simp only [hs, hst]
    · simp only [workerTest, ht, hc, if_false]

theorem workerSteps_control (env : Env) :
    ∀ (n : Nat) (p : VinylVideoPlayer), SameControl p (workerSteps env n p)
  | 0, p => SameControl.refl p
  | n + 1, p => (workerStep_control env p).trans (workerSteps_control env n (workerStep env p))

theorem joinWorker_control {env : Env} {p q : VinylVideoPlayer}
    (h : joinWorker env p = some q) : SameControl p q ∧ q.playback_thread_ = none := by
  unfold joinWorker at h
  dsimp only at h
  split_ifs at h
  cases h
  have hc := workerSteps_control env (joinBound env p) p
  exact ⟨⟨hc.state_, hc.should_stop_, hc.playback_speed_, hc.loop_enabled_,
    hc.video_filepath_, hc.video_info_, hc.vinyl_params_, hc.threads_started⟩, rfl⟩

/-! ## The setters -/

/-- What `std::clamp` stores for an argument that is not a NaN: a number between
the bounds, `min(max(v, lo), hi)` for a finite `v`, the upper bound for
`+∞` and the lower bound for `-∞`. -/
theorem storeDouble_clampDouble (x : CDouble) (lo hi : ℚ) (hlh : lo ≤ hi)
    (hx : x ≠ CDouble.nan) :
    ∃ r, storeDouble (clampDouble x lo hi) = .ok r ∧ lo ≤ r ∧ r ≤ hi ∧
      (∀ v, x = CDouble.finite v → r = min (max v lo) hi) ∧
      (x = CDouble.posInf → r = hi) ∧ (x = CDouble.negInf → r = lo) := by
  cases x with
  | finite v =>
    refine ⟨clamp v lo hi, rfl, clamp_ge hlh, clamp_le hlh, ?_, ?_, ?_⟩
    · intro w hw
      cases hw
      exact clamp_eq_min_max hlh
    · intro h; cases h
    · intro h; cases h
  | posInf =>
    refine ⟨hi, rfl, hlh, le_refl _, ?_, ?_, ?_⟩
    · intro v h; cases h
    · intro _; rfl
    · intro h; cases h
  | negInf =>
    refine ⟨lo, rfl, le_refl _, hlh, ?_, ?_, ?_⟩
    · intro v h; cases h
    · intro h; cases h
    · intro _; rfl
  | nan => exact absurd rfl hx

/-- A clamp that stores a number has not been given a NaN, and the number lies
between the bounds. -/
theorem storeDouble_clampDouble_ok {x : CDouble} {lo hi r : ℚ} (hlh : lo ≤ hi)
    (h : storeDouble (clampDouble x lo hi) = .ok r) : x ≠ CDouble.nan ∧ lo ≤ r ∧ r ≤ hi := by
  cases x with
  | finite v =>
    simp only [clampDouble, storeDouble, Except.ok.injEq] at h
    rw [← h]
    exact ⟨by simp, clamp_ge hlh, clamp_le hlh⟩
  | posInf =>
    simp only [clampDouble, storeDouble, Except.ok.injEq] at h
    rw [← h]
    exact ⟨by simp, hlh, le_refl _⟩
  | negInf =>
    simp only [clampDouble, storeDouble, Except.ok.injEq] at h
    rw [← h]
    exact ⟨by simp, le_refl _, hlh⟩
  | nan => simp [clampDouble, storeDouble] at h

theorem except_map_ok {α β : Type} {f : α → β} {x : Except Fault α} {b : β}
    (h : x.map f = .ok b) : ∃ a, x = .ok a ∧ b = f a := by
  cases x with
  | error e => simp [Except.map] at h
  | ok a =>
    simp only [Except.map, Except.ok.injEq] at h
    exact ⟨a, rfl, h.symm⟩

theorem setPlaybackSpeed_ok {p q : VinylVideoPlayer} {v : CDouble}
    (h : setPlaybackSpeed p v = .ok q) :
    ∃ r, q = { p with playback_speed_ := r } ∧ 1 / 4 ≤ r ∧ r ≤ 4 := by
  obtain ⟨r, hr, rfl⟩ := except_map_ok h
  exact ⟨r, rfl, (storeDouble_clampDouble_ok (by norm_num) hr).2⟩

theorem setNeedlePressure_ok {p q : VinylVideoPlayer} {v : CDouble}
    (h : setNeedlePressure p v = .ok q) :
    ∃ r, q = { p with vinyl_params_ := { p.vinyl_params_ with needle_pressure := r } } ∧
      1 / 2 ≤ r ∧ r ≤ 5 := by
  obtain ⟨r, hr, rfl⟩ := except_map_ok h
  exact ⟨r, rfl, (storeDouble_clampDouble_ok (by norm_num) hr).2⟩

theorem setTurntableSpeed_ok {p q : VinylVideoPlayer} {v : CDouble}
    (h : setTurntableSpeed p v = .ok q) :
    ∃ r, q = { p with vinyl_params_ := { p.vinyl_params_ with turntable_speed := r } } ∧
      v = CDouble.finite r := by
  obtain ⟨r, hr, rfl⟩ := except_map_ok h
  refine ⟨r, rfl, ?_⟩
  cases v <;> simp_all [storeDouble]

theorem setWowFlutter_ok {p q : VinylVideoPlayer} {v : CDouble}
    (h : setWowFlutter p v = .ok q) :
    ∃ r, q = { p with vinyl_params_ := { p.vinyl_params_ with wow_flutter := r } } ∧
      0 ≤ r ∧ r ≤ 2 := by
  obtain ⟨r, hr, rfl⟩ := except_map_ok h
  exact ⟨r, rfl, (storeDouble_clampDouble_ok (by norm_num) hr).2⟩

theorem setSurfaceNoise_ok {p q : VinylVideoPlayer} {v : CDouble}
    (h : setSurfaceNoise p v = .ok q) :
    ∃ r, q = { p with vinyl_params_ := { p.vinyl_params_ with surface_noise := r } } ∧
      0 ≤ r ∧ r ≤ 3 / 10 := by
  obtain ⟨r, hr, rfl⟩ := except_map_ok h
  exact ⟨r, rfl, (storeDouble_clampDouble_ok (by norm_num) hr).2⟩

theorem setGrooveDepth_ok {p q : VinylVideoPlayer} {v : CDouble}
    (h : setGrooveDepth p v = .ok q) :
    ∃ r, q = { p with vinyl_params_ := { p.vinyl_params_ with groove_depth := r } } ∧
      5 / 100 ≤ r ∧ r ≤ 2 / 10 := by
  obtain ⟨r, hr, rfl⟩ := except_map_ok h
  exact ⟨r, rfl, (storeDouble_clampDouble_ok (by norm_num) hr).2⟩

theorem setEQCurve_ok {p q : VinylVideoPlayer} {v : CDouble}
    (h : setEQCurve p v = .ok q) :
    ∃ r, q = { p with vinyl_params_ := { p.vinyl_params_ with eq_curve := r } } ∧
      1 / 2 ≤ r ∧ r ≤ 2 := by
  obtain ⟨r, hr, rfl⟩ := except_map_ok h
  exact ⟨r, rfl, (storeDouble_clampDouble_ok (by norm_num) hr).2⟩

/-! ## The playback speed is written by `setPlaybackSpeed` only -/

theorem play_speed {env : Env} {p q : VinylVideoPlayer} {ok : Bool}
    (h : play env p = some (ok, q)) : q.playback_speed_ = p.playback_speed_ := by
  unfold play at h
  split_ifs at h
  · cases h; rfl
  · cases h; rfl
  · split at h
    · cases h
    · next p2 hj =>
      cases h
      exact (joinWorker_control hj).1.playback_speed_

theorem stop_speed {env : Env} {p q : VinylVideoPlayer} {ok : Bool}
    (h : stop env p = some (ok, q)) : q.playback_speed_ = p.playback_speed_ := by
  unfold stop at h
  split_ifs at h
  · cases h; rfl
  · split at h
    · cases h
    · next p2 hj =>
      cases h
      exact (joinWorker_control hj).1.playback_speed_

theorem shutdown_speed {env : Env} {p q : VinylVideoPlayer}
    (h : shutdown env p = some q) : q.playback_speed_ = p.playback_speed_ := by
  unfold shutdown at h
  split at h
  · cases h
  · next ok p1 hs =>
    have h1 := stop_speed hs
    dsimp only at h
    split_ifs at h
    · cases hj : joinWorker env { p1 with should_stop_ := true } with
      | none => rw [hj] at h; cases h
      | some p2 =>
        rw [hj] at h
        cases h
        exact ((joinWorker_control hj).1.playback_speed_).trans h1
    · cases h
      exact h1

theorem loadVideo_speed {env : Env} {p q : VinylVideoPlayer} {path : String} {ok : Bool}
    (h : loadVideo env p path = some (ok, q)) : q.playback_speed_ = p.playback_speed_ := by
  unfold loadVideo at h
  split_ifs at h
  dsimp only at h
  split at h
  · cases h; rfl
  · split_ifs at h <;> cases h <;> rfl

theorem loadVinylRecording_speed {env : Env} {p q : VinylVideoPlayer} {path : String}
    {ok : Bool} (h : loadVinylRecording env p path = some (ok, q)) :
    q.playback_speed_ = p.playback_speed_ := by
  unfold loadVinylRecording at h
  split at h
  · cases h
  · next p1 hl =>
    simp only [Option.some.injEq, Prod.mk.injEq] at h
    obtain ⟨_, rfl⟩ := h
    exact loadVideo_speed hl
  · next p1 hl =>
    simp only [Option.some.injEq, Prod.mk.injEq] at h
    obtain ⟨_, rfl⟩ := h
    have h2 : p1.playback_speed_ = p.playback_speed_ := loadVideo_speed hl
    exact h2

theorem reachable_speed {env : Env} {p : VinylVideoPlayer} (h : Reachable env p) :
    1 / 4 ≤ p.playback_speed_ ∧ p.playback_speed_ ≤ 4 := by
  induction h with
  | construct => norm_num [construct]
  | initializeEngine _ ih => exact ih
  | shutdown _ hq ih => rw [shutdown_speed hq]; exact ih
  | loadVideo _ _ _ hq ih => rw [loadVideo_speed hq]; exact ih
  | loadVinylRecording _ _ _ hq ih => rw [loadVinylRecording_speed hq]; exact ih
  | play _ _ hq ih => rw [play_speed hq]; exact ih
  | @pause p _ ih =>
    have : (pause p).2.playback_speed_ = p.playback_speed_ := by
      unfold pause; split_ifs <;> rfl
    rw [this]; exact ih
  | stop _ _ hq ih => rw [stop_speed hq]; exact ih
  | @seek p pos _ ih =>
    have : (seek p pos).2.playback_speed_ = p.playback_speed_ := by
      unfold seek; split_ifs <;> rfl
    rw [this]; exact ih
  | setPlaybackSpeed v _ hq _ =>
    obtain ⟨r, rfl, h1, h2⟩ := setPlaybackSpeed_ok hq
    exact ⟨h1, h2⟩
  | setLoopEnabled _ _ ih => exact ih
  | setNeedlePressure _ _ hq ih => obtain ⟨r, rfl, _⟩ := setNeedlePressure_ok hq; exact ih
  | setTurntableSpeed _ _ hq ih => obtain ⟨r, rfl, _⟩ := setTurntableSpeed_ok hq; exact ih
  | setWowFlutter _ _ hq ih => obtain ⟨r, rfl, _⟩ := setWowFlutter_ok hq; exact ih
  | setSurfaceNoise _ _ hq ih => obtain ⟨r, rfl, _⟩ := setSurfaceNoise_ok hq; exact ih
  | setGrooveDepth _ _ hq ih => obtain ⟨r, rfl, _⟩ := setGrooveDepth_ok hq; exact ih
  | setMonoMode _ _ ih => exact ih
  | setEQCurve _ _ hq ih => obtain ⟨r, rfl, _⟩ := setEQCurve_ok hq; exact ih
  | writeVinylParams _ _ ih => exact ih
  | @workerStep p _ ih => rw [(workerStep_control env p).playback_speed_]; exact ih
  | @workerTest p _ ih => rw [(workerTest_control p).playback_speed_]; exact ih
  | tick _ _ ih => exact ih

/-- C3 (counterexample).  For a NaN both comparisons of `std::clamp` are false
and the NaN is returned: each of the six clamping setters, called with a NaN,
stores it in its field, so that the field holds no number at all, and in
particular no number of the setter's range. -/
theorem setters_store_nan :
    clampDouble CDouble.nan (1 / 4) 4 = CDouble.nan ∧
    setPlaybackSpeed construct CDouble.nan = .error Fault.notFinite ∧
    setNeedlePressure construct CDouble.nan = .error Fault.notFinite ∧
    setWowFlutter construct CDouble.nan = .error Fault.notFinite ∧
    setSurfaceNoise construct CDouble.nan = .error Fault.notFinite ∧
    setGrooveDepth construct CDouble.nan = .error Fault.notFinite ∧
    setEQCurve construct CDouble.nan = .error Fault.notFinite ∧
    ¬ ∃ q, setPlaybackSpeed construct CDouble.nan = .ok q ∧
      1 / 4 ≤ q.playback_speed_ ∧ q.playback_speed_ ≤ 4 := by
  refine ⟨rfl, rfl, rfl, rfl, rfl, rfl, rfl, ?_⟩
  rintro ⟨q, hq, _⟩
  simp [setPlaybackSpeed, clampDouble, storeDouble, Except.map] at hq

/-- C3 (amended).  Called with a finite value `v`, every clamping setter returns
and stores `min(max(v, lo), hi)` in its own field, all other fields of the
engine unchanged: `setNeedlePressure` with `[0.5, 5.0]`, `setWowFlutter` with
`[0.0, 2.0]`, `setSurfaceNoise` with `[0.0, 0.3]`, `setGrooveDepth` with
`[0.05, 0.2]`, `setEQCurve` with `[0.5, 2.0]` and `setPlaybackSpeed` with
`[0.25, 4.0]`.  Called with any value that is not a NaN (an infinity
included), each of them stores a number of its range.  The constructor sets
the speed to `1.0`, and in every state reached from the constructor without a
NaN or an infinity being stored the playback speed is in `[0.25, 4.0]`, hence
not zero. -/
theorem setters_clamp_and_speed_bounded (p : VinylVideoPlayer) (v : ℚ) :
    setNeedlePressure p (CDouble.finite v) =
      .ok { p with vinyl_params_ :=
              { p.vinyl_params_ with needle_pressure := min (max v (1 / 2)) 5 } } ∧
    setWowFlutter p (CDouble.finite v) =
      .ok { p with vinyl_params_ := { p.vinyl_params_ with wow_flutter := min (max v 0) 2 } } ∧
    setSurfaceNoise p (CDouble.finite v) =
      .ok { p with vinyl_params_ :=
              { p.vinyl_params_ with surface_noise := min (max v 0) (3 / 10) } } ∧
    setGrooveDepth p (CDouble.finite v) =
      .ok { p with vinyl_params_ :=
              { p.vinyl_params_ with groove_depth := min (max v (5 / 100)) (2 / 10) } } ∧
    setEQCurve p (CDouble.finite v) =
      .ok { p with vinyl_params_ :=
              { p.vinyl_params_ with eq_curve := min (max v (1 / 2)) 2 } } ∧
    setPlaybackSpeed p (CDouble.finite v) =
      .ok { p with playback_speed_ := min (max v (1 / 4)) 4 } ∧
    (∀ x : CDouble, x ≠ CDouble.nan →
      (∃ r, 1 / 2 ≤ r ∧ r ≤ 5 ∧ setNeedlePressure p x =
        .ok { p with vinyl_params_ := { p.vinyl_params_ with needle_pressure := r } }) ∧
      (∃ r, 0 ≤ r ∧ r ≤ 2 ∧ setWowFlutter p x =
        .ok { p with vinyl_params_ := { p.vinyl_params_ with wow_flutter := r } }) ∧
      (∃ r, 0 ≤ r ∧ r ≤ 3 / 10 ∧ setSurfaceNoise p x =
        .ok { p with vinyl_params_ := { p.vinyl_params_ with surface_noise := r } }) ∧
      (∃ r, 5 / 100 ≤ r ∧ r ≤ 2 / 10 ∧ setGrooveDepth p x =
        .ok { p with vinyl_params_ := { p.vinyl_params_ with groove_depth := r } }) ∧
      (∃ r, 1 / 2 ≤ r ∧ r ≤ 2 ∧ setEQCurve p x =
        .ok { p with vinyl_params_ := { p.vinyl_params_ with eq_curve := r } }) ∧
      (∃ r, 1 / 4 ≤ r ∧ r ≤ 4 ∧ setPlaybackSpeed p x =
        .ok { p with playback_speed_ := r })) ∧
    construct.playback_speed_ = 1 ∧
    ∀ (env : Env) (q : VinylVideoPlayer), Reachable env q →
      1 / 4 ≤ q.playback_speed_ ∧ q.playback_speed_ ≤ 4 ∧ q.playback_speed_ ≠ 0 := by
  refine ⟨?_, ?_, ?_, ?_, ?_, ?_, ?_, rfl, ?_⟩
  · simp only [setNeedlePressure, clampDouble, storeDouble, Except.map]
    rw [clamp_eq_min_max (by norm_num)]
  · simp only [setWowFlutter, clampDouble, storeDouble, Except.map]
    rw [clamp_eq_min_max (by norm_num)]
  · simp only [setSurfaceNoise, clampDouble, storeDouble, Except.map]
    rw [clamp_eq_min_max (by norm_num)]
  · simp only [setGrooveDepth, clampDouble, storeDouble, Except.map]
    rw [clamp_eq_min_max (by norm_num)]
  · simp only [setEQCurve, clampDouble, storeDouble, Except.map]
    rw [clamp_eq_min_max (by norm_num)]
  · simp only [setPlaybackSpeed, clampDouble, storeDouble, Except.map]
    rw [clamp_eq_min_max (by norm_num)]
  · intro x hx
    refine ⟨?_, ?_, ?_, ?_, ?_, ?_⟩
    · obtain ⟨r, hr, h1, h2, _⟩ := storeDouble_clampDouble x (1 / 2) 5 (by norm_num) hx
      exact ⟨r, h1, h2, by simp only [setNeedlePressure, hr, Except.map]⟩
    · obtain ⟨r, hr, h1, h2, _⟩ := storeDouble_clampDouble x 0 2 (by norm_num) hx
      exact ⟨r, h1, h2, by simp only [setWowFlutter, hr, Except.map]⟩
    · obtain ⟨r, hr, h1, h2, _⟩ := storeDouble_clampDouble x 0 (3 / 10) (by norm_num) hx
      exact ⟨r, h1, h2, by simp only [setSurfaceNoise, hr, Except.map]⟩
    · obtain ⟨r, hr, h1, h2, _⟩ := storeDouble_clampDouble x (5 / 100) (2 / 10) (by norm_num) hx
      exact ⟨r, h1, h2, by simp only [setGrooveDepth, hr, Except.map]⟩
    · obtain ⟨r, hr, h1, h2, _⟩ := storeDouble_clampDouble x (1 / 2) 2 (by norm_num) hx
      exact ⟨r, h1, h2, by simp only [setEQCurve, hr, Except.map]⟩
    · obtain ⟨r, hr, h1, h2, _⟩ := storeDouble_clampDouble x (1 / 4) 4 (by norm_num) hx
      exact ⟨r, h1, h2, by simp only [setPlaybackSpeed, hr, Except.map]⟩
  · intro env q hq
    have h := reachable_speed hq
    exact ⟨h.1, h.2, by linarith [h.1]⟩

/-! ## The doubles of the sample runs -/

theorem toDouble_1_25 : toDouble (1 / 25) = 5764607523034235 / 144115188075855872 :=
  toDouble_eval _ (-5) (5764607523034235) _ (by norm_num) (by norm_num [abs_of_neg, abs_of_pos])
    (by norm_num [abs_of_neg, abs_of_pos]) (by norm_num [abs_lt]) (by norm_num)

theorem toDouble_2_25 : toDouble (2 / 25) = 5764607523034235 / 72057594037927936 :=
  toDouble_eval _ (-4) (5764607523034235) _ (by norm_num) (by norm_num [abs_of_neg, abs_of_pos])
    (by norm_num [abs_of_neg, abs_of_pos]) (by norm_num [abs_lt]) (by norm_num)

theorem toDouble_3_25 : toDouble (3 / 25) = 1080863910568919 / 9007199254740992 :=
  toDouble_eval _ (-4) (8646911284551352) _ (by norm_num) (by norm_num [abs_of_neg, abs_of_pos])
    (by norm_num [abs_of_neg, abs_of_pos]) (by norm_num [abs_lt]) (by norm_num)

theorem toDouble_4_25 : toDouble (4 / 25) = 5764607523034235 / 36028797018963968 :=
  toDouble_eval _ (-3) (5764607523034235) _ (by norm_num) (by norm_num [abs_of_neg, abs_of_pos])
    (by norm_num [abs_of_neg, abs_of_pos]) (by norm_num [abs_lt]) (by norm_num)

theorem toDouble_6_25 : toDouble (6 / 25) = 1080863910568919 / 4503599627370496 :=
  toDouble_eval _ (-3) (8646911284551352) _ (by norm_num) (by norm_num [abs_of_neg, abs_of_pos])
    (by norm_num [abs_of_neg, abs_of_pos]) (by norm_num [abs_lt]) (by norm_num)

theorem toDouble_126_25 : toDouble (126 / 25) = 5674535530486825 / 1125899906842624 :=
  toDouble_eval _ (2) (5674535530486825) _ (by norm_num) (by norm_num [abs_of_neg, abs_of_pos])
    (by norm_num [abs_of_neg, abs_of_pos]) (by norm_num [abs_lt]) (by norm_num)

theorem toDouble_127_25 : toDouble (127 / 25) = 2859785763380265 / 562949953421312 :=
  toDouble_eval _ (2) (5719571526760530) _ (by norm_num) (by norm_num [abs_of_neg, abs_of_pos])
    (by norm_num [abs_of_neg, abs_of_pos]) (by norm_num [abs_lt]) (by norm_num)

theorem advancePosition_25fps_0_1 :
    advancePosition (0) (toDouble (1 / 25)) 1 = toDouble (1 / 25) := by
  have e1 : toDouble (5764607523034235 / 144115188075855872 * 1) = 5764607523034235 / 144115188075855872 :=
    toDouble_eval _ (-5) (5764607523034235) _ (by norm_num) (by norm_num [abs_of_neg, abs_of_pos])
      (by norm_num [abs_of_neg, abs_of_pos]) (by norm_num [abs_lt]) (by norm_num)
  have e2 : toDouble (0 + 5764607523034235 / 144115188075855872) = 5764607523034235 / 144115188075855872 :=
    toDouble_eval _ (-5) (5764607523034235) _ (by norm_num) (by norm_num [abs_of_neg, abs_of_pos])
      (by norm_num [abs_of_neg, abs_of_pos]) (by norm_num [abs_lt]) (by norm_num)
  simp only [advancePosition, toDouble_1_25, e1, e2]

theorem advancePosition_25fps_1_1 :
    advancePosition (toDouble (1 / 25)) (toDouble (1 / 25)) 1 = toDouble (2 / 25) := by
  have e1 : toDouble (5764607523034235 / 144115188075855872 * 1) = 5764607523034235 / 144115188075855872 :=
    toDouble_eval _ (-5) (5764607523034235) _ (by norm_num) (by norm_num [abs_of_neg, abs_of_pos])
      (by norm_num [abs_of_neg, abs_of_pos]) (by norm_num [abs_lt]) (by norm_num)
  have e2 : toDouble (5764607523034235 / 144115188075855872 + 5764607523034235 / 144115188075855872) = 5764607523034235 / 72057594037927936 :=
    toDouble_eval _ (-4) (5764607523034235) _ (by norm_num) (by norm_num [abs_of_neg, abs_of_pos])
      (by norm_num [abs_of_neg, abs_of_pos]) (by norm_num [abs_lt]) (by norm_num)
  simp only [advancePosition, toDouble_1_25, toDouble_2_25, e1, e2]

theorem advancePosition_25fps_2_1 :
    advancePosition (toDouble (2 / 25)) (toDouble (1 / 25)) 1 = toDouble (3 / 25) := by
  have e1 : toDouble (5764607523034235 / 144115188075855872 * 1) = 5764607523034235 / 144115188075855872 :=
    toDouble_eval _ (-5) (5764607523034235) _ (by norm_num) (by norm_num [abs_of_neg, abs_of_pos])
      (by norm_num [abs_of_neg, abs_of_pos]) (by norm_num [abs_lt]) (by norm_num)
  have e2 : toDouble (5764607523034235 / 72057594037927936 + 5764607523034235 / 144115188075855872) = 1080863910568919 / 9007199254740992 :=
    toDouble_eval_even _ (-4) (8646911284551352) _ (by norm_num) (by norm_num [abs_of_neg, abs_of_pos])
      (by norm_num [abs_of_neg, abs_of_pos]) (by norm_num [abs_le]) (by norm_num)
      (by norm_num)
  simp only [advancePosition, toDouble_2_25, toDouble_1_25, toDouble_3_25, e1, e2]

theorem advancePosition_25fps_0_2 :
    advancePosition (0) (toDouble (1 / 25)) 2 = toDouble (2 / 25) := by
  have e1 : toDouble (5764607523034235 / 144115188075855872 * 2) = 5764607523034235 / 72057594037927936 :=
    toDouble_eval _ (-4) (5764607523034235) _ (by norm_num) (by norm_num [abs_of_neg, abs_of_pos])
      (by norm_num [abs_of_neg, abs_of_pos]) (by norm_num [abs_lt]) (by norm_num)
  have e2 : toDouble (0 + 5764607523034235 / 72057594037927936) = 5764607523034235 / 72057594037927936 :=
    toDouble_eval _ (-4) (5764607523034235) _ (by norm_num) (by norm_num [abs_of_neg, abs_of_pos])
      (by norm_num [abs_of_neg, abs_of_pos]) (by norm_num [abs_lt]) (by norm_num)
  simp only [advancePosition, toDouble_1_25, toDouble_2_25, e1, e2]

theorem advancePosition_25fps_2_2 :
    advancePosition (toDouble (2 / 25)) (toDouble (1 / 25)) 2 = toDouble (4 / 25) := by
  have e1 : toDouble (5764607523034235 / 144115188075855872 * 2) = 5764607523034235 / 72057594037927936 :=
    toDouble_eval _ (-4) (5764607523034235) _ (by norm_num) (by norm_num [abs_of_neg, abs_of_pos])
      (by norm_num [abs_of_neg, abs_of_pos]) (by norm_num [abs_lt]) (by norm_num)
  have e2 : toDouble (5764607523034235 / 72057594037927936 + 5764607523034235 / 72057594037927936) = 5764607523034235 / 36028797018963968 :=
    toDouble_eval _ (-3) (5764607523034235) _ (by norm_num) (by norm_num [abs_of_neg, abs_of_pos])
      (by norm_num [abs_of_neg, abs_of_pos]) (by norm_num [abs_lt]) (by norm_num)
  simp only [advancePosition, toDouble_2_25, toDouble_1_25, toDouble_4_25, e1, e2]

theorem advancePosition_25fps_4_2 :
    advancePosition (toDouble (4 / 25)) (toDouble (1 / 25)) 2 = toDouble (6 / 25) := by
  have e1 : toDouble (5764607523034235 / 144115188075855872 * 2) = 5764607523034235 / 72057594037927936 :=
    toDouble_eval _ (-4) (5764607523034235) _ (by norm_num) (by norm_num [abs_of_neg, abs_of_pos])
      (by norm_num [abs_of_neg, abs_of_pos]) (by norm_num [abs_lt]) (by norm_num)
  have e2 : toDouble (5764607523034235 / 36028797018963968 + 5764607523034235 / 72057594037927936) = 1080863910568919 / 4503599627370496 :=
    toDouble_eval_even _ (-3) (8646911284551352) _ (by norm_num) (by norm_num [abs_of_neg, abs_of_pos])
      (by norm_num [abs_of_neg, abs_of_pos]) (by norm_num [abs_le]) (by norm_num)
      (by norm_num)
  simp only [advancePosition, toDouble_4_25, toDouble_1_25, toDouble_6_25, e1, e2]

theorem advancePosition_25fps_125_1 :
    advancePosition (5) (toDouble (1 / 25)) 1 = toDouble (126 / 25) := by
  have e1 : toDouble (5764607523034235 / 144115188075855872 * 1) = 5764607523034235 / 144115188075855872 :=
    toDouble_eval _ (-5) (5764607523034235) _ (by norm_num) (by norm_num [abs_of_neg, abs_of_pos])
      (by norm_num [abs_of_neg, abs_of_pos]) (by norm_num [abs_lt]) (by norm_num)
  have e2 : toDouble (5 + 5764607523034235 / 144115188075855872) = 5674535530486825 / 1125899906842624 :=
    toDouble_eval _ (2) (5674535530486825) _ (by norm_num) (by norm_num [abs_of_neg, abs_of_pos])
      (by norm_num [abs_of_neg, abs_of_pos]) (by norm_num [abs_lt]) (by norm_num)
  simp only [advancePosition, toDouble_1_25, toDouble_126_25, e1, e2]

theorem advancePosition_25fps_126_1 :
    advancePosition (toDouble (126 / 25)) (toDouble (1 / 25)) 1 = toDouble (127 / 25) := by
  have e1 : toDouble (5764607523034235 / 144115188075855872 * 1) = 5764607523034235 / 144115188075855872 :=
    toDouble_eval _ (-5) (5764607523034235) _ (by norm_num) (by norm_num [abs_of_neg, abs_of_pos])
      (by norm_num [abs_of_neg, abs_of_pos]) (by norm_num [abs_lt]) (by norm_num)
  have e2 : toDouble (5674535530486825 / 1125899906842624 + 5764607523034235 / 144115188075855872) = 2859785763380265 / 562949953421312 :=
    toDouble_eval _ (2) (5719571526760530) _ (by norm_num) (by norm_num [abs_of_neg, abs_of_pos])
      (by norm_num [abs_of_neg, abs_of_pos]) (by norm_num [abs_lt]) (by norm_num)
  simp only [advancePosition, toDouble_126_25, toDouble_1_25, toDouble_127_25, e1, e2]

theorem syncSleep_25fps_1_0 : syncSleep (toDouble (1 / 25)) 0 = 40 := by
  have e1 : toDouble (5764607523034235 / 144115188075855872 * 1000) = 40 :=
    toDouble_eval _ (5) (5629499534213120) _ (by norm_num) (by norm_num [abs_of_neg, abs_of_pos])
      (by norm_num [abs_of_neg, abs_of_pos]) (by norm_num [abs_lt]) (by norm_num)
  have e2 : toDouble (40 - 0) = 40 :=
    toDouble_eval _ (5) (5629499534213120) _ (by norm_num) (by norm_num [abs_of_neg, abs_of_pos])
      (by norm_num [abs_of_neg, abs_of_pos]) (by norm_num [abs_lt]) (by norm_num)
  simp only [syncSleep, targetTime, Int.cast_zero, toDouble_1_25, e1, e2, toDouble_zero]
  norm_num

theorem syncSleep_25fps_2_40 : syncSleep (toDouble (2 / 25)) 40 = 40 := by
  have e1 : toDouble (5764607523034235 / 72057594037927936 * 1000) = 80 :=
    toDouble_eval _ (6) (5629499534213120) _ (by norm_num) (by norm_num [abs_of_neg, abs_of_pos])
      (by norm_num [abs_of_neg, abs_of_pos]) (by norm_num [abs_lt]) (by norm_num)
  have e2 : toDouble (40) = 40 :=
    toDouble_eval _ (5) (5629499534213120) _ (by norm_num) (by norm_num [abs_of_neg, abs_of_pos])
      (by norm_num [abs_of_neg, abs_of_pos]) (by norm_num [abs_lt]) (by norm_num)
  have e3 : toDouble (80 - 40) = 40 :=
    toDouble_eval _ (5) (5629499534213120) _ (by norm_num) (by norm_num [abs_of_neg, abs_of_pos])
      (by norm_num [abs_of_neg, abs_of_pos]) (by norm_num [abs_lt]) (by norm_num)
  simp only [syncSleep, targetTime, Int.cast_ofNat, toDouble_2_25, e1, e2, e3]
  norm_num

theorem syncSleep_25fps_3_80 : syncSleep (toDouble (3 / 25)) 80 = 40 := by
  have e1 : toDouble (1080863910568919 / 9007199254740992 * 1000) = 120 :=
    toDouble_eval _ (6) (8444249301319680) _ (by norm_num) (by norm_num [abs_of_neg, abs_of_pos])
      (by norm_num [abs_of_neg, abs_of_pos]) (by norm_num [abs_lt]) (by norm_num)
  have e2 : toDouble (80) = 80 :=
    toDouble_eval _ (6) (5629499534213120) _ (by norm_num) (by norm_num [abs_of_neg, abs_of_pos])
      (by norm_num [abs_of_neg, abs_of_pos]) (by norm_num [abs_lt]) (by norm_num)
  have e3 : toDouble (120 - 80) = 40 :=
    toDouble_eval _ (5) (5629499534213120) _ (by norm_num) (by norm_num [abs_of_neg, abs_of_pos])
      (by norm_num [abs_of_neg, abs_of_pos]) (by norm_num [abs_lt]) (by norm_num)
  simp only [syncSleep, targetTime, Int.cast_ofNat, toDouble_3_25, e1, e2, e3]
  norm_num

theorem syncSleep_25fps_2_0 : syncSleep (toDouble (2 / 25)) 0 = 80 := by
  have e1 : toDouble (5764607523034235 / 72057594037927936 * 1000) = 80 :=
    toDouble_eval _ (6) (5629499534213120) _ (by norm_num) (by norm_num [abs_of_neg, abs_of_pos])
      (by norm_num [abs_of_neg, abs_of_pos]) (by norm_num [abs_lt]) (by norm_num)
  have e2 : toDouble (80 - 0) = 80 :=
    toDouble_eval _ (6) (5629499534213120) _ (by norm_num) (by norm_num [abs_of_neg, abs_of_pos])
      (by norm_num [abs_of_neg, abs_of_pos]) (by norm_num [abs_lt]) (by norm_num)
  simp only [syncSleep, targetTime, Int.cast_zero, toDouble_2_25, e1, e2, toDouble_zero]
  norm_num

theorem syncSleep_25fps_4_80 : syncSleep (toDouble (4 / 25)) 80 = 80 := by
  have e1 : toDouble (5764607523034235 / 36028797018963968 * 1000) = 160 :=
    toDouble_eval _ (7) (5629499534213120) _ (by norm_num) (by norm_num [abs_of_neg, abs_of_pos])
      (by norm_num [abs_of_neg, abs_of_pos]) (by norm_num [abs_lt]) (by norm_num)
  have e2 : toDouble (80) = 80 :=
    toDouble_eval _ (6) (5629499534213120) _ (by norm_num) (by norm_num [abs_of_neg, abs_of_pos])
      (by norm_num [abs_of_neg, abs_of_pos]) (by norm_num [abs_lt]) (by norm_num)
  have e3 : toDouble (160 - 80) = 80 :=
    toDouble_eval _ (6) (5629499534213120) _ (by norm_num) (by norm_num [abs_of_neg, abs_of_pos])
      (by norm_num [abs_of_neg, abs_of_pos]) (by norm_num [abs_lt]) (by norm_num)
  simp only [syncSleep, targetTime, Int.cast_ofNat, toDouble_4_25, e1, e2, e3]
  norm_num

theorem syncSleep_25fps_6_160 : syncSleep (toDouble (6 / 25)) 160 = 80 := by
  have e1 : toDouble (1080863910568919 / 4503599627370496 * 1000) = 240 :=
    toDouble_eval _ (7) (8444249301319680) _ (by norm_num) (by norm_num [abs_of_neg, abs_of_pos])
      (by norm_num [abs_of_neg, abs_of_pos]) (by norm_num [abs_lt]) (by norm_num)
  have e2 : toDouble (160) = 160 :=
    toDouble_eval _ (7) (5629499534213120) _ (by norm_num) (by norm_num [abs_of_neg, abs_of_pos])
      (by norm_num [abs_of_neg, abs_of_pos]) (by norm_num [abs_lt]) (by norm_num)
  have e3 : toDouble (240 - 160) = 80 :=
    toDouble_eval _ (6) (5629499534213120) _ (by norm_num) (by norm_num [abs_of_neg, abs_of_pos])
      (by norm_num [abs_of_neg, abs_of_pos]) (by norm_num [abs_lt]) (by norm_num)
  simp only [syncSleep, targetTime, Int.cast_ofNat, toDouble_6_25, e1, e2, e3]
  norm_num

theorem syncSleep_25fps_126_0 : syncSleep (toDouble (126 / 25)) 0 = 5040 := by
  have e1 : toDouble (5674535530486825 / 1125899906842624 * 1000) = 5040 :=
    toDouble_eval _ (12) (5541538603991040) _ (by norm_num) (by norm_num [abs_of_neg, abs_of_pos])
      (by norm_num [abs_of_neg, abs_of_pos]) (by norm_num [abs_lt]) (by norm_num)
  have e2 : toDouble (5040 - 0) = 5040 :=
    toDouble_eval _ (12) (5541538603991040) _ (by norm_num) (by norm_num [abs_of_neg, abs_of_pos])
      (by norm_num [abs_of_neg, abs_of_pos]) (by norm_num [abs_lt]) (by norm_num)
  simp only [syncSleep, targetTime, Int.cast_zero, toDouble_126_25, e1, e2, toDouble_zero]
  norm_num

theorem syncSleep_25fps_127_0 : syncSleep (toDouble (127 / 25)) 0 = 5080 := by
  have e1 : toDouble (2859785763380265 / 562949953421312 * 1000) = 5080 :=
    toDouble_eval _ (12) (5585519069102080) _ (by norm_num) (by norm_num [abs_of_neg, abs_of_pos])
      (by norm_num [abs_of_neg, abs_of_pos]) (by norm_num [abs_lt]) (by norm_num)
  have e2 : toDouble (5080 - 0) = 5080 :=
    toDouble_eval _ (12) (5585519069102080) _ (by norm_num) (by norm_num [abs_of_neg, abs_of_pos])
      (by norm_num [abs_of_neg, abs_of_pos]) (by norm_num [abs_lt]) (by norm_num)
  simp only [syncSleep, targetTime, Int.cast_zero, toDouble_127_25, e1, e2, toDouble_zero]
  norm_num

theorem syncSleep_four_0 : syncSleep (4) 0 = 4000 := by
  have e1 : toDouble (4 * 1000) = 4000 :=
    toDouble_eval _ (11) (8796093022208000) _ (by norm_num) (by norm_num [abs_of_neg, abs_of_pos])
      (by norm_num [abs_of_neg, abs_of_pos]) (by norm_num [abs_lt]) (by norm_num)
  have e2 : toDouble (4000 - 0) = 4000 :=
    toDouble_eval _ (11) (8796093022208000) _ (by norm_num) (by norm_num [abs_of_neg, abs_of_pos])
      (by norm_num [abs_of_neg, abs_of_pos]) (by norm_num [abs_lt]) (by norm_num)
  simp only [syncSleep, targetTime, Int.cast_zero, e1, e2, toDouble_zero]
  norm_num

theorem syncSleep_four_2000 : syncSleep (4) 2000 = 2000 := by
  have e1 : toDouble (4 * 1000) = 4000 :=
    toDouble_eval _ (11) (8796093022208000) _ (by norm_num) (by norm_num [abs_of_neg, abs_of_pos])
      (by norm_num [abs_of_neg, abs_of_pos]) (by norm_num [abs_lt]) (by norm_num)
  have e2 : toDouble (2000) = 2000 :=
    toDouble_eval _ (10) (8796093022208000) _ (by norm_num) (by norm_num [abs_of_neg, abs_of_pos])
      (by norm_num [abs_of_neg, abs_of_pos]) (by norm_num [abs_lt]) (by norm_num)
  have e3 : toDouble (4000 - 2000) = 2000 :=
    toDouble_eval _ (10) (8796093022208000) _ (by norm_num) (by norm_num [abs_of_neg, abs_of_pos])
      (by norm_num [abs_of_neg, abs_of_pos]) (by norm_num [abs_lt]) (by norm_num)
  simp only [syncSleep, targetTime, Int.cast_ofNat, e1, e2, e3]
  norm_num

/-! ## One pass of the loop over a packet -/

theorem workerStep_looping (env : Env) (p : VinylVideoPlayer) (w : Worker)
    (ht : p.playback_thread_ = some w) (hph : w.phase = WorkerPhase.looping) :
    workerStep env p = workerPass env p w := by
  unfold workerStep
  simp only [ht, hph]

theorem workerStep_body (env : Env) (p : VinylVideoPlayer) (w : Worker)
    (ht : p.playback_thread_ = some w) (hph : w.phase = WorkerPhase.inBody) :
    workerStep env p = workerBody env p { w with phase := WorkerPhase.looping } := by
  unfold workerStep
  simp only [ht, hph]

theorem loopCondition_congr {p q : VinylVideoPlayer} (h : SameControl p q) :
    loopCondition q ↔ loopCondition p := by
  unfold loopCondition
  rw [h.state_, h.should_stop_]

theorem workerPass_of_loopCondition (env : Env) (p : VinylVideoPlayer) (w : Worker)
    (hc : loopCondition p) : workerPass env p w = workerBody env p w := by
  unfold loopCondition at hc
  unfold workerPass
  rw [if_pos hc]

/-- The body of the loop over a packet: the position is advanced by
`advancePosition` exactly when the packet yields a video frame; the worker
then sleeps `syncSleep` of the new position and of the time elapsed since its
`start_time`, and keeps its other locals but the packet read.  No event is
emitted. -/
theorem workerBody_packet (env : Env) (p : VinylVideoPlayer) (w : Worker) (pkt : Packet)
    (rest : List Packet) (hpk : w.packets = pkt :: rest) :
    (workerBody env p w).playback_thread_ =
      some { w with packets := rest
                    last_sleep := syncSleep (workerBody env p w).current_position_
                      (p.clock - w.start_time) } ∧
    (workerBody env p w).current_position_ =
      (if isVideoFrame w.video_stream pkt = true then
        advancePosition p.current_position_ w.frame_duration p.playback_speed_
       else p.current_position_) ∧
    (workerBody env p w).clock = p.clock +
      (syncSleep (workerBody env p w).current_position_ (p.clock - w.start_time) : Int) ∧
    (workerBody env p w).events = p.events ∧
    (workerBody env p w).video_frames.length =
      p.video_frames.length + (if isVideoFrame w.video_stream pkt = true then 1 else 0) := by
  unfold workerBody
  rw [hpk]
  by_cases hv : pkt.stream_index = w.video_stream ∧ pkt.decodes = true
  · have hiv : isVideoFrame w.video_stream pkt = true := by
      simp [isVideoFrame, hv.1, hv.2]
    simp [processVideoPacket, processAudioPacket, hv, hiv]
    split_ifs <;> simp
  · have hiv : ¬ (isVideoFrame w.video_stream pkt = true) := by
      simpa [isVideoFrame] using hv
    simp [processVideoPacket, processAudioPacket, hv, hiv]
    split_ifs <;> simp

/-- One pass of the loop over a packet, while the loop condition holds and no
call of the caller falls inside the pass. -/
theorem workerStep_packet (env : Env) (p : VinylVideoPlayer) (w : Worker) (pkt : Packet)
    (rest : List Packet) (ht : p.playback_thread_ = some w)
    (hph : w.phase = WorkerPhase.looping) (hc : loopCondition p)
    (hpk : w.packets = pkt :: rest) :
    (workerStep env p).playback_thread_ =
      some { w with packets := rest
                    last_sleep := syncSleep (workerStep env p).current_position_
                      (p.clock - w.start_time) } ∧
    (workerStep env p).current_position_ =
      (if isVideoFrame w.video_stream pkt = true then
        advancePosition p.current_position_ w.frame_duration p.playback_speed_
       else p.current_position_) ∧
    (workerStep env p).clock = p.clock +
      (syncSleep (workerStep env p).current_position_ (p.clock - w.start_time) : Int) ∧
    (workerStep env p).events = p.events := by
  rw [workerStep_looping env p w ht hph, workerPass_of_loopCondition env p w hc]
  obtain ⟨h1, h2, h3, h4, _⟩ := workerBody_packet env p w pkt rest hpk
  exact ⟨h1, h2, h3, h4⟩

/-! ## The sample run -/

theorem reachable_workerSteps {env : Env} :
    ∀ (n : Nat) {p : VinylVideoPlayer}, Reachable env p → Reachable env (workerSteps env n p)
  | 0, _, h => h
  | n + 1, _, h => reachable_workerSteps n (Reachable.workerStep h)

theorem loadVideo_sample :
    loadVideo sampleEnv construct "a.mp4" = some (true, sampleLoaded) := by
  have h1 : toDouble 10000000 = 10000000 := by
    have h := toDouble_intCast 10000000 (by norm_num)
    simpa using h
  have h2 : toDouble 10 = 10 := by
    have h := toDouble_intCast 10 (by norm_num)
    simpa using h
  have h3 : toDouble 25 = 25 := by
    have h := toDouble_intCast 25 (by norm_num)
    simpa using h
  simp [loadVideo, construct, sampleEnv, sampleFile, findStreams, sampleLoaded, AV_TIME_BASE,
    VideoInfo.default, h1, h3]
  norm_num [h2]

theorem play_sample : play sampleEnv sampleLoaded = some (true, samplePlaying) := by
  simp [play, sampleLoaded, construct, joinWorker, joinBound, pendingPackets, workerSteps,
    workerStep, workerLive, emitEvent, samplePlaying]

theorem workerStep_samplePlaying : workerStep sampleEnv samplePlaying = sampleLooping := by
  simp [workerStep, samplePlaying, newWorker, workerSetup, sampleLoaded, construct, sampleEnv,
    sampleFile, findStreams, sampleLooping, sampleWorker, VideoInfo.default]

theorem reachable_sampleLooping : Reachable sampleEnv sampleLooping := by
  have h1 : Reachable sampleEnv sampleLoaded :=
    Reachable.loadVideo "a.mp4" true Reachable.construct loadVideo_sample
  have h2 : Reachable sampleEnv samplePlaying := Reachable.play true h1 play_sample
  rw [← workerStep_samplePlaying]
  exact Reachable.workerStep h2

/-- One pass of the loop over a packet that yields a video frame, with the new
position and the sleep at hand. -/
theorem workerStep_video (env : Env) (p : VinylVideoPlayer) (w : Worker) (pkt : Packet)
    (rest : List Packet) (pos : ℚ) (elapsed : Int) (sleep : Nat)
    (ht : p.playback_thread_ = some w) (hph : w.phase = WorkerPhase.looping)
    (hc : loopCondition p) (hpk : w.packets = pkt :: rest)
    (hv : isVideoFrame w.video_stream pkt = true)
    (hpos : advancePosition p.current_position_ w.frame_duration p.playback_speed_ = pos)
    (hel : p.clock - w.start_time = elapsed) (hsl : syncSleep pos elapsed = sleep) :
    (workerStep env p).playback_thread_ = some { w with packets := rest, last_sleep := sleep } ∧
    (workerStep env p).current_position_ = pos ∧
    (workerStep env p).clock = p.clock + (sleep : Int) ∧
    (workerStep env p).events = p.events ∧
    loopCondition (workerStep env p) ∧
    (workerStep env p).playback_speed_ = p.playback_speed_ ∧
    (workerStep env p).loop_enabled_ = p.loop_enabled_ := by
  obtain ⟨h1, h2, h3, h4⟩ := workerStep_packet env p w pkt rest ht hph hc hpk
  rw [if_pos hv, hpos] at h2
  rw [h2, hel, hsl] at h1 h3
  have hctl := workerStep_control env p
  exact ⟨h1, h2, h3, h4, (loopCondition_congr hctl).mpr hc, hctl.playback_speed_,
    hctl.loop_enabled_⟩

theorem isVideoFrame_samplePacket (n : Int) :
    isVideoFrame sampleWorker.video_stream (samplePacket n) = true := by
  simp [isVideoFrame, sampleWorker, samplePacket]

theorem sampleAtEnd_eval :
    sampleAtEnd.playback_thread_ = some { sampleWorker with packets := [], last_sleep := 40 } ∧
    sampleAtEnd.current_position_ = toDouble (3 / 25) ∧ sampleAtEnd.clock = 120 ∧
    sampleAtEnd.events = ["playback_started"] ∧ sampleAtEnd.state_ = PlaybackState.PLAYING ∧
    sampleAtEnd.should_stop_ = false ∧ sampleAtEnd.loop_enabled_ = false := by
  obtain ⟨a1, a2, a3, a4, a5, a6, a7⟩ := workerStep_video sampleEnv sampleLooping sampleWorker
    (samplePacket 0) [samplePacket 1, samplePacket 2] (toDouble (1 / 25)) 0 40 rfl rfl
    ⟨rfl, rfl⟩ rfl (isVideoFrame_samplePacket 0) advancePosition_25fps_0_1 rfl
    syncSleep_25fps_1_0
  obtain ⟨b1, b2, b3, b4, b5, b6, b7⟩ := workerStep_video sampleEnv
    (workerStep sampleEnv sampleLooping) _ (samplePacket 1) [samplePacket 2]
    (toDouble (2 / 25)) 40 40 a1 rfl a5 rfl (isVideoFrame_samplePacket 1)
    (by rw [a2, a6]; exact advancePosition_25fps_1_1) (by rw [a3]; rfl) syncSleep_25fps_2_40
  obtain ⟨c1, c2, c3, c4, c5, c6, c7⟩ := workerStep_video sampleEnv
    (workerStep sampleEnv (workerStep sampleEnv sampleLooping)) _ (samplePacket 2) []
    (toDouble (3 / 25)) 80 40 b1 rfl b5 rfl (isVideoFrame_samplePacket 2)
    (by rw [b2, b6, a6]; exact advancePosition_25fps_2_1) (by rw [b3, a3]; rfl)
    syncSleep_25fps_3_80
  have hdef : sampleAtEnd =
      workerStep sampleEnv (workerStep sampleEnv (workerStep sampleEnv sampleLooping)) := rfl
  rw [hdef]
  refine ⟨c1, c2, ?_, ?_, c5.2, c5.1, ?_⟩
  · rw [c3, b3, a3]; rfl
  · rw [c4, b4, a4]; rfl
  · rw [c7, b7, a7]; rfl

/-! ## Joining the worker -/

theorem workerStep_of_not_live (env : Env) (p : VinylVideoPlayer)
    (h : workerLive p = false) : workerStep env p = p := by
  unfold workerLive at h
  unfold workerStep
  cases hw : p.playback_thread_ with
  | none => rfl
  | some w =>
    rw [hw] at h
    have hph : w.phase = WorkerPhase.finished := by simpa using h
    simp [hph]

theorem workerSteps_of_not_live (env : Env) :
    ∀ (n : Nat) (p : VinylVideoPlayer), workerLive p = false → workerSteps env n p = p
  | 0, _, _ => rfl
  | n + 1, p, h => by
    rw [workerSteps, workerStep_of_not_live env p h]
    exact workerSteps_of_not_live env n p h

theorem workerSteps_add_two (env : Env) (n : Nat) (p : VinylVideoPlayer) :
    workerSteps env (n + 2) p = workerSteps env n (workerStep env (workerStep env p)) := rfl

theorem joinWorker_of_not_live (env : Env) (p : VinylVideoPlayer)
    (h : workerLive p = false) :
    joinWorker env p = some { p with playback_thread_ := none } := by
  unfold joinWorker
  simp [workerSteps_of_not_live env _ p h, h]

theorem workerLive_workerExit (p : VinylVideoPlayer) (w : Worker) :
    workerLive (workerExit p w) = false := by
  simp [workerLive, workerExit, emitEvent]

theorem workerPass_of_not_loopCondition (env : Env) (p : VinylVideoPlayer) (w : Worker)
    (h : ¬ loopCondition p) : workerPass env p w = workerExit p w := by
  unfold loopCondition at h
  unfold workerPass
  rw [if_neg h]

/-- What the set-up leaves behind: a worker that has returned, or one at the
test of the loop condition holding the packets of the source; the position is
not written. -/
theorem workerSetup_result (env : Env) (p : VinylVideoPlayer) (w : Worker) :
    (workerSetup env p w).current_position_ = p.current_position_ ∧
    ∃ w1, (workerSetup env p w).playback_thread_ = some w1 ∧
      (w1.phase = WorkerPhase.finished ∨ w1.phase = WorkerPhase.looping) := by
  unfold workerSetup
  split
  · exact ⟨rfl, _, rfl, Or.inl rfl⟩
  · dsimp only
    split_ifs
    · exact ⟨rfl, _, rfl, Or.inl rfl⟩
    · exact ⟨rfl, _, rfl, Or.inl rfl⟩
    · exact ⟨rfl, _, rfl, Or.inr rfl⟩

/-- What the body of a pass leaves behind: a worker that has returned, or one
at the test of the loop condition again. -/
theorem workerBody_result (env : Env) (p : VinylVideoPlayer) (w : Worker)
    (hph : w.phase = WorkerPhase.looping) :
    ∃ w1, (workerBody env p w).playback_thread_ = some w1 ∧
      (w1.phase = WorkerPhase.finished ∨ w1.phase = WorkerPhase.looping) := by
  unfold workerBody
  split
  · split_ifs
    · exact ⟨_, rfl, Or.inr hph⟩
    · exact ⟨_, rfl, Or.inl rfl⟩
  · exact ⟨_, rfl, Or.inr hph⟩

/-- A worker at the test of the loop condition that finds it false leaves the
loop. -/
theorem workerStep_of_looping_not_loopCondition (env : Env) (p : VinylVideoPlayer)
    (w : Worker) (ht : p.playback_thread_ = some w) (hph : w.phase = WorkerPhase.looping)
    (hc : ¬ loopCondition p) : workerStep env p = workerExit p w := by
  rw [workerStep_looping env p w ht hph]
  exact workerPass_of_not_loopCondition env p w hc

/-- Whether the worker is inside a pass of its loop: it has tested the loop
condition and the body is still to run. -/
theorem workerStep_position_of_not_loopCondition (env : Env) (p : VinylVideoPlayer)
    (h : ¬ loopCondition p)
    (hb : ∀ w, p.playback_thread_ = some w → w.phase ≠ WorkerPhase.inBody) :
    (workerStep env p).current_position_ = p.current_position_ ∧
    ∀ w, (workerStep env p).playback_thread_ = some w → w.phase ≠ WorkerPhase.inBody := by
  cases hw : p.playback_thread_ with
  | none =>
    have hl : workerLive p = false := by simp [workerLive, hw]
    rw [workerStep_of_not_live env p hl]
    exact ⟨rfl, fun w hw1 => by rw [hw] at hw1; cases hw1⟩
  | some w =>
    cases hph : w.phase with
    | finished =>
      have hl : workerLive p = false := by simp [workerLive, hw, hph]
      rw [workerStep_of_not_live env p hl]
      exact ⟨rfl, hb⟩
    | inBody => exact absurd hph (hb w hw)
    | looping =>
      rw [workerStep_of_looping_not_loopCondition env p w hw hph h]
      refine ⟨rfl, ?_⟩
      intro w1 hw1
      simp only [workerExit, emitEvent, Option.some.injEq] at hw1
      rw [← hw1]
      simp
    | entry =>
      have h1 : workerStep env p = workerSetup env p w := by
        unfold workerStep
        simp only [hw, hph]
      obtain ⟨hpos, w1, hw1, hph1⟩ := workerSetup_result env p w
      rw [h1]
      refine ⟨hpos, ?_⟩
      intro w2 hw2
      rw [hw1] at hw2
      cases hw2
      rcases hph1 with hp | hp <;> rw [hp] <;> simp

/-- Once the loop condition is false, two steps of the worker end it: the
set-up or the body of the pass the worker is in, then the test that leaves the
loop. -/
theorem workerStep_twice_of_not_loopCondition (env : Env) (p : VinylVideoPlayer)
    (h : ¬ loopCondition p) :
    workerLive (workerStep env (workerStep env p)) = false := by
  have hstep : ∀ (q : VinylVideoPlayer) (w1 : Worker), ¬ loopCondition q →
      q.playback_thread_ = some w1 →
      (w1.phase = WorkerPhase.finished ∨ w1.phase = WorkerPhase.looping) →
      workerLive (workerStep env q) = false := by
    intro q w1 hq hw1 hph1
    rcases hph1 with hfin | hloop
    · have hl : workerLive q = false := by simp [workerLive, hw1, hfin]
      rw [workerStep_of_not_live env _ hl]
      exact hl
    · rw [workerStep_of_looping_not_loopCondition env q w1 hw1 hloop hq]
      exact workerLive_workerExit q w1
  have hc1 : ¬ loopCondition (workerStep env p) := by
    rw [loopCondition_congr (workerStep_control env p)]
    exact h
  cases hw : p.playback_thread_ with
  | none =>
    have hl : workerLive p = false := by simp [workerLive, hw]
    rw [workerStep_of_not_live env p hl, workerStep_of_not_live env p hl]
    exact hl
  | some w =>
    cases hph : w.phase with
    | finished =>
      have hl : workerLive p = false := by simp [workerLive, hw, hph]
      rw [workerStep_of_not_live env p hl, workerStep_of_not_live env p hl]
      exact hl
    | looping =>
      rw [workerStep_of_looping_not_loopCondition env p w hw hph h,
        workerStep_of_not_live env _ (workerLive_workerExit p w)]
      exact workerLive_workerExit p w
    | inBody =>
      obtain ⟨w1, hw1, hph1⟩ := workerBody_result env p { w with phase := WorkerPhase.looping } rfl
      rw [← workerStep_body env p w hw hph] at hw1
      exact hstep _ w1 hc1 hw1 hph1
    | entry =>
      have h1 : workerStep env p = workerSetup env p w := by
        unfold workerStep
        simp only [hw, hph]
      obtain ⟨_, w1, hw1, hph1⟩ := workerSetup_result env p w
      rw [← h1] at hw1
      exact hstep _ w1 hc1 hw1 hph1

/-- When the loop condition is false the join returns: the worker has ended
and the control fields are as before; the position is as before unless the
worker was inside a pass of its loop. -/
theorem joinWorker_of_not_loopCondition (env : Env) (p : VinylVideoPlayer)
    (h : ¬ loopCondition p) :
    ∃ q, joinWorker env p = some q ∧ SameControl p q ∧ q.playback_thread_ = none ∧
      ((∀ w, p.playback_thread_ = some w → w.phase ≠ WorkerPhase.inBody) →
        q.current_position_ = p.current_position_) := by
  have hl := workerStep_twice_of_not_loopCondition env p h
  have hrun : workerSteps env (joinBound env p) p = workerStep env (workerStep env p) := by
    unfold joinBound
    rw [workerSteps_add_two]
    exact workerSteps_of_not_live env _ _ hl
  have hj : joinWorker env p =
      some { workerStep env (workerStep env p) with playback_thread_ := none } := by
    unfold joinWorker
    simp [hrun, hl]
  refine ⟨_, hj, (joinWorker_control hj).1, rfl, ?_⟩
  intro hb
  obtain ⟨hp1, hb1⟩ := workerStep_position_of_not_loopCondition env p h hb
  have hc1 : ¬ loopCondition (workerStep env p) := by
    rw [loopCondition_congr (workerStep_control env p)]
    exact h
  obtain ⟨hp2, _⟩ := workerStep_position_of_not_loopCondition env _ hc1 hb1
  exact hp2.trans hp1

/-! ## C4: `stop` -/

/-- From a state other than `STOPPED`, `stop()` returns `true` with the state
`STOPPED`, the stop flag set and the worker joined; the position is 0 when the
worker was not inside a pass of its loop. -/
theorem stop_of_not_stopped (env : Env) (p : VinylVideoPlayer)
    (h : p.state_ ≠ PlaybackState.STOPPED) :
    ∃ q, stop env p = some (true, q) ∧ q.state_ = PlaybackState.STOPPED ∧
      q.should_stop_ = true ∧ q.playback_thread_ = none ∧ workerLive q = false ∧
      ((∀ w, p.playback_thread_ = some w → w.phase ≠ WorkerPhase.inBody) →
        q.current_position_ = 0) := by
  have hc : ¬ loopCondition
      { p with should_stop_ := true, state_ := PlaybackState.STOPPED,
               current_position_ := 0 } := by
    simp [loopCondition]
  obtain ⟨q, hj, hctl, hthr, hpos⟩ := joinWorker_of_not_loopCondition env _ hc
  refine ⟨emitEvent q "playback_stopped", ?_, hctl.state_, hctl.should_stop_, hthr, ?_, ?_⟩
  · unfold stop
    rw [if_neg h, hj]
  · simp [workerLive, emitEvent, hthr]
  · intro hb
    exact hpos hb

/-- From `STOPPED`, `stop()` returns `true` and changes nothing.  On a freshly
constructed engine the stop flag is still clear afterwards; on the stopped
engine that has loaded the sample source and has been sought to 5.0 s,
`stop()` leaves the position at 5.0 s. -/
theorem stop_from_stopped_keeps_flag_and_position :
    construct.state_ = PlaybackState.STOPPED ∧
    stop sampleEnv construct = some (true, construct) ∧
    construct.should_stop_ = false ∧
    loadVideo sampleEnv construct "a.mp4" = some (true, sampleLoaded) ∧
    seek sampleLoaded 5 = (true, emitEvent { sampleLoaded with current_position_ := 5 } "seek") ∧
    (seek sampleLoaded 5).2.state_ = PlaybackState.STOPPED ∧
    stop sampleEnv (seek sampleLoaded 5).2 = some (true, (seek sampleLoaded 5).2) ∧
    (seek sampleLoaded 5).2.current_position_ = 5 ∧
    (seek sampleLoaded 5).2.should_stop_ = false := by
  have hs : seek sampleLoaded 5 =
      (true, emitEvent { sampleLoaded with current_position_ := 5 } "seek") := by
    norm_num [seek, sampleLoaded, VideoInfo.default, construct]
  refine ⟨rfl, ?_, rfl, loadVideo_sample, hs, ?_, ?_, ?_, ?_⟩
  · simp [stop, construct]
  · rw [hs]; rfl
  · rw [hs]; simp [stop, emitEvent, sampleLoaded, construct]
  · rw [hs]; rfl
  · rw [hs]; rfl

/-- The cases of `stop()`.  From `STOPPED` it returns `true` and leaves the
engine as it is.  From every other state it returns `true` and afterwards the
state is `STOPPED`, the stop flag is set and the worker has been joined (the
thread object is not joinable, no worker is live); the position is 0 whenever
the worker was not inside a pass of its loop when `stop()` was called. -/
theorem stop_cases (env : Env) (p : VinylVideoPlayer) :
    (p.state_ = PlaybackState.STOPPED → stop env p = some (true, p)) ∧
    (p.state_ ≠ PlaybackState.STOPPED →
      ∃ q, stop env p = some (true, q) ∧ q.state_ = PlaybackState.STOPPED ∧
        q.should_stop_ = true ∧ q.playback_thread_ = none ∧ workerLive q = false ∧
        ((∀ w, p.playback_thread_ = some w → w.phase ≠ WorkerPhase.inBody) →
          q.current_position_ = 0)) :=
  ⟨fun h => by simp [stop, h], stop_of_not_stopped env p⟩

theorem sampleInPass_eq :
    sampleInPass =
      { sampleLooping with
          playback_thread_ := some { sampleWorker with phase := WorkerPhase.inBody } } := by
  simp [sampleInPass, workerTest, sampleLooping, sampleWorker, samplePlaying, sampleLoaded,
    construct]

/-- C4 (the code at the failing input).  The engine `sampleInPass` is
reachable: the sample source plays from position 0 and the worker has tested
its loop condition, the body of the pass still to run.  There `stop()` sets the
stop flag, the state `STOPPED` and the position 0 and then joins the worker,
which does not read the flag again before the end of its pass: it delivers the
frame and adds the frame step to the position.  `stop()` returns `true` with
the state `STOPPED`, the flag set and the worker joined, and the position is
the double 0.04, not 0; one frame has been handed to the video callback. -/
theorem stop_inside_pass_leaves_frame_step :
    Reachable sampleEnv sampleInPass ∧
    sampleInPass.state_ = PlaybackState.PLAYING ∧ sampleInPass.current_position_ = 0 ∧
    sampleInPass.playback_thread_ = some { sampleWorker with phase := WorkerPhase.inBody } ∧
    (stop sampleEnv sampleInPass).map
        (fun r => (r.1, r.2.state_, r.2.should_stop_, r.2.playback_thread_, workerLive r.2,
          r.2.current_position_, r.2.video_frames.length, r.2.events)) =
      some (true, PlaybackState.STOPPED, true, none, false, toDouble (1 / 25), 1,
        ["playback_started", "playback_ended", "playback_stopped"]) ∧
    toDouble (1 / 25) = 5764607523034235 / 144115188075855872 ∧
    toDouble (1 / 25) ≠ 0 := by
  have hreach : Reachable sampleEnv sampleInPass := Reachable.workerTest reachable_sampleLooping
  have hthr : sampleInPass.playback_thread_ =
      some { sampleWorker with phase := WorkerPhase.inBody } := by
    rw [sampleInPass_eq]
  refine ⟨hreach, by rw [sampleInPass_eq]; rfl, by rw [sampleInPass_eq]; rfl, hthr, ?_,
    toDouble_1_25, by rw [toDouble_1_25]; norm_num⟩
  -- the engine once `stop()` has written the flag, the state and the position
  obtain ⟨p0, hp0⟩ : ∃ p0 : VinylVideoPlayer, p0 =
      { sampleLooping with
          should_stop_ := true, state_ := PlaybackState.STOPPED
          playback_thread_ := some { sampleWorker with phase := WorkerPhase.inBody } } := ⟨_, rfl⟩
  have hwrite : ({ sampleInPass with should_stop_ := true, state_ := PlaybackState.STOPPED,
                                     current_position_ := 0 } : VinylVideoPlayer) = p0 := by
    rw [sampleInPass_eq, hp0]
    rfl
  have ht0 : p0.playback_thread_ = some { sampleWorker with phase := WorkerPhase.inBody } := by
    rw [hp0]
  -- the body of the pass the worker is in
  obtain ⟨a1, a2, a3, a4, a5⟩ := workerBody_packet sampleEnv p0 sampleWorker (samplePacket 0)
    [samplePacket 1, samplePacket 2] rfl
  rw [if_pos (isVideoFrame_samplePacket 0)] at a2 a5
  have hpos : (workerBody sampleEnv p0 sampleWorker).current_position_ = toDouble (1 / 25) := by
    rw [a2, hp0]
    exact advancePosition_25fps_0_1
  have hstep1 : workerStep sampleEnv p0 = workerBody sampleEnv p0 sampleWorker :=
    workerStep_body sampleEnv p0 _ ht0 rfl
  have hctl := workerBody_control sampleEnv p0 sampleWorker
  -- the test of the loop condition that follows
  have hnc : ¬ loopCondition (workerBody sampleEnv p0 sampleWorker) := by
    rw [loopCondition_congr hctl, hp0]
    simp [loopCondition]
  have hstep2 := workerStep_of_looping_not_loopCondition sampleEnv _ _ a1 rfl hnc
  have hbound : joinBound sampleEnv p0 = 3 + 2 := by
    rw [hp0]
    rfl
  have hrun : workerSteps sampleEnv (joinBound sampleEnv p0) p0 =
      workerExit (workerBody sampleEnv p0 sampleWorker)
        { sampleWorker with
            packets := [samplePacket 1, samplePacket 2]
            last_sleep := syncSleep (workerBody sampleEnv p0 sampleWorker).current_position_
              (p0.clock - sampleWorker.start_time) } := by
    rw [hbound, workerSteps_add_two, hstep1, hstep2]
    exact workerSteps_of_not_live _ _ _ (workerLive_workerExit _ _)
  have hj : joinWorker sampleEnv p0 =
      some { workerExit (workerBody sampleEnv p0 sampleWorker)
        { sampleWorker with
            packets := [samplePacket 1, samplePacket 2]
            last_sleep := syncSleep (workerBody sampleEnv p0 sampleWorker).current_position_
              (p0.clock - sampleWorker.start_time) } with playback_thread_ := none } := by
    unfold joinWorker
    simp [hrun, workerLive_workerExit]
  have hne : sampleInPass.state_ ≠ PlaybackState.STOPPED := by
    rw [sampleInPass_eq]
    decide
  have hstop : stop sampleEnv sampleInPass = some (true, emitEvent
      { workerExit (workerBody sampleEnv p0 sampleWorker)
        { sampleWorker with
            packets := [samplePacket 1, samplePacket 2]
            last_sleep := syncSleep (workerBody sampleEnv p0 sampleWorker).current_position_
              (p0.clock - sampleWorker.start_time) } with playback_thread_ := none }
      "playback_stopped") := by
    unfold stop
    rw [if_neg hne, hwrite, hj]
  have hst : (workerBody sampleEnv p0 sampleWorker).state_ = PlaybackState.STOPPED := by
    rw [hctl.state_, hp0]
  have hss : (workerBody sampleEnv p0 sampleWorker).should_stop_ = true := by
    rw [hctl.should_stop_, hp0]
  have hev : (workerBody sampleEnv p0 sampleWorker).events = ["playback_started"] := by
    rw [a4, hp0]
    rfl
  have hvf : (workerBody sampleEnv p0 sampleWorker).video_frames.length = 1 := by
    rw [a5, hp0]
    rfl
  rw [hstop]
  simp [emitEvent, workerExit, workerLive, hpos, hst, hss, hev, hvf]

/-! ## The worker returns when looping is disabled -/

/-- What the set-up leaves behind, with the packets the loop starts from. -/
theorem workerSetup_packets (env : Env) (p : VinylVideoPlayer) (w : Worker) :
    ∃ w1, (workerSetup env p w).playback_thread_ = some w1 ∧
      (w1.phase = WorkerPhase.finished ∨
        (w1.phase = WorkerPhase.looping ∧ w1.packets.length = pendingPackets env
          { p with playback_thread_ := some { w with phase := WorkerPhase.entry } })) := by
  unfold workerSetup
  cases hf : env.files p.video_filepath_ with
  | none => exact ⟨_, rfl, Or.inl rfl⟩
  | some file =>
    dsimp only
    split_ifs
    · exact ⟨_, rfl, Or.inl rfl⟩
    · exact ⟨_, rfl, Or.inl rfl⟩
    · exact ⟨_, rfl, Or.inr ⟨rfl, by simp [pendingPackets, hf]⟩⟩

theorem workerPass_cons (env : Env) (p : VinylVideoPlayer) (w : Worker) (pkt : Packet)
    (rest : List Packet) (hc : loopCondition p) (hpk : w.packets = pkt :: rest) :
    ∃ sleep, (workerPass env p w).playback_thread_ =
      some { w with packets := rest, last_sleep := sleep } := by
  rw [workerPass_of_loopCondition env p w hc]
  unfold workerBody
  rw [hpk]
  exact ⟨_, rfl⟩

theorem workerBody_nil_no_loop (env : Env) (p : VinylVideoPlayer) (w : Worker)
    (hpk : w.packets = []) (hl : p.loop_enabled_ = false) :
    workerBody env p w = workerExit p w := by
  unfold workerBody
  rw [hpk]
  simp [hl]

theorem workerPass_nil_no_loop (env : Env) (p : VinylVideoPlayer) (w : Worker)
    (hpk : w.packets = []) (hl : p.loop_enabled_ = false) :
    workerPass env p w = workerExit p w := by
  unfold workerPass
  by_cases hc : p.should_stop_ = false ∧ p.state_ = PlaybackState.PLAYING
  · rw [if_pos hc]
    exact workerBody_nil_no_loop env p w hpk hl
  · rw [if_neg hc]

theorem workerSteps_looping_finishes (env : Env) :
    ∀ (n : Nat) (p : VinylVideoPlayer) (w : Worker), p.playback_thread_ = some w →
      w.phase = WorkerPhase.looping → w.packets.length ≤ n → p.loop_enabled_ = false →
      workerLive (workerSteps env (n + 1) p) = false := by
  intro n
  induction n with
  | zero =>
    intro p w ht hph hlen hl
    have hpk : w.packets = [] := List.eq_nil_of_length_eq_zero (Nat.le_zero.mp hlen)
    have h1 : workerStep env p = workerExit p w := by
      unfold workerStep
      simp only [ht, hph]
      exact workerPass_nil_no_loop env p w hpk hl
    show workerLive (workerSteps env 0 (workerStep env p)) = false
    rw [h1]
    exact workerLive_workerExit p w
  | succ n ih =>
    intro p w ht hph hlen hl
    have hstep : workerStep env p = workerPass env p w := by
      unfold workerStep
      simp only [ht, hph]
    show workerLive (workerSteps env (n + 1) (workerStep env p)) = false
    by_cases hc : loopCondition p
    · cases hpk : w.packets with
      | nil =>
        rw [hstep, workerPass_nil_no_loop env p w hpk hl,
          workerSteps_of_not_live env _ _ (workerLive_workerExit p w)]
        exact workerLive_workerExit p w
      | cons pkt rest =>
        obtain ⟨sleep, hthr⟩ := workerPass_cons env p w pkt rest hc hpk
        have hl2 : (workerPass env p w).loop_enabled_ = false :=
          ((workerPass_control env p w).loop_enabled_).trans hl
        rw [hstep]
        refine ih (workerPass env p w) _ hthr hph ?_ hl2
        rw [hpk] at hlen
        simpa using hlen
    · rw [hstep, workerPass_of_not_loopCondition env p w hc,
        workerSteps_of_not_live env _ _ (workerLive_workerExit p w)]
      exact workerLive_workerExit p w

/-- With looping disabled the join returns, whatever the worker is doing. -/
theorem joinWorker_of_loop_disabled (env : Env) (p : VinylVideoPlayer)
    (hl : p.loop_enabled_ = false) : ∃ q, joinWorker env p = some q := by
  have key : workerLive (workerSteps env (joinBound env p) p) = false := by
    cases ht : p.playback_thread_ with
    | none =>
      have h0 : workerLive p = false := by simp [workerLive, ht]
      rw [workerSteps_of_not_live env _ p h0]
      exact h0
    | some w =>
      cases hph : w.phase with
      | finished =>
        have h0 : workerLive p = false := by simp [workerLive, ht, hph]
        rw [workerSteps_of_not_live env _ p h0]
        exact h0
      | looping =>
        have hb : joinBound env p = (w.packets.length + 1) + 1 := by
          simp [joinBound, pendingPackets, ht, hph]
        rw [hb]
        exact workerSteps_looping_finishes env _ p w ht hph (Nat.le_succ _) hl
      | inBody =>
        have hb : joinBound env p = (w.packets.length + 1) + 1 := by
          simp [joinBound, pendingPackets, ht, hph]
        rw [hb]
        show workerLive (workerSteps env (w.packets.length + 1) (workerStep env p)) = false
        rw [workerStep_body env p w ht hph]
        have hcases : w.packets = [] ∨ ∃ pkt rest, w.packets = pkt :: rest := by
          cases w.packets <;> simp
        rcases hcases with hpk | ⟨pkt, rest, hpk⟩
        · rw [workerBody_nil_no_loop env p { w with phase := WorkerPhase.looping } hpk hl,
            workerSteps_of_not_live env _ _ (workerLive_workerExit _ _)]
          exact workerLive_workerExit _ _
        · obtain ⟨h1, _⟩ :=
            workerBody_packet env p { w with phase := WorkerPhase.looping } pkt rest hpk
          have hl2 : (workerBody env p { w with phase := WorkerPhase.looping }).loop_enabled_ =
              false := ((workerBody_control env p _).loop_enabled_).trans hl
          refine workerSteps_looping_finishes env _ _ _ h1 rfl ?_ hl2
          rw [hpk]
          simp
      | entry =>
        have hstep : workerStep env p = workerSetup env p w := by
          unfold workerStep
          simp only [ht, hph]
        have hpend : pendingPackets env
            { p with playback_thread_ := some { w with phase := WorkerPhase.entry } } =
            pendingPackets env p := by
          simp [pendingPackets, ht, hph]
        obtain ⟨w1, hw1, hcase⟩ := workerSetup_packets env p w
        show workerLive (workerSteps env (pendingPackets env p + 1) (workerStep env p)) = false
        rw [hstep]
        rcases hcase with hfin | ⟨hloop, hlen⟩
        · have h0 : workerLive (workerSetup env p w) = false := by
            simp [workerLive, hw1, hfin]
          rw [workerSteps_of_not_live env _ _ h0]
          exact h0
        · have hl2 : (workerSetup env p w).loop_enabled_ = false :=
            ((workerSetup_control env p w).loop_enabled_).trans hl
          refine workerSteps_looping_finishes env _ _ w1 hw1 hloop ?_ hl2
          rw [hlen, hpend]
  unfold joinWorker
  simp [key]

/-! ## `play` when it returns -/

/-- The cases of `play()`.  In state `PLAYING` it returns `true` and leaves the
engine as it is.  In any other state with no source loaded it returns `false`
and leaves the engine as it is.  Otherwise it joins the previous worker, if
any, and whenever that join returns it returns `true` with the state
`PLAYING`, the stop flag clear, one new worker started and
`"playback_started"` the last event emitted.  The join returns whenever no
previous worker is still running or looping is disabled; with no previous
worker running nothing else changes. -/
theorem play_cases (env : Env) (p : VinylVideoPlayer) :
    (p.state_ = PlaybackState.PLAYING → play env p = some (true, p)) ∧
    (p.state_ ≠ PlaybackState.PLAYING → p.video_filepath_ = "" →
      play env p = some (false, p)) ∧
    (p.state_ ≠ PlaybackState.PLAYING → p.video_filepath_ ≠ "" →
      ((workerLive p = false ∨ p.loop_enabled_ = false) →
        ∃ q, play env p = some (true, q)) ∧
      (∀ ok q, play env p = some (ok, q) →
        ok = true ∧ q.state_ = PlaybackState.PLAYING ∧ q.should_stop_ = false ∧
        q.playback_thread_ = some newWorker ∧ workerLive q = true ∧
        q.threads_started = p.threads_started + 1 ∧
        ∃ before, q.events = before ++ ["playback_started"]) ∧
      (workerLive p = false →
        play env p = some (true,
          { p with state_ := PlaybackState.PLAYING
                   should_stop_ := false
                   playback_thread_ := some newWorker
                   threads_started := p.threads_started + 1
                   events := p.events ++ ["playback_started"] }))) := by
  refine ⟨fun h => by simp [play, h], fun h hf => by simp [play, h, hf], ?_⟩
  intro h hf
  have hplay : play env p =
      match joinWorker env
          { p with state_ := PlaybackState.PLAYING, should_stop_ := false } with
      | none => none
      | some p2 =>
        some (true, emitEvent
          { p2 with playback_thread_ := some newWorker
                    threads_started := p2.threads_started + 1 }
          "playback_started") := by
    unfold play
    rw [if_neg h, if_neg hf]
  refine ⟨?_, ?_, ?_⟩
  · intro hcase
    have hj : ∃ p2, joinWorker env
        { p with state_ := PlaybackState.PLAYING, should_stop_ := false } = some p2 := by
      rcases hcase with hlive | hloop
      · exact ⟨_, joinWorker_of_not_live env _ (by simpa [workerLive] using hlive)⟩
      · exact joinWorker_of_loop_disabled env _ hloop
    obtain ⟨p2, hp2⟩ := hj
    rw [hplay, hp2]
    exact ⟨_, rfl⟩
  · intro ok q hq
    rw [hplay] at hq
    split at hq
    · cases hq
    · next p2 hj =>
      simp only [Option.some.injEq, Prod.mk.injEq] at hq
      obtain ⟨rfl, rfl⟩ := hq
      have hc := (joinWorker_control hj).1
      exact ⟨rfl, hc.state_, hc.should_stop_, rfl, by simp [workerLive, emitEvent, newWorker],
        by simp [emitEvent, hc.threads_started], ⟨p2.events, rfl⟩⟩
  · intro hlive
    rw [hplay, joinWorker_of_not_live env _ (by simpa [workerLive] using hlive)]
    rfl

/-! ## C6: `pause` -/

/-- C6.  The method `pause()` returns `true` exactly when the state was
`PLAYING`; it then sets the state to `PAUSED` and emits `"playback_paused"`,
all else unchanged.  From every other state, `STOPPED` included, it returns
`false` and leaves the engine (state, position, events) as it is. -/
theorem pause_spec (p : VinylVideoPlayer) :
    ((pause p).1 = true ↔ p.state_ = PlaybackState.PLAYING) ∧
    (p.state_ = PlaybackState.PLAYING →
      pause p = (true, { p with state_ := PlaybackState.PAUSED
                                events := p.events ++ ["playback_paused"] })) ∧
    (p.state_ ≠ PlaybackState.PLAYING → pause p = (false, p)) ∧
    (construct.state_ = PlaybackState.STOPPED ∧ pause construct = (false, construct)) := by
  refine ⟨?_, ?_, ?_, rfl, ?_⟩
  · unfold pause
    split_ifs with h <;> simp [h]
  · intro h
    simp [pause, h, emitEvent]
  · intro h
    simp [pause, h]
  · simp [pause, construct]

/-! ## C7: `seek` -/

/-- C7.  For every position `pos` and every engine state, `seek(pos)` returns
`false` exactly when `pos < 0` or `pos > duration`; a failed seek leaves the
engine (position, state, events) as it is; a successful seek emits `"seek"`,
leaves the state unchanged, and `getCurrentPosition()` right after it returns
`pos`. -/
theorem seek_spec (p : VinylVideoPlayer) (pos : ℚ) :
    ((seek p pos).1 = false ↔ (pos < 0 ∨ pos > getDuration p)) ∧
    ((seek p pos).1 = false → (seek p pos).2 = p) ∧
    ((seek p pos).1 = true →
      (seek p pos).2 = { p with current_position_ := pos, events := p.events ++ ["seek"] } ∧
      (seek p pos).2.state_ = p.state_ ∧ getCurrentPosition (seek p pos).2 = pos) := by
  unfold seek getDuration getCurrentPosition
  by_cases h : pos < 0 ∨ pos > p.video_info_.duration
  · simp [h]
  · simp [h, emitEvent]

/-! ## A worker that never returns -/

/-- With looping enabled the body of a pass leaves the worker at the test of
the loop condition. -/
theorem workerBody_looping (env : Env) (p : VinylVideoPlayer) (w : Worker)
    (hph : w.phase = WorkerPhase.looping) (hl : p.loop_enabled_ = true) :
    ∃ w1, (workerBody env p w).playback_thread_ = some w1 ∧
      w1.phase = WorkerPhase.looping := by
  unfold workerBody
  split
  · rw [if_pos hl]
    exact ⟨_, rfl, hph⟩
  · exact ⟨_, rfl, hph⟩

theorem workerSteps_looping_forever (env : Env) :
    ∀ (n : Nat) (p : VinylVideoPlayer) (w : Worker), p.playback_thread_ = some w →
      w.phase = WorkerPhase.looping → loopCondition p → p.loop_enabled_ = true →
      workerLive (workerSteps env n p) = true := by
  intro n
  induction n with
  | zero =>
    intro p w ht hph _ _
    simp [workerSteps, workerLive, ht, hph]
  | succ n ih =>
    intro p w ht hph hc hl
    have hstep : workerStep env p = workerPass env p w := by
      unfold workerStep
      simp only [ht, hph]
    have hc2 : loopCondition (workerPass env p w) :=
      (loopCondition_congr (workerPass_control env p w)).mpr hc
    have hl2 : (workerPass env p w).loop_enabled_ = true :=
      ((workerPass_control env p w).loop_enabled_).trans hl
    show workerLive (workerSteps env n (workerStep env p)) = true
    rw [hstep]
    cases hpk : w.packets with
    | nil =>
      have hthr : (workerPass env p w).playback_thread_ =
          some { w with packets := w.all_packets } := by
        rw [workerPass_of_loopCondition env p w hc]
        unfold workerBody
        rw [hpk]
        simp [hl]
      exact ih _ _ hthr hph hc2 hl2
    | cons pkt rest =>
      obtain ⟨sleep, hthr⟩ := workerPass_cons env p w pkt rest hc hpk
      exact ih _ _ hthr hph hc2 hl2

/-- The join fails to return exactly when the worker is live after every
number of steps. -/
theorem joinWorker_eq_none_iff (env : Env) (p : VinylVideoPlayer) :
    joinWorker env p = none ↔ ∀ n, workerLive (workerSteps env n p) = true := by
  constructor
  · intro hnone n
    have hc : loopCondition p := by
      by_contra hc
      obtain ⟨q, hq, _⟩ := joinWorker_of_not_loopCondition env p hc
      rw [hq] at hnone
      cases hnone
    have hl : p.loop_enabled_ = true := by
      cases hl : p.loop_enabled_ with
      | true => rfl
      | false =>
        obtain ⟨q, hq⟩ := joinWorker_of_loop_disabled env p hl
        rw [hq] at hnone
        cases hnone
    have hlive : workerLive p = true := by
      cases h0 : workerLive p with
      | true => rfl
      | false =>
        rw [joinWorker_of_not_live env p h0] at hnone
        cases hnone
    cases ht : p.playback_thread_ with
    | none => simp [workerLive, ht] at hlive
    | some w =>
      cases hph : w.phase with
      | finished => simp [workerLive, ht, hph] at hlive
      | looping => exact workerSteps_looping_forever env n p w ht hph hc hl
      | inBody =>
        cases n with
        | zero => exact hlive
        | succ n =>
          show workerLive (workerSteps env n (workerStep env p)) = true
          rw [workerStep_body env p w ht hph]
          have hctl := workerBody_control env p { w with phase := WorkerPhase.looping }
          obtain ⟨w1, hw1, hph1⟩ :=
            workerBody_looping env p { w with phase := WorkerPhase.looping } rfl hl
          exact workerSteps_looping_forever env n _ w1 hw1 hph1
            ((loopCondition_congr hctl).mpr hc) ((hctl.loop_enabled_).trans hl)
      | entry =>
        cases n with
        | zero => exact hlive
        | succ n =>
          have hstep : workerStep env p = workerSetup env p w := by
            unfold workerStep
            simp only [ht, hph]
          obtain ⟨_, w1, hw1, hcase⟩ := workerSetup_result env p w
          show workerLive (workerSteps env n (workerStep env p)) = true
          rw [hstep]
          rcases hcase with hfin | hloop
          · exfalso
            have h0 : workerLive (workerSetup env p w) = false := by
              simp [workerLive, hw1, hfin]
            have hrun : workerLive (workerSteps env (joinBound env p) p) = false := by
              show workerLive (workerSteps env (pendingPackets env p + 1)
                (workerStep env p)) = false
              rw [hstep, workerSteps_of_not_live env _ _ h0]
              exact h0
            unfold joinWorker at hnone
            simp [hrun] at hnone
          · exact workerSteps_looping_forever env n _ w1 hw1 hloop
              ((loopCondition_congr (workerSetup_control env p w)).mpr hc)
              (((workerSetup_control env p w).loop_enabled_).trans hl)
  · intro h
    unfold joinWorker
    simp [h (joinBound env p)]

/-! ## C5: `play` behind a worker that is still running -/

/-- C5 (the code at the failing input).  The engine `sampleRacing` is
reachable: the sample source plays with looping enabled and `pause()` has just
returned, the worker still being inside its loop.  There `play()`, called with
a source loaded in state `PAUSED`, never returns: it has set `state_` to
`PLAYING` and cleared the stop flag before it joins the worker, which
therefore stays in its loop for ever.  `stop()`, which sets the stop flag
before it joins, does return on the same engine. -/
theorem play_blocks_behind_running_worker :
    Reachable sampleEnv sampleRacing ∧
    sampleRacing.state_ = PlaybackState.PAUSED ∧ sampleRacing.video_filepath_ = "a.mp4" ∧
    sampleRacing.loop_enabled_ = true ∧ workerLive sampleRacing = true ∧
    play sampleEnv sampleRacing = none ∧
    (∀ n, workerLive (workerSteps sampleEnv n
      { sampleRacing with state_ := PlaybackState.PLAYING, should_stop_ := false }) = true) ∧
    (stop sampleEnv sampleRacing).isSome = true := by
  have hs : sampleRacing.state_ = PlaybackState.PAUSED := by
    simp [sampleRacing, pause, setLoopEnabled, sampleLooping, samplePlaying, emitEvent]
  have hf : sampleRacing.video_filepath_ = "a.mp4" := by
    simp [sampleRacing, pause, setLoopEnabled, sampleLooping, samplePlaying, sampleLoaded,
      emitEvent]
  have hl : sampleRacing.loop_enabled_ = true := by
    simp [sampleRacing, pause, setLoopEnabled, sampleLooping, samplePlaying, emitEvent]
  have ht : sampleRacing.playback_thread_ = some sampleWorker := by
    simp [sampleRacing, pause, setLoopEnabled, sampleLooping, samplePlaying, emitEvent]
  have hforever : ∀ n, workerLive (workerSteps sampleEnv n
      { sampleRacing with state_ := PlaybackState.PLAYING, should_stop_ := false }) = true :=
    fun n => workerSteps_looping_forever sampleEnv n _ sampleWorker ht rfl ⟨rfl, rfl⟩ hl
  refine ⟨?_, hs, hf, hl, by simp [workerLive, ht, sampleWorker], ?_, hforever, ?_⟩
  · exact Reachable.pause (Reachable.setLoopEnabled true reachable_sampleLooping)
  · have hj := (joinWorker_eq_none_iff sampleEnv _).mpr hforever
    unfold play
    rw [if_neg (by rw [hs]; decide), if_neg (by rw [hf]; decide), hj]
  · obtain ⟨q, hq, _⟩ := stop_of_not_stopped sampleEnv sampleRacing (by rw [hs]; decide)
    rw [hq]
    rfl

/-! ## C8: the end of the stream -/

/-- The pass of the loop that meets the end of the stream, for every engine
whose loop condition holds: with looping enabled the position is reset, the
source rewound and the worker stays in the loop; with looping disabled the
worker leaves the loop, which releases the resources and emits
`"playback_ended"`.  The state is not written in either case. -/
theorem workerStep_end_of_stream (env : Env) (p : VinylVideoPlayer) (w : Worker)
    (hc : loopCondition p) (ht : p.playback_thread_ = some w)
    (hph : w.phase = WorkerPhase.looping) (hpk : w.packets = []) :
    (workerStep env p).state_ = p.state_ ∧
    (p.loop_enabled_ = true →
      workerStep env p =
        { p with current_position_ := 0
                 playback_thread_ := some { w with packets := w.all_packets } }) ∧
    (p.loop_enabled_ = false →
      workerStep env p =
        { p with playback_thread_ :=
                   some { w with phase := WorkerPhase.finished, resources_open := false }
                 events := p.events ++ ["playback_ended"] }) := by
  have hstep : workerStep env p = workerPass env p w := by
    unfold workerStep
    simp only [ht, hph]
  refine ⟨(workerStep_control env p).state_, ?_, ?_⟩
  · intro hl
    rw [hstep, workerPass_of_loopCondition env p w hc]
    unfold workerBody
    rw [hpk]
    simp [hl]
  · intro hl
    rw [hstep, workerPass_of_loopCondition env p w hc]
    unfold workerBody
    rw [hpk]
    simp [hl, workerExit, emitEvent, hpk]

/-- C8 (the code at the failing input).  The engine `sampleAtEnd` is reachable:
the sample source was loaded and played with looping disabled and the worker
has read its three packets.  The next pass of the worker meets the end of the
stream: the worker leaves the loop and emits `"playback_ended"`, and the
engine state is still `PLAYING`, not `STOPPED`.  (With looping enabled the
same pass resets the position to 0 and the worker stays in the loop, state
`PLAYING`.) -/
theorem end_of_stream_leaves_state_playing :
    Reachable sampleEnv sampleAtEnd ∧
    sampleAtEnd.state_ = PlaybackState.PLAYING ∧ sampleAtEnd.loop_enabled_ = false ∧
    sampleAtEnd.playback_thread_ =
      some { sampleWorker with packets := [], last_sleep := 40 } ∧
    (workerStep sampleEnv sampleAtEnd).state_ = PlaybackState.PLAYING ∧
    (workerStep sampleEnv sampleAtEnd).state_ ≠ PlaybackState.STOPPED ∧
    workerLive (workerStep sampleEnv sampleAtEnd) = false ∧
    (workerStep sampleEnv sampleAtEnd).events = ["playback_started", "playback_ended"] ∧
    (workerStep sampleEnv (setLoopEnabled sampleAtEnd true)).current_position_ = 0 ∧
    (workerStep sampleEnv (setLoopEnabled sampleAtEnd true)).state_ = PlaybackState.PLAYING ∧
    workerLive (workerStep sampleEnv (setLoopEnabled sampleAtEnd true)) = true := by
  obtain ⟨ht, _, _, hev, hst, hss, hl⟩ := sampleAtEnd_eval
  have hc : loopCondition sampleAtEnd := ⟨hss, hst⟩
  obtain ⟨h1, _, h3⟩ := workerStep_end_of_stream sampleEnv sampleAtEnd _ hc ht rfl rfl
  have hc2 : loopCondition (setLoopEnabled sampleAtEnd true) := ⟨hss, hst⟩
  obtain ⟨k1, k2, _⟩ := workerStep_end_of_stream sampleEnv (setLoopEnabled sampleAtEnd true) _
    hc2 ht rfl rfl
  have hexit := h3 hl
  have hloop := k2 rfl
  refine ⟨reachable_workerSteps 3 reachable_sampleLooping, hst, hl, ht, h1.trans hst, ?_, ?_, ?_,
    ?_, k1.trans hst, ?_⟩
  · rw [h1, hst]; decide
  · rw [hexit]; simp [workerLive]
  · rw [hexit]; simp [hev]
  · rw [hloop]
  · rw [hloop]; simp [workerLive, sampleWorker]

/-! ## C9: the worker and `PAUSED` -/

/-- C9 (counterexample).  On the sample engine inside its loop, `pause()`
succeeds; the next step of the worker, which observes `PAUSED`, ends the
worker: it is no longer live, its decode resources are released and
`"playback_ended"` has been emitted.  The following `play()` starts a second
thread, whose set-up opens the source a second time (session 2, not 1). -/
theorem paused_worker_exits_sample :
    (pause sampleLooping).1 = true ∧
    (pause sampleLooping).2.state_ = PlaybackState.PAUSED ∧
    workerLive (workerStep sampleEnv (pause sampleLooping).2) = false ∧
    (workerStep sampleEnv (pause sampleLooping).2).playback_thread_ =
      some { sampleWorker with phase := WorkerPhase.finished, resources_open := false } ∧
    (workerStep sampleEnv (pause sampleLooping).2).events =
      ["playback_started", "playback_paused", "playback_ended"] ∧
    (play sampleEnv (workerStep sampleEnv (pause sampleLooping).2)).map
        (fun r => (r.1, r.2.threads_started, r.2.playback_thread_,
          (workerStep sampleEnv r.2).sessions_opened,
          (workerStep sampleEnv r.2).playback_thread_.map Worker.session)) =
      some (true, 2, some newWorker, 2, some 2) ∧
    sampleLooping.threads_started = 1 ∧ sampleLooping.sessions_opened = 1 ∧
    sampleLooping.playback_thread_.map Worker.session = some 1 := by
  simp [pause, sampleLooping, samplePlaying, sampleLoaded, construct, emitEvent, workerStep,
    sampleWorker, workerPass, workerExit, workerLive, play, joinWorker, joinBound,
    pendingPackets, workerSteps, newWorker, workerSetup, sampleEnv, sampleFile, findStreams]

/-- C9 (amended).  When the worker, inside its loop, observes the state
`PAUSED`, it leaves the loop: it releases its decode resources, emits
`"playback_ended"` and returns, the position unchanged.  A `play()` after that
(with a source loaded) joins it and starts a new worker, position unchanged,
and the set-up of the new worker opens the source again whenever it can be
opened: a new decode session. -/
theorem paused_worker_exits (env : Env) (p : VinylVideoPlayer) (w : Worker)
    (hs : p.state_ = PlaybackState.PAUSED) (ht : p.playback_thread_ = some w)
    (hph : w.phase = WorkerPhase.looping) :
    workerStep env p =
      { p with playback_thread_ :=
                 some { w with phase := WorkerPhase.finished, resources_open := false }
               events := p.events ++ ["playback_ended"] } ∧
    workerLive (workerStep env p) = false ∧
    (workerStep env p).current_position_ = p.current_position_ ∧
    (p.video_filepath_ ≠ "" →
      ∃ q, play env (workerStep env p) = some (true, q) ∧
        q.playback_thread_ = some newWorker ∧
        q.threads_started = p.threads_started + 1 ∧
        q.current_position_ = p.current_position_ ∧
        (∀ file, env.files p.video_filepath_ = some file →
          (workerStep env q).sessions_opened = p.sessions_opened + 1 ∧
          (workerStep env q).playback_thread_.map Worker.session =
            some (p.sessions_opened + 1))) := by
  have hc : ¬ loopCondition p := by
    unfold loopCondition
    rw [hs]
    simp
  have hstep : workerStep env p = workerExit p w := by
    unfold workerStep
    simp only [ht, hph]
    exact workerPass_of_not_loopCondition env p w hc
  have hlive : workerLive (workerStep env p) = false := by
    rw [hstep]
    exact workerLive_workerExit p w
  refine ⟨by rw [hstep]; rfl, hlive, by rw [hstep]; rfl, ?_⟩
  intro hf
  have hne : (workerStep env p).state_ ≠ PlaybackState.PLAYING := by
    rw [(workerStep_control env p).state_, hs]
    decide
  have hf2 : (workerStep env p).video_filepath_ ≠ "" := by
    rw [(workerStep_control env p).video_filepath_]
    exact hf
  have hplay := ((play_cases env (workerStep env p)).2.2 hne hf2).2.2 hlive
  refine ⟨_, hplay, rfl, ?_, ?_, ?_⟩
  · rw [hstep]; rfl
  · rw [hstep]; rfl
  · intro file hfile
    rw [hstep]
    simp [workerStep, newWorker, workerSetup, workerExit, emitEvent, hfile]
    split_ifs <;> simp

/-- C9 (witness): the amended statement at the paused sample engine. -/
theorem paused_worker_exits_witness :
    (pause sampleLooping).2.state_ = PlaybackState.PAUSED ∧
    workerLive (workerStep sampleEnv (pause sampleLooping).2) = false :=
  have hs : (pause sampleLooping).2.state_ = PlaybackState.PAUSED := by
    simp [pause, sampleLooping, samplePlaying, emitEvent]
  have ht : (pause sampleLooping).2.playback_thread_ = some sampleWorker := by
    simp [pause, sampleLooping, samplePlaying, emitEvent]
  ⟨hs, (paused_worker_exits sampleEnv (pause sampleLooping).2 sampleWorker hs ht rfl).2.1⟩

/-! ## C10: the time synchronisation -/

/-- C10 (the code at the failing input).  The wait does not depend on the
speed: at position 4.0 s the worker sleeps 4000 ms when nothing has elapsed
and still 2000 ms when 2000 ms have elapsed, whatever the speed is (at speed
2.0 the claim gives 2000 ms and 0 ms).  On the sample engine at speed 2.0
(`sampleFast`, the engine after `setPlaybackSpeed(2.0)`) the three frames of a
25 fps source take the position to the double 0.24 and the wall clock to
240 ms: the position advances one second per real second, not two. -/
theorem syncSleep_ignores_speed :
    syncSleep 4 0 = 4000 ∧ syncSleep 4 2000 = 2000 ∧
    setPlaybackSpeed sampleLooping (CDouble.finite 2) = .ok sampleFast ∧
    sampleFast.playback_speed_ = 2 ∧ sampleFast.current_position_ = 0 ∧
    sampleFast.clock = 0 ∧
    (workerSteps sampleEnv 3 sampleFast).current_position_ = toDouble (6 / 25) ∧
    toDouble (6 / 25) = 1080863910568919 / 4503599627370496 ∧
    (workerSteps sampleEnv 3 sampleFast).clock = 240 := by
  have h3 : setPlaybackSpeed sampleLooping (CDouble.finite 2) = .ok sampleFast := by
    norm_num [setPlaybackSpeed, clampDouble, storeDouble, clamp, Except.map, sampleFast]
  obtain ⟨a1, a2, a3, _, a5, a6, _⟩ := workerStep_video sampleEnv sampleFast sampleWorker
    (samplePacket 0) [samplePacket 1, samplePacket 2] (toDouble (2 / 25)) 0 80 rfl rfl
    ⟨rfl, rfl⟩ rfl (isVideoFrame_samplePacket 0) advancePosition_25fps_0_2 rfl
    syncSleep_25fps_2_0
  obtain ⟨b1, b2, b3, _, b5, b6, _⟩ := workerStep_video sampleEnv
    (workerStep sampleEnv sampleFast) _ (samplePacket 1) [samplePacket 2]
    (toDouble (4 / 25)) 80 80 a1 rfl a5 rfl (isVideoFrame_samplePacket 1)
    (by rw [a2, a6]; exact advancePosition_25fps_2_2) (by rw [a3]; rfl) syncSleep_25fps_4_80
  obtain ⟨_, c2, c3, _, _, _, _⟩ := workerStep_video sampleEnv
    (workerStep sampleEnv (workerStep sampleEnv sampleFast)) _ (samplePacket 2) []
    (toDouble (6 / 25)) 160 80 b1 rfl b5 rfl (isVideoFrame_samplePacket 2)
    (by rw [b2, b6, a6]; exact advancePosition_25fps_4_2) (by rw [b3, a3]; rfl)
    syncSleep_25fps_6_160
  refine ⟨syncSleep_four_0, syncSleep_four_2000, h3, rfl, rfl, rfl, c2, toDouble_6_25, ?_⟩
  show (workerStep sampleEnv (workerStep sampleEnv (workerStep sampleEnv sampleFast))).clock =
    240
  rw [c3, b3, a3]
  rfl

end VinylVideoPlayer
end AnantaSound

namespace AnantaSound
namespace VinylVideoPlayer

/-! ## C11: the position advances by one frame step per video frame -/

/-- The set-up computes the frame step from the frame rate read by `loadVideo`:
a worker that reaches its loop has `frame_duration = 1.0 / video_info_.frame_rate`,
a `double` quotient, and takes `start_time` from the clock. -/
theorem workerSetup_locals (env : Env) (p : VinylVideoPlayer) (w w1 : Worker)
    (h : (workerSetup env p w).playback_thread_ = some w1)
    (hloop : w1.phase = WorkerPhase.looping) :
    w1.frame_duration = toDouble (1 / p.video_info_.frame_rate) ∧ w1.start_time = p.clock := by
  unfold workerSetup at h
  split at h
  · simp only [Option.some.injEq] at h
    subst h
    simp at hloop
  · dsimp only at h
    split_ifs at h
    · simp only [Option.some.injEq] at h
      subst h
      simp at hloop
    · simp only [Option.some.injEq] at h
      subst h
      simp at hloop
    · simp only [Option.some.injEq] at h
      subst h
      exact ⟨rfl, rfl⟩

theorem positionAfter_succ (frame_duration playback_speed : ℚ) (n : Nat) (position : ℚ) :
    positionAfter frame_duration playback_speed (n + 1) position =
      positionAfter frame_duration playback_speed n
        (advancePosition position frame_duration playback_speed) := rfl

/-- The position after the worker has processed a run of packets on its own:
one update by `advancePosition` for every packet that yields a video frame. -/
theorem workerSteps_packets (env : Env) :
    ∀ (pkts rest : List Packet) (p : VinylVideoPlayer) (w : Worker),
      p.playback_thread_ = some w → w.phase = WorkerPhase.looping → loopCondition p →
      w.packets = pkts ++ rest →
      (workerSteps env pkts.length p).current_position_ =
        positionAfter w.frame_duration p.playback_speed_ (videoFrameCount w.video_stream pkts)
          p.current_position_ := by
  intro pkts
  induction pkts with
  | nil =>
    intro rest p w _ _ _ _
    simp [workerSteps, videoFrameCount, positionAfter]
  | cons pkt pkts ih =>
    intro rest p w ht hph hc hpk
    obtain ⟨hthr, hpos, _⟩ := workerStep_packet env p w pkt (pkts ++ rest) ht hph hc hpk
    have hctl := workerStep_control env p
    have hc2 : loopCondition (workerStep env p) := (loopCondition_congr hctl).mpr hc
    have hrec := ih rest (workerStep env p) _ hthr hph hc2 rfl
    show (workerSteps env pkts.length (workerStep env p)).current_position_ = _
    rw [hrec, hpos, hctl.playback_speed_]
    simp only [videoFrameCount, List.countP_cons]
    by_cases hv : isVideoFrame w.video_stream pkt = true
    · simp only [hv, if_true]
      rfl
    · simp only [hv, if_false]
      rfl

theorem toDouble_1_30 : toDouble (1 / 30) = 4803839602528529 / 144115188075855872 :=
  toDouble_eval _ (-5) (4803839602528529) _ (by norm_num) (by norm_num [abs_of_neg, abs_of_pos])
    (by norm_num [abs_of_neg, abs_of_pos]) (by norm_num [abs_lt]) (by norm_num)

/-- Thirty updates of the position by the double `1.0 / 30` times the speed
`1.0`, from 0: the sum is the double just below 1. -/
theorem positionAfter_thirty_frames :
    positionAfter (toDouble (1 / 30)) 1 30 0 = 9007199254740991 / 9007199254740992 := by
  have hfd : toDouble (4803839602528529 / 144115188075855872 * 1) = 4803839602528529 / 144115188075855872 :=
    toDouble_eval _ (-5) (4803839602528529) _ (by norm_num) (by norm_num [abs_of_neg, abs_of_pos])
      (by norm_num [abs_of_neg, abs_of_pos]) (by norm_num [abs_lt]) (by norm_num)
  have s0 : advancePosition (0) (toDouble (1 / 30)) 1 =
      4803839602528529 / 144115188075855872 := by
    have a0 : toDouble (0 + 4803839602528529 / 144115188075855872) = 4803839602528529 / 144115188075855872 :=
      toDouble_eval _ (-5) (4803839602528529) _ (by norm_num) (by norm_num [abs_of_neg, abs_of_pos])
        (by norm_num [abs_of_neg, abs_of_pos]) (by norm_num [abs_lt]) (by norm_num)
    simp only [advancePosition, toDouble_1_30, hfd, a0]
  have s1 : advancePosition (4803839602528529 / 144115188075855872) (toDouble (1 / 30)) 1 =
      4803839602528529 / 72057594037927936 := by
    have a1 : toDouble (4803839602528529 / 144115188075855872 + 4803839602528529 / 144115188075855872) = 4803839602528529 / 72057594037927936 :=
      toDouble_eval _ (-4) (4803839602528529) _ (by norm_num) (by norm_num [abs_of_neg, abs_of_pos])
        (by norm_num [abs_of_neg, abs_of_pos]) (by norm_num [abs_lt]) (by norm_num)
    simp only [advancePosition, toDouble_1_30, hfd, a1]
  have s2 : advancePosition (4803839602528529 / 72057594037927936) (toDouble (1 / 30)) 1 =
      3602879701896397 / 36028797018963968 := by
    have a2 : toDouble (4803839602528529 / 72057594037927936 + 4803839602528529 / 144115188075855872) = 3602879701896397 / 36028797018963968 :=
      toDouble_eval_even _ (-4) (7205759403792794) _ (by norm_num) (by norm_num [abs_of_neg, abs_of_pos])
        (by norm_num [abs_of_neg, abs_of_pos]) (by norm_num [abs_le]) (by norm_num)
        (by norm_num)
    simp only [advancePosition, toDouble_1_30, hfd, a2]
  have s3 : advancePosition (3602879701896397 / 36028797018963968) (toDouble (1 / 30)) 1 =
      4803839602528529 / 36028797018963968 := by
    have a3 : toDouble (3602879701896397 / 36028797018963968 + 4803839602528529 / 144115188075855872) = 4803839602528529 / 36028797018963968 :=
      toDouble_eval _ (-3) (4803839602528529) _ (by norm_num) (by norm_num [abs_of_neg, abs_of_pos])
        (by norm_num [abs_of_neg, abs_of_pos]) (by norm_num [abs_lt]) (by norm_num)
    simp only [advancePosition, toDouble_1_30, hfd, a3]
  have s4 : advancePosition (4803839602528529 / 36028797018963968) (toDouble (1 / 30)) 1 =
      6004799503160661 / 36028797018963968 := by
    have a4 : toDouble (4803839602528529 / 36028797018963968 + 4803839602528529 / 144115188075855872) = 6004799503160661 / 36028797018963968 :=
      toDouble_eval _ (-3) (6004799503160661) _ (by norm_num) (by norm_num [abs_of_neg, abs_of_pos])
        (by norm_num [abs_of_neg, abs_of_pos]) (by norm_num [abs_lt]) (by norm_num)
    simp only [advancePosition, toDouble_1_30, hfd, a4]
  have s5 : advancePosition (6004799503160661 / 36028797018963968) (toDouble (1 / 30)) 1 =
      7205759403792793 / 36028797018963968 := by
    have a5 : toDouble (6004799503160661 / 36028797018963968 + 4803839602528529 / 144115188075855872) = 7205759403792793 / 36028797018963968 :=
      toDouble_eval _ (-3) (7205759403792793) _ (by norm_num) (by norm_num [abs_of_neg, abs_of_pos])
        (by norm_num [abs_of_neg, abs_of_pos]) (by norm_num [abs_lt]) (by norm_num)
    simp only [advancePosition, toDouble_1_30, hfd, a5]
  have s6 : advancePosition (7205759403792793 / 36028797018963968) (toDouble (1 / 30)) 1 =
      8406719304424925 / 36028797018963968 := by
    have a6 : toDouble (7205759403792793 / 36028797018963968 + 4803839602528529 / 144115188075855872) = 8406719304424925 / 36028797018963968 :=
      toDouble_eval _ (-3) (8406719304424925) _ (by norm_num) (by norm_num [abs_of_neg, abs_of_pos])
        (by norm_num [abs_of_neg, abs_of_pos]) (by norm_num [abs_lt]) (by norm_num)
    simp only [advancePosition, toDouble_1_30, hfd, a6]
  have s7 : advancePosition (8406719304424925 / 36028797018963968) (toDouble (1 / 30)) 1 =
      4803839602528529 / 18014398509481984 := by
    have a7 : toDouble (8406719304424925 / 36028797018963968 + 4803839602528529 / 144115188075855872) = 4803839602528529 / 18014398509481984 :=
      toDouble_eval _ (-2) (4803839602528529) _ (by norm_num) (by norm_num [abs_of_neg, abs_of_pos])
        (by norm_num [abs_of_neg, abs_of_pos]) (by norm_num [abs_lt]) (by norm_num)
    simp only [advancePosition, toDouble_1_30, hfd, a7]
  have s8 : advancePosition (4803839602528529 / 18014398509481984) (toDouble (1 / 30)) 1 =
      5404319552844595 / 18014398509481984 := by
    have a8 : toDouble (4803839602528529 / 18014398509481984 + 4803839602528529 / 144115188075855872) = 5404319552844595 / 18014398509481984 :=
      toDouble_eval _ (-2) (5404319552844595) _ (by norm_num) (by norm_num [abs_of_neg, abs_of_pos])
        (by norm_num [abs_of_neg, abs_of_pos]) (by norm_num [abs_lt]) (by norm_num)
    simp only [advancePosition, toDouble_1_30, hfd, a8]
  have s9 : advancePosition (5404319552844595 / 18014398509481984) (toDouble (1 / 30)) 1 =
      6004799503160661 / 18014398509481984 := by
    have a9 : toDouble (5404319552844595 / 18014398509481984 + 4803839602528529 / 144115188075855872) = 6004799503160661 / 18014398509481984 :=
      toDouble_eval _ (-2) (6004799503160661) _ (by norm_num) (by norm_num [abs_of_neg, abs_of_pos])
        (by norm_num [abs_of_neg, abs_of_pos]) (by norm_num [abs_lt]) (by norm_num)
    simp only [advancePosition, toDouble_1_30, hfd, a9]
  have s10 : advancePosition (6004799503160661 / 18014398509481984) (toDouble (1 / 30)) 1 =
      6605279453476727 / 18014398509481984 := by
    have a10 : toDouble (6004799503160661 / 18014398509481984 + 4803839602528529 / 144115188075855872) = 6605279453476727 / 18014398509481984 :=
      toDouble_eval _ (-2) (6605279453476727) _ (by norm_num) (by norm_num [abs_of_neg, abs_of_pos])
        (by norm_num [abs_of_neg, abs_of_pos]) (by norm_num [abs_lt]) (by norm_num)
    simp only [advancePosition, toDouble_1_30, hfd, a10]
  have s11 : advancePosition (6605279453476727 / 18014398509481984) (toDouble (1 / 30)) 1 =
      7205759403792793 / 18014398509481984 := by
    have a11 : toDouble (6605279453476727 / 18014398509481984 + 4803839602528529 / 144115188075855872) = 7205759403792793 / 18014398509481984 :=
      toDouble_eval _ (-2) (7205759403792793) _ (by norm_num) (by norm_num [abs_of_neg, abs_of_pos])
        (by norm_num [abs_of_neg, abs_of_pos]) (by norm_num [abs_lt]) (by norm_num)
    simp only [advancePosition, toDouble_1_30, hfd, a11]
  have s12 : advancePosition (7205759403792793 / 18014398509481984) (toDouble (1 / 30)) 1 =
      7806239354108859 / 18014398509481984 := by
    have a12 : toDouble (7205759403792793 / 18014398509481984 + 4803839602528529 / 144115188075855872) = 7806239354108859 / 18014398509481984 :=
      toDouble_eval _ (-2) (7806239354108859) _ (by norm_num) (by norm_num [abs_of_neg, abs_of_pos])
        (by norm_num [abs_of_neg, abs_of_pos]) (by norm_num [abs_lt]) (by norm_num)
    simp only [advancePosition, toDouble_1_30, hfd, a12]
  have s13 : advancePosition (7806239354108859 / 18014398509481984) (toDouble (1 / 30)) 1 =
      8406719304424925 / 18014398509481984 := by
    have a13 : toDouble (7806239354108859 / 18014398509481984 + 4803839602528529 / 144115188075855872) = 8406719304424925 / 18014398509481984 :=
      toDouble_eval _ (-2) (8406719304424925) _ (by norm_num) (by norm_num [abs_of_neg, abs_of_pos])
        (by norm_num [abs_of_neg, abs_of_pos]) (by norm_num [abs_lt]) (by norm_num)
    simp only [advancePosition, toDouble_1_30, hfd, a13]
  have s14 : advancePosition (8406719304424925 / 18014398509481984) (toDouble (1 / 30)) 1 =
      9007199254740991 / 18014398509481984 := by
    have a14 : toDouble (8406719304424925 / 18014398509481984 + 4803839602528529 / 144115188075855872) = 9007199254740991 / 18014398509481984 :=
      toDouble_eval _ (-2) (9007199254740991) _ (by norm_num) (by norm_num [abs_of_neg, abs_of_pos])
        (by norm_num [abs_of_neg, abs_of_pos]) (by norm_num [abs_lt]) (by norm_num)
    simp only [advancePosition, toDouble_1_30, hfd, a14]
  have s15 : advancePosition (9007199254740991 / 18014398509481984) (toDouble (1 / 30)) 1 =
      4803839602528529 / 9007199254740992 := by
    have a15 : toDouble (9007199254740991 / 18014398509481984 + 4803839602528529 / 144115188075855872) = 4803839602528529 / 9007199254740992 :=
      toDouble_eval _ (-1) (4803839602528529) _ (by norm_num) (by norm_num [abs_of_neg, abs_of_pos])
        (by norm_num [abs_of_neg, abs_of_pos]) (by norm_num [abs_lt]) (by norm_num)
    simp only [advancePosition, toDouble_1_30, hfd, a15]
  have s16 : advancePosition (4803839602528529 / 9007199254740992) (toDouble (1 / 30)) 1 =
      2552039788843281 / 4503599627370496 := by
    have a16 : toDouble (4803839602528529 / 9007199254740992 + 4803839602528529 / 144115188075855872) = 2552039788843281 / 4503599627370496 :=
      toDouble_eval _ (-1) (5104079577686562) _ (by norm_num) (by norm_num [abs_of_neg, abs_of_pos])
        (by norm_num [abs_of_neg, abs_of_pos]) (by norm_num [abs_lt]) (by norm_num)
    simp only [advancePosition, toDouble_1_30, hfd, a16]
  have s17 : advancePosition (2552039788843281 / 4503599627370496) (toDouble (1 / 30)) 1 =
      5404319552844595 / 9007199254740992 := by
    have a17 : toDouble (2552039788843281 / 4503599627370496 + 4803839602528529 / 144115188075855872) = 5404319552844595 / 9007199254740992 :=
      toDouble_eval _ (-1) (5404319552844595) _ (by norm_num) (by norm_num [abs_of_neg, abs_of_pos])
        (by norm_num [abs_of_neg, abs_of_pos]) (by norm_num [abs_lt]) (by norm_num)
    simp only [advancePosition, toDouble_1_30, hfd, a17]
  have s18 : advancePosition (5404319552844595 / 9007199254740992) (toDouble (1 / 30)) 1 =
      1426139882000657 / 2251799813685248 := by
    have a18 : toDouble (5404319552844595 / 9007199254740992 + 4803839602528529 / 144115188075855872) = 1426139882000657 / 2251799813685248 :=
      toDouble_eval _ (-1) (5704559528002628) _ (by norm_num) (by norm_num [abs_of_neg, abs_of_pos])
        (by norm_num [abs_of_neg, abs_of_pos]) (by norm_num [abs_lt]) (by norm_num)
    simp only [advancePosition, toDouble_1_30, hfd, a18]
  have s19 : advancePosition (1426139882000657 / 2251799813685248) (toDouble (1 / 30)) 1 =
      6004799503160661 / 9007199254740992 := by
    have a19 : toDouble (1426139882000657 / 2251799813685248 + 4803839602528529 / 144115188075855872) = 6004799503160661 / 9007199254740992 :=
      toDouble_eval _ (-1) (6004799503160661) _ (by norm_num) (by norm_num [abs_of_neg, abs_of_pos])
        (by norm_num [abs_of_neg, abs_of_pos]) (by norm_num [abs_lt]) (by norm_num)
    simp only [advancePosition, toDouble_1_30, hfd, a19]
  have s20 : advancePosition (6004799503160661 / 9007199254740992) (toDouble (1 / 30)) 1 =
      3152519739159347 / 4503599627370496 := by
    have a20 : toDouble (6004799503160661 / 9007199254740992 + 4803839602528529 / 144115188075855872) = 3152519739159347 / 4503599627370496 :=
      toDouble_eval _ (-1) (6305039478318694) _ (by norm_num) (by norm_num [abs_of_neg, abs_of_pos])
        (by norm_num [abs_of_neg, abs_of_pos]) (by norm_num [abs_lt]) (by norm_num)
    simp only [advancePosition, toDouble_1_30, hfd, a20]
  have s21 : advancePosition (3152519739159347 / 4503599627370496) (toDouble (1 / 30)) 1 =
      6605279453476727 / 9007199254740992 := by
    have a21 : toDouble (3152519739159347 / 4503599627370496 + 4803839602528529 / 144115188075855872) = 6605279453476727 / 9007199254740992 :=
      toDouble_eval _ (-1) (6605279453476727) _ (by norm_num) (by norm_num [abs_of_neg, abs_of_pos])
        (by norm_num [abs_of_neg, abs_of_pos]) (by norm_num [abs_lt]) (by norm_num)
    simp only [advancePosition, toDouble_1_30, hfd, a21]
  have s22 : advancePosition (6605279453476727 / 9007199254740992) (toDouble (1 / 30)) 1 =
      863189928579345 / 1125899906842624 := by
    have a22 : toDouble (6605279453476727 / 9007199254740992 + 4803839602528529 / 144115188075855872) = 863189928579345 / 1125899906842624 :=
      toDouble_eval _ (-1) (6905519428634760) _ (by norm_num) (by norm_num [abs_of_neg, abs_of_pos])
        (by norm_num [abs_of_neg, abs_of_pos]) (by norm_num [abs_lt]) (by norm_num)
    simp only [advancePosition, toDouble_1_30, hfd, a22]
  have s23 : advancePosition (863189928579345 / 1125899906842624) (toDouble (1 / 30)) 1 =
      7205759403792793 / 9007199254740992 := by
    have a23 : toDouble (863189928579345 / 1125899906842624 + 4803839602528529 / 144115188075855872) = 7205759403792793 / 9007199254740992 :=
      toDouble_eval _ (-1) (7205759403792793) _ (by norm_num) (by norm_num [abs_of_neg, abs_of_pos])
        (by norm_num [abs_of_neg, abs_of_pos]) (by norm_num [abs_lt]) (by norm_num)
    simp only [advancePosition, toDouble_1_30, hfd, a23]
  have s24 : advancePosition (7205759403792793 / 9007199254740992) (toDouble (1 / 30)) 1 =
      3752999689475413 / 4503599627370496 := by
    have a24 : toDouble (7205759403792793 / 9007199254740992 + 4803839602528529 / 144115188075855872) = 3752999689475413 / 4503599627370496 :=
      toDouble_eval _ (-1) (7505999378950826) _ (by norm_num) (by norm_num [abs_of_neg, abs_of_pos])
        (by norm_num [abs_of_neg, abs_of_pos]) (by norm_num [abs_lt]) (by norm_num)
    simp only [advancePosition, toDouble_1_30, hfd, a24]
  have s25 : advancePosition (3752999689475413 / 4503599627370496) (toDouble (1 / 30)) 1 =
      7806239354108859 / 9007199254740992 := by
    have a25 : toDouble (3752999689475413 / 4503599627370496 + 4803839602528529 / 144115188075855872) = 7806239354108859 / 9007199254740992 :=
      toDouble_eval _ (-1) (7806239354108859) _ (by norm_num) (by norm_num [abs_of_neg, abs_of_pos])
        (by norm_num [abs_of_neg, abs_of_pos]) (by norm_num [abs_lt]) (by norm_num)
    simp only [advancePosition, toDouble_1_30, hfd, a25]
  have s26 : advancePosition (7806239354108859 / 9007199254740992) (toDouble (1 / 30)) 1 =
      2026619832316723 / 2251799813685248 := by
    have a26 : toDouble (7806239354108859 / 9007199254740992 + 4803839602528529 / 144115188075855872) = 2026619832316723 / 2251799813685248 :=
      toDouble_eval _ (-1) (8106479329266892) _ (by norm_num) (by norm_num [abs_of_neg, abs_of_pos])
        (by norm_num [abs_of_neg, abs_of_pos]) (by norm_num [abs_lt]) (by norm_num)
    simp only [advancePosition, toDouble_1_30, hfd, a26]
  have s27 : advancePosition (2026619832316723 / 2251799813685248) (toDouble (1 / 30)) 1 =
      8406719304424925 / 9007199254740992 := by
    have a27 : toDouble (2026619832316723 / 2251799813685248 + 4803839602528529 / 144115188075855872) = 8406719304424925 / 9007199254740992 :=
      toDouble_eval _ (-1) (8406719304424925) _ (by norm_num) (by norm_num [abs_of_neg, abs_of_pos])
        (by norm_num [abs_of_neg, abs_of_pos]) (by norm_num [abs_lt]) (by norm_num)
    simp only [advancePosition, toDouble_1_30, hfd, a27]
  have s28 : advancePosition (8406719304424925 / 9007199254740992) (toDouble (1 / 30)) 1 =
      4353479639791479 / 4503599627370496 := by
    have a28 : toDouble (8406719304424925 / 9007199254740992 + 4803839602528529 / 144115188075855872) = 4353479639791479 / 4503599627370496 :=
      toDouble_eval _ (-1) (8706959279582958) _ (by norm_num) (by norm_num [abs_of_neg, abs_of_pos])
        (by norm_num [abs_of_neg, abs_of_pos]) (by norm_num [abs_lt]) (by norm_num)
    simp only [advancePosition, toDouble_1_30, hfd, a28]
  have s29 : advancePosition (4353479639791479 / 4503599627370496) (toDouble (1 / 30)) 1 =
      9007199254740991 / 9007199254740992 := by
    have a29 : toDouble (4353479639791479 / 4503599627370496 + 4803839602528529 / 144115188075855872) = 9007199254740991 / 9007199254740992 :=
      toDouble_eval _ (-1) (9007199254740991) _ (by norm_num) (by norm_num [abs_of_neg, abs_of_pos])
        (by norm_num [abs_of_neg, abs_of_pos]) (by norm_num [abs_lt]) (by norm_num)
    simp only [advancePosition, toDouble_1_30, hfd, a29]
  simp only [positionAfter, s0, s1, s2, s3, s4, s5, s6, s7, s8, s9, s10, s11, s12, s13, s14,
    s15, s16, s17, s18, s19, s20, s21, s22, s23, s24, s25, s26, s27, s28, s29]

/-- One update of the position at a frame rate `r ≥ 1` and a speed in
`[0.25, 4.0]` differs from `p + s / r` by at most `(p + 13) * 2 ^ -53`: the
three roundings of the frame step, of its product with the speed and of the
sum. -/
theorem advancePosition_near (p r s : ℚ) (hp : 0 ≤ p) (hr : 1 ≤ r) (hs0 : 1 / 4 ≤ s)
    (hs1 : s ≤ 4) :
    |advancePosition p (toDouble (1 / r)) s - (p + s / r)| ≤ (p + 13) / 2 ^ 53 := by
  have hr0 : (0 : ℚ) < r := by linarith
  have hinv0 : (0 : ℚ) ≤ 1 / r := by positivity
  have hinv1 : 1 / r ≤ 1 := by
    rw [div_le_one hr0]
    exact hr
  have hone : Representable 53 (-1022) 1 := by
    have h := representable_double_intCast 1 (by norm_num)
    simpa using h
  have hfour : Representable 53 (-1022) 4 := by
    have h := representable_double_intCast 4 (by norm_num)
    simpa using h
  -- the frame step
  have d0 : 0 ≤ toDouble (1 / r) := toDouble_nonneg hinv0
  have d1 : toDouble (1 / r) ≤ 1 := toDouble_le_of_le hone hinv1
  have de := abs_toDouble_sub_le (1 / r)
  rw [abs_of_nonneg hinv0] at de
  -- its product with the speed
  have hs : 0 ≤ s := by linarith
  have m0 : 0 ≤ toDouble (1 / r) * s := mul_nonneg d0 hs
  have m1 : toDouble (1 / r) * s ≤ 4 := by nlinarith
  have b0 : 0 ≤ toDouble (toDouble (1 / r) * s) := toDouble_nonneg m0
  have b1 : toDouble (toDouble (1 / r) * s) ≤ 4 := toDouble_le_of_le hfour m1
  have be := abs_toDouble_sub_le (toDouble (1 / r) * s)
  rw [abs_of_nonneg m0] at be
  -- the sum
  have se := abs_toDouble_sub_le (p + toDouble (toDouble (1 / r) * s))
  rw [abs_of_nonneg (by linarith : 0 ≤ p + toDouble (toDouble (1 / r) * s))] at se
  have heta : (6 : ℚ) / 2 ^ 1075 ≤ 1 / 2 ^ 53 := by norm_num
  have hprod : |toDouble (1 / r) * s - s / r| ≤ 4 * (1 / 2 ^ 53 + 1 / 2 ^ 1075) := by
    have heq : toDouble (1 / r) * s - s / r = s * (toDouble (1 / r) - 1 / r) := by ring
    rw [heq, abs_mul, abs_of_nonneg hs]
    have hde : |toDouble (1 / r) - 1 / r| ≤ 1 / 2 ^ 53 + 1 / 2 ^ 1075 := by
      refine le_trans de ?_
      have : 1 / r / 2 ^ 53 ≤ (1 : ℚ) / 2 ^ 53 := div_le_div_of_nonneg_right hinv1 (by positivity)
      linarith
    calc s * |toDouble (1 / r) - 1 / r| ≤ 4 * |toDouble (1 / r) - 1 / r| :=
          mul_le_mul_of_nonneg_right hs1 (abs_nonneg _)
      _ ≤ 4 * (1 / 2 ^ 53 + 1 / 2 ^ 1075) := mul_le_mul_of_nonneg_left hde (by norm_num)
  unfold advancePosition
  rw [abs_le] at se be hprod ⊢
  have e1 : toDouble (1 / r) * s / 2 ^ 53 ≤ (4 : ℚ) / 2 ^ 53 :=
    div_le_div_of_nonneg_right m1 (by positivity)
  have e2 : (p + toDouble (toDouble (1 / r) * s)) / 2 ^ 53 ≤ (p + 4) / 2 ^ 53 :=
    div_le_div_of_nonneg_right (by linarith) (by positivity)
  have e3 : (p + 13) / (2 : ℚ) ^ 53 = (p + 4) / 2 ^ 53 + 4 / 2 ^ 53 + 4 / 2 ^ 53 + 1 / 2 ^ 53 := by
    ring
  constructor <;> linarith [se.1, se.2, be.1, be.2, hprod.1, hprod.2]

/-- C11 (counterexample).  The engine `thirtyFpsLooping` plays a 30 frames per
second source at speed 1.0 from position 0; its worker holds the frame step
`1.0 / 30`, a `double`.  The first video frame takes the position to that
double, which is not `1 / 30`, and the 30 video frames take it to the double
just below 1 (`0.9999999999999999`), not to `0 + 30 * 1.0 / 30 = 1.0`. -/
theorem thirty_frames_end_below_one_second :
    thirtyFpsLooping.current_position_ = 0 ∧ thirtyFpsLooping.playback_speed_ = 1 ∧
    thirtyFpsLooping.video_info_.frame_rate = 30 ∧
    thirtyFpsWorker.frame_duration = toDouble (1 / 30) ∧
    videoFrameCount thirtyFpsWorker.video_stream thirtyFpsWorker.packets = 30 ∧
    (workerStep sampleEnv thirtyFpsLooping).current_position_ =
      4803839602528529 / 144115188075855872 ∧
    (workerStep sampleEnv thirtyFpsLooping).current_position_ ≠ 0 + 1 / 30 ∧
    (workerSteps sampleEnv 30 thirtyFpsLooping).current_position_ =
      9007199254740991 / 9007199254740992 ∧
    (workerSteps sampleEnv 30 thirtyFpsLooping).current_position_ ≠ 0 + 30 * 1 / 30 := by
  have hcount : videoFrameCount thirtyFpsWorker.video_stream thirtyFpsWorker.packets = 30 := by
    decide
  have hlen : thirtyFpsWorker.packets.length = 30 := by decide
  have hrun := workerSteps_packets sampleEnv thirtyFpsWorker.packets [] thirtyFpsLooping
    thirtyFpsWorker rfl rfl ⟨rfl, rfl⟩ (by simp)
  rw [hlen, hcount] at hrun
  have hend : (workerSteps sampleEnv 30 thirtyFpsLooping).current_position_ =
      9007199254740991 / 9007199254740992 := by
    rw [hrun]
    exact positionAfter_thirty_frames
  obtain ⟨_, hone, _⟩ := workerStep_packet sampleEnv thirtyFpsLooping thirtyFpsWorker
    (samplePacket 0) (List.replicate 29 (samplePacket 0)) rfl rfl ⟨rfl, rfl⟩ rfl
  have hv : isVideoFrame thirtyFpsWorker.video_stream (samplePacket 0) = true := by decide
  have hfd : toDouble (4803839602528529 / 144115188075855872 * 1) =
      4803839602528529 / 144115188075855872 :=
    toDouble_eval _ (-5) (4803839602528529) _ (by norm_num) (by norm_num [abs_of_neg, abs_of_pos])
      (by norm_num [abs_of_neg, abs_of_pos]) (by norm_num [abs_lt]) (by norm_num)
  have hsum : toDouble (0 + 4803839602528529 / 144115188075855872) =
      4803839602528529 / 144115188075855872 :=
    toDouble_eval _ (-5) (4803839602528529) _ (by norm_num) (by norm_num [abs_of_neg, abs_of_pos])
      (by norm_num [abs_of_neg, abs_of_pos]) (by norm_num [abs_lt]) (by norm_num)
  have hfirst : (workerStep sampleEnv thirtyFpsLooping).current_position_ =
      4803839602528529 / 144115188075855872 := by
    rw [hone, if_pos hv]
    show advancePosition 0 (toDouble (1 / 30)) 1 = _
    simp only [advancePosition, toDouble_1_30, hfd, hsum]
  refine ⟨rfl, rfl, rfl, rfl, hcount, hfirst, ?_, hend, ?_⟩
  · rw [hfirst]
    norm_num
  · rw [hend]
    norm_num

/-- C11 (amended).  For a stream with frame rate `r > 0` (the worker's
`frame_duration` is the double `1.0 / r`, which is not negative), one pass of the loop over a packet
that yields a video frame sets the position to the `double` sum of the
position and the `double` product `frame_duration * s`, `s` being the playback
speed at that pass: `advancePosition`, two roundings to nearest.  A pass over
any other packet (an audio packet, a packet that does not decode) leaves the
position unchanged.  Hence, the worker running on its own through a run of
packets that holds `n` video frames, the position ends at the `n`-fold update
of `p0`, the speed being the same throughout.  For `r ≥ 1`, a speed in
`[0.25, 4.0]` and a position `p ≥ 0` the new position of a video frame differs
from `p + s / r` by at most `(p + 13) * 2 ^ -53`. -/
theorem position_advances_per_video_frame (env : Env) (p : VinylVideoPlayer) (w : Worker)
    (r : ℚ) (pkts rest : List Packet) (hr : 0 < r) (hfd : w.frame_duration = toDouble (1 / r))
    (ht : p.playback_thread_ = some w) (hph : w.phase = WorkerPhase.looping)
    (hc : loopCondition p) (hpk : w.packets = pkts ++ rest) :
    (∀ pkt tail, w.packets = pkt :: tail →
      (isVideoFrame w.video_stream pkt = true →
        (workerStep env p).current_position_ =
          toDouble (p.current_position_ + toDouble (toDouble (1 / r) * p.playback_speed_))) ∧
      (isVideoFrame w.video_stream pkt = false →
        (workerStep env p).current_position_ = p.current_position_)) ∧
    (workerSteps env pkts.length p).current_position_ =
      positionAfter (toDouble (1 / r)) p.playback_speed_ (videoFrameCount w.video_stream pkts)
        p.current_position_ ∧
    (workerSteps env pkts.length p).playback_speed_ = p.playback_speed_ ∧
    0 ≤ w.frame_duration ∧
    (1 ≤ r → 0 ≤ p.current_position_ → 1 / 4 ≤ p.playback_speed_ → p.playback_speed_ ≤ 4 →
      ∀ pkt tail, w.packets = pkt :: tail → isVideoFrame w.video_stream pkt = true →
        |(workerStep env p).current_position_ -
            (p.current_position_ + p.playback_speed_ / r)| ≤
          (p.current_position_ + 13) / 2 ^ 53) := by
  refine ⟨?_, ?_, (workerSteps_control env _ p).playback_speed_, ?_, ?_⟩
  · intro pkt tail hcons
    obtain ⟨_, hpos, _⟩ := workerStep_packet env p w pkt tail ht hph hc hcons
    constructor
    · intro hv
      rw [hpos, if_pos hv, hfd]
      rfl
    · intro hv
      rw [hpos, if_neg (by simp [hv])]
  · rw [workerSteps_packets env pkts rest p w ht hph hc hpk, hfd]
  · rw [hfd]
    exact toDouble_nonneg (by positivity)
  · intro hr1 hp0 hs0 hs1 pkt tail hcons hv
    obtain ⟨_, hpos, _⟩ := workerStep_packet env p w pkt tail ht hph hc hcons
    rw [hpos, if_pos hv, hfd]
    exact advancePosition_near _ r _ hp0 hr1 hs0 hs1

/-- C11 (witness): the engine playing 30 video frames at 30 frames per second
and speed 1.0 from position 0. -/
theorem position_advances_per_video_frame_witness :
    (0 : ℚ) < 30 ∧ thirtyFpsWorker.frame_duration = toDouble (1 / 30) ∧
    (workerSteps sampleEnv 30 thirtyFpsLooping).current_position_ =
      positionAfter (toDouble (1 / 30)) 1 30 0 ∧
    (workerSteps sampleEnv 30 thirtyFpsLooping).playback_speed_ = 1 ∧
    |(workerStep sampleEnv thirtyFpsLooping).current_position_ - (0 + 1 / 30)| ≤
      (0 + 13) / 2 ^ 53 :=
  have h := position_advances_per_video_frame sampleEnv thirtyFpsLooping thirtyFpsWorker 30
    thirtyFpsWorker.packets [] (by norm_num) rfl rfl rfl ⟨rfl, rfl⟩ (by simp)
  ⟨by norm_num, rfl, h.2.1, h.2.2.1,
    h.2.2.2.2 (by norm_num) (le_refl 0)
      (by norm_num [thirtyFpsLooping, sampleLooping, samplePlaying, sampleLoaded, construct])
      (by norm_num [thirtyFpsLooping, sampleLooping, samplePlaying, sampleLoaded, construct])
      (samplePacket 0) (List.replicate 29 (samplePacket 0)) rfl (by decide)⟩

end VinylVideoPlayer
end AnantaSound

namespace AnantaSound
namespace VinylVideoPlayer

/-! ## C12: the pacing reference after a seek and after a resume -/

theorem reachable_sampleSought : Reachable sampleEnv sampleSought :=
  Reachable.seek 5 reachable_sampleLooping

theorem reachable_samplePausedAt : Reachable sampleEnv samplePausedAt :=
  Reachable.workerStep (Reachable.pause (Reachable.workerStep reachable_sampleSought))

theorem sampleSought_eq :
    seek sampleLooping 5 = (true, sampleSought) ∧
    sampleSought =
      { sampleLooping with current_position_ := 5, events := ["playback_started", "seek"] } := by
  have h1 : (seek sampleLooping 5).1 = true := by
    norm_num [seek, sampleLooping, samplePlaying, sampleLoaded, VideoInfo.default]
  refine ⟨Prod.ext h1 rfl, ?_⟩
  norm_num [sampleSought, seek, sampleLooping, samplePlaying, sampleLoaded, VideoInfo.default,
    emitEvent]

/-- The set-up of a new worker on the sample source. -/
theorem workerStep_setup_sample (p : VinylVideoPlayer) (hf : p.video_filepath_ = "a.mp4")
    (ht : p.playback_thread_ = some newWorker) :
    workerStep sampleEnv p =
      { p with sessions_opened := p.sessions_opened + 1
               playback_thread_ := some
                 { sampleWorker with session := p.sessions_opened + 1
                                     start_time := p.clock
                                     frame_duration :=
                                       toDouble (1 / p.video_info_.frame_rate) } } := by
  simp [workerStep, ht, newWorker, workerSetup, hf, sampleEnv, sampleFile, findStreams,
    sampleWorker]

theorem samplePausedAt_eval :
    samplePausedAt.state_ = PlaybackState.PAUSED ∧
    samplePausedAt.video_filepath_ = "a.mp4" ∧
    workerLive samplePausedAt = false ∧
    samplePausedAt.current_position_ = toDouble (126 / 25) ∧
    samplePausedAt.clock = 5040 ∧
    samplePausedAt.playback_speed_ = 1 ∧
    samplePausedAt.video_info_.frame_rate = 25 ∧
    samplePausedAt.should_stop_ = false := by
  have hsought := sampleSought_eq.2
  have hc : loopCondition sampleSought := by
    rw [hsought]
    exact ⟨rfl, rfl⟩
  have ht : sampleSought.playback_thread_ = some sampleWorker := by
    rw [hsought]
    rfl
  obtain ⟨h1, hpos, hclock0, _, _, _, _⟩ := workerStep_video sampleEnv sampleSought sampleWorker
    (samplePacket 0) [samplePacket 1, samplePacket 2] (toDouble (126 / 25)) 0 5040 ht rfl hc rfl
    (isVideoFrame_samplePacket 0) (by rw [hsought]; exact advancePosition_25fps_125_1)
    (by rw [hsought]; rfl) syncSleep_25fps_126_0
  have hctl := workerStep_control sampleEnv sampleSought
  have hclock : (workerStep sampleEnv sampleSought).clock = 5040 := by
    rw [hclock0, hsought]
    rfl
  have hstate : (workerStep sampleEnv sampleSought).state_ = PlaybackState.PLAYING := by
    rw [hctl.state_, hsought]
    rfl
  have hpause : pause (workerStep sampleEnv sampleSought) =
      (true, emitEvent
        { workerStep sampleEnv sampleSought with state_ := PlaybackState.PAUSED }
        "playback_paused") := by
    simp [pause, hstate]
  have hnc : ¬ loopCondition (pause (workerStep sampleEnv sampleSought)).2 := by
    rw [hpause]
    simp [loopCondition, emitEvent]
  have hthr : (pause (workerStep sampleEnv sampleSought)).2.playback_thread_ =
      (workerStep sampleEnv sampleSought).playback_thread_ := by
    rw [hpause]
    rfl
  rw [h1] at hthr
  have hexit := workerStep_of_looping_not_loopCondition sampleEnv _ _ hthr rfl hnc
  have hdef : samplePausedAt =
      workerStep sampleEnv (pause (workerStep sampleEnv sampleSought)).2 := rfl
  rw [hdef, hexit, hpause]
  refine ⟨rfl, ?_, ?_, hpos, hclock, ?_, ?_, ?_⟩
  · show (workerStep sampleEnv sampleSought).video_filepath_ = "a.mp4"
    rw [hctl.video_filepath_, hsought]
    rfl
  · simp [workerLive, workerExit, emitEvent]
  · show (workerStep sampleEnv sampleSought).playback_speed_ = 1
    rw [hctl.playback_speed_, hsought]
    rfl
  · show (workerStep sampleEnv sampleSought).video_info_.frame_rate = 25
    rw [hctl.video_info_, hsought]
    rfl
  · show (workerStep sampleEnv sampleSought).should_stop_ = false
    rw [hctl.should_stop_, hsought]
    rfl

theorem play_samplePausedAt :
    play sampleEnv samplePausedAt = some (true, sampleResumed) ∧
    sampleResumed =
      { samplePausedAt with
          state_ := PlaybackState.PLAYING
          should_stop_ := false
          playback_thread_ := some newWorker
          threads_started := samplePausedAt.threads_started + 1
          events := samplePausedAt.events ++ ["playback_started"] } := by
  obtain ⟨hs, hf, hlive, _⟩ := samplePausedAt_eval
  have hplay := ((play_cases sampleEnv samplePausedAt).2.2 (by rw [hs]; decide)
    (by rw [hf]; decide)).2.2 hlive
  have hres : play sampleEnv samplePausedAt = some (true, sampleResumed) := by
    unfold sampleResumed
    rw [hplay]
    rfl
  exact ⟨hres, (Prod.mk.inj (Option.some.inj (hres.symm.trans hplay))).2⟩

/-- C12 (the code at the failing input).  The sample engine plays at speed 1.0
and 25 frames per second, so one frame interval divided by the speed is 40 ms.
After a successful `seek(5.0)` during playback the worker, whose `start_time`
is still the one taken at its set-up, sleeps 5040 ms after the next frame it
delivers.  After `pause()` at the double 5.04 and `play()`, the new worker
takes a fresh `start_time` (5040 ms on the clock) while the position is still
5.04 s, and sleeps 5080 ms after the first frame it delivers. -/
theorem wait_after_seek_and_resume_grows_with_position :
    Reachable sampleEnv sampleSought ∧
    seek sampleLooping 5 = (true, sampleSought) ∧
    sampleSought.current_position_ = 5 ∧ sampleSought.playback_speed_ = 1 ∧
    (workerStep sampleEnv sampleSought).playback_thread_.map Worker.last_sleep = some 5040 ∧
    Reachable sampleEnv sampleResumed ∧
    samplePausedAt.state_ = PlaybackState.PAUSED ∧
    samplePausedAt.current_position_ = toDouble (126 / 25) ∧
    play sampleEnv samplePausedAt = some (true, sampleResumed) ∧
    sampleResumed.current_position_ = toDouble (126 / 25) ∧
    (workerSteps sampleEnv 2 sampleResumed).playback_thread_.map Worker.start_time =
      some 5040 ∧
    (workerSteps sampleEnv 2 sampleResumed).playback_thread_.map Worker.last_sleep =
      some 5080 := by
  obtain ⟨hs, hf, _, hpos, hclock, hspeed, hrate, hstop⟩ := samplePausedAt_eval
  obtain ⟨hseek, hsought⟩ := sampleSought_eq
  obtain ⟨hplay, hres⟩ := play_samplePausedAt
  -- the pass after the seek
  have hc : loopCondition sampleSought := by
    rw [hsought]
    exact ⟨rfl, rfl⟩
  have ht : sampleSought.playback_thread_ = some sampleWorker := by
    rw [hsought]
    rfl
  obtain ⟨a1, _⟩ := workerStep_video sampleEnv sampleSought sampleWorker
    (samplePacket 0) [samplePacket 1, samplePacket 2] (toDouble (126 / 25)) 0 5040 ht rfl hc rfl
    (isVideoFrame_samplePacket 0) (by rw [hsought]; exact advancePosition_25fps_125_1)
    (by rw [hsought]; rfl) syncSleep_25fps_126_0
  have hsleep1 : (workerStep sampleEnv sampleSought).playback_thread_.map Worker.last_sleep =
      some 5040 := by
    rw [a1]
    rfl
  -- the set-up and the first pass of the worker started by the resume
  have hrf : sampleResumed.video_filepath_ = "a.mp4" := by rw [hres]; exact hf
  have hrt : sampleResumed.playback_thread_ = some newWorker := by rw [hres]
  have hsetup := workerStep_setup_sample sampleResumed hrf hrt
  have hrpos : sampleResumed.current_position_ = toDouble (126 / 25) := by rw [hres]; exact hpos
  have hrclock : sampleResumed.clock = 5040 := by rw [hres]; exact hclock
  have hrspeed : sampleResumed.playback_speed_ = 1 := by rw [hres]; exact hspeed
  have hrrate : sampleResumed.video_info_.frame_rate = 25 := by rw [hres]; exact hrate
  have hc2 : loopCondition (workerStep sampleEnv sampleResumed) := by
    rw [hsetup, hres]
    exact ⟨rfl, rfl⟩
  obtain ⟨w2, hw2⟩ : ∃ w2 : Worker, w2 =
      { sampleWorker with session := sampleResumed.sessions_opened + 1
                          start_time := sampleResumed.clock
                          frame_duration :=
                            toDouble (1 / sampleResumed.video_info_.frame_rate) } := ⟨_, rfl⟩
  have ht2 : (workerStep sampleEnv sampleResumed).playback_thread_ = some w2 := by
    rw [hsetup, hw2]
  have hpos2 : (workerStep sampleEnv sampleResumed).current_position_ = toDouble (126 / 25) := by
    rw [hsetup]
    exact hrpos
  have hspeed2 : (workerStep sampleEnv sampleResumed).playback_speed_ = 1 := by
    rw [hsetup]
    exact hrspeed
  have hclock2 : (workerStep sampleEnv sampleResumed).clock = 5040 := by
    rw [hsetup]
    exact hrclock
  have hfd2 : w2.frame_duration = toDouble (1 / 25) := by
    rw [hw2]
    show toDouble (1 / sampleResumed.video_info_.frame_rate) = _
    rw [hrrate]
  have hst2 : w2.start_time = 5040 := by
    rw [hw2]
    exact hrclock
  obtain ⟨b1, _⟩ := workerStep_video sampleEnv (workerStep sampleEnv sampleResumed) w2
    (samplePacket 0) [samplePacket 1, samplePacket 2] (toDouble (127 / 25)) 0 5080
    ht2 (by rw [hw2]; rfl) hc2 (by rw [hw2]; rfl)
    (by rw [hw2]; exact isVideoFrame_samplePacket 0)
    (by rw [hpos2, hspeed2, hfd2]; exact advancePosition_25fps_126_1)
    (by rw [hclock2, hst2]; rfl) syncSleep_25fps_127_0
  refine ⟨reachable_sampleSought, hseek, by rw [hsought], by rw [hsought]; rfl, hsleep1,
    Reachable.play true reachable_samplePausedAt hplay, hs, hpos, hplay, hrpos, ?_, ?_⟩
  · show (workerStep sampleEnv (workerStep sampleEnv sampleResumed)).playback_thread_.map
      Worker.start_time = some 5040
    rw [b1]
    exact congrArg some hst2
  · show (workerStep sampleEnv (workerStep sampleEnv sampleResumed)).playback_thread_.map
      Worker.last_sleep = some 5080
    rw [b1]
    rfl

end VinylVideoPlayer
end AnantaSound

namespace AnantaSound
namespace VinylVideoPlayer

/-! ## C13: `play` after a failed `loadVideo` -/

/-- On a fresh engine, a `loadVideo` of a non-empty path that cannot be opened
returns `false` having stored the path, and the following `play()` returns
`true`, sets the state to `PLAYING` and starts a worker. -/
theorem play_after_failed_open (env : Env) (path : String) (hp : path ≠ "")
    (hf : env.files path = none) :
    ∃ q r, loadVideo env construct path = some (false, q) ∧ q.video_filepath_ = path ∧
      q.state_ = PlaybackState.STOPPED ∧ play env q = some (true, r) ∧
      r.state_ = PlaybackState.PLAYING ∧ r.playback_thread_ = some newWorker ∧
      r.threads_started = 1 := by
  have hload : loadVideo env construct path =
      some (false, { construct with
        video_filepath_ := path
        video_info_ := { construct.video_info_ with filename := path } }) := by
    simp [loadVideo, construct, hf]
  have h := ((play_cases env { construct with
      video_filepath_ := path
      video_info_ := { construct.video_info_ with filename := path } }).2.2
    (by simp [construct]) hp).2.2 (by simp [workerLive, construct])
  exact ⟨_, _, hload, rfl, rfl, h, rfl, rfl, rfl⟩

/-- C13 (the code at the failing input).  In the sample world `"missing.mp4"`
cannot be opened.  On a fresh engine `loadVideo("missing.mp4")` returns
`false`, state `STOPPED`, but has stored the path; the following `play()`
returns `true`, sets the state to `PLAYING` and starts a worker.  That worker
cannot open the source and returns at once, which leaves the state `PLAYING`
with no live worker.  The same happens for every non-empty path that cannot
be opened; only for the empty path does the following `play()` return
`false`. -/
theorem play_after_failed_load_starts_worker :
    sampleEnv.files "missing.mp4" = none ∧
    loadVideo sampleEnv construct "missing.mp4" = some (false, sampleFailedLoad) ∧
    sampleFailedLoad.state_ = PlaybackState.STOPPED ∧
    sampleFailedLoad.video_filepath_ = "missing.mp4" ∧
    (play sampleEnv sampleFailedLoad).map
        (fun r => (r.1, r.2.state_, r.2.playback_thread_, r.2.threads_started,
          (workerStep sampleEnv r.2).state_, workerLive (workerStep sampleEnv r.2))) =
      some (true, PlaybackState.PLAYING, some newWorker, 1, PlaybackState.PLAYING, false) ∧
    (∀ (env : Env) (path : String), path ≠ "" → env.files path = none →
      ∃ q r, loadVideo env construct path = some (false, q) ∧
        play env q = some (true, r) ∧ r.state_ = PlaybackState.PLAYING ∧
        r.playback_thread_ = some newWorker) ∧
    (∀ env : Env, env.files "" = none →
      ∃ q, loadVideo env construct "" = some (false, q) ∧ play env q = some (false, q)) := by
  refine ⟨by simp [sampleEnv], ?_, rfl, rfl, ?_, ?_, ?_⟩
  · simp [loadVideo, construct, sampleEnv, sampleFailedLoad, VideoInfo.default]
  · simp [play, sampleFailedLoad, construct, joinWorker, joinBound, pendingPackets, workerSteps,
      workerStep, workerLive, emitEvent, newWorker, workerSetup, sampleEnv]
  · intro env path hp hf
    obtain ⟨q, r, h1, _, _, h2, h3, h4, _⟩ := play_after_failed_open env path hp hf
    exact ⟨q, r, h1, h2, h3, h4⟩
  · intro env hf
    have hload : loadVideo env construct "" =
        some (false, { construct with
          video_filepath_ := ""
          video_info_ := { construct.video_info_ with filename := "" } }) := by
      simp [loadVideo, construct, hf]
    exact ⟨_, hload, by simp [play, construct]⟩

end VinylVideoPlayer
end AnantaSound

namespace AnantaSound
namespace VinylVideoPlayer

/-! ## C14: stream discovery in `loadVideo` -/

theorem firstIndexOfKind_eq_none (kind : MediaType) :
    ∀ streams : List StreamInfo,
      firstIndexOfKind kind streams = none ↔ ∀ st ∈ streams, st.codec_type ≠ kind
  | [] => by simp [firstIndexOfKind]
  | st :: rest => by
    by_cases h : st.codec_type = kind
    · simp [firstIndexOfKind, h]
    · simp [firstIndexOfKind, h, firstIndexOfKind_eq_none kind rest]

theorem firstIndexOfKind_getElem (kind : MediaType) :
    ∀ (streams : List StreamInfo) (k : Nat), firstIndexOfKind kind streams = some k →
      streams[k]? = firstStreamOfKind kind streams ∧ (streams[k]?).isSome = true
  | [], k, h => by simp [firstIndexOfKind] at h
  | st :: rest, k, h => by
    by_cases hk : st.codec_type = kind
    · simp [firstIndexOfKind, hk] at h
      subst h
      simp [firstStreamOfKind, hk]
    · simp only [firstIndexOfKind, hk, if_false, Option.map_eq_some'] at h
      obtain ⟨j, hj, rfl⟩ := h
      have ih := firstIndexOfKind_getElem kind rest j hj
      simpa [firstStreamOfKind, hk] using ih

/-- The loop of the stream search, in terms of the first index of each kind. -/
theorem findStreams_eq :
    ∀ (streams : List StreamInfo) (i v a : Int), 0 ≤ i →
      findStreams streams i (v, a) =
        (if v = -1 then
            (match firstIndexOfKind MediaType.VIDEO streams with
             | some k => i + (k : Int)
             | none => -1)
          else v,
         if a = -1 then
            (match firstIndexOfKind MediaType.AUDIO streams with
             | some k => i + (k : Int)
             | none => -1)
          else a)
  | [], i, v, a, _ => by
    simp only [findStreams, firstIndexOfKind]
    split_ifs <;> simp_all
  | st :: rest, i, v, a, hi => by
    have hi1 : (0 : Int) ≤ i + 1 := by omega
    have hne : i ≠ -1 := by omega
    cases hk : st.codec_type <;> by_cases hv : v = -1 <;> by_cases ha : a = -1 <;>
      simp only [findStreams, firstIndexOfKind, hk, hv, ha, findStreams_eq rest (i + 1) _ _ hi1,
        hne, and_true, and_false, true_and, false_and, if_true, if_false, reduceCtorEq] <;>
      cases firstIndexOfKind MediaType.VIDEO rest <;>
      cases firstIndexOfKind MediaType.AUDIO rest <;>
      simp <;> (try constructor) <;> ring

/-- The stream search from the start: each component is the first index of its
kind, or `-1`. -/
theorem findStreams_start (streams : List StreamInfo) :
    findStreams streams 0 (-1, -1) =
      ((match firstIndexOfKind MediaType.VIDEO streams with
        | some k => (k : Int)
        | none => -1),
       (match firstIndexOfKind MediaType.AUDIO streams with
        | some k => (k : Int)
        | none => -1)) := by
  rw [findStreams_eq streams 0 (-1) (-1) (le_refl 0)]
  cases firstIndexOfKind MediaType.VIDEO streams <;>
    cases firstIndexOfKind MediaType.AUDIO streams <;> simp

theorem firstStreamOfKind_eq_none (kind : MediaType) (streams : List StreamInfo) :
    firstStreamOfKind kind streams = none ↔ ∀ st ∈ streams, st.codec_type ≠ kind := by
  simp [firstStreamOfKind]

/-- The result of `loadVideo` when a video stream was found. -/
theorem loadVideo_of_video_stream (env : Env) (p : VinylVideoPlayer) (path : String)
    (file : MediaFile) (hs : p.state_ ≠ PlaybackState.PLAYING)
    (hf : env.files path = some file) (hi : file.stream_info_ok = true)
    (hne : (findStreams file.streams 0 (-1, -1)).1 ≠ -1) :
    ∃ q, loadVideo env p path = some (true, q) ∧
      q.video_info_.has_video = true ∧
      q.video_info_.width =
        ((file.streams[(findStreams file.streams 0 (-1, -1)).1.toNat]?).map
          StreamInfo.width).getD 0 ∧
      q.video_info_.height =
        ((file.streams[(findStreams file.streams 0 (-1, -1)).1.toNat]?).map
          StreamInfo.height).getD 0 ∧
      q.video_info_.frame_rate =
        toDouble ((((file.streams[(findStreams file.streams 0 (-1, -1)).1.toNat]?).map
            StreamInfo.r_frame_rate_num).getD 0 : ℚ) /
          (((file.streams[(findStreams file.streams 0 (-1, -1)).1.toNat]?).map
            StreamInfo.r_frame_rate_den).getD 0 : ℚ)) ∧
      (q.video_info_.has_audio = decide ((findStreams file.streams 0 (-1, -1)).2 ≠ -1)) ∧
      ((findStreams file.streams 0 (-1, -1)).2 ≠ -1 →
        q.video_info_.audio_channels =
          ((file.streams[(findStreams file.streams 0 (-1, -1)).2.toNat]?).map
            StreamInfo.nb_channels).getD 0 ∧
        q.video_info_.audio_sample_rate =
          ((file.streams[(findStreams file.streams 0 (-1, -1)).2.toNat]?).map
            StreamInfo.sample_rate).getD 0) := by
  by_cases ha : (findStreams file.streams 0 (-1, -1)).2 = -1
  · refine ⟨_, by simp only [loadVideo, if_neg hs, hf, hi, if_neg hne]; rfl, ?_⟩
    simp [ha]
  · refine ⟨_, by simp only [loadVideo, if_neg hs, hf, hi, if_neg hne]; rfl, ?_⟩
    simp [ha]

/-- C14.  When the engine is not playing and the source at `path` opens and its
stream information can be read, `loadVideo` succeeds exactly when the source
has a video stream, and returns `false` otherwise (so a source with audio
streams only is rejected).  On success the width, height and frame rate are
those of the first video stream in index order (the frame rate is the `double`
quotient of its numerator and denominator) and `has_video` is set; when the
source has an audio stream, `has_audio` is set and the channel count and sample
rate are those of the first audio stream; when it has none, `has_audio` is
cleared. -/
theorem loadVideo_stream_discovery (env : Env) (p : VinylVideoPlayer) (path : String)
    (file : MediaFile) (hs : p.state_ ≠ PlaybackState.PLAYING)
    (hf : env.files path = some file) (hi : file.stream_info_ok = true) :
    ((∃ q, loadVideo env p path = some (true, q)) ↔
        ∃ st ∈ file.streams, st.codec_type = MediaType.VIDEO) ∧
    ((∀ st ∈ file.streams, st.codec_type ≠ MediaType.VIDEO) →
        ∃ q, loadVideo env p path = some (false, q)) ∧
    (∀ q, loadVideo env p path = some (true, q) →
        q.video_info_.has_video = true ∧
        (∃ vst, firstStreamOfKind MediaType.VIDEO file.streams = some vst ∧
          q.video_info_.width = vst.width ∧ q.video_info_.height = vst.height ∧
          q.video_info_.frame_rate =
            toDouble ((vst.r_frame_rate_num : ℚ) / (vst.r_frame_rate_den : ℚ))) ∧
        ((q.video_info_.has_audio = true ∧
            ∃ ast, firstStreamOfKind MediaType.AUDIO file.streams = some ast ∧
              q.video_info_.audio_channels = ast.nb_channels ∧
              q.video_info_.audio_sample_rate = ast.sample_rate) ∨
          (q.video_info_.has_audio = false ∧
            ∀ st ∈ file.streams, st.codec_type ≠ MediaType.AUDIO))) := by
  have hstart := findStreams_start file.streams
  cases hv : firstIndexOfKind MediaType.VIDEO file.streams with
  | none =>
    have hno := (firstIndexOfKind_eq_none MediaType.VIDEO file.streams).1 hv
    have hfound : (findStreams file.streams 0 (-1, -1)).1 = -1 := by
      rw [hstart, hv]
    have hload : loadVideo env p path = some (false,
        { p with video_filepath_ := path
                 video_info_ := { p.video_info_ with filename := path } }) := by
      simp [loadVideo, hs, hf, hi, hfound]
    refine ⟨⟨?_, ?_⟩, fun _ => ⟨_, hload⟩, ?_⟩
    · rintro ⟨q, hq⟩
      rw [hload] at hq
      simp at hq
    · rintro ⟨st, hst, hk⟩
      exact absurd hk (hno st hst)
    · intro q hq
      rw [hload] at hq
      simp at hq
  | some k =>
    have hfound : (findStreams file.streams 0 (-1, -1)).1 = (k : Int) := by
      rw [hstart, hv]
    have hne : (findStreams file.streams 0 (-1, -1)).1 ≠ -1 := by
      rw [hfound]; omega
    obtain ⟨hget, hsome⟩ := firstIndexOfKind_getElem MediaType.VIDEO file.streams k hv
    obtain ⟨vst, hvst⟩ := Option.isSome_iff_exists.1 hsome
    have hfirst : firstStreamOfKind MediaType.VIDEO file.streams = some vst := by
      rw [← hget, hvst]
    have hex : ∃ st ∈ file.streams, st.codec_type = MediaType.VIDEO := by
      by_contra hcon
      push_neg at hcon
      rw [(firstIndexOfKind_eq_none MediaType.VIDEO file.streams).2 hcon] at hv
      exact absurd hv (by simp)
    cases ha : firstIndexOfKind MediaType.AUDIO file.streams with
    | none =>
      have hnoa := (firstIndexOfKind_eq_none MediaType.AUDIO file.streams).1 ha
      have hfa : (findStreams file.streams 0 (-1, -1)).2 = -1 := by
        rw [hstart, ha]
      obtain ⟨q0, hq0, h1, h2, h3, h4, h5, _⟩ :=
        loadVideo_of_video_stream env p path file hs hf hi hne
      rw [hfound, Int.toNat_ofNat, hvst] at h2 h3 h4
      rw [hfa] at h5
      simp only [Option.map_some', Option.getD_some] at h2 h3 h4
      simp only [ne_eq, not_true_eq_false, decide_False] at h5
      refine ⟨⟨fun _ => hex, fun _ => ⟨q0, hq0⟩⟩, fun hall => ?_, ?_⟩
      · obtain ⟨st, hst, hk⟩ := hex
        exact absurd hk (hall st hst)
      · intro q hq
        rw [hq0] at hq
        obtain rfl := (Prod.mk.inj (Option.some.inj hq)).2
        exact ⟨h1, ⟨vst, hfirst, h2, h3, h4⟩, Or.inr ⟨h5, hnoa⟩⟩
    | some j =>
      have hfa : (findStreams file.streams 0 (-1, -1)).2 = (j : Int) := by
        rw [hstart, ha]
      have hnea : (findStreams file.streams 0 (-1, -1)).2 ≠ -1 := by
        rw [hfa]; omega
      obtain ⟨hgeta, hsomea⟩ := firstIndexOfKind_getElem MediaType.AUDIO file.streams j ha
      obtain ⟨ast, hast⟩ := Option.isSome_iff_exists.1 hsomea
      have hfirsta : firstStreamOfKind MediaType.AUDIO file.streams = some ast := by
        rw [← hgeta, hast]
      obtain ⟨q0, hq0, h1, h2, h3, h4, h5, h67⟩ :=
        loadVideo_of_video_stream env p path file hs hf hi hne
      obtain ⟨h6, h7⟩ := h67 hnea
      rw [hfound, Int.toNat_ofNat, hvst] at h2 h3 h4
      rw [hfa, Int.toNat_ofNat, hast] at h6 h7
      simp only [Option.map_some', Option.getD_some] at h2 h3 h4 h6 h7
      rw [decide_eq_true hnea] at h5
      refine ⟨⟨fun _ => hex, fun _ => ⟨q0, hq0⟩⟩, fun hall => ?_, ?_⟩
      · obtain ⟨st, hst, hk⟩ := hex
        exact absurd hk (hall st hst)
      · intro q hq
        rw [hq0] at hq
        obtain rfl := (Prod.mk.inj (Option.some.inj hq)).2
        exact ⟨h1, ⟨vst, hfirst, h2, h3, h4⟩, Or.inl ⟨h5, ast, hfirsta, h6, h7⟩⟩

/-- C14 (witness): the source `avFile` loads with the metadata of its first
video stream (index 1) and its first audio stream (index 0), and the
audio-only source is rejected. -/
theorem loadVideo_stream_discovery_witness :
    construct.state_ ≠ PlaybackState.PLAYING ∧ streamEnv.files "av.mkv" = some avFile ∧
    avFile.stream_info_ok = true ∧
    (∃ q, loadVideo streamEnv construct "av.mkv" = some (true, q) ∧
      q.video_info_.has_video = true ∧ q.video_info_.width = 640 ∧
      q.video_info_.height = 480 ∧ q.video_info_.frame_rate = 30 ∧
      q.video_info_.has_audio = true ∧ q.video_info_.audio_channels = 2 ∧
      q.video_info_.audio_sample_rate = 44100) ∧
    streamEnv.files "audio.mp3" = some audioOnlyFile ∧
    (∃ q, loadVideo streamEnv construct "audio.mp3" = some (false, q)) := by
  have hs : construct.state_ ≠ PlaybackState.PLAYING := by simp [construct]
  have hf : streamEnv.files "av.mkv" = some avFile := by simp [streamEnv]
  have hg : streamEnv.files "audio.mp3" = some audioOnlyFile := by simp [streamEnv]
  have h := loadVideo_stream_discovery streamEnv construct "av.mkv" avFile hs hf rfl
  have g := loadVideo_stream_discovery streamEnv construct "audio.mp3" audioOnlyFile hs hg rfl
  have hfv : firstStreamOfKind MediaType.VIDEO avFile.streams = some vgaStream := by
    simp [firstStreamOfKind, avFile, stereoStream, vgaStream]
  have hfa : firstStreamOfKind MediaType.AUDIO avFile.streams = some stereoStream := by
    simp [firstStreamOfKind, avFile, stereoStream]
  obtain ⟨q, hq⟩ := h.1.2 ⟨vgaStream, by simp [avFile], rfl⟩
  obtain ⟨h1, ⟨vst, hv, h2, h3, h4⟩, h5⟩ := h.2.2 q hq
  obtain rfl : vgaStream = vst := Option.some.inj (hfv.symm.trans hv)
  refine ⟨hs, hf, rfl, ⟨q, hq, h1, h2, h3, ?_, ?_⟩, hg, g.2.1 (by simp [audioOnlyFile])⟩
  · rw [h4]
    have h30 := toDouble_intCast 30 (by norm_num)
    norm_num [vgaStream]
    exact_mod_cast h30
  · rcases h5 with ⟨h6, ast, ha, h7, h8⟩ | ⟨_, hno⟩
    · obtain rfl : stereoStream = ast := Option.some.inj (hfa.symm.trans ha)
      exact ⟨h6, h7, h8⟩
    · exact absurd rfl (hno stereoStream (by simp [avFile]))

end VinylVideoPlayer
end AnantaSound

namespace AnantaSound
namespace VinylVideoPlayer

/-! ## C15: `loadVideo` while playing -/

/-- C15 (the code at the failing input).  On the sample engine, playing with a
running worker, `loadVideo` does not return: it takes `player_mutex_` and calls
`stop()`, whose first statement takes the same non-recursive mutex again.  This
is so for every engine in state `PLAYING`, and `loadVideo` fails to return
exactly when its mutex operations block.  Called on its own, `stop()` returns
on the same engine, with the state `STOPPED`, the position 0 and the worker
joined. -/
theorem loadVideo_while_playing_never_returns :
    Reachable sampleEnv sampleLooping ∧
    sampleLooping.state_ = PlaybackState.PLAYING ∧
    loadVideoMutexOps sampleLooping.state_ =
      [MutexOp.lock, MutexOp.lock, MutexOp.unlock, MutexOp.unlock] ∧
    runMutexOps (loadVideoMutexOps sampleLooping.state_) false = none ∧
    loadVideo sampleEnv sampleLooping "a.mp4" = none ∧
    (∀ (env : Env) (p : VinylVideoPlayer) (path : String),
      loadVideo env p path = none ↔ runMutexOps (loadVideoMutexOps p.state_) false = none) ∧
    (∀ (env : Env) (p : VinylVideoPlayer) (path : String),
      p.state_ = PlaybackState.PLAYING → loadVideo env p path = none) ∧
    runMutexOps stopMutexOps false = some false ∧
    (∃ q, stop sampleEnv sampleLooping = some (true, q) ∧ q.state_ = PlaybackState.STOPPED ∧
      q.current_position_ = 0 ∧ workerLive q = false) := by
  have hst : sampleLooping.state_ = PlaybackState.PLAYING := by
    simp [sampleLooping, samplePlaying]
  have hall : ∀ (env : Env) (p : VinylVideoPlayer) (path : String),
      loadVideo env p path = none ↔ runMutexOps (loadVideoMutexOps p.state_) false = none := by
    intro env p path
    by_cases hs : p.state_ = PlaybackState.PLAYING
    · simp [loadVideo, hs, loadVideoMutexOps, stopMutexOps, runMutexOps]
    · simp only [loadVideo, if_neg hs, loadVideoMutexOps, stopMutexOps, runMutexOps]
      constructor
      · intro h
        split at h
        · simp at h
        · split_ifs at h
      · intro h
        simp at h
  refine ⟨reachable_sampleLooping, hst, ?_, ?_, ?_, hall, ?_, ?_, ?_⟩
  · simp [loadVideoMutexOps, stopMutexOps, hst]
  · simp [loadVideoMutexOps, stopMutexOps, hst, runMutexOps]
  · simp [loadVideo, hst]
  · intro env p path hs
    simp [loadVideo, hs]
  · simp [stopMutexOps, runMutexOps]
  · obtain ⟨q, h1, h2, _, _, h4, h3⟩ :=
      stop_of_not_stopped sampleEnv sampleLooping (by rw [hst]; decide)
    refine ⟨q, h1, h2, h3 ?_, h4⟩
    intro w hw
    have hw2 : sampleWorker = w := Option.some.inj hw
    rw [← hw2]
    decide

end VinylVideoPlayer
end AnantaSound

namespace AnantaSound
namespace VinylVideoPlayer

/-! ## C16: the worker on an unrecoverable source failure -/

theorem play_state_ne_error {env : Env} {p q : VinylVideoPlayer} {ok : Bool}
    (h : play env p = some (ok, q)) (hp : p.state_ ≠ PlaybackState.ERROR) :
    q.state_ ≠ PlaybackState.ERROR := by
  unfold play at h
  split_ifs at h
  · cases h; exact hp
  · cases h; exact hp
  · split at h
    · cases h
    · next p2 hj =>
      cases h
      have h2 : p2.state_ = PlaybackState.PLAYING := (joinWorker_control hj).1.state_
      simp [emitEvent, h2]

theorem stop_state_ne_error {env : Env} {p q : VinylVideoPlayer} {ok : Bool}
    (h : stop env p = some (ok, q)) (hp : p.state_ ≠ PlaybackState.ERROR) :
    q.state_ ≠ PlaybackState.ERROR := by
  unfold stop at h
  split_ifs at h
  · cases h; exact hp
  · split at h
    · cases h
    · next p2 hj =>
      cases h
      have h2 : p2.state_ = PlaybackState.STOPPED := (joinWorker_control hj).1.state_
      simp [emitEvent, h2]

theorem shutdown_state_ne_error {env : Env} {p q : VinylVideoPlayer}
    (h : shutdown env p = some q) : q.state_ ≠ PlaybackState.ERROR := by
  unfold shutdown at h
  split at h
  · cases h
  · dsimp only at h
    obtain ⟨p2, _, rfl⟩ := Option.map_eq_some'.1 h
    simp

theorem loadVideo_state {env : Env} {p q : VinylVideoPlayer} {path : String} {ok : Bool}
    (h : loadVideo env p path = some (ok, q)) : q.state_ = p.state_ := by
  unfold loadVideo at h
  split_ifs at h
  dsimp only at h
  split at h
  · cases h; rfl
  · split_ifs at h <;> cases h <;> rfl

theorem loadVinylRecording_state {env : Env} {p q : VinylVideoPlayer} {path : String}
    {ok : Bool} (h : loadVinylRecording env p path = some (ok, q)) :
    q.state_ = p.state_ := by
  unfold loadVinylRecording at h
  split at h
  · cases h
  · next p1 hl =>
    simp only [Option.some.injEq, Prod.mk.injEq] at h
    obtain ⟨_, rfl⟩ := h
    exact loadVideo_state hl
  · next p1 hl =>
    simp only [Option.some.injEq, Prod.mk.injEq] at h
    obtain ⟨_, rfl⟩ := h
    have h2 : p1.state_ = p.state_ := loadVideo_state hl
    exact h2

/-- No operation of the engine and no step of the worker sets the state to
`ERROR`. -/
theorem reachable_state_ne_error {env : Env} {p : VinylVideoPlayer} (h : Reachable env p) :
    p.state_ ≠ PlaybackState.ERROR := by
  induction h with
  | construct => simp [construct]
  | initializeEngine _ _ => simp [initializeEngine]
  | shutdown _ hq _ => exact shutdown_state_ne_error hq
  | loadVideo _ _ _ hq ih => rw [loadVideo_state hq]; exact ih
  | loadVinylRecording _ _ _ hq ih => rw [loadVinylRecording_state hq]; exact ih
  | play _ _ hq ih => exact play_state_ne_error hq ih
  | @pause p _ ih =>
    unfold pause
    split_ifs
    · simp [emitEvent]
    · exact ih
  | stop _ _ hq ih => exact stop_state_ne_error hq ih
  | @seek p pos _ ih =>
    unfold seek
    split_ifs
    · exact ih
    · exact ih
  | setPlaybackSpeed _ _ hq ih => obtain ⟨r, rfl, _⟩ := setPlaybackSpeed_ok hq; exact ih
  | setLoopEnabled _ _ ih => exact ih
  | setNeedlePressure _ _ hq ih => obtain ⟨r, rfl, _⟩ := setNeedlePressure_ok hq; exact ih
  | setTurntableSpeed _ _ hq ih => obtain ⟨r, rfl, _⟩ := setTurntableSpeed_ok hq; exact ih
  | setWowFlutter _ _ hq ih => obtain ⟨r, rfl, _⟩ := setWowFlutter_ok hq; exact ih
  | setSurfaceNoise _ _ hq ih => obtain ⟨r, rfl, _⟩ := setSurfaceNoise_ok hq; exact ih
  | setGrooveDepth _ _ hq ih => obtain ⟨r, rfl, _⟩ := setGrooveDepth_ok hq; exact ih
  | setMonoMode _ _ ih => exact ih
  | setEQCurve _ _ hq ih => obtain ⟨r, rfl, _⟩ := setEQCurve_ok hq; exact ih
  | writeVinylParams _ _ ih => exact ih
  | @workerStep p _ ih => rw [(workerStep_control env p).state_]; exact ih
  | @workerTest p _ ih => rw [(workerTest_control p).state_]; exact ih
  | tick _ _ ih => exact ih

/-- The set-up of the worker on a source failure: the run ends, nothing is
delivered or emitted and no decode resources are held. -/
theorem workerSetup_of_failure (env : Env) (p : VinylVideoPlayer) (w : Worker)
    (hfail : env.files p.video_filepath_ = none ∨
      ∃ file, env.files p.video_filepath_ = some file ∧
        (file.stream_info_ok = false ∨
          ∀ st ∈ file.streams, st.codec_type ≠ MediaType.VIDEO)) :
    (∃ w1, (workerSetup env p w).playback_thread_ = some w1 ∧
      w1.phase = WorkerPhase.finished ∧ w1.resources_open = w.resources_open) ∧
    (workerSetup env p w).events = p.events ∧
    (workerSetup env p w).video_frames = p.video_frames ∧
    (workerSetup env p w).audio_chunks = p.audio_chunks := by
  rcases hfail with hf | ⟨file, hf, hfile⟩
  · simp [workerSetup, hf]
  · by_cases hi : file.stream_info_ok = false
    · simp [workerSetup, hf, hi]
    · have hno : ∀ st ∈ file.streams, st.codec_type ≠ MediaType.VIDEO := by
        rcases hfile with h | h
        · exact absurd h hi
        · exact h
      have hfound : (findStreams file.streams 0 (-1, -1)).1 = -1 := by
        rw [findStreams_start, (firstIndexOfKind_eq_none MediaType.VIDEO file.streams).2 hno]
      simp [workerSetup, hf, hi, hfound]

/-- The method `loadVideo` on a source failure: the path is stored and `false`
is returned. -/
theorem loadVideo_of_failure (env : Env) (p : VinylVideoPlayer) (path : String)
    (hs : p.state_ ≠ PlaybackState.PLAYING)
    (hfail : env.files path = none ∨
      ∃ file, env.files path = some file ∧
        (file.stream_info_ok = false ∨
          ∀ st ∈ file.streams, st.codec_type ≠ MediaType.VIDEO)) :
    loadVideo env p path = some (false,
      { p with video_filepath_ := path
               video_info_ := { p.video_info_ with filename := path } }) := by
  rcases hfail with hf | ⟨file, hf, hfile⟩
  · simp [loadVideo, hs, hf]
  · by_cases hi : file.stream_info_ok = false
    · simp [loadVideo, hs, hf, hi]
    · have hno : ∀ st ∈ file.streams, st.codec_type ≠ MediaType.VIDEO := by
        rcases hfile with h | h
        · exact absurd h hi
        · exact h
      have hfound : (findStreams file.streams 0 (-1, -1)).1 = -1 := by
        rw [findStreams_start, (firstIndexOfKind_eq_none MediaType.VIDEO file.streams).2 hno]
      simp [loadVideo, hs, hf, hi, hfound]

theorem loadVideo_construct_failed {env : Env} {path : String} {q : VinylVideoPlayer}
    (h : loadVideo env construct path = some (false, q)) :
    q = { construct with
            video_filepath_ := path
            video_info_ := { construct.video_info_ with filename := path } } := by
  unfold loadVideo at h
  rw [if_neg (by simp [construct])] at h
  dsimp only at h
  split at h
  · cases h; rfl
  · split_ifs at h <;> cases h <;> rfl

/-- After a failed `loadVideo` of a non-empty path on a fresh engine, `play()`
starts a worker for that path. -/
theorem startAfterLoad_failed {env : Env} {path : String} {q : VinylVideoPlayer}
    (hp : path ≠ "") (h : loadVideo env construct path = some (false, q)) :
    play env q = some (true, startAfterLoad env path) ∧
    Reachable env (startAfterLoad env path) ∧
    (startAfterLoad env path).state_ = PlaybackState.PLAYING ∧
    (startAfterLoad env path).playback_thread_ = some newWorker ∧
    (startAfterLoad env path).video_filepath_ = path := by
  have hq := loadVideo_construct_failed h
  have hplay := ((play_cases env q).2.2 (by rw [hq]; simp [construct])
    (by rw [hq]; exact hp)).2.2 (by rw [hq]; simp [workerLive, construct])
  have hs : startAfterLoad env path =
      { q with state_ := PlaybackState.PLAYING
               should_stop_ := false
               playback_thread_ := some newWorker
               threads_started := q.threads_started + 1
               events := q.events ++ ["playback_started"] } := by
    unfold startAfterLoad
    rw [h]
    simp only [Option.some_bind, hplay, Option.map_some', Option.getD_some]
  rw [← hs] at hplay
  refine ⟨hplay, Reachable.play true (Reachable.loadVideo path false Reachable.construct h) hplay,
    ?_, ?_, ?_⟩
  · rw [hs]
  · rw [hs]
  · rw [hs, hq]

/-- C16 (counterexample).  On a fresh engine `loadVideo` fails for a path that
does not open, for a source without a video stream and for a source whose
stream information cannot be read, and `play()` nevertheless starts a worker.
In each case the worker ends in its set-up, and the state is then `PLAYING`,
not `ERROR`, with no live worker. -/
theorem source_failure_leaves_state_playing :
    (loadVideo streamEnv construct "missing.mp4").map Prod.fst = some false ∧
    (startAfterLoad streamEnv "missing.mp4").playback_thread_ = some newWorker ∧
    (workerStep streamEnv (startAfterLoad streamEnv "missing.mp4")).state_ =
      PlaybackState.PLAYING ∧
    (workerStep streamEnv (startAfterLoad streamEnv "missing.mp4")).state_ ≠
      PlaybackState.ERROR ∧
    workerLive (workerStep streamEnv (startAfterLoad streamEnv "missing.mp4")) = false ∧
    (loadVideo streamEnv construct "audio.mp3").map Prod.fst = some false ∧
    (startAfterLoad streamEnv "audio.mp3").playback_thread_ = some newWorker ∧
    (workerStep streamEnv (startAfterLoad streamEnv "audio.mp3")).state_ =
      PlaybackState.PLAYING ∧
    (workerStep streamEnv (startAfterLoad streamEnv "audio.mp3")).state_ ≠
      PlaybackState.ERROR ∧
    workerLive (workerStep streamEnv (startAfterLoad streamEnv "audio.mp3")) = false ∧
    (loadVideo streamEnv construct "broken.avi").map Prod.fst = some false ∧
    (startAfterLoad streamEnv "broken.avi").playback_thread_ = some newWorker ∧
    (workerStep streamEnv (startAfterLoad streamEnv "broken.avi")).state_ =
      PlaybackState.PLAYING ∧
    (workerStep streamEnv (startAfterLoad streamEnv "broken.avi")).state_ ≠
      PlaybackState.ERROR ∧
    workerLive (workerStep streamEnv (startAfterLoad streamEnv "broken.avi")) = false := by
  have key : ∀ path : String, path ≠ "" →
      (streamEnv.files path = none ∨
        ∃ file, streamEnv.files path = some file ∧
          (file.stream_info_ok = false ∨
            ∀ st ∈ file.streams, st.codec_type ≠ MediaType.VIDEO)) →
      (loadVideo streamEnv construct path).map Prod.fst = some false ∧
      (startAfterLoad streamEnv path).playback_thread_ = some newWorker ∧
      (workerStep streamEnv (startAfterLoad streamEnv path)).state_ = PlaybackState.PLAYING ∧
      (workerStep streamEnv (startAfterLoad streamEnv path)).state_ ≠ PlaybackState.ERROR ∧
      workerLive (workerStep streamEnv (startAfterLoad streamEnv path)) = false := by
    intro path hp hfail
    have hq := loadVideo_of_failure streamEnv construct path (by simp [construct]) hfail
    obtain ⟨_, _, hst, hthr, hpath⟩ := startAfterLoad_failed hp hq
    have hstep : workerStep streamEnv (startAfterLoad streamEnv path) =
        workerSetup streamEnv (startAfterLoad streamEnv path) newWorker := by
      simp [workerStep, hthr, newWorker]
    have hstate : (workerStep streamEnv (startAfterLoad streamEnv path)).state_ =
        PlaybackState.PLAYING := by
      rw [(workerStep_control streamEnv _).state_, hst]
    obtain ⟨⟨w1, hw1, hph, _⟩, _⟩ :=
      workerSetup_of_failure streamEnv (startAfterLoad streamEnv path) newWorker
        (by rw [hpath]; exact hfail)
    refine ⟨by rw [hq]; rfl, hthr, hstate, by rw [hstate]; decide, ?_⟩
    rw [hstep]
    simp [workerLive, hw1, hph]
  have h1 := key "missing.mp4" (by decide) (Or.inl (by simp [streamEnv]))
  have h2 := key "audio.mp3" (by decide)
    (Or.inr ⟨audioOnlyFile, by simp [streamEnv], Or.inr (by simp [audioOnlyFile])⟩)
  have h3 := key "broken.avi" (by decide)
    (Or.inr ⟨unreadableFile, by simp [streamEnv], Or.inl rfl⟩)
  exact ⟨h1.1, h1.2.1, h1.2.2.1, h1.2.2.2.1, h1.2.2.2.2, h2.1, h2.2.1, h2.2.2.1, h2.2.2.2.1,
    h2.2.2.2.2, h3.1, h3.2.1, h3.2.2.1, h3.2.2.2.1, h3.2.2.2.2⟩

/-- C16 (amended).  When the worker that `play()` has just started meets a
source failure in its set-up (the source cannot be opened, its stream
information cannot be read, or it has no video stream), its step ends it:
afterwards no worker is live, the worker has returned holding no decode
resources, no event has been emitted and no frame or audio chunk delivered,
and further worker steps change nothing.  The state is not `ERROR`
afterwards: no reachable state of the engine has the state `ERROR`. -/
theorem worker_ends_on_source_failure (env : Env) (p : VinylVideoPlayer)
    (hr : Reachable env p) (ht : p.playback_thread_ = some newWorker)
    (hfail : env.files p.video_filepath_ = none ∨
      ∃ file, env.files p.video_filepath_ = some file ∧
        (file.stream_info_ok = false ∨
          ∀ st ∈ file.streams, st.codec_type ≠ MediaType.VIDEO)) :
    workerLive (workerStep env p) = false ∧
    (∃ w1, (workerStep env p).playback_thread_ = some w1 ∧
      w1.phase = WorkerPhase.finished ∧ w1.resources_open = false) ∧
    (workerStep env p).events = p.events ∧
    (workerStep env p).video_frames = p.video_frames ∧
    (workerStep env p).audio_chunks = p.audio_chunks ∧
    (∀ n, workerSteps env n (workerStep env p) = workerStep env p) ∧
    (workerStep env p).state_ ≠ PlaybackState.ERROR ∧
    (∀ q, Reachable env q → q.state_ ≠ PlaybackState.ERROR) := by
  have hstep : workerStep env p = workerSetup env p newWorker := by
    simp [workerStep, ht, newWorker]
  obtain ⟨⟨w1, hw1, hph, hres⟩, hev, hvf, hac⟩ := workerSetup_of_failure env p newWorker hfail
  have hlive : workerLive (workerStep env p) = false := by
    rw [hstep]
    simp [workerLive, hw1, hph]
  refine ⟨hlive, ⟨w1, by rw [hstep]; exact hw1, hph, by rw [hres]; rfl⟩, by rw [hstep]; exact hev,
    by rw [hstep]; exact hvf, by rw [hstep]; exact hac,
    fun n => workerSteps_of_not_live env n _ hlive,
    reachable_state_ne_error (Reachable.workerStep hr),
    fun q hq => reachable_state_ne_error hq⟩

/-- C16 (witness): the amended statement at the worker started for the
audio-only source. -/
theorem worker_ends_on_source_failure_witness :
    Reachable streamEnv (startAfterLoad streamEnv "audio.mp3") ∧
    (startAfterLoad streamEnv "audio.mp3").playback_thread_ = some newWorker ∧
    streamEnv.files (startAfterLoad streamEnv "audio.mp3").video_filepath_ =
      some audioOnlyFile ∧
    workerLive (workerStep streamEnv (startAfterLoad streamEnv "audio.mp3")) = false ∧
    (workerStep streamEnv (startAfterLoad streamEnv "audio.mp3")).events =
      (startAfterLoad streamEnv "audio.mp3").events :=
  have hfail : streamEnv.files "audio.mp3" = none ∨
      ∃ file, streamEnv.files "audio.mp3" = some file ∧
        (file.stream_info_ok = false ∨
          ∀ st ∈ file.streams, st.codec_type ≠ MediaType.VIDEO) :=
    Or.inr ⟨audioOnlyFile, by simp [streamEnv], Or.inr (by simp [audioOnlyFile])⟩
  have hq := loadVideo_of_failure streamEnv construct "audio.mp3" (by simp [construct]) hfail
  have hs := startAfterLoad_failed (by decide) hq
  have hf : streamEnv.files (startAfterLoad streamEnv "audio.mp3").video_filepath_ =
      some audioOnlyFile := by
    rw [hs.2.2.2.2]
    simp [streamEnv]
  have h := worker_ends_on_source_failure streamEnv (startAfterLoad streamEnv "audio.mp3")
    hs.2.1 hs.2.2.2.1 (by rw [hs.2.2.2.2]; exact hfail)
  ⟨hs.2.1, hs.2.2.2.1, hf, h.1, h.2.2.1⟩

end VinylVideoPlayer
end AnantaSound

namespace AnantaSound

/-! ## C17: the order of the stages -/

theorem applySurfaceNoise_ok (params : VinylParameters) (draws : Nat → ℚ) (data : List Nat)
    (hlen : data.length % 3 = 0) (hs : SamplesOk data) :
    ∃ out, applySurfaceNoise params draws data = .ok out ∧ out.length = data.length ∧
      SamplesOk out := by
  unfold applySurfaceNoise
  split_ifs
  · exact ⟨data, rfl, rfl, hs⟩
  · exact surfaceNoiseLoop_ok draws 0 data hlen

theorem applyWowFlutter_ok (libm : Libm) (params : VinylParameters) (position : ℚ)
    (data : List Nat) (hlen : data.length % 3 = 0) (hs : SamplesOk data) :
    ∃ out, applyWowFlutter libm params position data = .ok out ∧ out.length = data.length ∧
      SamplesOk out := by
  unfold applyWowFlutter
  split_ifs
  · exact ⟨data, rfl, rfl, hs⟩
  · exact wowFlutterLoop_ok _ 0 data hlen

/-- C17.  For every frame of `uint8_t` samples whose data length is a multiple
of 3, each of the five stages returns, and `applyVinylEffects` returns the
frame whose data are the output of the surface-noise stage on the input data,
passed to the flutter stage, then to the needle-pressure stage, then to the
groove-depth stage, then to the EQ stage, each stage reading the output of the
stage before it.  The returned frame has the width, height, timestamp, frame
number and data length of the input frame; the input frame is a value the
function does not modify. -/
theorem applyVinylEffects_stage_order (libm : Libm) (params : VinylParameters)
    (position : ℚ) (draws : Nat → ℚ) (frame : VideoFrame)
    (hlen : frame.data.length % 3 = 0) (hs : SamplesOk frame.data) :
    ∃ d1 d2 d3 d4 d5 out,
      applySurfaceNoise params draws frame.data = .ok d1 ∧
      applyWowFlutter libm params position d1 = .ok d2 ∧
      applyNeedlePressure params d2 = .ok d3 ∧
      applyGrooveDepth params d3 = .ok d4 ∧
      applyEQCurve params d4 = .ok d5 ∧
      applyVinylEffects libm params position draws frame = .ok out ∧
      out.data = d5 ∧ out.width = frame.width ∧ out.height = frame.height ∧
      out.timestamp = frame.timestamp ∧ out.frame_number = frame.frame_number ∧
      out.data.length = frame.data.length := by
  obtain ⟨d1, h1, l1, s1⟩ := applySurfaceNoise_ok params draws frame.data hlen hs
  obtain ⟨d2, h2, l2, s2⟩ := applyWowFlutter_ok libm params position d1
    (by rw [l1]; exact hlen) s1
  obtain ⟨d3, h3, l3, s3⟩ := needlePressureLoop_ok params d2 s2
  obtain ⟨d4, h4, l4, _⟩ := grooveDepthLoop_ok (depthFactor params) d3
    (by rw [l3, l2, l1]; exact hlen)
  obtain ⟨d5, h5, l5, _⟩ := eqCurveLoop_ok (eqFactor params) d4
    (by rw [l4, l3, l2, l1]; exact hlen)
  refine ⟨d1, d2, d3, d4, d5, { frame with data := d5 }, h1, h2, h3, h4, h5, ?_, rfl, rfl, rfl,
    rfl, rfl, by simp [l5, l4, l3, l2, l1]⟩
  simp [applyVinylEffects, applyVinylEffectsData, h1, h2, applyNeedlePressure, h3,
    applyGrooveDepth, h4, applyEQCurve, h5, bind, Except.bind, pure, Except.pure]

/-- C17 (witness): the chain on a frame of two pixels at the default parameters. -/
theorem applyVinylEffects_stage_order_witness :
    twoPixels.data.length % 3 = 0 ∧ SamplesOk twoPixels.data ∧
    ∃ d1 d2 d3 d4 d5 out,
      applySurfaceNoise VinylParameters.default (fun _ => 1 / 100) twoPixels.data = .ok d1 ∧
      applyWowFlutter flatLibm VinylParameters.default (3 / 2) d1 = .ok d2 ∧
      applyNeedlePressure VinylParameters.default d2 = .ok d3 ∧
      applyGrooveDepth VinylParameters.default d3 = .ok d4 ∧
      applyEQCurve VinylParameters.default d4 = .ok d5 ∧
      applyVinylEffects flatLibm VinylParameters.default (3 / 2) (fun _ => 1 / 100) twoPixels =
        .ok out ∧
      out.data = d5 ∧ out.width = twoPixels.width ∧ out.height = twoPixels.height ∧
      out.timestamp = twoPixels.timestamp ∧ out.frame_number = twoPixels.frame_number ∧
      out.data.length = twoPixels.data.length :=
  have hs : SamplesOk twoPixels.data := by
    intro x hx
    simp [twoPixels] at hx
    omega
  ⟨rfl, hs,
    applyVinylEffects_stage_order flatLibm VinylParameters.default (3 / 2) (fun _ => 1 / 100)
      twoPixels rfl hs⟩

/-! ## C18: the flutter stage is deterministic -/

/-- C18.  The output of `applyWowFlutter` is determined by the frame data, the
playback position and the wow/flutter parameter: on equal data and equal
positions, two parameter records with the same `wow_flutter` give the same
output, whatever their other fields are.  The stage takes no random draw: with
the noise stage off (`surface_noise ≤ 0`) the whole chain gives the same
result for any two sources of draws. -/
theorem applyWowFlutter_deterministic (libm : Libm) (params1 params2 : VinylParameters)
    (position1 position2 : ℚ) (data1 data2 : List Nat) (draws1 draws2 : Nat → ℚ)
    (hp : params1.wow_flutter = params2.wow_flutter) (hpos : position1 = position2)
    (hd : data1 = data2) :
    applyWowFlutter libm params1 position1 data1 =
      applyWowFlutter libm params2 position2 data2 ∧
    (params1.surface_noise ≤ 0 →
      applyVinylEffectsData libm params1 position1 draws1 data1 =
        applyVinylEffectsData libm params1 position1 draws2 data1) := by
  subst hpos hd
  constructor
  · have hfr : flutterFreq params1 = flutterFreq params2 := by
      unfold flutterFreq
      rw [hp]
    have ham : flutterAmplitude params1 = flutterAmplitude params2 := by
      unfold flutterAmplitude
      rw [hp]
    have hph : flutterPhase libm params1 position1 = flutterPhase libm params2 position1 := by
      unfold flutterPhase
      rw [hfr]
    have hdist : flutterDistortion libm params1 position1 =
        flutterDistortion libm params2 position1 := by
      funext i
      unfold flutterDistortion
      rw [hph, ham]
    unfold applyWowFlutter
    rw [hp, hdist]
  · intro hn
    simp [applyVinylEffectsData, applySurfaceNoise, hn]

/-- C18 (witness): two parameter records that differ in every field but
`wow_flutter` give the same flutter output on the two-pixel frame. -/
theorem applyWowFlutter_deterministic_witness :
    VinylParameters.default.wow_flutter = otherParameters.wow_flutter ∧
    VinylParameters.default ≠ otherParameters ∧
    applyWowFlutter flatLibm VinylParameters.default (3 / 2) twoPixels.data =
      applyWowFlutter flatLibm otherParameters (3 / 2) twoPixels.data :=
  ⟨rfl, by simp [VinylParameters.default, otherParameters],
    (applyWowFlutter_deterministic flatLibm VinylParameters.default otherParameters (3 / 2)
      (3 / 2) twoPixels.data twoPixels.data (fun _ => 0) (fun _ => 1) rfl rfl rfl).1⟩

end AnantaSound

namespace AnantaSound
namespace VinylVideoPlayer

/-! ## C19: the ranges of the parameter record -/

theorem getRecommendedSettings_inRange (type : VinylUtils.VinylType) :
    (VinylUtils.getRecommendedSettings type).InRange := by
  cases type <;>
    norm_num [VinylUtils.getRecommendedSettings, VinylParameters.InRange,
      VinylParameters.default]

/-- C19 (the code at the failing input).  The setter `setTurntableSpeed` stores
its input as given: `setTurntableSpeed(1000000)` on a fresh engine leaves the
turntable speed at one million, in a reachable state, and every finite value
is stored unchanged, so no bounded range contains the turntable speed after
every call; an infinity or a NaN is stored as well, after which the field
holds no number.  Its five sibling setters clamp: called with one million on
the same engine they store the upper bound of their range (5.0, 2.0, 0.3, 0.2
and 2.0). -/
theorem setTurntableSpeed_stores_any_value :
    setTurntableSpeed construct (CDouble.finite 1000000) =
      .ok { construct with
              vinyl_params_ := { construct.vinyl_params_ with turntable_speed := 1000000 } } ∧
    Reachable sampleEnv
      { construct with
          vinyl_params_ := { construct.vinyl_params_ with turntable_speed := 1000000 } } ∧
    (∀ (p : VinylVideoPlayer) (v : ℚ), setTurntableSpeed p (CDouble.finite v) =
      .ok { p with vinyl_params_ := { p.vinyl_params_ with turntable_speed := v } }) ∧
    (¬ ∃ lo hi : ℚ, ∀ (v : ℚ) (q : VinylVideoPlayer),
      setTurntableSpeed construct (CDouble.finite v) = .ok q →
        lo ≤ q.vinyl_params_.turntable_speed ∧ q.vinyl_params_.turntable_speed ≤ hi) ∧
    setTurntableSpeed construct CDouble.posInf = .error Fault.notFinite ∧
    setTurntableSpeed construct CDouble.negInf = .error Fault.notFinite ∧
    setTurntableSpeed construct CDouble.nan = .error Fault.notFinite ∧
    (setNeedlePressure construct (CDouble.finite 1000000)).map
        (fun q => q.vinyl_params_.needle_pressure) = .ok 5 ∧
    (setWowFlutter construct (CDouble.finite 1000000)).map
        (fun q => q.vinyl_params_.wow_flutter) = .ok 2 ∧
    (setSurfaceNoise construct (CDouble.finite 1000000)).map
        (fun q => q.vinyl_params_.surface_noise) = .ok (3 / 10) ∧
    (setGrooveDepth construct (CDouble.finite 1000000)).map
        (fun q => q.vinyl_params_.groove_depth) = .ok (2 / 10) ∧
    (setEQCurve construct (CDouble.finite 1000000)).map
        (fun q => q.vinyl_params_.eq_curve) = .ok 2 := by
  have hall : ∀ (p : VinylVideoPlayer) (v : ℚ), setTurntableSpeed p (CDouble.finite v) =
      .ok { p with vinyl_params_ := { p.vinyl_params_ with turntable_speed := v } } :=
    fun _ _ => rfl
  refine ⟨rfl, Reachable.setTurntableSpeed (CDouble.finite 1000000) Reachable.construct rfl,
    hall, ?_, rfl, rfl, rfl, ?_, ?_, ?_, ?_, ?_⟩
  · rintro ⟨lo, hi, h⟩
    have h1 := (h (hi + 1) _ (hall construct (hi + 1))).2
    simp only at h1
    linarith
  · norm_num [setNeedlePressure, clampDouble, storeDouble, clamp, Except.map]
  · norm_num [setWowFlutter, clampDouble, storeDouble, clamp, Except.map]
  · norm_num [setSurfaceNoise, clampDouble, storeDouble, clamp, Except.map]
  · norm_num [setGrooveDepth, clampDouble, storeDouble, clamp, Except.map]
  · norm_num [setEQCurve, clampDouble, storeDouble, clamp, Except.map]

end VinylVideoPlayer
end AnantaSound

namespace AnantaSound

/-! ## C20: the needle-pressure stage -/

end AnantaSound

namespace AnantaSound

/-! ## C21: the EQ stage -/

end AnantaSound

namespace AnantaSound

/-! ## C22: the surface-noise stage -/

theorem toUInt8_noiseValue (s : Nat) (noise : ℚ) :
    toUInt8 (noiseValue s noise) = .ok (Nat.floor (noiseValue s noise)) := by
  obtain ⟨h0, h1⟩ := noiseValue_mem s noise
  exact toUInt8_eval _ _ (Nat.floor_le h0) (Nat.lt_floor_add_one _)
    (Nat.floor_le_of_le (by exact_mod_cast h1))

theorem surfaceNoiseLoop_eq_perPixel (draws : Nat → ℚ) :
    ∀ (k : Nat) (data : List Nat), data.length % 3 = 0 →
      surfaceNoiseLoop draws k data = .ok (perPixelNoise draws k data)
  | _, [], _ => rfl
  | _, [_], h => by simp at h
  | _, [_, _], h => by simp at h
  | k, r :: g :: b :: rest, h => by
    simp [surfaceNoiseLoop, perPixelNoise, toUInt8_noiseValue,
      surfaceNoiseLoop_eq_perPixel draws (k + 1) rest (length_tail3 h), bind, Except.bind, pure,
      Except.pure]

theorem perPixelNoise_length (draws : Nat → ℚ) :
    ∀ (k : Nat) (data : List Nat), data.length % 3 = 0 →
      (perPixelNoise draws k data).length = data.length
  | _, [], _ => rfl
  | _, [_], h => by simp at h
  | _, [_, _], h => by simp at h
  | k, r :: g :: b :: rest, h => by
    simp [perPixelNoise, perPixelNoise_length draws (k + 1) rest (length_tail3 h)]

/-- The output of the per-pixel stage uses only the draws with numbers
`k, ..., k + length / 3 - 1`. -/
theorem perPixelNoise_congr (draws1 draws2 : Nat → ℚ) :
    ∀ (k : Nat) (data : List Nat),
      (∀ j, j < data.length / 3 → draws1 (k + j) = draws2 (k + j)) →
      perPixelNoise draws1 k data = perPixelNoise draws2 k data
  | _, [], _ => rfl
  | _, [_], _ => rfl
  | _, [_, _], _ => rfl
  | k, r :: g :: b :: rest, h => by
    have h0 : draws1 k = draws2 k := by
      have := h 0 (by simp; omega)
      simpa using this
    have hrest : ∀ j, j < rest.length / 3 → draws1 (k + 1 + j) = draws2 (k + 1 + j) := by
      intro j hj
      have := h (j + 1) (by simp; omega)
      rw [show k + 1 + j = k + (j + 1) by omega]
      exact this
    simp [perPixelNoise, h0, perPixelNoise_congr draws1 draws2 (k + 1) rest hrest]

/-- C22 (counterexample).  With the draws `0.1f, 0.2f, 0.3f, ...` and the noise
level 0.05 the stage turns the black pixel `(0, 0, 0)` into `(25, 25, 25)`:
the one draw `0.1f` perturbs all three samples.  A separate draw per sample
would give `(25, 51, 76)`.  The output does not change when every draw but the
first is replaced: one draw is consumed for the three samples.  The sum and
the product are rounded to `float`: with the draw `0.0039215684f` the sample
100 becomes 101, although 100 plus 255 times the draw is below 101. -/
theorem surface_noise_one_draw_per_pixel :
    0 < VinylParameters.default.surface_noise ∧
    applySurfaceNoise VinylParameters.default rampDraws [0, 0, 0] = .ok [25, 25, 25] ∧
    perSampleNoiseSpec rampDraws 0 [0, 0, 0] = [25, 51, 76] ∧
    applySurfaceNoise VinylParameters.default rampDraws [0, 0, 0] ≠
      .ok (perSampleNoiseSpec rampDraws 0 [0, 0, 0]) ∧
    (∀ draws : Nat → ℚ, draws 0 = rampDraws 0 →
      applySurfaceNoise VinylParameters.default draws [0, 0, 0] = .ok [25, 25, 25]) ∧
    applySurfaceNoise VinylParameters.default (fun _ => 65793 / 16777216) [100, 100, 100] =
      .ok [101, 101, 101] ∧
    (100 : ℚ) + 255 * (65793 / 16777216) < 101 := by
  have hn : ¬ VinylParameters.default.surface_noise ≤ 0 := by
    norm_num [VinylParameters.default]
  have dr1 : toFloat (2 / 10) = 13421773 / 67108864 :=
    toFloat_eval _ (-3) (13421773) _ (by norm_num) (by norm_num [abs_of_neg, abs_of_pos])
      (by norm_num [abs_of_neg, abs_of_pos]) (by norm_num [abs_lt]) (by norm_num)
  have dr2 : toFloat (3 / 10) = 5033165 / 16777216 :=
    toFloat_eval _ (-2) (10066330) _ (by norm_num) (by norm_num [abs_of_neg, abs_of_pos])
      (by norm_num [abs_of_neg, abs_of_pos]) (by norm_num [abs_lt]) (by norm_num)
  have n0a : toFloat (13421773 / 134217728 * 255) = 51 / 2 :=
    toFloat_eval _ (4) (13369344) _ (by norm_num) (by norm_num [abs_of_neg, abs_of_pos])
      (by norm_num [abs_of_neg, abs_of_pos]) (by norm_num [abs_lt]) (by norm_num)
  have n0b : toFloat (0 + (51 / 2)) = 51 / 2 :=
    toFloat_eval _ (4) (13369344) _ (by norm_num) (by norm_num [abs_of_neg, abs_of_pos])
      (by norm_num [abs_of_neg, abs_of_pos]) (by norm_num [abs_lt]) (by norm_num)
  have n1a : toFloat (13421773 / 67108864 * 255) = 51 :=
    toFloat_eval _ (5) (13369344) _ (by norm_num) (by norm_num [abs_of_neg, abs_of_pos])
      (by norm_num [abs_of_neg, abs_of_pos]) (by norm_num [abs_lt]) (by norm_num)
  have n1b : toFloat (0 + 51) = 51 :=
    toFloat_eval _ (5) (13369344) _ (by norm_num) (by norm_num [abs_of_neg, abs_of_pos])
      (by norm_num [abs_of_neg, abs_of_pos]) (by norm_num [abs_lt]) (by norm_num)
  have n2a : toFloat (5033165 / 16777216 * 255) = 153 / 2 :=
    toFloat_eval _ (6) (10027008) _ (by norm_num) (by norm_num [abs_of_neg, abs_of_pos])
      (by norm_num [abs_of_neg, abs_of_pos]) (by norm_num [abs_lt]) (by norm_num)
  have n2b : toFloat (0 + (153 / 2)) = 153 / 2 :=
    toFloat_eval _ (6) (10027008) _ (by norm_num) (by norm_num [abs_of_neg, abs_of_pos])
      (by norm_num [abs_of_neg, abs_of_pos]) (by norm_num [abs_lt]) (by norm_num)
  have m1 : toFloat (65793 / 16777216 * 255) = 16777215 / 16777216 :=
    toFloat_eval _ (-1) (16777215) _ (by norm_num) (by norm_num [abs_of_neg, abs_of_pos])
      (by norm_num [abs_of_neg, abs_of_pos]) (by norm_num [abs_lt]) (by norm_num)
  have m2 : toFloat (100 + (16777215 / 16777216)) = 101 :=
    toFloat_eval _ (6) (13238272) _ (by norm_num) (by norm_num [abs_of_neg, abs_of_pos])
      (by norm_num [abs_of_neg, abs_of_pos]) (by norm_num [abs_lt]) (by norm_num)
  have r0 : rampDraws 0 = 13421773 / 134217728 := by
    simp only [rampDraws, Nat.cast_zero, zero_add]
    exact toFloat_one_tenth
  have r1 : rampDraws 1 = 13421773 / 67108864 := by
    simp only [rampDraws, Nat.cast_one]
    rw [show ((1 : ℚ) + 1) / 10 = 2 / 10 by norm_num]
    exact dr1
  have r2 : rampDraws 2 = 5033165 / 16777216 := by
    simp only [rampDraws, Nat.cast_ofNat]
    rw [show ((2 : ℚ) + 1) / 10 = 3 / 10 by norm_num]
    exact dr2
  have f1 : Nat.floor (noiseValue 0 (13421773 / 134217728)) = 25 := by
    rw [Nat.floor_eq_iff (noiseValue_mem _ _).1]
    simp only [noiseValue, Nat.cast_zero]
    rw [n0a, n0b]
    norm_num [clamp]
  have f2 : Nat.floor (noiseValue 0 (13421773 / 67108864)) = 51 := by
    rw [Nat.floor_eq_iff (noiseValue_mem _ _).1]
    simp only [noiseValue, Nat.cast_zero]
    rw [n1a, n1b]
    norm_num [clamp]
  have f3 : Nat.floor (noiseValue 0 (5033165 / 16777216)) = 76 := by
    rw [Nat.floor_eq_iff (noiseValue_mem _ _).1]
    simp only [noiseValue, Nat.cast_zero]
    rw [n2a, n2b]
    norm_num [clamp]
  have f4 : Nat.floor (noiseValue 100 (65793 / 16777216)) = 101 := by
    rw [Nat.floor_eq_iff (noiseValue_mem _ _).1]
    simp only [noiseValue, Nat.cast_ofNat]
    rw [m1, m2]
    norm_num [clamp]
  have hcode : ∀ draws : Nat → ℚ, draws 0 = rampDraws 0 →
      applySurfaceNoise VinylParameters.default draws [0, 0, 0] = .ok [25, 25, 25] := by
    intro draws hd
    unfold applySurfaceNoise
    rw [if_neg hn, surfaceNoiseLoop_eq_perPixel draws 0 [0, 0, 0] rfl]
    simp only [perPixelNoise, hd, r0, f1]
  have hspec : perSampleNoiseSpec rampDraws 0 [0, 0, 0] = [25, 51, 76] := by
    simp only [perSampleNoiseSpec, r0, r1, r2, f1, f2, f3]
  have hround : applySurfaceNoise VinylParameters.default (fun _ => 65793 / 16777216)
      [100, 100, 100] = .ok [101, 101, 101] := by
    unfold applySurfaceNoise
    rw [if_neg hn, surfaceNoiseLoop_eq_perPixel _ 0 [100, 100, 100] rfl]
    simp only [perPixelNoise, f4]
  refine ⟨by norm_num [VinylParameters.default], hcode rampDraws rfl, hspec, ?_, hcode, hround,
    by norm_num⟩
  rw [hcode rampDraws rfl, hspec]
  intro h
  exact absurd (Except.ok.inj h) (by decide)

/-- C22 (amended).  With the random source a sequence of draws, for a noise
level greater than 0 and a frame whose data length is a multiple of 3, the
surface-noise stage takes one draw per pixel: the three samples of the pixel
with number `k` become the truncations of `clamp(sample + draw k * 255, 0, 255)`
for the same draw, the product and the sum being rounded to `float`.  A buffer
of `n` samples consumes `n / 3` draws: the output is the same for two
sequences that agree on the first `n / 3` draws.  The output has the length of
the input.  For a draw in `[-1, 1]` the output sample is within 1 of the
truncation of `clamp(sample + draw * 255, 0, 255)` computed exactly. -/
theorem applySurfaceNoise_one_draw_per_pixel (params : VinylParameters)
    (draws : Nat → ℚ) (data : List Nat) (hn : 0 < params.surface_noise)
    (hlen : data.length % 3 = 0) :
    applySurfaceNoise params draws data = .ok (perPixelNoise draws 0 data) ∧
    (perPixelNoise draws 0 data).length = data.length ∧
    (∀ (k r g b : Nat) (rest : List Nat),
      perPixelNoise draws k (r :: g :: b :: rest) =
        Nat.floor (clamp (toFloat ((r : ℚ) + toFloat (draws k * 255))) 0 255) ::
        Nat.floor (clamp (toFloat ((g : ℚ) + toFloat (draws k * 255))) 0 255) ::
        Nat.floor (clamp (toFloat ((b : ℚ) + toFloat (draws k * 255))) 0 255) ::
        perPixelNoise draws (k + 1) rest) ∧
    (∀ other : Nat → ℚ, (∀ j, j < data.length / 3 → other j = draws j) →
      applySurfaceNoise params other data = applySurfaceNoise params draws data) ∧
    (∀ (s : Nat) (d : ℚ), s ≤ 255 → |d| ≤ 1 →
      |((Nat.floor (clamp (toFloat ((s : ℚ) + toFloat (d * 255))) 0 255) : Nat) : Int) -
        truncate (clamp ((s : ℚ) + d * 255) 0 255)| ≤ 1) := by
  have hcode : ∀ d : Nat → ℚ,
      applySurfaceNoise params d data = .ok (perPixelNoise d 0 data) := by
    intro d
    unfold applySurfaceNoise
    rw [if_neg (not_le.mpr hn)]
    exact surfaceNoiseLoop_eq_perPixel d 0 data hlen
  refine ⟨hcode draws, perPixelNoise_length draws 0 data hlen, fun k r g b rest => rfl, ?_,
    ?_⟩
  · intro other h
    rw [hcode other, hcode draws,
      perPixelNoise_congr other draws 0 data (fun j hj => by simpa using h j hj)]
  · intro s d hs255 hd
    exact natFloor_sub_truncate_le (clamp_ge (by norm_num)) (clamp_ge (by norm_num))
      (le_trans (clamp_near _ _ _ _ (by norm_num)) (noise_sum_near s hs255 d hd))

/-- C22 (witness): the amended statement at the two-pixel frame and the draws
`0.1f, 0.2f, ...`: the second pixel `(10, 20, 30)` takes the second draw and
becomes `(61, 71, 81)`. -/
theorem applySurfaceNoise_one_draw_per_pixel_witness :
    0 < VinylParameters.default.surface_noise ∧ twoPixels.data.length % 3 = 0 ∧
    applySurfaceNoise VinylParameters.default rampDraws twoPixels.data =
      .ok [25, 125, 255, 61, 71, 81] := by
  have hn : 0 < VinylParameters.default.surface_noise := by norm_num [VinylParameters.default]
  have h := applySurfaceNoise_one_draw_per_pixel VinylParameters.default rampDraws
    twoPixels.data hn rfl
  refine ⟨hn, rfl, ?_⟩
  rw [h.1]
  have dr1 : toFloat (2 / 10) = 13421773 / 67108864 :=
    toFloat_eval _ (-3) (13421773) _ (by norm_num) (by norm_num [abs_of_neg, abs_of_pos])
      (by norm_num [abs_of_neg, abs_of_pos]) (by norm_num [abs_lt]) (by norm_num)
  have p0 : toFloat (13421773 / 134217728 * 255) = 51 / 2 :=
    toFloat_eval _ (4) (13369344) _ (by norm_num) (by norm_num [abs_of_neg, abs_of_pos])
      (by norm_num [abs_of_neg, abs_of_pos]) (by norm_num [abs_lt]) (by norm_num)
  have p1 : toFloat (13421773 / 67108864 * 255) = 51 :=
    toFloat_eval _ (5) (13369344) _ (by norm_num) (by norm_num [abs_of_neg, abs_of_pos])
      (by norm_num [abs_of_neg, abs_of_pos]) (by norm_num [abs_lt]) (by norm_num)
  have s0 : toFloat (0 + (51 / 2)) = 51 / 2 :=
    toFloat_eval _ (4) (13369344) _ (by norm_num) (by norm_num [abs_of_neg, abs_of_pos])
      (by norm_num [abs_of_neg, abs_of_pos]) (by norm_num [abs_lt]) (by norm_num)
  have s1 : toFloat (100 + (51 / 2)) = 251 / 2 :=
    toFloat_eval _ (6) (16449536) _ (by norm_num) (by norm_num [abs_of_neg, abs_of_pos])
      (by norm_num [abs_of_neg, abs_of_pos]) (by norm_num [abs_lt]) (by norm_num)
  have s2 : toFloat (255 + (51 / 2)) = 561 / 2 :=
    toFloat_eval _ (8) (9191424) _ (by norm_num) (by norm_num [abs_of_neg, abs_of_pos])
      (by norm_num [abs_of_neg, abs_of_pos]) (by norm_num [abs_lt]) (by norm_num)
  have s3 : toFloat (10 + 51) = 61 :=
    toFloat_eval _ (5) (15990784) _ (by norm_num) (by norm_num [abs_of_neg, abs_of_pos])
      (by norm_num [abs_of_neg, abs_of_pos]) (by norm_num [abs_lt]) (by norm_num)
  have s4 : toFloat (20 + 51) = 71 :=
    toFloat_eval _ (6) (9306112) _ (by norm_num) (by norm_num [abs_of_neg, abs_of_pos])
      (by norm_num [abs_of_neg, abs_of_pos]) (by norm_num [abs_lt]) (by norm_num)
  have s5 : toFloat (30 + 51) = 81 :=
    toFloat_eval _ (6) (10616832) _ (by norm_num) (by norm_num [abs_of_neg, abs_of_pos])
      (by norm_num [abs_of_neg, abs_of_pos]) (by norm_num [abs_lt]) (by norm_num)
  have r0 : rampDraws 0 = 13421773 / 134217728 := by
    simp only [rampDraws, Nat.cast_zero, zero_add]
    exact toFloat_one_tenth
  have r1 : rampDraws (0 + 1) = 13421773 / 67108864 := by
    simp only [rampDraws, zero_add, Nat.cast_one]
    rw [show ((1 : ℚ) + 1) / 10 = 2 / 10 by norm_num]
    exact dr1
  have e : ∀ (s n : Nat) (d : ℚ), (n : ℚ) ≤ noiseValue s d → noiseValue s d < (n : ℚ) + 1 →
      Nat.floor (noiseValue s d) = n := fun s n d h1 h2 =>
    (Nat.floor_eq_iff (noiseValue_mem s d).1).2 ⟨h1, h2⟩
  have v0 : noiseValue 0 (13421773 / 134217728) = 51 / 2 := by
    simp only [noiseValue, Nat.cast_zero]
    rw [p0, s0]
    norm_num [clamp]
  have v1 : noiseValue 100 (13421773 / 134217728) = 251 / 2 := by
    simp only [noiseValue, Nat.cast_ofNat]
    rw [p0, s1]
    norm_num [clamp]
  have v2 : noiseValue 255 (13421773 / 134217728) = 255 := by
    simp only [noiseValue, Nat.cast_ofNat]
    rw [p0, s2]
    norm_num [clamp]
  have v3 : noiseValue 10 (13421773 / 67108864) = 61 := by
    simp only [noiseValue, Nat.cast_ofNat]
    rw [p1, s3]
    norm_num [clamp]
  have v4 : noiseValue 20 (13421773 / 67108864) = 71 := by
    simp only [noiseValue, Nat.cast_ofNat]
    rw [p1, s4]
    norm_num [clamp]
  have v5 : noiseValue 30 (13421773 / 67108864) = 81 := by
    simp only [noiseValue, Nat.cast_ofNat]
    rw [p1, s5]
    norm_num [clamp]
  have f0 := e 0 25 _ (by rw [v0]; norm_num) (by rw [v0]; norm_num)
  have f1 := e 100 125 _ (by rw [v1]; norm_num) (by rw [v1]; norm_num)
  have f2 := e 255 255 _ (by rw [v2]; norm_num) (by rw [v2]; norm_num)
  have f3 := e 10 61 _ (by rw [v3]; norm_num) (by rw [v3]; norm_num)
  have f4 := e 20 71 _ (by rw [v4]; norm_num) (by rw [v4]; norm_num)
  have f5 := e 30 81 _ (by rw [v5]; norm_num) (by rw [v5]; norm_num)
  simp only [twoPixels, perPixelNoise, r0, r1, f0, f1, f2, f3, f4, f5]

end AnantaSound

namespace AnantaSound

/-! ## C23: the size of the flutter perturbation -/

end AnantaSound

namespace AnantaSound

/-! ## C24: the stages stay inside the buffer -/

/-- C24.  For every frame of `uint8_t` samples that satisfies the data-model
invariant `data length = width * height * 3`, the data length is a multiple of
3, each of the five stages returns on every buffer of that kind (no index at or
past the end of the buffer is read or written, no conversion is out of range),
and `applyVinylEffects` returns a frame of the same data length.  On a buffer
of four samples, which does not satisfy the invariant, the stages that step by
pixels do read past the end. -/
theorem applyVinylEffects_in_bounds (libm : Libm) (params : VinylParameters)
    (position : ℚ) (draws : Nat → ℚ) (frame : VideoFrame)
    (hinv : (frame.data.length : Int) = frame.width * frame.height * 3)
    (hs : SamplesOk frame.data) :
    frame.data.length % 3 = 0 ∧
    (∀ d : List Nat, d.length % 3 = 0 → SamplesOk d →
      (∃ out, applySurfaceNoise params draws d = .ok out ∧ out.length = d.length) ∧
      (∃ out, applyWowFlutter libm params position d = .ok out ∧ out.length = d.length) ∧
      (∃ out, applyNeedlePressure params d = .ok out ∧ out.length = d.length) ∧
      (∃ out, applyGrooveDepth params d = .ok out ∧ out.length = d.length) ∧
      (∃ out, applyEQCurve params d = .ok out ∧ out.length = d.length)) ∧
    (∃ out, applyVinylEffects libm params position draws frame = .ok out ∧
      out.data.length = frame.data.length) ∧
    applyVinylEffects libm params position draws frame ≠ .error Fault.outOfBounds ∧
    applyGrooveDepth params [0, 0, 0, 0] = .error Fault.outOfBounds ∧
    applyEQCurve params [0, 0, 0, 0] = .error Fault.outOfBounds := by
  have hlen : frame.data.length % 3 = 0 := by
    generalize frame.width * frame.height = k at hinv
    omega
  have hstages : ∀ d : List Nat, d.length % 3 = 0 → SamplesOk d →
      (∃ out, applySurfaceNoise params draws d = .ok out ∧ out.length = d.length) ∧
      (∃ out, applyWowFlutter libm params position d = .ok out ∧ out.length = d.length) ∧
      (∃ out, applyNeedlePressure params d = .ok out ∧ out.length = d.length) ∧
      (∃ out, applyGrooveDepth params d = .ok out ∧ out.length = d.length) ∧
      (∃ out, applyEQCurve params d = .ok out ∧ out.length = d.length) := by
    intro d hd hsd
    obtain ⟨o1, e1, l1, _⟩ := applySurfaceNoise_ok params draws d hd hsd
    obtain ⟨o2, e2, l2, _⟩ := applyWowFlutter_ok libm params position d hd hsd
    obtain ⟨o3, e3, l3, _⟩ := needlePressureLoop_ok params d hsd
    obtain ⟨o4, e4, l4, _⟩ := grooveDepthLoop_ok (depthFactor params) d hd
    obtain ⟨o5, e5, l5, _⟩ := eqCurveLoop_ok (eqFactor params) d hd
    exact ⟨⟨o1, e1, l1⟩, ⟨o2, e2, l2⟩, ⟨o3, e3, l3⟩, ⟨o4, e4, l4⟩, ⟨o5, e5, l5⟩⟩
  have hrun : ∃ out, applyVinylEffects libm params position draws frame = .ok out ∧
      out.data.length = frame.data.length := by
    obtain ⟨d1, h1, l1, s1⟩ := applySurfaceNoise_ok params draws frame.data hlen hs
    obtain ⟨d2, h2, l2, s2⟩ := applyWowFlutter_ok libm params position d1
      (by rw [l1]; exact hlen) s1
    obtain ⟨d3, h3, l3, _⟩ := needlePressureLoop_ok params d2 s2
    obtain ⟨d4, h4, l4, _⟩ := grooveDepthLoop_ok (depthFactor params) d3
      (by rw [l3, l2, l1]; exact hlen)
    obtain ⟨d5, h5, l5, _⟩ := eqCurveLoop_ok (eqFactor params) d4
      (by rw [l4, l3, l2, l1]; exact hlen)
    refine ⟨{ frame with data := d5 }, ?_, by simp [l5, l4, l3, l2, l1]⟩
    simp [applyVinylEffects, applyVinylEffectsData, h1, h2, applyNeedlePressure, h3,
      applyGrooveDepth, h4, applyEQCurve, h5, bind, Except.bind, pure, Except.pure]
  refine ⟨hlen, hstages, hrun, ?_, ?_, ?_⟩
  · obtain ⟨out, ho, _⟩ := hrun
    rw [ho]
    simp
  · obtain ⟨a, ha, _⟩ := toUInt8_of_mem_Icc _ (depthValue_mem 0 (depthFactor params)).1
      (depthValue_mem 0 (depthFactor params)).2
    simp [applyGrooveDepth, grooveDepthLoop, ha, bind, Except.bind]
  · obtain ⟨a, ha, _⟩ := toUInt8_of_mem_Icc _ (eqValueR_mem 0 (eqFactor params)).1
      (eqValueR_mem 0 (eqFactor params)).2
    obtain ⟨b, hb, _⟩ := toUInt8_of_mem_Icc _
      (eqValue_mem 0 (eqFactor params) (toFloat (9 / 10))).1
      (eqValue_mem 0 (eqFactor params) (toFloat (9 / 10))).2
    obtain ⟨c, hc, _⟩ := toUInt8_of_mem_Icc _
      (eqValue_mem 0 (eqFactor params) (toFloat (11 / 10))).1
      (eqValue_mem 0 (eqFactor params) (toFloat (11 / 10))).2
    simp [applyEQCurve, eqCurveLoop, ha, hb, hc, bind, Except.bind]

/-- C24 (witness): the two-pixel frame has `2 * 1 * 3` samples, and the chain
returns on it. -/
theorem applyVinylEffects_in_bounds_witness :
    (twoPixels.data.length : Int) = twoPixels.width * twoPixels.height * 3 ∧
    SamplesOk twoPixels.data ∧
    (∃ out, applyVinylEffects flatLibm VinylParameters.default (3 / 2) rampDraws twoPixels =
        .ok out ∧ out.data.length = twoPixels.data.length) ∧
    applyVinylEffects flatLibm VinylParameters.default (3 / 2) rampDraws twoPixels ≠
      .error Fault.outOfBounds :=
  have hinv : (twoPixels.data.length : Int) = twoPixels.width * twoPixels.height * 3 := by
    simp [twoPixels]
  have hs : SamplesOk twoPixels.data := by
    intro x hx
    simp [twoPixels] at hx
    omega
  have h := applyVinylEffects_in_bounds flatLibm VinylParameters.default (3 / 2) rampDraws
    twoPixels hinv hs
  ⟨hinv, hs, h.2.2.1, h.2.2.2.1⟩

end AnantaSound

namespace AnantaSound
namespace VinylVideoPlayer

/-! ## C25: the states the engine enters -/

theorem play_state_cases {env : Env} {p q : VinylVideoPlayer} {ok : Bool}
    (h : play env p = some (ok, q)) :
    q.state_ = p.state_ ∨ q.state_ = PlaybackState.PLAYING := by
  unfold play at h
  split_ifs at h
  · cases h; exact Or.inl rfl
  · cases h; exact Or.inl rfl
  · split at h
    · cases h
    · next p2 hj =>
      cases h
      exact Or.inr (joinWorker_control hj).1.state_

theorem stop_state_cases {env : Env} {p q : VinylVideoPlayer} {ok : Bool}
    (h : stop env p = some (ok, q)) : q.state_ = PlaybackState.STOPPED := by
  unfold stop at h
  split_ifs at h with hs
  · cases h; exact hs
  · split at h
    · cases h
    · next p2 hj =>
      cases h
      exact (joinWorker_control hj).1.state_

theorem shutdown_state {env : Env} {p q : VinylVideoPlayer}
    (h : shutdown env p = some q) : q.state_ = PlaybackState.STOPPED := by
  unfold shutdown at h
  split at h
  · cases h
  · dsimp only at h
    obtain ⟨p2, _, rfl⟩ := Option.map_eq_some'.1 h
    rfl

/-- In every reachable state the playback state is `STOPPED`, `PLAYING` or
`PAUSED`. -/
theorem reachable_state_mem {env : Env} {p : VinylVideoPlayer} (h : Reachable env p) :
    p.state_ = PlaybackState.STOPPED ∨ p.state_ = PlaybackState.PLAYING ∨
      p.state_ = PlaybackState.PAUSED := by
  induction h with
  | construct => exact Or.inl rfl
  | initializeEngine _ _ => exact Or.inl rfl
  | shutdown _ hq _ => exact Or.inl (shutdown_state hq)
  | loadVideo _ _ _ hq ih => rw [loadVideo_state hq]; exact ih
  | loadVinylRecording _ _ _ hq ih => rw [loadVinylRecording_state hq]; exact ih
  | play _ _ hq ih =>
    rcases play_state_cases hq with h | h
    · rw [h]; exact ih
    · exact Or.inr (Or.inl h)
  | @pause p _ ih =>
    unfold pause
    split_ifs
    · exact Or.inr (Or.inr rfl)
    · exact ih
  | stop _ _ hq _ => exact Or.inl (stop_state_cases hq)
  | @seek p pos _ ih =>
    unfold seek
    split_ifs
    · exact ih
    · exact ih
  | setPlaybackSpeed _ _ hq ih => obtain ⟨r, rfl, _⟩ := setPlaybackSpeed_ok hq; exact ih
  | setLoopEnabled _ _ ih => exact ih
  | setNeedlePressure _ _ hq ih => obtain ⟨r, rfl, _⟩ := setNeedlePressure_ok hq; exact ih
  | setTurntableSpeed _ _ hq ih => obtain ⟨r, rfl, _⟩ := setTurntableSpeed_ok hq; exact ih
  | setWowFlutter _ _ hq ih => obtain ⟨r, rfl, _⟩ := setWowFlutter_ok hq; exact ih
  | setSurfaceNoise _ _ hq ih => obtain ⟨r, rfl, _⟩ := setSurfaceNoise_ok hq; exact ih
  | setGrooveDepth _ _ hq ih => obtain ⟨r, rfl, _⟩ := setGrooveDepth_ok hq; exact ih
  | setMonoMode _ _ ih => exact ih
  | setEQCurve _ _ hq ih => obtain ⟨r, rfl, _⟩ := setEQCurve_ok hq; exact ih
  | writeVinylParams _ _ ih => exact ih
  | @workerStep p _ ih => rw [(workerStep_control env p).state_]; exact ih
  | @workerTest p _ ih => rw [(workerTest_control p).state_]; exact ih
  | tick _ _ ih => exact ih

/-- C25.  In every state reachable from the constructor by any sequence of
`initialize`, `loadVideo`, `loadVinylRecording`, `play`, `pause`, `stop`,
`seek`, `shutdown`, setter calls, worker steps and the passing of time, the
playback state is one of `STOPPED`, `PLAYING`, `PAUSED`: it is never `SEEKING`
and never `ERROR`.  A successful `seek` leaves the state as it is, and a worker
step leaves it as it is. -/
theorem reachable_state_never_seeking_or_error (env : Env) (p : VinylVideoPlayer)
    (hr : Reachable env p) :
    (p.state_ = PlaybackState.STOPPED ∨ p.state_ = PlaybackState.PLAYING ∨
      p.state_ = PlaybackState.PAUSED) ∧
    p.state_ ≠ PlaybackState.SEEKING ∧ p.state_ ≠ PlaybackState.ERROR ∧
    (∀ position_seconds : ℚ, (seek p position_seconds).2.state_ = p.state_) ∧
    (workerStep env p).state_ = p.state_ := by
  have h := reachable_state_mem hr
  refine ⟨h, ?_, ?_, ?_, (workerStep_control env p).state_⟩
  · rcases h with h | h | h <;> rw [h] <;> decide
  · rcases h with h | h | h <;> rw [h] <;> decide
  · intro pos
    unfold seek
    split_ifs <;> rfl

/-- C25 (witness): the three states occur: the fresh engine is `STOPPED`, the
sample engine with its worker in the loop is `PLAYING`, and after `pause()` it
is `PAUSED`; after a `seek` during playback the state is still `PLAYING`. -/
theorem reachable_state_never_seeking_or_error_witness :
    Reachable sampleEnv construct ∧ construct.state_ = PlaybackState.STOPPED ∧
    Reachable sampleEnv sampleLooping ∧ sampleLooping.state_ = PlaybackState.PLAYING ∧
    Reachable sampleEnv (pause sampleLooping).2 ∧
    (pause sampleLooping).2.state_ = PlaybackState.PAUSED ∧
    (seek sampleLooping 5).2.state_ ≠ PlaybackState.SEEKING ∧
    (seek sampleLooping 5).2.state_ ≠ PlaybackState.ERROR :=
  have hp : Reachable sampleEnv (pause sampleLooping).2 :=
    Reachable.pause reachable_sampleLooping
  have hk : Reachable sampleEnv (seek sampleLooping 5).2 :=
    Reachable.seek 5 reachable_sampleLooping
  have h := reachable_state_never_seeking_or_error sampleEnv (seek sampleLooping 5).2 hk
  ⟨Reachable.construct, rfl, reachable_sampleLooping, rfl, hp,
    by simp [pause, sampleLooping, samplePlaying, emitEvent], h.2.1, h.2.2.1⟩

end VinylVideoPlayer
end AnantaSound

namespace AnantaSound
namespace VinylVideoPlayer

/-! ## C26: the recommended settings -/

/-- C26.  For every `VinylType` the needle pressure of
`getRecommendedSettings(type)` is in `[0.5, 5.0]`, its wow/flutter in
`[0, 2.0]`, its surface noise in `[0, 0.3]`, its groove depth in `[0.05, 0.2]`
and its EQ curve in `[0.5, 2.0]`, and `getRecommendedSettings(UNKNOWN)` is the
default-constructed record.  A successful `loadVinylRecording` replaces the
whole parameter record by the recommended settings of the detected type, so
the five parameters are in their clamp ranges afterwards; on the sample source
it succeeds and leaves the default record. -/
theorem getRecommendedSettings_in_clamp_ranges (type : VinylUtils.VinylType) :
    ((1 / 2 ≤ (VinylUtils.getRecommendedSettings type).needle_pressure ∧
        (VinylUtils.getRecommendedSettings type).needle_pressure ≤ 5) ∧
      (0 ≤ (VinylUtils.getRecommendedSettings type).wow_flutter ∧
        (VinylUtils.getRecommendedSettings type).wow_flutter ≤ 2) ∧
      (0 ≤ (VinylUtils.getRecommendedSettings type).surface_noise ∧
        (VinylUtils.getRecommendedSettings type).surface_noise ≤ 3 / 10) ∧
      (5 / 100 ≤ (VinylUtils.getRecommendedSettings type).groove_depth ∧
        (VinylUtils.getRecommendedSettings type).groove_depth ≤ 2 / 10) ∧
      (1 / 2 ≤ (VinylUtils.getRecommendedSettings type).eq_curve ∧
        (VinylUtils.getRecommendedSettings type).eq_curve ≤ 2)) ∧
    VinylUtils.getRecommendedSettings VinylUtils.VinylType.UNKNOWN = VinylParameters.default ∧
    (∀ (env : Env) (p q : VinylVideoPlayer) (path : String),
      loadVinylRecording env p path = some (true, q) →
        q.vinyl_params_ =
          VinylUtils.getRecommendedSettings (VinylUtils.detectVinylType path) ∧
        q.vinyl_params_.InRange) ∧
    (loadVinylRecording sampleEnv construct "a.mp4").map
        (fun r => (r.1, r.2.vinyl_params_)) = some (true, VinylParameters.default) := by
  refine ⟨getRecommendedSettings_inRange type, rfl, ?_, ?_⟩
  · intro env p q path h
    have hq : q.vinyl_params_ =
        VinylUtils.getRecommendedSettings (VinylUtils.detectVinylType path) := by
      unfold loadVinylRecording at h
      split at h
      · cases h
      · simp at h
      · next p1 hl =>
        simp only [Option.some.injEq, Prod.mk.injEq, true_and] at h
        rw [← h]
    exact ⟨hq, by rw [hq]; exact getRecommendedSettings_inRange _⟩
  · have hd : VinylUtils.detectVinylType "a.mp4" = VinylUtils.VinylType.UNKNOWN := by decide
    simp [loadVinylRecording, loadVideo_sample, hd, VinylUtils.getRecommendedSettings]

end VinylVideoPlayer
end AnantaSound

namespace AnantaSound

/-! ## C27: the groove-depth stage -/

theorem clamp_mono {x y lo hi : ℚ} (h : x ≤ y) (hlo : lo ≤ hi) :
    clamp x lo hi ≤ clamp y lo hi := by
  unfold clamp
  split_ifs <;> linarith

/-- The depth factor grows with the groove depth. -/
theorem depthFactor_mono (p1 p2 : VinylParameters)
    (h : p1.groove_depth ≤ p2.groove_depth) : depthFactor p1 ≤ depthFactor p2 := by
  have hc : (0 : ℚ) ≤ toFloat (4 / 10) := toFloat_nonneg (by norm_num)
  unfold depthFactor
  exact toFloat_mono (toDouble_mono (add_le_add_left
    (toDouble_mono (mul_le_mul_of_nonneg_right h hc)) _))

/-- For a sample not below mid-grey the value of the stage grows with the
factor. -/
theorem depthValue_mono (s : Nat) (f1 f2 : ℚ)
    (ha : 0 ≤ toFloat (toFloat ((s : ℚ) / 255) - 1 / 2)) (h : f1 ≤ f2) :
    depthValue s f1 ≤ depthValue s f2 := by
  unfold depthValue depthScaled
  exact clamp_mono (toFloat_mono (mul_le_mul_of_nonneg_right
    (toFloat_mono (add_le_add_right (toFloat_mono (mul_le_mul_of_nonneg_left h ha)) _))
    (by norm_num))) (by norm_num)

/-- For a sample not above mid-grey the value of the stage falls as the factor
grows. -/
theorem depthValue_anti (s : Nat) (f1 f2 : ℚ)
    (ha : toFloat (toFloat ((s : ℚ) / 255) - 1 / 2) ≤ 0) (h : f1 ≤ f2) :
    depthValue s f2 ≤ depthValue s f1 := by
  unfold depthValue depthScaled
  exact clamp_mono (toFloat_mono (mul_le_mul_of_nonneg_right
    (toFloat_mono (add_le_add_right (toFloat_mono (mul_le_mul_of_nonpos_left h ha)) _))
    (by norm_num))) (by norm_num)

/-- The values of the depth factor and of the stage at the two ends of the
setter range: groove depth 0.05 and groove depth 0.2 (as a `double`). -/
theorem depth_endpoints :
    toDouble (2 / 10) = 3602879701896397 / 18014398509481984 ∧
    toFloat (toDouble (toFloat (8 / 10) + toDouble (5 / 100 * toFloat (4 / 10)))) =
      13757317 / 16777216 ∧
    toFloat (toDouble (toFloat (8 / 10) + toDouble (toDouble (2 / 10) * toFloat (4 / 10)))) =
      7381975 / 8388608 ∧
    depthValue 255 (13757317 / 16777216) = 3801907 / 16384 ∧
    depthValue 255 (7381975 / 8388608) = 15708979 / 65536 ∧
    depthValue 0 (13757317 / 16777216) = 6016205 / 262144 ∧
    depthValue 0 (7381975 / 8388608) = 16043213 / 1048576 ∧
    0 ≤ toFloat (toFloat (((255 : Nat) : ℚ) / 255) - 1 / 2) ∧
    toFloat (toFloat (((0 : Nat) : ℚ) / 255) - 1 / 2) ≤ 0 := by
  have g0 : toDouble (2 / 10) = 3602879701896397 / 18014398509481984 :=
    toDouble_eval _ (-3) (7205759403792794) _ (by norm_num) (by norm_num [abs_of_neg, abs_of_pos])
      (by norm_num [abs_of_neg, abs_of_pos]) (by norm_num [abs_lt]) (by norm_num)
  have l1 : toDouble (5 / 100 * (13421773 / 33554432)) = 5764607608933581 / 288230376151711744 :=
    toDouble_eval _ (-6) (5764607608933581) _ (by norm_num) (by norm_num [abs_of_neg, abs_of_pos])
      (by norm_num [abs_of_neg, abs_of_pos]) (by norm_num [abs_lt]) (by norm_num)
  have l2 : toDouble (13421773 / 16777216 + (5764607608933581 / 288230376151711744)) = 3692951749473075 / 4503599627370496 :=
    toDouble_eval _ (-1) (7385903498946150) _ (by norm_num) (by norm_num [abs_of_neg, abs_of_pos])
      (by norm_num [abs_of_neg, abs_of_pos]) (by norm_num [abs_lt]) (by norm_num)
  have l3 : toFloat (3692951749473075 / 4503599627370496) = 13757317 / 16777216 :=
    toFloat_eval _ (-1) (13757317) _ (by norm_num) (by norm_num [abs_of_neg, abs_of_pos])
      (by norm_num [abs_of_neg, abs_of_pos]) (by norm_num [abs_lt]) (by norm_num)
  have h1 : toDouble ((3602879701896397 / 18014398509481984) * (13421773 / 33554432)) = 5764607608933581 / 72057594037927936 :=
    toDouble_eval _ (-4) (5764607608933581) _ (by norm_num) (by norm_num [abs_of_neg, abs_of_pos])
      (by norm_num [abs_of_neg, abs_of_pos]) (by norm_num [abs_lt]) (by norm_num)
  have h2 : toDouble (13421773 / 16777216 + (5764607608933581 / 72057594037927936)) = 3963167731141837 / 4503599627370496 :=
    toDouble_eval _ (-1) (7926335462283674) _ (by norm_num) (by norm_num [abs_of_neg, abs_of_pos])
      (by norm_num [abs_of_neg, abs_of_pos]) (by norm_num [abs_lt]) (by norm_num)
  have h3 : toFloat (3963167731141837 / 4503599627370496) = 7381975 / 8388608 :=
    toFloat_eval _ (-1) (14763950) _ (by norm_num) (by norm_num [abs_of_neg, abs_of_pos])
      (by norm_num [abs_of_neg, abs_of_pos]) (by norm_num [abs_lt]) (by norm_num)
  have a1 : toFloat (255 / 255) = 1 :=
    toFloat_eval _ (0) (8388608) _ (by norm_num) (by norm_num [abs_of_neg, abs_of_pos])
      (by norm_num [abs_of_neg, abs_of_pos]) (by norm_num [abs_lt]) (by norm_num)
  have a2 : toFloat (1 - 1 / 2) = 1 / 2 :=
    toFloat_eval _ (-1) (8388608) _ (by norm_num) (by norm_num [abs_of_neg, abs_of_pos])
      (by norm_num [abs_of_neg, abs_of_pos]) (by norm_num [abs_lt]) (by norm_num)
  have a3 : toFloat (1 / 2 * (13757317 / 16777216)) = 13757317 / 33554432 :=
    toFloat_eval _ (-2) (13757317) _ (by norm_num) (by norm_num [abs_of_neg, abs_of_pos])
      (by norm_num [abs_of_neg, abs_of_pos]) (by norm_num [abs_lt]) (by norm_num)
  have a4 : toFloat (13757317 / 33554432 + 1 / 2) = 7633633 / 8388608 :=
    toFloat_eval_even _ (-1) (15267266) _ (by norm_num) (by norm_num [abs_of_neg, abs_of_pos])
      (by norm_num [abs_of_neg, abs_of_pos]) (by norm_num [abs_le]) (by norm_num)
      (by norm_num)
  have a5 : toFloat (7633633 / 8388608 * 255) = 3801907 / 16384 :=
    toFloat_eval _ (7) (15207628) _ (by norm_num) (by norm_num [abs_of_neg, abs_of_pos])
      (by norm_num [abs_of_neg, abs_of_pos]) (by norm_num [abs_lt]) (by norm_num)
  have b1 : toFloat (255 / 255) = 1 :=
    toFloat_eval _ (0) (8388608) _ (by norm_num) (by norm_num [abs_of_neg, abs_of_pos])
      (by norm_num [abs_of_neg, abs_of_pos]) (by norm_num [abs_lt]) (by norm_num)
  have b2 : toFloat (1 - 1 / 2) = 1 / 2 :=
    toFloat_eval _ (-1) (8388608) _ (by norm_num) (by norm_num [abs_of_neg, abs_of_pos])
      (by norm_num [abs_of_neg, abs_of_pos]) (by norm_num [abs_lt]) (by norm_num)
  have b3 : toFloat (1 / 2 * (7381975 / 8388608)) = 7381975 / 16777216 :=
    toFloat_eval _ (-2) (14763950) _ (by norm_num) (by norm_num [abs_of_neg, abs_of_pos])
      (by norm_num [abs_of_neg, abs_of_pos]) (by norm_num [abs_lt]) (by norm_num)
  have b4 : toFloat (7381975 / 16777216 + 1 / 2) = 15770583 / 16777216 :=
    toFloat_eval _ (-1) (15770583) _ (by norm_num) (by norm_num [abs_of_neg, abs_of_pos])
      (by norm_num [abs_of_neg, abs_of_pos]) (by norm_num [abs_lt]) (by norm_num)
  have b5 : toFloat (15770583 / 16777216 * 255) = 15708979 / 65536 :=
    toFloat_eval _ (7) (15708979) _ (by norm_num) (by norm_num [abs_of_neg, abs_of_pos])
      (by norm_num [abs_of_neg, abs_of_pos]) (by norm_num [abs_lt]) (by norm_num)
  have c1 : toFloat (0 / 255) = 0 := by
    rw [show (0 / 255 : ℚ) = 0 by norm_num]
    exact toFloat_zero
  have c2 : toFloat (0 - 1 / 2) = -1 / 2 :=
    toFloat_eval _ (-1) (-8388608) _ (by norm_num) (by norm_num [abs_of_neg, abs_of_pos])
      (by norm_num [abs_of_neg, abs_of_pos]) (by norm_num [abs_lt]) (by norm_num)
  have c3 : toFloat (-1 / 2 * (13757317 / 16777216)) = -13757317 / 33554432 :=
    toFloat_eval _ (-2) (-13757317) _ (by norm_num) (by norm_num [abs_of_neg, abs_of_pos])
      (by norm_num [abs_of_neg, abs_of_pos]) (by norm_num [abs_lt]) (by norm_num)
  have c4 : toFloat (-13757317 / 33554432 + 1 / 2) = 3019899 / 33554432 :=
    toFloat_eval _ (-4) (12079596) _ (by norm_num) (by norm_num [abs_of_neg, abs_of_pos])
      (by norm_num [abs_of_neg, abs_of_pos]) (by norm_num [abs_lt]) (by norm_num)
  have c5 : toFloat (3019899 / 33554432 * 255) = 6016205 / 262144 :=
    toFloat_eval _ (4) (12032410) _ (by norm_num) (by norm_num [abs_of_neg, abs_of_pos])
      (by norm_num [abs_of_neg, abs_of_pos]) (by norm_num [abs_lt]) (by norm_num)
  have d1 : toFloat (0 / 255) = 0 := by
    rw [show (0 / 255 : ℚ) = 0 by norm_num]
    exact toFloat_zero
  have d2 : toFloat (0 - 1 / 2) = -1 / 2 :=
    toFloat_eval _ (-1) (-8388608) _ (by norm_num) (by norm_num [abs_of_neg, abs_of_pos])
      (by norm_num [abs_of_neg, abs_of_pos]) (by norm_num [abs_lt]) (by norm_num)
  have d3 : toFloat (-1 / 2 * (7381975 / 8388608)) = -7381975 / 16777216 :=
    toFloat_eval _ (-2) (-14763950) _ (by norm_num) (by norm_num [abs_of_neg, abs_of_pos])
      (by norm_num [abs_of_neg, abs_of_pos]) (by norm_num [abs_lt]) (by norm_num)
  have d4 : toFloat (-7381975 / 16777216 + 1 / 2) = 1006633 / 16777216 :=
    toFloat_eval _ (-5) (16106128) _ (by norm_num) (by norm_num [abs_of_neg, abs_of_pos])
      (by norm_num [abs_of_neg, abs_of_pos]) (by norm_num [abs_lt]) (by norm_num)
  have d5 : toFloat (1006633 / 16777216 * 255) = 16043213 / 1048576 :=
    toFloat_eval _ (3) (16043213) _ (by norm_num) (by norm_num [abs_of_neg, abs_of_pos])
      (by norm_num [abs_of_neg, abs_of_pos]) (by norm_num [abs_lt]) (by norm_num)
  refine ⟨g0, ?_, ?_, ?_, ?_, ?_, ?_, ?_, ?_⟩
  · rw [toFloat_four_tenths, toFloat_eight_tenths, l1, l2, l3]
  · rw [toFloat_four_tenths, toFloat_eight_tenths, g0, h1, h2, h3]
  · simp only [depthValue, depthScaled, Nat.cast_ofNat]
    rw [a1, a2, a3, a4, a5]
    norm_num [clamp]
  · simp only [depthValue, depthScaled, Nat.cast_ofNat]
    rw [b1, b2, b3, b4, b5]
    norm_num [clamp]
  · simp only [depthValue, depthScaled, Nat.cast_zero]
    rw [c1, c2, c3, c4, c5]
    norm_num [clamp]
  · simp only [depthValue, depthScaled, Nat.cast_zero]
    rw [d1, d2, d3, d4, d5]
    norm_num [clamp]
  · simp only [Nat.cast_ofNat]
    rw [a1, a2]
    norm_num
  · simp only [Nat.cast_zero]
    rw [c1, c2]
    norm_num

/-- The value `setGrooveDepth` stores lies in `[0.05, 0.2]`. -/
theorem setGrooveDepth_range (p q : VinylVideoPlayer) (v : CDouble)
    (h : VinylVideoPlayer.setGrooveDepth p v = .ok q) :
    5 / 100 ≤ q.vinyl_params_.groove_depth ∧ q.vinyl_params_.groove_depth ≤ 2 / 10 := by
  have hlo : ∀ x : ℚ, (5 : ℚ) / 100 ≤ clamp x (5 / 100) (2 / 10) := fun x =>
    clamp_ge (by norm_num)
  have hhi : ∀ x : ℚ, clamp x (5 / 100) (2 / 10) ≤ 2 / 10 := fun x =>
    clamp_le (by norm_num)
  cases v with
  | finite x =>
    simp only [VinylVideoPlayer.setGrooveDepth, clampDouble, storeDouble, Except.map,
      Except.ok.injEq] at h
    rw [← h]
    exact ⟨hlo x, hhi x⟩
  | posInf =>
    simp only [VinylVideoPlayer.setGrooveDepth, clampDouble, storeDouble, Except.map,
      Except.ok.injEq] at h
    rw [← h]
    norm_num
  | negInf =>
    simp only [VinylVideoPlayer.setGrooveDepth, clampDouble, storeDouble, Except.map,
      Except.ok.injEq] at h
    rw [← h]
    norm_num
  | nan =>
    simp [VinylVideoPlayer.setGrooveDepth, clampDouble, storeDouble, Except.map] at h

/-- C27 (counterexample).  At the groove depth 0.05, the lower end of the
setter range, the depth factor of the code is the float `0.8199999928`
(`13757317 / 2 ^ 24`), which is below 0.82: the sum `0.8f + 0.05 * 0.4f` is
rounded to `float`. -/
theorem depthFactor_below_bound_at_lower_end :
    VinylVideoPlayer.setGrooveDepth VinylVideoPlayer.construct
        (CDouble.finite (toDouble (5 / 100))) =
      .ok { VinylVideoPlayer.construct with
              vinyl_params_ := { VinylParameters.default with
                                   groove_depth := toDouble (5 / 100) } } ∧
    depthFactor { VinylParameters.default with groove_depth := toDouble (5 / 100) } =
      13757317 / 16777216 ∧
    (13757317 / 16777216 : ℚ) < 82 / 100 ∧
    ¬ (82 / 100 ≤
      depthFactor { VinylParameters.default with groove_depth := toDouble (5 / 100) }) := by
  have g0 : toDouble (5 / 100) = 3602879701896397 / 72057594037927936 :=
    toDouble_eval _ (-5) (7205759403792794) _ (by norm_num) (by norm_num [abs_of_neg, abs_of_pos])
      (by norm_num [abs_of_neg, abs_of_pos]) (by norm_num [abs_lt]) (by norm_num)
  have l1 : toDouble ((3602879701896397 / 72057594037927936) * (13421773 / 33554432)) = 5764607608933581 / 288230376151711744 :=
    toDouble_eval _ (-6) (5764607608933581) _ (by norm_num) (by norm_num [abs_of_neg, abs_of_pos])
      (by norm_num [abs_of_neg, abs_of_pos]) (by norm_num [abs_lt]) (by norm_num)
  have l2 : toDouble (13421773 / 16777216 + (5764607608933581 / 288230376151711744)) = 3692951749473075 / 4503599627370496 :=
    toDouble_eval _ (-1) (7385903498946150) _ (by norm_num) (by norm_num [abs_of_neg, abs_of_pos])
      (by norm_num [abs_of_neg, abs_of_pos]) (by norm_num [abs_lt]) (by norm_num)
  have l3 : toFloat (3692951749473075 / 4503599627370496) = 13757317 / 16777216 :=
    toFloat_eval _ (-1) (13757317) _ (by norm_num) (by norm_num [abs_of_neg, abs_of_pos])
      (by norm_num [abs_of_neg, abs_of_pos]) (by norm_num [abs_lt]) (by norm_num)
  have hf : depthFactor { VinylParameters.default with groove_depth := toDouble (5 / 100) } =
      13757317 / 16777216 := by
    simp only [depthFactor]
    rw [toFloat_four_tenths, toFloat_eight_tenths, g0, l1, l2, l3]
  refine ⟨?_, hf, by norm_num, ?_⟩
  · simp only [VinylVideoPlayer.setGrooveDepth, clampDouble, storeDouble, Except.map]
    rw [g0]
    norm_num [clamp, VinylVideoPlayer.construct]
  · rw [hf]
    norm_num

/-- C27 (amended).  For every groove depth `g` from 0.05 to 0.2 (the `double`
0.2 included) the depth factor, the float that `0.8f + g * 0.4f` is rounded to,
lies between the floats `0.8199999928` and `0.8799999952`, so between
0.8199999 and 0.88 and below 1.  The sample 255 becomes a value in
`[232, 239]` and the sample 0 a value in `[15, 22]`, so the stage is not the
identity: it changes the white pixel and the black pixel.  Every value that
`setGrooveDepth` stores is such a groove depth.  The depth factor is within
`10 ^ -7` of `0.8 + 0.4 * g`. -/
theorem applyGrooveDepth_compresses_contrast (params : VinylParameters)
    (hg0 : 5 / 100 ≤ params.groove_depth) (hg1 : params.groove_depth ≤ toDouble (2 / 10)) :
    13757317 / 16777216 ≤ depthFactor params ∧ depthFactor params ≤ 7381975 / 8388608 ∧
    8199999 / 10000000 ≤ depthFactor params ∧ depthFactor params ≤ 88 / 100 ∧
    depthFactor params < 1 ∧
    (∃ hi lo, 232 ≤ hi ∧ hi ≤ 239 ∧ 15 ≤ lo ∧ lo ≤ 22 ∧
      toUInt8 (depthValue 255 (depthFactor params)) = .ok hi ∧
      toUInt8 (depthValue 0 (depthFactor params)) = .ok lo ∧
      applyGrooveDepth params [255, 255, 255, 0, 0, 0] = .ok [hi, hi, hi, lo, lo, lo]) ∧
    applyGrooveDepth params [255, 255, 255] ≠ .ok [255, 255, 255] ∧
    applyGrooveDepth params [0, 0, 0] ≠ .ok [0, 0, 0] ∧
    (∀ (p q : VinylVideoPlayer) (v : CDouble),
      VinylVideoPlayer.setGrooveDepth p v = .ok q →
      5 / 100 ≤ q.vinyl_params_.groove_depth ∧
      q.vinyl_params_.groove_depth ≤ toDouble (2 / 10)) ∧
    |depthFactor params - (8 / 10 + 4 / 10 * params.groove_depth)| ≤ 1 / 10 ^ 7 := by
  obtain ⟨eg, elo, ehi, v255lo, v255hi, v0lo, v0hi, hpos, hneg⟩ := depth_endpoints
  have hf0 : 13757317 / 16777216 ≤ depthFactor params := by
    have h := depthFactor_mono { params with groove_depth := 5 / 100 } params hg0
    simp only [depthFactor] at h ⊢
    rw [elo] at h
    exact h
  have hf1 : depthFactor params ≤ 7381975 / 8388608 := by
    have h := depthFactor_mono params { params with groove_depth := toDouble (2 / 10) } hg1
    simp only [depthFactor] at h ⊢
    rw [ehi] at h
    exact h
  have hhi1 : (232 : ℚ) ≤ depthValue 255 (depthFactor params) := by
    have h := depthValue_mono 255 _ _ hpos hf0
    rw [v255lo] at h
    linarith
  have hhi2 : depthValue 255 (depthFactor params) < 240 := by
    have h := depthValue_mono 255 _ _ hpos hf1
    rw [v255hi] at h
    have : (15708979 / 65536 : ℚ) < 240 := by norm_num
    linarith
  have hlo1 : (15 : ℚ) ≤ depthValue 0 (depthFactor params) := by
    have h := depthValue_anti 0 _ _ hneg hf1
    rw [v0hi] at h
    have : (15 : ℚ) ≤ 16043213 / 1048576 := by norm_num
    linarith
  have hlo2 : depthValue 0 (depthFactor params) < 23 := by
    have h := depthValue_anti 0 _ _ hneg hf0
    rw [v0lo] at h
    have : (6016205 / 262144 : ℚ) < 23 := by norm_num
    linarith
  have h0hi : (0 : ℚ) ≤ depthValue 255 (depthFactor params) := by linarith
  have h0lo : (0 : ℚ) ≤ depthValue 0 (depthFactor params) := by linarith
  have bhi1 : 232 ≤ Nat.floor (depthValue 255 (depthFactor params)) :=
    Nat.le_floor (by exact_mod_cast hhi1)
  have bhi2 : Nat.floor (depthValue 255 (depthFactor params)) ≤ 239 := by
    have h : Nat.floor (depthValue 255 (depthFactor params)) < 240 :=
      (Nat.floor_lt h0hi).2 (by exact_mod_cast hhi2)
    omega
  have blo1 : 15 ≤ Nat.floor (depthValue 0 (depthFactor params)) :=
    Nat.le_floor (by exact_mod_cast hlo1)
  have blo2 : Nat.floor (depthValue 0 (depthFactor params)) ≤ 22 := by
    have h : Nat.floor (depthValue 0 (depthFactor params)) < 23 :=
      (Nat.floor_lt h0lo).2 (by exact_mod_cast hlo2)
    omega
  have ehi' : toUInt8 (depthValue 255 (depthFactor params)) =
      .ok (Nat.floor (depthValue 255 (depthFactor params))) :=
    toUInt8_eval _ _ (Nat.floor_le h0hi) (Nat.lt_floor_add_one _) (by omega)
  have elo' : toUInt8 (depthValue 0 (depthFactor params)) =
      .ok (Nat.floor (depthValue 0 (depthFactor params))) :=
    toUInt8_eval _ _ (Nat.floor_le h0lo) (Nat.lt_floor_add_one _) (by omega)
  have hdbl : (2 : ℚ) / 10 ≤ toDouble (2 / 10) := by
    rw [eg]
    norm_num
  have hdbl2 : toDouble (2 / 10) ≤ 21 / 100 := by
    rw [eg]
    norm_num
  refine ⟨hf0, hf1, ?_, ?_, ?_, ?_, ?_, ?_, ?_, ?_⟩
  · have : (8199999 / 10000000 : ℚ) ≤ 13757317 / 16777216 := by norm_num
    linarith
  · have : (7381975 / 8388608 : ℚ) ≤ 88 / 100 := by norm_num
    linarith
  · have : (7381975 / 8388608 : ℚ) < 1 := by norm_num
    linarith
  · refine ⟨_, _, bhi1, bhi2, blo1, blo2, ehi', elo', ?_⟩
    simp [applyGrooveDepth, grooveDepthLoop, ehi', elo', bind, Except.bind, pure, Except.pure]
  · simp only [applyGrooveDepth, grooveDepthLoop, ehi', bind, Except.bind, pure, Except.pure]
    intro h
    have h2 := (List.cons.inj (Except.ok.inj h)).1
    omega
  · simp only [applyGrooveDepth, grooveDepthLoop, elo', bind, Except.bind, pure, Except.pure]
    intro h
    have h2 := (List.cons.inj (Except.ok.inj h)).1
    omega
  · intro p q v h
    obtain ⟨h1, h2⟩ := setGrooveDepth_range p q v h
    exact ⟨h1, le_trans h2 hdbl⟩
  · unfold depthFactor
    exact depth_expression_near params.groove_depth (by linarith) (le_trans hg1 hdbl2)

/-- C27 (witness): at the groove depth 0.2, which `setGrooveDepth(1000)`
stores, the factor is the float `0.8799999952`, and the white and the black
pixel become `(239, 239, 239)` and `(15, 15, 15)`. -/
theorem applyGrooveDepth_compresses_contrast_witness :
    VinylVideoPlayer.setGrooveDepth VinylVideoPlayer.construct (CDouble.finite 1000) =
      .ok { VinylVideoPlayer.construct with
              vinyl_params_ := { VinylParameters.default with groove_depth := 2 / 10 } } ∧
    depthFactor { VinylParameters.default with groove_depth := 2 / 10 } = 7381975 / 8388608 ∧
    applyGrooveDepth { VinylParameters.default with groove_depth := 2 / 10 }
      [255, 255, 255, 0, 0, 0] = .ok [239, 239, 239, 15, 15, 15] := by
  have hset : VinylVideoPlayer.setGrooveDepth VinylVideoPlayer.construct (CDouble.finite 1000) =
      .ok { VinylVideoPlayer.construct with
              vinyl_params_ := { VinylParameters.default with groove_depth := 2 / 10 } } := by
    simp only [VinylVideoPlayer.setGrooveDepth, clampDouble, storeDouble, Except.map]
    norm_num [clamp, VinylVideoPlayer.construct]
  have hdbl : (2 : ℚ) / 10 ≤ toDouble (2 / 10) := by
    rw [depth_endpoints.1]
    norm_num
  have h := applyGrooveDepth_compresses_contrast
    { VinylParameters.default with groove_depth := 2 / 10 } (by norm_num) hdbl
  have w1 : toDouble (2 / 10 * (13421773 / 33554432)) = 5764607608933581 / 72057594037927936 :=
    toDouble_eval _ (-4) (5764607608933581) _ (by norm_num) (by norm_num [abs_of_neg, abs_of_pos])
      (by norm_num [abs_of_neg, abs_of_pos]) (by norm_num [abs_lt]) (by norm_num)
  have w2 : toDouble (13421773 / 16777216 + (5764607608933581 / 72057594037927936)) = 3963167731141837 / 4503599627370496 :=
    toDouble_eval _ (-1) (7926335462283674) _ (by norm_num) (by norm_num [abs_of_neg, abs_of_pos])
      (by norm_num [abs_of_neg, abs_of_pos]) (by norm_num [abs_lt]) (by norm_num)
  have w3 : toFloat (3963167731141837 / 4503599627370496) = 7381975 / 8388608 :=
    toFloat_eval _ (-1) (14763950) _ (by norm_num) (by norm_num [abs_of_neg, abs_of_pos])
      (by norm_num [abs_of_neg, abs_of_pos]) (by norm_num [abs_lt]) (by norm_num)
  have a1 : toFloat (255 / 255) = 1 :=
    toFloat_eval _ (0) (8388608) _ (by norm_num) (by norm_num [abs_of_neg, abs_of_pos])
      (by norm_num [abs_of_neg, abs_of_pos]) (by norm_num [abs_lt]) (by norm_num)
  have a2 : toFloat (1 - 1 / 2) = 1 / 2 :=
    toFloat_eval _ (-1) (8388608) _ (by norm_num) (by norm_num [abs_of_neg, abs_of_pos])
      (by norm_num [abs_of_neg, abs_of_pos]) (by norm_num [abs_lt]) (by norm_num)
  have a3 : toFloat (1 / 2 * (7381975 / 8388608)) = 7381975 / 16777216 :=
    toFloat_eval _ (-2) (14763950) _ (by norm_num) (by norm_num [abs_of_neg, abs_of_pos])
      (by norm_num [abs_of_neg, abs_of_pos]) (by norm_num [abs_lt]) (by norm_num)
  have a4 : toFloat (7381975 / 16777216 + 1 / 2) = 15770583 / 16777216 :=
    toFloat_eval _ (-1) (15770583) _ (by norm_num) (by norm_num [abs_of_neg, abs_of_pos])
      (by norm_num [abs_of_neg, abs_of_pos]) (by norm_num [abs_lt]) (by norm_num)
  have a5 : toFloat (15770583 / 16777216 * 255) = 15708979 / 65536 :=
    toFloat_eval _ (7) (15708979) _ (by norm_num) (by norm_num [abs_of_neg, abs_of_pos])
      (by norm_num [abs_of_neg, abs_of_pos]) (by norm_num [abs_lt]) (by norm_num)
  have c1 : toFloat (0 / 255) = 0 := by
    rw [show (0 / 255 : ℚ) = 0 by norm_num]
    exact toFloat_zero
  have c2 : toFloat (0 - 1 / 2) = -1 / 2 :=
    toFloat_eval _ (-1) (-8388608) _ (by norm_num) (by norm_num [abs_of_neg, abs_of_pos])
      (by norm_num [abs_of_neg, abs_of_pos]) (by norm_num [abs_lt]) (by norm_num)
  have c3 : toFloat (-1 / 2 * (7381975 / 8388608)) = -7381975 / 16777216 :=
    toFloat_eval _ (-2) (-14763950) _ (by norm_num) (by norm_num [abs_of_neg, abs_of_pos])
      (by norm_num [abs_of_neg, abs_of_pos]) (by norm_num [abs_lt]) (by norm_num)
  have c4 : toFloat (-7381975 / 16777216 + 1 / 2) = 1006633 / 16777216 :=
    toFloat_eval _ (-5) (16106128) _ (by norm_num) (by norm_num [abs_of_neg, abs_of_pos])
      (by norm_num [abs_of_neg, abs_of_pos]) (by norm_num [abs_lt]) (by norm_num)
  have c5 : toFloat (1006633 / 16777216 * 255) = 16043213 / 1048576 :=
    toFloat_eval _ (3) (16043213) _ (by norm_num) (by norm_num [abs_of_neg, abs_of_pos])
      (by norm_num [abs_of_neg, abs_of_pos]) (by norm_num [abs_lt]) (by norm_num)
  have hf : depthFactor { VinylParameters.default with groove_depth := 2 / 10 } =
      7381975 / 8388608 := by
    simp only [depthFactor]
    rw [toFloat_four_tenths, toFloat_eight_tenths, w1, w2, w3]
  obtain ⟨hi, lo, _, _, _, _, ehi, elo, hrun⟩ := h.2.2.2.2.2.1
  have ehi2 : toUInt8 (depthValue 255 (7381975 / 8388608)) = .ok 239 := by
    rw [depth_endpoints.2.2.2.2.1]
    exact toUInt8_eval _ 239 (by norm_num) (by norm_num) (by norm_num)
  have elo2 : toUInt8 (depthValue 0 (7381975 / 8388608)) = .ok 15 := by
    rw [depth_endpoints.2.2.2.2.2.2.1]
    exact toUInt8_eval _ 15 (by norm_num) (by norm_num) (by norm_num)
  rw [hf] at ehi elo
  have e1 : hi = 239 := Except.ok.inj (ehi.symm.trans ehi2)
  have e2 : lo = 15 := Except.ok.inj (elo.symm.trans elo2)
  rw [e1, e2] at hrun
  exact ⟨hset, hf, hrun⟩

end AnantaSound

namespace AnantaSound
namespace VinylUtils

/-! ## C28: `enhanceVinylRecording` on short frames -/

/-- A loop whose bound is not above its start does nothing. -/
theorem pixelLoop_of_bound_le (reach : Nat) (body : List Nat → Nat → Option ℚ)
    (bound i : Nat) (data : List Nat) (h : bound ≤ i) :
    pixelLoop reach body bound i data = .ok data := by
  rw [pixelLoop, if_neg (by omega)]

/-- A pass whose highest index is not inside the buffer reads past its end. -/
theorem pixelLoop_of_short (reach : Nat) (body : List Nat → Nat → Option ℚ)
    (bound i : Nat) (data : List Nat) (h1 : i < bound) (h2 : data.length ≤ i + reach) :
    pixelLoop reach body bound i data = .error Fault.outOfBounds := by
  rw [pixelLoop, if_pos h1, dif_neg (by omega)]

/-- The bound `data.size() - k` wraps around exactly for buffers shorter than `k`. -/
theorem sizeSub_wraps (n k : Nat) (hn : n < k) (hk : k < sizeModulus) :
    sizeSub n k = sizeModulus - (k - n) := by
  unfold sizeSub
  rw [Nat.mod_eq_of_lt hk, Nat.mod_eq_of_lt (by omega)]
  omega

theorem sizeSub_of_le (n k : Nat) (hk : k ≤ n) (hn : n < sizeModulus) :
    sizeSub n k = n - k := by
  unfold sizeSub
  have hk2 : k < sizeModulus := by omega
  rw [Nat.mod_eq_of_lt hk2]
  have : n + sizeModulus - k = (n - k) + sizeModulus := by omega
  rw [this, Nat.add_mod_right, Nat.mod_eq_of_lt (by omega)]

theorem sizeModulus_eq : sizeModulus = 18446744073709551616 := by
  norm_num [sizeModulus]

/-- A filter loop that starts at `k` with the bound `data.size() - k` and
reaches `k + 2` samples ahead, on a buffer shorter than `k`: the bound wraps
around and the first pass reads past the end. -/
theorem pixelLoop_of_wrap (body : List Nat → Nat → Option ℚ) (k : Nat) (data : List Nat)
    (hk : 0 < k) (hk2 : k ≤ 12) (hn : data.length < k) :
    pixelLoop (k + 2) body (sizeSub data.length k) k data = .error Fault.outOfBounds := by
  have hm := sizeModulus_eq
  apply pixelLoop_of_short
  · rw [sizeSub_wraps data.length k hn (by omega)]
    omega
  · omega

/-- A filter loop on a buffer of at least `k` and at most `2 k` samples: the
bound does not wrap and no pass runs. -/
theorem pixelLoop_of_no_pass (body : List Nat → Nat → Option ℚ) (k : Nat) (data : List Nat)
    (hk2 : k ≤ 12) (h1 : k ≤ data.length) (h2 : data.length ≤ 2 * k) :
    pixelLoop (k + 2) body (sizeSub data.length k) k data = .ok data := by
  have hm := sizeModulus_eq
  apply pixelLoop_of_bound_le
  rw [sizeSub_of_le data.length k h1 (by omega)]
  omega

theorem removeClick_of_lt_nine (data : List Nat) (hn : data.length < 9) :
    (data.length < 3 ∨ 6 < data.length → removeClick data = .error Fault.outOfBounds) ∧
    (3 ≤ data.length → data.length ≤ 6 → removeClick data = .ok data) := by
  have hm := sizeModulus_eq
  constructor
  · rintro (h | h)
    · exact pixelLoop_of_wrap removeClickBody 3 data (by norm_num) (by norm_num) h
    · unfold removeClick
      apply pixelLoop_of_short
      · rw [sizeSub_of_le data.length 3 (by omega) (by omega)]
        omega
      · omega
  · intro h1 h2
    exact pixelLoop_of_no_pass removeClickBody 3 data (by norm_num) h1 h2

theorem brightness_mem (data : List Nat) (i : Nat) (hs : SamplesOk data) :
    0 ≤ brightness data i ∧ brightness data i ≤ 255 := by
  have hget : ∀ j, data.getD j 0 ≤ 255 := by
    intro j
    rw [List.getD_eq_getElem?_getD]
    cases h : data[j]? with
    | none => simp
    | some v =>
      simp only [Option.getD_some]
      exact hs v (List.getElem?_mem h)
  have h1 := hget i
  have h2 := hget (i + 1)
  have h3 := hget (i + 2)
  have hsum : data.getD i 0 + data.getD (i + 1) 0 + data.getD (i + 2) 0 ≤ 765 := by omega
  have hconv := toFloat_natCast (data.getD i 0 + data.getD (i + 1) 0 + data.getD (i + 2) 0)
    (by omega)
  unfold brightness
  rw [hconv]
  constructor
  · exact toFloat_nonneg (by positivity)
  · refine toFloat_le_of_le (representable_float_natCast 255 (by norm_num)) ?_
    rw [div_le_iff₀ (by norm_num)]
    exact_mod_cast (by omega : data.getD i 0 + data.getD (i + 1) 0 + data.getD (i + 2) 0 ≤
      255 * 3)

/-- A `float` sum of `n` values in `[0, 255]` lies in `[0, 255 n]`. -/
theorem floatSum_mem (values : List ℚ) (hv : ∀ x ∈ values, 0 ≤ x ∧ x ≤ 255)
    (hn : values.length ≤ 1000) :
    0 ≤ floatSum values ∧ floatSum values ≤ 255 * (values.length : ℚ) := by
  have key : ∀ (l : List ℚ) (acc : ℚ) (k : Nat), (∀ x ∈ l, 0 ≤ x ∧ x ≤ 255) →
      k + l.length ≤ 1000 → 0 ≤ acc → acc ≤ 255 * (k : ℚ) →
      0 ≤ l.foldl (fun acc x => toFloat (acc + x)) acc ∧
        l.foldl (fun acc x => toFloat (acc + x)) acc ≤ 255 * ((k + l.length : Nat) : ℚ) := by
    intro l
    induction l with
    | nil =>
      intro acc k _ _ h0 h1
      simpa using ⟨h0, h1⟩
    | cons x rest ih =>
      intro acc k hx hk h0 h1
      have hx0 := hx x (List.mem_cons_self x rest)
      have hlen : (x :: rest).length = rest.length + 1 := rfl
      have hrep : Representable 24 (-126) (((255 * (k + 1) : Nat)) : ℚ) :=
        representable_float_natCast (255 * (k + 1)) (by norm_num; omega)
      have hstep0 : 0 ≤ toFloat (acc + x) := toFloat_nonneg (by linarith [hx0.1])
      have hstep1 : toFloat (acc + x) ≤ 255 * ((k + 1 : Nat) : ℚ) := by
        have h := toFloat_le_of_le hrep (x := acc + x) (by push_cast; linarith [hx0.2])
        push_cast at h ⊢
        exact h
      have hrec := ih (toFloat (acc + x)) (k + 1) (fun y hy => hx y (List.mem_cons_of_mem x hy))
        (by omega) hstep0 hstep1
      simp only [List.foldl_cons]
      have hidx : k + 1 + rest.length = k + (x :: rest).length := by
        rw [hlen]
        omega
      rw [hidx] at hrec
      exact hrec
  have h := key values 0 0 hv (by omega) (le_refl 0) (by norm_num)
  simpa [floatSum] using h

/-- The mean of two `float` values in `[0, 255]`, as the filters compute it. -/
theorem floatMean_mem (a b : ℚ) (ha : 0 ≤ a ∧ a ≤ 255) (hb : 0 ≤ b ∧ b ≤ 255) :
    0 ≤ toFloat (toFloat (a + b) / 2) ∧ toFloat (toFloat (a + b) / 2) ≤ 255 := by
  have h0 : 0 ≤ toFloat (a + b) := toFloat_nonneg (by linarith [ha.1, hb.1])
  have h1 : toFloat (a + b) ≤ 510 := by
    have h := toFloat_le_of_le (representable_float_natCast 510 (by norm_num)) (x := a + b)
      (by push_cast; linarith [ha.2, hb.2])
    exact_mod_cast h
  constructor
  · exact toFloat_nonneg (by positivity)
  · have h := toFloat_le_of_le (representable_float_natCast 255 (by norm_num))
      (x := toFloat (a + b) / 2) (by push_cast; linarith)
    exact_mod_cast h

/-- The mean of a `float` sum of `n` values in `[0, 255]` (`1 ≤ n ≤ 1000`). -/
theorem floatAverage_mem (values : List ℚ) (n : Nat) (hv : ∀ x ∈ values, 0 ≤ x ∧ x ≤ 255)
    (hlen : values.length = n) (hn0 : 0 < n) (hn : n ≤ 1000) :
    0 ≤ toFloat (floatSum values / (n : ℚ)) ∧ toFloat (floatSum values / (n : ℚ)) ≤ 255 := by
  obtain ⟨h0, h1⟩ := floatSum_mem values hv (by omega)
  rw [hlen] at h1
  have hnq : (0 : ℚ) < (n : ℚ) := by exact_mod_cast hn0
  constructor
  · exact toFloat_nonneg (by positivity)
  · have h := toFloat_le_of_le (representable_float_natCast 255 (by norm_num))
      (x := floatSum values / (n : ℚ)) (by
        push_cast
        rw [div_le_iff₀ hnq]
        exact h1)
    exact_mod_cast h

theorem samplesOk_set (data : List Nat) (i v : Nat) (hs : SamplesOk data) (hv : v ≤ 255) :
    SamplesOk (data.set i v) := by
  intro x hx
  rcases List.mem_or_eq_of_mem_set hx with h | h
  · exact hs x h
  · rw [h]; exact hv

theorem samplesOk_setPixel (data : List Nat) (i v : Nat) (hs : SamplesOk data) (hv : v ≤ 255) :
    SamplesOk (setPixel data i v) :=
  samplesOk_set _ _ _ (samplesOk_set _ _ _ (samplesOk_set _ _ _ hs hv) hv) hv

/-- A filter loop whose start and bound are multiples of 3, whose bound is
`length - k` for its reach `k + 2`, and whose body yields values in
`[0, 255]`, returns a buffer of the same length. -/
theorem pixelLoop_ok (reach : Nat) (body : List Nat → Nat → Option ℚ) (bound : Nat)
    (hbody : ∀ data i v, SamplesOk data → body data i = some v → 0 ≤ v ∧ v ≤ 255)
    (hb : 3 ∣ bound) :
    ∀ (m i : Nat) (data : List Nat), data.length - i ≤ m → 3 ∣ i →
      bound + reach ≤ data.length + 2 → SamplesOk data →
      ∃ out, pixelLoop reach body bound i data = .ok out ∧ out.length = data.length ∧
        SamplesOk out := by
  intro m
  induction m with
  | zero =>
    intro i data hm hi hr hs
    have hge : bound ≤ i := by
      by_contra hlt
      obtain ⟨a, rfl⟩ := hb
      obtain ⟨c, rfl⟩ := hi
      omega
    exact ⟨data, pixelLoop_of_bound_le reach body bound i data hge, rfl, hs⟩
  | succ m ih =>
    intro i data hm hi hr hs
    by_cases hlt : i < bound
    · have hin : i + reach < data.length := by
        obtain ⟨a, rfl⟩ := hb
        obtain ⟨c, rfl⟩ := hi
        omega
      have hi3 : 3 ∣ i + 3 := Dvd.dvd.add hi (dvd_refl 3)
      rw [pixelLoop, if_pos hlt, dif_pos hin]
      cases hbd : body data i with
      | none =>
        simp only
        exact ih (i + 3) data (by omega) hi3 hr hs
      | some v =>
        obtain ⟨hv0, hv1⟩ := hbody data i v hs hbd
        obtain ⟨u, hu, hu2⟩ := toUInt8_of_mem_Icc v hv0 hv1
        simp only [hu]
        have hl : (setPixel data i u).length = data.length := by
          simp [setPixel]
        obtain ⟨out, ho, hol, hos⟩ := ih (i + 3) (setPixel data i u) (by rw [hl]; omega) hi3
          (by rw [hl]; exact hr) (samplesOk_setPixel data i u hs hu2)
        exact ⟨out, ho, by rw [hol, hl], hos⟩
    · exact ⟨data, pixelLoop_of_bound_le reach body bound i data (by omega), rfl, hs⟩

theorem removeClickBody_mem (data : List Nat) (i : Nat) (v : ℚ) (hs : SamplesOk data)
    (h : removeClickBody data i = some v) : 0 ≤ v ∧ v ≤ 255 := by
  have h1 := brightness_mem data (i - 3) hs
  have h2 := brightness_mem data (i + 3) hs
  unfold removeClickBody at h
  dsimp only at h
  split_ifs at h
  obtain rfl := Option.some.inj h
  exact floatMean_mem _ _ h1 h2

theorem removePopBody_mem (data : List Nat) (i : Nat) (v : ℚ) (hs : SamplesOk data)
    (h : removePopBody data i = some v) : 0 ≤ v ∧ v ≤ 255 := by
  have hb : ∀ j, 0 ≤ brightness data j ∧ brightness data j ≤ 255 :=
    fun j => brightness_mem data j hs
  have h1 := floatAverage_mem
    [brightness data (i - 9), brightness data (i - 6), brightness data (i - 3)] 3
    (by intro x hx; simp at hx; rcases hx with rfl | rfl | rfl <;> exact hb _) rfl
    (by norm_num) (by norm_num)
  have h2 := floatAverage_mem
    [brightness data (i + 3), brightness data (i + 6), brightness data (i + 9)] 3
    (by intro x hx; simp at hx; rcases hx with rfl | rfl | rfl <;> exact hb _) rfl
    (by norm_num) (by norm_num)
  unfold removePopBody at h
  dsimp only at h
  split_ifs at h
  obtain rfl := Option.some.inj h
  exact floatMean_mem _ _ (by exact_mod_cast h1) (by exact_mod_cast h2)

theorem toFloat_seven_tenths : toFloat (7 / 10) = 11744051 / 16777216 :=
  toFloat_eval _ (-1) (11744051) _ (by norm_num) (by norm_num [abs_of_neg, abs_of_pos])
    (by norm_num [abs_of_neg, abs_of_pos]) (by norm_num [abs_lt]) (by norm_num)

theorem toFloat_three_tenths : toFloat (3 / 10) = 5033165 / 16777216 :=
  toFloat_eval _ (-2) (10066330) _ (by norm_num) (by norm_num [abs_of_neg, abs_of_pos])
    (by norm_num [abs_of_neg, abs_of_pos]) (by norm_num [abs_lt]) (by norm_num)

theorem toFloat_two_tenths : toFloat (2 / 10) = 13421773 / 67108864 :=
  toFloat_eval _ (-3) (13421773) _ (by norm_num) (by norm_num [abs_of_neg, abs_of_pos])
    (by norm_num [abs_of_neg, abs_of_pos]) (by norm_num [abs_lt]) (by norm_num)

theorem toFloat_255_seven_tenths : toFloat (255 * (11744051 / 16777216)) = 357 / 2 :=
  toFloat_eval _ (7) (11698176) _ (by norm_num) (by norm_num [abs_of_neg, abs_of_pos])
    (by norm_num [abs_of_neg, abs_of_pos]) (by norm_num [abs_lt]) (by norm_num)

theorem toFloat_255_three_tenths : toFloat (255 * (5033165 / 16777216)) = 153 / 2 :=
  toFloat_eval _ (6) (10027008) _ (by norm_num) (by norm_num [abs_of_neg, abs_of_pos])
    (by norm_num [abs_of_neg, abs_of_pos]) (by norm_num [abs_lt]) (by norm_num)

theorem toFloat_255_eight_tenths : toFloat (255 * (13421773 / 16777216)) = 204 :=
  toFloat_eval _ (7) (13369344) _ (by norm_num) (by norm_num [abs_of_neg, abs_of_pos])
    (by norm_num [abs_of_neg, abs_of_pos]) (by norm_num [abs_lt]) (by norm_num)

theorem toFloat_255_two_tenths : toFloat (255 * (13421773 / 67108864)) = 51 :=
  toFloat_eval _ (5) (13369344) _ (by norm_num) (by norm_num [abs_of_neg, abs_of_pos])
    (by norm_num [abs_of_neg, abs_of_pos]) (by norm_num [abs_lt]) (by norm_num)

/-- A blend `a * c1 + b * c2` of two `float` values in `[0, 255]` with `float`
weights whose rounded products with 255 add up to 255. -/
theorem floatBlend_mem (a b c1 c2 m1 m2 : ℚ) (ha : 0 ≤ a ∧ a ≤ 255) (hb : 0 ≤ b ∧ b ≤ 255)
    (hc1 : 0 ≤ c1) (hc2 : 0 ≤ c2) (h1 : toFloat (255 * c1) = m1) (h2 : toFloat (255 * c2) = m2)
    (hm : m1 + m2 ≤ 255) :
    0 ≤ toFloat (toFloat (a * c1) + toFloat (b * c2)) ∧
      toFloat (toFloat (a * c1) + toFloat (b * c2)) ≤ 255 := by
  have p0 : 0 ≤ toFloat (a * c1) := toFloat_nonneg (mul_nonneg ha.1 hc1)
  have q0 : 0 ≤ toFloat (b * c2) := toFloat_nonneg (mul_nonneg hb.1 hc2)
  have p1 : toFloat (a * c1) ≤ m1 := by
    rw [← h1]
    exact toFloat_mono (mul_le_mul_of_nonneg_right ha.2 hc1)
  have q1 : toFloat (b * c2) ≤ m2 := by
    rw [← h2]
    exact toFloat_mono (mul_le_mul_of_nonneg_right hb.2 hc2)
  constructor
  · exact toFloat_nonneg (by linarith)
  · have h := toFloat_le_of_le (representable_float_natCast 255 (by norm_num))
      (x := toFloat (a * c1) + toFloat (b * c2)) (by push_cast; linarith)
    exact_mod_cast h

theorem removeCrackleBody_mem (data : List Nat) (i : Nat) (v : ℚ) (hs : SamplesOk data)
    (h : removeCrackleBody data i = some v) : 0 ≤ v ∧ v ≤ 255 := by
  have hb : ∀ j, 0 ≤ brightness data j ∧ brightness data j ≤ 255 :=
    fun j => brightness_mem data j hs
  have h1 := floatAverage_mem
    [brightness data (i - 6), brightness data (i - 3), brightness data i,
      brightness data (i + 3), brightness data (i + 6)] 5
    (by intro x hx; simp at hx; rcases hx with rfl | rfl | rfl | rfl | rfl <;> exact hb _) rfl
    (by norm_num) (by norm_num)
  unfold removeCrackleBody at h
  dsimp only at h
  split_ifs at h
  obtain rfl := Option.some.inj h
  refine floatBlend_mem _ _ _ _ (357 / 2) (153 / 2) (hb i) (by exact_mod_cast h1)
    (toFloat_nonneg (by norm_num)) (toFloat_nonneg (by norm_num)) ?_ ?_ (by norm_num)
  · rw [toFloat_seven_tenths]
    exact toFloat_255_seven_tenths
  · rw [toFloat_three_tenths]
    exact toFloat_255_three_tenths

theorem removeHissBody_mem (data : List Nat) (i : Nat) (v : ℚ) (hs : SamplesOk data)
    (h : removeHissBody data i = some v) : 0 ≤ v ∧ v ≤ 255 := by
  have hb : ∀ j, 0 ≤ brightness data j ∧ brightness data j ≤ 255 :=
    fun j => brightness_mem data j hs
  have h1 := floatAverage_mem
    [brightness data (i - 12), brightness data (i - 9), brightness data (i - 6),
      brightness data (i - 3), brightness data i, brightness data (i + 3),
      brightness data (i + 6), brightness data (i + 9), brightness data (i + 12)] 9
    (by
      intro x hx
      simp at hx
      rcases hx with rfl | rfl | rfl | rfl | rfl | rfl | rfl | rfl | rfl <;> exact hb _) rfl
    (by norm_num) (by norm_num)
  unfold removeHissBody at h
  dsimp only at h
  obtain rfl := Option.some.inj h
  refine floatBlend_mem _ _ _ _ 204 51 (hb i) (by exact_mod_cast h1)
    (toFloat_nonneg (by norm_num)) (toFloat_nonneg (by norm_num)) ?_ ?_ (by norm_num)
  · rw [toFloat_eight_tenths]
    exact toFloat_255_eight_tenths
  · rw [toFloat_two_tenths]
    exact toFloat_255_two_tenths

/-- One of the four filters on a buffer of `uint8_t` samples whose length is a
multiple of 3 and at least `k`: the bound does not wrap and the filter returns. -/
theorem filter_ok (body : List Nat → Nat → Option ℚ) (k : Nat) (data : List Nat)
    (hbody : ∀ data i v, SamplesOk data → body data i = some v → 0 ≤ v ∧ v ≤ 255)
    (hk3 : 3 ∣ k) (hk : k ≤ data.length) (hn3 : 3 ∣ data.length)
    (hn : data.length < sizeModulus) (hs : SamplesOk data) :
    ∃ out, pixelLoop (k + 2) body (sizeSub data.length k) k data = .ok out ∧
      out.length = data.length ∧ SamplesOk out := by
  rw [sizeSub_of_le data.length k hk hn]
  exact pixelLoop_ok (k + 2) body (data.length - k) hbody ((Nat.dvd_sub hk hn3 hk3))
    data.length k data (by omega) hk3 (by omega) hs

/-- On frames of `uint8_t` samples whose data length is a multiple of 3 and at
least 12 (four pixels), `enhanceVinylRecording` returns a frame of the same
data length for every type. -/
theorem enhanceVinylRecording_ok (frame : VideoFrame) (type : VinylType)
    (hn3 : 3 ∣ frame.data.length) (h12 : 12 ≤ frame.data.length)
    (hn : frame.data.length < sizeModulus) (hs : SamplesOk frame.data) :
    ∃ out, enhanceVinylRecording frame type = .ok out ∧
      out.data.length = frame.data.length := by
  have click : ∀ d : List Nat, d.length = frame.data.length → SamplesOk d →
      ∃ out, removeClick d = .ok out ∧ out.length = frame.data.length ∧ SamplesOk out := by
    intro d hd hsd
    obtain ⟨out, h1, h2, h3⟩ := filter_ok removeClickBody 3 d removeClickBody_mem (dvd_refl 3)
      (by omega) (by rw [hd]; exact hn3) (by rw [hd]; exact hn) hsd
    exact ⟨out, h1, by rw [h2, hd], h3⟩
  have pop : ∀ d : List Nat, d.length = frame.data.length → SamplesOk d →
      ∃ out, removePop d = .ok out ∧ out.length = frame.data.length ∧ SamplesOk out := by
    intro d hd hsd
    obtain ⟨out, h1, h2, h3⟩ := filter_ok removePopBody 9 d removePopBody_mem (by norm_num)
      (by omega) (by rw [hd]; exact hn3) (by rw [hd]; exact hn) hsd
    exact ⟨out, h1, by rw [h2, hd], h3⟩
  have crackle : ∀ d : List Nat, d.length = frame.data.length → SamplesOk d →
      ∃ out, removeCrackle d = .ok out ∧ out.length = frame.data.length ∧ SamplesOk out := by
    intro d hd hsd
    obtain ⟨out, h1, h2, h3⟩ := filter_ok removeCrackleBody 6 d removeCrackleBody_mem
      (by norm_num) (by omega) (by rw [hd]; exact hn3) (by rw [hd]; exact hn) hsd
    exact ⟨out, h1, by rw [h2, hd], h3⟩
  have hiss : ∀ d : List Nat, d.length = frame.data.length → SamplesOk d →
      ∃ out, removeHiss d = .ok out ∧ out.length = frame.data.length ∧ SamplesOk out := by
    intro d hd hsd
    obtain ⟨out, h1, h2, h3⟩ := filter_ok removeHissBody 12 d removeHissBody_mem (by norm_num)
      (by omega) (by rw [hd]; exact hn3) (by rw [hd]; exact hn) hsd
    exact ⟨out, h1, by rw [h2, hd], h3⟩
  cases type with
  | SHELLAC_78 =>
    obtain ⟨d1, e1, l1, s1⟩ := crackle frame.data rfl hs
    obtain ⟨d2, e2, l2, _⟩ := hiss d1 l1 s1
    exact ⟨{ frame with data := d2 }, by simp [enhanceVinylRecording, e1, e2, bind, Except.bind,
      pure, Except.pure], l2⟩
  | VINYL_33 =>
    obtain ⟨d1, e1, l1, s1⟩ := click frame.data rfl hs
    obtain ⟨d2, e2, l2, _⟩ := pop d1 l1 s1
    exact ⟨{ frame with data := d2 }, by simp [enhanceVinylRecording, e1, e2, bind, Except.bind,
      pure, Except.pure], l2⟩
  | VINYL_45 =>
    obtain ⟨d1, e1, l1, s1⟩ := click frame.data rfl hs
    obtain ⟨d2, e2, l2, _⟩ := pop d1 l1 s1
    exact ⟨{ frame with data := d2 }, by simp [enhanceVinylRecording, e1, e2, bind, Except.bind,
      pure, Except.pure], l2⟩
  | VINYL_16 =>
    obtain ⟨d1, e1, l1, s1⟩ := click frame.data rfl hs
    obtain ⟨d2, e2, l2, _⟩ := crackle d1 l1 s1
    exact ⟨{ frame with data := d2 }, by simp [enhanceVinylRecording, e1, e2, bind, Except.bind,
      pure, Except.pure], l2⟩
  | UNKNOWN => exact ⟨frame, rfl, rfl⟩

/-- C28 (the code at the failing input).  On the empty frame the bounds
`data.size() - 3` and `data.size() - 6` wrap around to `2^64 - 3` and
`2^64 - 6`, the first pass of `removeClick` and of `removeCrackle` reads
`data[3]` and `data[6]` of an empty buffer, and `enhanceVinylRecording` reads
past the end for every type but `UNKNOWN`.  The same happens for every frame
of fewer than 12 samples with `SHELLAC_78`, of fewer than 9 samples with
`VINYL_45` and `VINYL_33`, and of fewer than 6 samples with `VINYL_16`; a
one-pixel frame passes `removeClick` and fails in `removePop`, whose bound
`3 - 9` wraps.  For the type `UNKNOWN` the frame is returned as it is.  On
frames of `uint8_t` samples whose data length is a multiple of 3 and at least
12 the bounds do not wrap and a frame of the same data length is returned. -/
theorem enhanceVinylRecording_reads_past_end_of_short_frames :
    emptyFrame.data.length = 0 ∧
    sizeSub emptyFrame.data.length 3 = 2 ^ 64 - 3 ∧
    sizeSub emptyFrame.data.length 6 = 2 ^ 64 - 6 ∧
    removeClick emptyFrame.data = .error Fault.outOfBounds ∧
    removeCrackle emptyFrame.data = .error Fault.outOfBounds ∧
    enhanceVinylRecording emptyFrame VinylType.VINYL_33 = .error Fault.outOfBounds ∧
    enhanceVinylRecording emptyFrame VinylType.VINYL_45 = .error Fault.outOfBounds ∧
    enhanceVinylRecording emptyFrame VinylType.VINYL_16 = .error Fault.outOfBounds ∧
    enhanceVinylRecording emptyFrame VinylType.SHELLAC_78 = .error Fault.outOfBounds ∧
    removeClick (greyFrame 1).data = .ok (greyFrame 1).data ∧
    sizeSub (greyFrame 1).data.length 9 = 2 ^ 64 - 6 ∧
    removePop (greyFrame 1).data = .error Fault.outOfBounds ∧
    enhanceVinylRecording (greyFrame 1) VinylType.VINYL_33 = .error Fault.outOfBounds ∧
    (∀ frame : VideoFrame, frame.data.length < 12 →
      enhanceVinylRecording frame VinylType.SHELLAC_78 = .error Fault.outOfBounds) ∧
    (∀ frame : VideoFrame, frame.data.length < 9 →
      enhanceVinylRecording frame VinylType.VINYL_45 = .error Fault.outOfBounds ∧
      enhanceVinylRecording frame VinylType.VINYL_33 = .error Fault.outOfBounds) ∧
    (∀ frame : VideoFrame, frame.data.length < 6 →
      enhanceVinylRecording frame VinylType.VINYL_16 = .error Fault.outOfBounds) ∧
    (∀ frame : VideoFrame, enhanceVinylRecording frame VinylType.UNKNOWN = .ok frame) ∧
    (∀ (frame : VideoFrame) (type : VinylType), 3 ∣ frame.data.length →
      12 ≤ frame.data.length → frame.data.length < 2 ^ 64 → SamplesOk frame.data →
      ∃ out, enhanceVinylRecording frame type = .ok out ∧
        out.data.length = frame.data.length) := by
  have hshellac : ∀ frame : VideoFrame, frame.data.length < 12 →
      enhanceVinylRecording frame VinylType.SHELLAC_78 = .error Fault.outOfBounds := by
    intro frame hn
    by_cases h6 : frame.data.length < 6
    · have h := pixelLoop_of_wrap removeCrackleBody 6 frame.data (by norm_num) (by norm_num) h6
      simp [enhanceVinylRecording, removeCrackle, h, bind, Except.bind]
    · have h := pixelLoop_of_no_pass removeCrackleBody 6 frame.data (by norm_num) (by omega)
        (by omega)
      have h2 := pixelLoop_of_wrap removeHissBody 12 frame.data (by norm_num) (by norm_num) hn
      simp [enhanceVinylRecording, removeCrackle, removeHiss, h, h2, bind, Except.bind]
  have hvinyl : ∀ frame : VideoFrame, frame.data.length < 9 →
      enhanceVinylRecording frame VinylType.VINYL_45 = .error Fault.outOfBounds ∧
      enhanceVinylRecording frame VinylType.VINYL_33 = .error Fault.outOfBounds := by
    intro frame hn
    obtain ⟨h1, h2⟩ := removeClick_of_lt_nine frame.data hn
    by_cases hc : frame.data.length < 3 ∨ 6 < frame.data.length
    · simp [enhanceVinylRecording, h1 hc, bind, Except.bind]
    · have h3 := pixelLoop_of_wrap removePopBody 9 frame.data (by norm_num) (by norm_num) hn
      simp [enhanceVinylRecording, h2 (by omega) (by omega), removePop, h3, bind, Except.bind]
  have h16 : ∀ frame : VideoFrame, frame.data.length < 6 →
      enhanceVinylRecording frame VinylType.VINYL_16 = .error Fault.outOfBounds := by
    intro frame hn
    obtain ⟨h1, h2⟩ := removeClick_of_lt_nine frame.data (by omega)
    by_cases hc : frame.data.length < 3
    · simp [enhanceVinylRecording, h1 (Or.inl hc), bind, Except.bind]
    · have h3 := pixelLoop_of_wrap removeCrackleBody 6 frame.data (by norm_num) (by norm_num) hn
      simp [enhanceVinylRecording, h2 (by omega) (by omega), removeCrackle, h3, bind,
        Except.bind]
  have hm := sizeModulus_eq
  have hg1 : (greyFrame 1).data.length = 3 := by simp [greyFrame]
  refine ⟨rfl, ?_, ?_, ?_, ?_, (hvinyl emptyFrame (by simp [emptyFrame])).2,
    (hvinyl emptyFrame (by simp [emptyFrame])).1, h16 emptyFrame (by simp [emptyFrame]),
    hshellac emptyFrame (by simp [emptyFrame]), ?_, ?_, ?_,
    (hvinyl (greyFrame 1) (by rw [hg1]; norm_num)).2, hshellac, hvinyl, h16, fun frame => rfl,
    fun frame type h3 h12 hn hs => enhanceVinylRecording_ok frame type h3 h12 hn hs⟩
  · rw [sizeSub_wraps _ 3 (by simp [emptyFrame]) (by omega), hm]
    simp [emptyFrame]
  · rw [sizeSub_wraps _ 6 (by simp [emptyFrame]) (by omega), hm]
    simp [emptyFrame]
  · exact pixelLoop_of_wrap removeClickBody 3 emptyFrame.data (by norm_num) (by norm_num)
      (by simp [emptyFrame])
  · exact pixelLoop_of_wrap removeCrackleBody 6 emptyFrame.data (by norm_num) (by norm_num)
      (by simp [emptyFrame])
  · exact (removeClick_of_lt_nine (greyFrame 1).data (by rw [hg1]; norm_num)).2
      (by rw [hg1]) (by rw [hg1]; norm_num)
  · rw [sizeSub_wraps _ 9 (by rw [hg1]; norm_num) (by omega), hm, hg1]
    norm_num
  · exact pixelLoop_of_wrap removePopBody 9 (greyFrame 1).data (by norm_num) (by norm_num)
      (by rw [hg1]; norm_num)

end VinylUtils
end AnantaSound

namespace AnantaSound
namespace VinylUtils

/-! ## C29: `detectVinylType` -/

/-- The search `hay.find(needle) != npos` succeeds exactly when `needle` is a
contiguous part of `hay`. -/
theorem containsSub_iff (needle : List Char) :
    ∀ hay : List Char, containsSub needle hay = true ↔ needle <:+: hay
  | [] => by
    simp [containsSub, List.isEmpty_iff]
  | c :: cs => by
    rw [containsSub, Bool.or_eq_true, List.isPrefixOf_iff_prefix, containsSub_iff needle cs,
      List.infix_cons_iff]

theorem fileNameOf_append (dir file : List Char) (h : '/' ∉ file) :
    fileNameOf (dir ++ '/' :: file) = file := by
  unfold fileNameOf
  rw [List.reverse_append, List.reverse_cons, List.append_assoc]
  have h1 : List.takeWhile (fun c => c != '/') (file.reverse ++ (['/'] ++ dir.reverse)) =
      file.reverse := by
    rw [List.takeWhile_append_of_pos]
    · simp
    · intro c hc
      have hne : c ≠ '/' := fun he => h (by rw [← he]; exact List.mem_reverse.1 hc)
      simpa using hne
  rw [h1, List.reverse_reverse]

theorem fileNameOf_of_no_slash (path : List Char) (h : '/' ∉ path) :
    fileNameOf path = path := by
  unfold fileNameOf
  have h1 : List.takeWhile (fun c => c != '/') path.reverse = path.reverse := by
    rw [List.takeWhile_eq_self_iff]
    intro c hc
    have hne : c ≠ '/' := fun he => h (by rw [← he]; exact List.mem_reverse.1 hc)
    simpa using hne
  rw [h1, List.reverse_reverse]

/-- C29.  The function `detectVinylType` depends only on the lower-cased part
of the path after the last `/` (the whole path when it has none), and
classifies it with this precedence: `SHELLAC_78` if it contains `"78"` or
`"shellac"`; otherwise `VINYL_45` if it contains `"45"` or `"single"`;
otherwise `VINYL_16` if it contains `"16"`; otherwise `VINYL_33` if it
contains `"33"` or `"lp"`; otherwise `UNKNOWN`.  A name containing both
`"78"` and `"33"` is `SHELLAC_78`, a directory name does not count, and
upper-case and lower-case names classify alike. -/
theorem detectVinylType_precedence (path : String) :
    (("78".toList <:+: loweredName path ∨ "shellac".toList <:+: loweredName path) →
      detectVinylType path = VinylType.SHELLAC_78) ∧
    (¬ ("78".toList <:+: loweredName path ∨ "shellac".toList <:+: loweredName path) →
      ("45".toList <:+: loweredName path ∨ "single".toList <:+: loweredName path) →
      detectVinylType path = VinylType.VINYL_45) ∧
    (¬ ("78".toList <:+: loweredName path ∨ "shellac".toList <:+: loweredName path) →
      ¬ ("45".toList <:+: loweredName path ∨ "single".toList <:+: loweredName path) →
      "16".toList <:+: loweredName path →
      detectVinylType path = VinylType.VINYL_16) ∧
    (¬ ("78".toList <:+: loweredName path ∨ "shellac".toList <:+: loweredName path) →
      ¬ ("45".toList <:+: loweredName path ∨ "single".toList <:+: loweredName path) →
      ¬ "16".toList <:+: loweredName path →
      ("33".toList <:+: loweredName path ∨ "lp".toList <:+: loweredName path) →
      detectVinylType path = VinylType.VINYL_33) ∧
    (¬ ("78".toList <:+: loweredName path ∨ "shellac".toList <:+: loweredName path) →
      ¬ ("45".toList <:+: loweredName path ∨ "single".toList <:+: loweredName path) →
      ¬ "16".toList <:+: loweredName path →
      ¬ ("33".toList <:+: loweredName path ∨ "lp".toList <:+: loweredName path) →
      detectVinylType path = VinylType.UNKNOWN) ∧
    (∀ other : String, loweredName other = loweredName path →
      detectVinylType other = detectVinylType path) ∧
    (∀ dir file : List Char, '/' ∉ file → path.toList = dir ++ '/' :: file →
      loweredName path = file.map Char.toLower) ∧
    ('/' ∉ path.toList → loweredName path = path.toList.map Char.toLower) ∧
    detectVinylType "/records/album_33/Old_78_and_33.mp4" = VinylType.SHELLAC_78 ∧
    detectVinylType "/records/78/song.mp4" = VinylType.UNKNOWN ∧
    detectVinylType "My_SINGLE.MP4" = VinylType.VINYL_45 ∧
    detectVinylType "my_single.mp4" = VinylType.VINYL_45 ∧
    detectVinylType "speech_16.avi" = VinylType.VINYL_16 ∧
    detectVinylType "Best_LP.avi" = VinylType.VINYL_33 := by
  have hdef : ∀ p : String, detectVinylType p =
      if containsSub "78".toList (loweredName p) || containsSub "shellac".toList (loweredName p)
      then VinylType.SHELLAC_78
      else if containsSub "45".toList (loweredName p) ||
          containsSub "single".toList (loweredName p) then VinylType.VINYL_45
      else if containsSub "16".toList (loweredName p) then VinylType.VINYL_16
      else if containsSub "33".toList (loweredName p) || containsSub "lp".toList (loweredName p)
      then VinylType.VINYL_33
      else VinylType.UNKNOWN := fun p => rfl
  have hor : ∀ a b : List Char, (containsSub a (loweredName path) ||
      containsSub b (loweredName path)) = true ↔
      (a <:+: loweredName path ∨ b <:+: loweredName path) := by
    intro a b
    rw [Bool.or_eq_true, containsSub_iff, containsSub_iff]
  refine ⟨?_, ?_, ?_, ?_, ?_, ?_, ?_, ?_, by decide, by decide, by decide, by decide, by decide,
    by decide⟩
  · intro h
    rw [hdef, if_pos ((hor _ _).2 h)]
  · intro h1 h2
    rw [hdef, if_neg (fun h => h1 ((hor _ _).1 h)), if_pos ((hor _ _).2 h2)]
  · intro h1 h2 h3
    rw [hdef, if_neg (fun h => h1 ((hor _ _).1 h)), if_neg (fun h => h2 ((hor _ _).1 h)),
      if_pos ((containsSub_iff _ _).2 h3)]
  · intro h1 h2 h3 h4
    rw [hdef, if_neg (fun h => h1 ((hor _ _).1 h)), if_neg (fun h => h2 ((hor _ _).1 h)),
      if_neg (fun h => h3 ((containsSub_iff _ _).1 h)), if_pos ((hor _ _).2 h4)]
  · intro h1 h2 h3 h4
    rw [hdef, if_neg (fun h => h1 ((hor _ _).1 h)), if_neg (fun h => h2 ((hor _ _).1 h)),
      if_neg (fun h => h3 ((containsSub_iff _ _).1 h)), if_neg (fun h => h4 ((hor _ _).1 h))]
  · intro other h
    rw [hdef other, hdef path, h]
  · intro dir file hf hp
    unfold loweredName
    rw [hp, fileNameOf_append dir file hf]
  · intro h
    unfold loweredName
    rw [fileNameOf_of_no_slash _ h]

end VinylUtils
end AnantaSound

namespace AnantaSound
namespace FormatHandler

/-! ## C30: saving and loading WAV and DAGA files -/

end FormatHandler
end AnantaSound
